import Mathlib

/-!
# REVEAL experiment recorder: a shallow embedding

Lean model of `rv/Experiment` (ExperimentManager, ExperimentPlugin,
ExperimentPluginDataField and the seven plug-ins) together with theorems
about its behaviour.

Conventions of the embedding:

* `f32` quantities (ages, elapsed time, intervals) are exact rationals `ℚ`;
  rounding of binary floating point is not modelled.
* `u32` values are natural numbers, `s32` values are integers; where the
  program relies on the width the reduction modulo `2^32` is explicit.
* `std::unordered_map<K, V>` is an association list with unique keys; the
  list order stands for the (unspecified but fixed) iteration order.
* `RV_ASSERT`, a thrown `std::out_of_range` and undefined behaviour end the
  computation: every operation that can hit one returns `Except Failure _`.
-/

namespace rv

/-- The ways a call can fail to return. -/
inductive Failure where
  -- an RV_ASSERT did not hold
  | assertion
  -- the exception std::out_of_range left the call (unordered_map::at)
  | out_of_range
  -- undefined behaviour: division by zero, index out of bounds, null or dangling pointer
  | undefined_behaviour
  deriving DecidableEq, Repr

deriving instance DecidableEq for Except

/-- Partial correctness: if the computation `e` returns, the value it returns satisfies `P`. -/
def ensures {α : Type} (e : Except Failure α) (P : α → Prop) : Prop :=
  ∀ x, e = .ok x → P x

/-- The statement `RV_ASSERT(c)`. -/
def RV_ASSERT (c : Bool) : Except Failure Unit :=
  if c then .ok () else .error .assertion

namespace Utilities

/-- Modelled from the spec: `Utilities::Name` is declared outside the given sources. It is the
"interned-name type used for map keys with hash-based equality": an interned string, identified
here with its text, plus the sentinel `kInvalidHash` that no string is interned as. -/
inductive Name where
  | kInvalidHash
  | mk (message : String)
  deriving DecidableEq, Repr

/-- The text behind a name, `Name::get_message()`; the sentinel has the empty text. -/
def Name.get_message : Name → String
  | .kInvalidHash => ""
  | .mk message => message

end Utilities

open Utilities (Name)

/-- Conversion of an integer to `u32` (reduction modulo `2^32`). -/
def to_u32 (z : Int) : Nat := (z % 4294967296).toNat

/-- Conversion of an integer to `s32` (two's complement wrap-around). -/
def to_s32 (z : Int) : Int := (z + 2147483648) % 4294967296 - 2147483648

/-! ## `std::unordered_map` as an association list -/

namespace UMap

/-- The search `m.find(k)`: the mapped value when the key is present. -/
def find {V : Type} (m : List (Name × V)) (k : Name) : Option V :=
  match m with
  | [] => none
  | (k', v) :: rest => if k' = k then some v else find rest k

/-- The test `m.find(k) != m.end()`. -/
def contains {V : Type} (m : List (Name × V)) (k : Name) : Bool :=
  (find m k).isSome

/-- The call `m.insert(std::make_pair(k, v))`: nothing happens when the key is present. -/
def insert {V : Type} (m : List (Name × V)) (k : Name) (v : V) : List (Name × V) :=
  if contains m k then m else m ++ [(k, v)]

/-- The call `m.erase(k)`. -/
def erase {V : Type} (m : List (Name × V)) (k : Name) : List (Name × V) :=
  m.filter (fun kv => decide (kv.1 ≠ k))

/-- Assignment through a reference to the value mapped at an existing key
(`it->second = v`, `m.at(k) = v`); other entries and the order are untouched. -/
def assign {V : Type} (m : List (Name × V)) (k : Name) (v : V) : List (Name × V) :=
  m.map (fun kv => if kv.1 = k then (kv.1, v) else kv)

/-- The statement `m[k] = v`: assigns at an existing key, inserts otherwise. -/
def subscript_assign {V : Type} (m : List (Name × V)) (k : Name) (v : V) : List (Name × V) :=
  if contains m k then assign m k v else m ++ [(k, v)]

/-- The keys in iteration order. -/
def keys {V : Type} (m : List (Name × V)) : List Name :=
  m.map Prod.fst

end UMap

namespace Experiment

/-! ## ExperimentManager.h: `ConditionValue` and `Trigger` -/

/-- The tag `ConditionValue::Type`. -/
inductive ConditionValue.Type_ where
  | kInteger
  | kString
  | kInvalid
  deriving DecidableEq, Repr

/-- The struct `ConditionValue`: a tag and a union of an `s32` and a name. The value built by the
default constructor and by the fall-through of the JSON constructor is `kInvalid`. -/
inductive ConditionValue where
  | kInteger (integer : Int)
  | kString (stringHash : Name)
  | kInvalid
  deriving DecidableEq, Repr

/-- The member `type`. -/
def ConditionValue.type : ConditionValue → ConditionValue.Type_
  | .kInteger _ => .kInteger
  | .kString _ => .kString
  | .kInvalid => .kInvalid

/-- The default constructor `ConditionValue()`. -/
def ConditionValue.default : ConditionValue := .kInvalid

/-- The struct `Trigger`. -/
structure Trigger where
  commands : List Name
  participantRotateInterval : Nat
  deriving DecidableEq, Repr

/-- The default constructor `Trigger()`. -/
def Trigger.default : Trigger :=
  { commands := [], participantRotateInterval := 1 }

/-- The constructor `Trigger(u32 prI)`. -/
def Trigger.ofInterval (prI : Nat) : Trigger :=
  { commands := [], participantRotateInterval := if prI > 0 then prI else 1 }

/-- The method `Trigger::get_command_block`. Division by zero and an index outside `commands`
are undefined behaviour in the source and are failures here. -/
def Trigger.get_command_block (t : Trigger) (participant : Nat) : Except Failure Name :=
  if t.commands.length > 0 then
    if t.participantRotateInterval = 0 then .error .undefined_behaviour
    else
      match t.commands[(participant / t.participantRotateInterval) % t.commands.length]? with
      | some block => .ok block
      | none => .error .undefined_behaviour
  else .ok Name.kInvalidHash

/-! ## ExperimentPluginDataField.h -/

/-- The class `ExperimentPluginDataField`. -/
structure ExperimentPluginDataField where
  data : String
  fAge : ℚ
  bAlwaysUpToDate : Bool
  deriving DecidableEq, Repr

namespace ExperimentPluginDataField

/-- The constant `kUndefinedValue`. -/
def kUndefinedValue : String := ""

/-- The constructor `ExperimentPluginDataField(bool alwaysUpToDate)`. -/
def ofFlag (alwaysUpToDate : Bool) : ExperimentPluginDataField :=
  { data := kUndefinedValue, fAge := 0, bAlwaysUpToDate := alwaysUpToDate }

/-- The constructor `ExperimentPluginDataField(const std::string& initialData, bool alwaysUpToDate)`. -/
def ofData (initialData : String) (alwaysUpToDate : Bool) : ExperimentPluginDataField :=
  { data := initialData, fAge := 0, bAlwaysUpToDate := alwaysUpToDate }

/-- The method `set`. -/
def set (f : ExperimentPluginDataField) (newData : String) : ExperimentPluginDataField :=
  { f with data := newData, fAge := 0 }

/-- The method `reset`. -/
def reset (f : ExperimentPluginDataField) : ExperimentPluginDataField :=
  f.set kUndefinedValue

/-- The method `update_age`. -/
def update_age (f : ExperimentPluginDataField) (fDeltaTime : ℚ) : ExperimentPluginDataField :=
  { f with fAge := f.fAge + fDeltaTime }

/-- The method `refresh`. -/
def refresh (f : ExperimentPluginDataField) : ExperimentPluginDataField :=
  { f with fAge := 0 }

/-- The method `get`. -/
def get (f : ExperimentPluginDataField) : String := f.data

/-- The method `get_age`. -/
def get_age (f : ExperimentPluginDataField) : ℚ := f.fAge

/-- The method `older_than`. -/
def older_than (f : ExperimentPluginDataField) (fReferenceAge : ℚ) : Bool :=
  decide (f.get_age > fReferenceAge)

/-- The method `is_undefined`. -/
def is_undefined (f : ExperimentPluginDataField) : Bool :=
  decide (f.data = kUndefinedValue)

/-- The method `is_undefined_or_old`. -/
def is_undefined_or_old (f : ExperimentPluginDataField) : Bool :=
  f.older_than 0 || f.is_undefined

/-- The method `is_always_up_to_date`. -/
def is_always_up_to_date (f : ExperimentPluginDataField) : Bool := f.bAlwaysUpToDate

end ExperimentPluginDataField

end Experiment

/-! ## Text produced by the standard library -/

/-- The decimal digits of `n`, padded with zeros on the left to at least `width` characters. -/
def pad_zeros (width : Nat) (n : Nat) : String :=
  String.mk (List.replicate (width - (Nat.repr n).length) (Char.ofNat 48)) ++ Nat.repr n

/-- Fixed-point text of a rational with `precision` decimals, as `printf("%.*f")` and
`std::fixed << std::setprecision(precision)` print a finite number; the magnitude is rounded to
the nearest multiple of `10^-precision`, a tie upwards. -/
def format_fixed (precision : Nat) (x : ℚ) : String :=
  let n : Nat := (⌊|x| * (10 : ℚ) ^ precision + 1 / 2⌋).toNat
  (if x < 0 then "-" else "") ++ Nat.repr (n / 10 ^ precision) ++ "." ++
    pad_zeros precision (n % 10 ^ precision)

/-- The function `std::to_string(float)`: the format `%f`, six decimals. -/
def to_string_f32 (x : ℚ) : String := format_fixed 6 x

/-- The function `std::to_string(u32)` and the insertion of a `u32` into a stream. -/
def to_string_u32 (n : Nat) : String := Nat.repr n

/-- The insertion of an `s32` into a stream. -/
def to_string_s32 (z : Int) : String :=
  if z < 0 then "-" ++ Nat.repr z.natAbs else Nat.repr z.natAbs

/-! ## Events (RevealEvents.h, Events.h) -/

namespace Events

/-- Modelled from the spec: the enumeration `ERevealEventTypes` is declared outside the given
sources; these are the enumerators the sources name, `kOther` stands for every further one. -/
inductive ERevealEventTypes where
  | kDummyEvent
  | kExperiment_Start
  | kExperiment_End
  | kExperiment_Abort
  | kExperiment_SetCondition
  | kExperiment_IncrementCondition
  | kExperiment_Trigger
  | kExperiment_StartAudioRecording
  | kExperiment_StopAudioRecording
  | kExperiment_StartHMDRecording
  | kExperiment_StopHMDRecording
  | kExperiment_StartHandsRecording
  | kExperiment_StopHandsRecording
  | kExperiment_IssueActivityMarker
  | kExperiment_StartControllerCheck
  | kGamePlay_SwitchController
  | kGamePlay_SetControllerMovement
  | kGamePlay_PerformDirectJump
  | kGamePlay_OnPickArtifact
  | kGamePlay_OnStepRotate
  | kAnalytics_NodeReached
  | kAnalytics_Teleport
  | kAnalytics_PositionUpdate
  | kAnalytics_RotationUpdate
  | kOther (id : Nat)
  deriving DecidableEq, Repr

/-- The integer payload `uUserArg` of an event. The sources read it as a number (an index into the
argument bank, a node id, a boolean) or as the hash of a name; a hash is identified with the name
it stands for. -/
inductive UserArg where
  | number (n : Nat)
  | hash (name : Name)
  deriving DecidableEq, Repr

/-- The name `Utilities::Name(evt.uUserArg)`; a payload that is no hash gives the sentinel. -/
def UserArg.as_name : UserArg → Name
  | .number _ => Name.kInvalidHash
  | .hash name => name

/-- The payload read as an index or id; a hash is no usable index. -/
def UserArg.as_index : UserArg → Option Nat
  | .number n => some n
  | .hash _ => none

/-- The conversion `static_cast<bool>(evt.uUserArg)`. -/
def UserArg.as_bool : UserArg → Bool
  | .number n => decide (n ≠ 0)
  | .hash _ => true

/-- The object behind the pointer payload `userPtr`. -/
inductive UserPtr where
  | null
  | NodeReachedArgs (nodeName : Name) (distance : ℚ)
  | TeleportArgs (distance : ℚ)
  deriving DecidableEq, Repr

/-- Modelled from the spec: the struct `Events::Event` is declared outside the given sources;
these are the members the sources read and write (the channel is left out: the manager and the
active plug-ins observe both channels on which these events travel). -/
structure Event where
  eventType : ERevealEventTypes
  uUserArg : UserArg
  fUserArg : ℚ
  userPtr : UserPtr
  deriving DecidableEq, Repr

end Events

open Events (ERevealEventTypes Event UserArg UserPtr)

/-! ## The engine as the plug-ins see it -/

/-- A 4x4 matrix `m4`, sixteen elements in column-major order. -/
abbrev m4 := List ℚ

/-- The matrix `m4::identity()`. -/
def m4.identity : m4 := [1, 0, 0, 0, 0, 1, 0, 0, 0, 0, 1, 0, 0, 0, 0, 1]

/-- The element `getElem(c, r)`. -/
def m4.getElem (m : m4) (c r : Nat) : ℚ := m.getD (4 * c + r) 0

namespace GamePlay

/-- The parts of `GamePlay::g_globalGameState` that the plug-ins read during an update: the two
tracking matrices of the player and, for every node id of the world graph that is an artifact,
whether it is an inventory item. -/
structure GlobalGameState where
  camera_track_matrix : m4
  controller_track_matrix : m4
  world_graph : List (Nat × Bool)
  deriving DecidableEq, Repr

end GamePlay

/-- The two Euclidean distances of `Vectormath::Aos` that the Activity plug-in adds up, as
functions of the current and the last head matrix: between the translations, and between the
normalised gaze sample points. They are library functions outside the sources (they take square
roots) and are parameters of the model. -/
structure Vectormath where
  dist_translation : m4 → m4 → ℚ
  dist_gaze : m4 → m4 → ℚ

/-! ## Configuration documents (JSON) -/

namespace Json

/-- A JSON value as `ConditionValue(const Json::Value&)` tells them apart: a number (read with
`GetInt`, an `s32`), a string, or anything else. -/
inductive Value where
  | kNumberType (i : Int)
  | kStringType (s : String)
  | kOtherType
  deriving DecidableEq, Repr

/-- An object of the `conditions` array: `name` and the optional `value`. -/
structure Condition where
  name : String
  value : Option Value
  deriving DecidableEq, Repr

/-- An object of the `triggers` array. -/
structure Trigger where
  name : String
  participantRotateInterval : Nat
  commandBlocks : List String
  deriving DecidableEq, Repr

/-- An object of the `plugins` array: `name` and the optional members the plug-ins look for. -/
structure Plugin where
  name : String
  recordMovementFlag : Option Bool
  autoMarkerIntervalSeconds : Option ℚ
  recordIntervalSeconds : Option ℚ
  autoStart : Option Bool
  commandBlocks : Option (List String)
  onlyInventoryItems : Option Bool
  deriving DecidableEq, Repr

/-- The configuration object read by `ExperimentManager::configure_from_json`. -/
structure Experiment where
  undefinedValue : Option String
  conditions : Option (List Condition)
  triggers : Option (List Trigger)
  plugins : Option (List Plugin)
  enableAudioRecording : Option Bool
  deriving DecidableEq, Repr

end Json

namespace Experiment

/-- The constructor `ConditionValue(const Json::Value&)`. -/
def ConditionValue.ofJson : Json.Value → ConditionValue
  | .kNumberType i => .kInteger i
  | .kStringType s => .kString (Name.mk s)
  | .kOtherType => .kInvalid

/-! ## ExperimentPlugin.h, ExperimentPlugin.cpp -/

/-- The members that `PluginHMD` adds to the base class; `PluginHands` declares the same ones. -/
structure PluginHMD.Members where
  m_interval : ℚ
  m_defaultInterval : ℚ
  m_lastRecordingDelay : ℚ
  m_recording : Bool
  m_autoRecord : Bool
  deriving DecidableEq, Repr

/-- The members that `PluginActivity` adds to the base class. The interval is `none` for
`std::numeric_limits<float>::infinity()`. -/
structure PluginActivity.Members where
  m_positionTravelled : ℚ
  m_rotationTravelled : ℚ
  m_numberBaseTurns : Nat
  m_bIsMonitoring : Bool
  m_nextMarkerName : Name
  m_lastHMDMatrix : m4
  m_autoMarkerInterval : Option ℚ
  m_lastAutoMarkerAge : ℚ
  m_nextAutoMarkerName : Nat
  deriving DecidableEq, Repr

/-- The members that `PluginCollectionCounter` adds to the base class. -/
structure PluginCollectionCounter.Members where
  m_commandBlocks : List Name
  m_onlyInventory : Bool
  m_currentItems : Nat
  deriving DecidableEq, Repr

/-- The dynamic type of a plug-in object together with the members of that derived class. -/
inductive PluginMembers where
  | Controller
  | HMD (m : PluginHMD.Members)
  | Locomotion
  | Activity (m : PluginActivity.Members)
  | Voice (m_bRecording : Bool)
  | Hands (m : PluginHMD.Members)
  | CollectionCounter (m : PluginCollectionCounter.Members)
  deriving DecidableEq, Repr

/-- The class `ExperimentPlugin` with its derived part. `played_blocks` is a history variable: the
command blocks this object has handed to `command_block_manager().play_block`, oldest first. -/
structure ExperimentPlugin where
  m_data : List (Name × ExperimentPluginDataField)
  m_eventQueue : List Event
  members : PluginMembers
  played_blocks : List Name
  deriving DecidableEq, Repr

namespace ExperimentPlugin

/-- The objects `p` and `q` have the same data fields: the same names in the same order. -/
def same_fields (p q : ExperimentPlugin) : Prop :=
  q.m_data.map Prod.fst = p.m_data.map Prod.fst

/-- Going from `p` to `q` the event queue is not touched and every field of `q` is a field of
`p` as it was, or has age 0. -/
def set_or_kept (p q : ExperimentPlugin) : Prop :=
  q.m_eventQueue = p.m_eventQueue ∧
    ∀ dataPair ∈ q.m_data, dataPair ∈ p.m_data ∨ dataPair.2.fAge = 0

/-- The capacity of `EventQueue = Containers::RingArray<Events::Event, u16, 1024>`. -/
def kEventQueueCapacity : Nat := 1024

/-- The method `get_data`. -/
def get_data (p : ExperimentPlugin) : List (Name × ExperimentPluginDataField) := p.m_data

/-- The method `exists_data_field`. -/
def exists_data_field (p : ExperimentPlugin) (headerName : String) : Bool :=
  UMap.contains p.m_data (Name.mk headerName)

/-- Reading through `data(headerName)`: `m_data.at` throws when the field is not registered. -/
def data (p : ExperimentPlugin) (headerName : String) :
    Except Failure ExperimentPluginDataField :=
  match UMap.find p.m_data (Name.mk headerName) with
  | some field => .ok field
  | none => .error .out_of_range

/-- Writing through the reference `data(headerName)`: the field becomes `f field`. -/
def data_modify (p : ExperimentPlugin) (headerName : String)
    (f : ExperimentPluginDataField → ExperimentPluginDataField) : Except Failure ExperimentPlugin :=
  match UMap.find p.m_data (Name.mk headerName) with
  | some field => .ok { p with m_data := UMap.assign p.m_data (Name.mk headerName) (f field) }
  | none => .error .out_of_range

/-- The statement `data(headerName) = newData` for a string: `operator=` calls `set`. -/
def data_set (p : ExperimentPlugin) (headerName : String) (newData : String) :
    Except Failure ExperimentPlugin :=
  p.data_modify headerName (fun field => field.set newData)

/-- The statement `data(headerName).reset()`. -/
def data_reset (p : ExperimentPlugin) (headerName : String) : Except Failure ExperimentPlugin :=
  p.data_modify headerName (fun field => field.reset)

/-- The statement `data(headerName) = other` for a data field: the default copy assignment. -/
def data_copy (p : ExperimentPlugin) (headerName : String) (other : ExperimentPluginDataField) :
    Except Failure ExperimentPlugin :=
  p.data_modify headerName (fun _ => other)

/-- The method `add_data_field`. -/
def add_data_field (p : ExperimentPlugin) (headerName : String)
    (initialValue : ExperimentPluginDataField) : Except Failure ExperimentPlugin :=
  if !p.exists_data_field headerName then
    .ok { p with m_data := UMap.insert p.m_data (Name.mk headerName) initialValue }
  else
    p.data_copy headerName initialValue

/-- The method `remove_data_field`. -/
def remove_data_field (p : ExperimentPlugin) (headerName : String) : ExperimentPlugin :=
  if p.exists_data_field headerName then
    { p with m_data := UMap.erase p.m_data (Name.mk headerName) }
  else p

/-- Several `data(header).reset()` in a row, as `std::for_each` over a header table does. -/
def data_reset_all (p : ExperimentPlugin) : List String → Except Failure ExperimentPlugin
  | [] => .ok p
  | header :: rest => do
    let p1 ← p.data_reset header
    data_reset_all p1 rest

/-- Several `add_data_field(header)` in a row. -/
def add_data_fields (p : ExperimentPlugin) : List String → Except Failure ExperimentPlugin
  | [] => .ok p
  | header :: rest => do
    let p1 ← p.add_data_field header (ExperimentPluginDataField.ofFlag false)
    add_data_fields p1 rest

end ExperimentPlugin

/-! ## PluginController.cpp -/

namespace PluginController

def kHeaderController : String := "controller"

def kHeaderControllerMovement : String := "controllerMovement"

/-- The constructor `PluginController()`, up to the registration done by `initialise()`. -/
def new : Except Failure ExperimentPlugin :=
  ExperimentPlugin.add_data_field
    { m_data := [], m_eventQueue := [], members := .Controller, played_blocks := [] }
    kHeaderController (ExperimentPluginDataField.ofFlag true)

/-- The method `PluginController::configure_from_json`. -/
def configure_from_json (p : ExperimentPlugin) (jsonData : Json.Plugin) :
    Except Failure ExperimentPlugin :=
  match jsonData.recordMovementFlag with
  | some recordMovement =>
    if recordMovement then
      p.add_data_field kHeaderControllerMovement (ExperimentPluginDataField.ofFlag true)
    else
      .ok (p.remove_data_field kHeaderControllerMovement)
  | none => .ok p

/-- The method `PluginController::reset`. -/
def reset (p : ExperimentPlugin) : Except Failure ExperimentPlugin := do
  let p1 ← p.data_reset kHeaderController
  if p1.exists_data_field kHeaderControllerMovement then
    p1.data_reset kHeaderControllerMovement
  else
    .ok p1

/-- The method `PluginController::handle_event`. -/
def handle_event (p : ExperimentPlugin) (evt : Event) : Except Failure ExperimentPlugin :=
  match evt.eventType with
  | .kGamePlay_SwitchController => do
    let p1 ← p.data_set kHeaderController "ControllerName"
    let movementFlagData ← p1.data kHeaderControllerMovement
    if movementFlagData.get_age > 0 then
      p1.data_reset kHeaderControllerMovement
    else
      .ok p1
  | .kGamePlay_SetControllerMovement =>
    if p.exists_data_field kHeaderControllerMovement then
      p.data_set kHeaderControllerMovement (if evt.uUserArg.as_bool then "TRUE" else "FALSE")
    else
      .ok p
  | _ => .ok p

/-- The method `PluginController::update_internal`. -/
def update_internal (p : ExperimentPlugin) (_fDeltaTime : ℚ) : Except Failure ExperimentPlugin :=
  .ok p

end PluginController

/-! ## PluginHMD.cpp and PluginHands.cpp

The two files differ in the header names, the event types and the tracking matrix only; the
common text is written once, with those three as parameters. -/

namespace PluginHMD

/-- The table `kHeaderHMDMatrix`, in memory order. -/
def kHeaderHMDMatrix : List String :=
  ["HMDMatrixC0R0", "HMDMatrixC0R1", "HMDMatrixC0R2", "HMDMatrixC0R3",
   "HMDMatrixC1R0", "HMDMatrixC1R1", "HMDMatrixC1R2", "HMDMatrixC1R3",
   "HMDMatrixC2R0", "HMDMatrixC2R1", "HMDMatrixC2R2", "HMDMatrixC2R3",
   "HMDMatrixC3R0", "HMDMatrixC3R1", "HMDMatrixC3R2", "HMDMatrixC3R3"]

/-- The method `reset_helpers`. -/
def reset_helpers (m : Members) : Members :=
  { m with m_interval := m.m_defaultInterval, m_recording := m.m_autoRecord,
           m_lastRecordingDelay := 0 }

/-- The members after the constructor: the initialiser list and `reset_helpers()`. -/
def Members.new : Members :=
  reset_helpers
    { m_interval := 0, m_defaultInterval := 1 / 25, m_lastRecordingDelay := 0,
      m_recording := false, m_autoRecord := false }

/-- The method `configure_from_json` on the members. -/
def configure_members (m : Members) (jsonData : Json.Plugin) : Except Failure Members := do
  RV_ASSERT jsonData.recordIntervalSeconds.isSome
  let interval := jsonData.recordIntervalSeconds.getD 0
  let autoStart := jsonData.autoStart.getD false
  .ok { m with m_interval := interval, m_defaultInterval := interval,
               m_recording := autoStart, m_autoRecord := autoStart }

/-- The case `kExperiment_Start...Recording` of `handle_event`. -/
def start_recording (headers : List String) (p : ExperimentPlugin) (m : Members) (evt : Event) :
    Except Failure (ExperimentPlugin × Members) := do
  let interval := if evt.fUserArg ≥ 0 then evt.fUserArg else m.m_defaultInterval
  let p1 ← p.data_reset_all headers
  .ok (p1, { m with m_interval := interval, m_lastRecordingDelay := 0, m_recording := true })

/-- The sixteen assignments `data(kHeader[c][r]) = std::to_string(matrix.getElem(c, r))`, the
headers taken in memory order from position `i` on. -/
def write_matrix (matrix : m4) (p : ExperimentPlugin) (i : Nat) :
    List String → Except Failure ExperimentPlugin
  | [] => .ok p
  | header :: rest => do
    let p1 ← p.data_set header (to_string_f32 (matrix.getElem (i / 4) (i % 4)))
    write_matrix matrix p1 (i + 1) rest

/-- The method `update_internal`. -/
def update_internal (headers : List String) (matrix : m4) (p : ExperimentPlugin) (m : Members)
    (_fDeltaTime : ℚ) : Except Failure (ExperimentPlugin × Members) := do
  let nextInterval := m.m_interval - m.m_lastRecordingDelay
  if m.m_recording then
    let first ← p.data (headers.headD "")
    if first.older_than nextInterval then
      let first1 ← p.data (headers.headD "")
      let m1 := { m with m_lastRecordingDelay := first1.get_age - nextInterval }
      let p1 ← write_matrix matrix p 0 headers
      .ok (p1, m1)
    else .ok (p, m)
  else .ok (p, m)

/-- The constructor `PluginHMD()`, up to the registration done by `initialise()`. -/
def new : Except Failure ExperimentPlugin :=
  ExperimentPlugin.add_data_fields
    { m_data := [], m_eventQueue := [], members := .HMD Members.new, played_blocks := [] }
    kHeaderHMDMatrix

end PluginHMD

namespace PluginHands

/-- The table `kHeaderHandsMatrix`, in memory order. -/
def kHeaderHandsMatrix : List String :=
  ["HandsMatrixC0R0", "HandsMatrixC0R1", "HandsMatrixC0R2", "HandsMatrixC0R3",
   "HandsMatrixC1R0", "HandsMatrixC1R1", "HandsMatrixC1R2", "HandsMatrixC1R3",
   "HandsMatrixC2R0", "HandsMatrixC2R1", "HandsMatrixC2R2", "HandsMatrixC2R3",
   "HandsMatrixC3R0", "HandsMatrixC3R1", "HandsMatrixC3R2", "HandsMatrixC3R3"]

/-- The constructor `PluginHands()`, up to the registration done by `initialise()`. -/
def new : Except Failure ExperimentPlugin :=
  ExperimentPlugin.add_data_fields
    { m_data := [], m_eventQueue := [], members := .Hands PluginHMD.Members.new,
      played_blocks := [] }
    kHeaderHandsMatrix

end PluginHands

/-! ## PluginLocomotion.cpp -/

namespace PluginLocomotion

def kHeaderLocomotionNode : String := "locomotionNode"

def kHeaderLocomotionDistance : String := "locomotionDistance"

/-- The constructor `PluginLocomotion()`, up to the registration done by `initialise()`. -/
def new : Except Failure ExperimentPlugin := do
  let p1 ← ExperimentPlugin.add_data_field
    { m_data := [], m_eventQueue := [], members := .Locomotion, played_blocks := [] }
    kHeaderLocomotionNode (ExperimentPluginDataField.ofFlag true)
  p1.add_data_field kHeaderLocomotionDistance (ExperimentPluginDataField.ofFlag false)

/-- The method `PluginLocomotion::reset`. -/
def reset (p : ExperimentPlugin) : Except Failure ExperimentPlugin := do
  let p1 ← p.data_reset kHeaderLocomotionNode
  p1.data_reset kHeaderLocomotionDistance

/-- The method `PluginLocomotion::handle_event`. The two analytics events assert a non-null
`userPtr` and read it as their own argument struct; a pointer to anything else is undefined
behaviour. -/
def handle_event (p : ExperimentPlugin) (evt : Event) : Except Failure ExperimentPlugin :=
  match evt.eventType with
  | .kGamePlay_PerformDirectJump =>
    p.data_set kHeaderLocomotionNode evt.uUserArg.as_name.get_message
  | .kAnalytics_NodeReached =>
    match evt.userPtr with
    | .null => .error .assertion
    | .NodeReachedArgs nodeName distance => do
      let p1 ← p.data_set kHeaderLocomotionNode nodeName.get_message
      p1.data_set kHeaderLocomotionDistance (to_string_f32 distance)
    | .TeleportArgs _ => .error .undefined_behaviour
  | .kAnalytics_Teleport =>
    match evt.userPtr with
    | .null => .error .assertion
    | .TeleportArgs distance => p.data_set kHeaderLocomotionDistance (to_string_f32 distance)
    | .NodeReachedArgs _ _ => .error .undefined_behaviour
  | _ => .ok p

end PluginLocomotion

/-! ## PluginActivity.cpp -/

namespace PluginActivity

def kHeaderActivityMarker : String := "activityMarker"

def kHeaderActivityPositionTravelled : String := "activityPosition"

def kHeaderActivityRotationTravelled : String := "activityRotation"

def kHeaderActivityBaseTurns : String := "activityBaseTurns"

/-- The method `reset_helpers`. -/
def reset_helpers (m : Members) : Members :=
  { m with m_nextMarkerName := Name.kInvalidHash, m_positionTravelled := 0,
           m_rotationTravelled := 0, m_numberBaseTurns := 0 }

/-- The method `reset_auto_markers`. -/
def reset_auto_markers (m : Members) : Members :=
  { m with m_lastAutoMarkerAge := 0, m_nextAutoMarkerName := 1 }

/-- The members after the constructor: the initialiser list, `reset_helpers()` and
`reset_auto_markers()`. -/
def Members.new : Members :=
  reset_auto_markers (reset_helpers
    { m_positionTravelled := 0, m_rotationTravelled := 0, m_numberBaseTurns := 0,
      m_bIsMonitoring := false, m_nextMarkerName := Name.kInvalidHash,
      m_lastHMDMatrix := m4.identity, m_autoMarkerInterval := none,
      m_lastAutoMarkerAge := 0, m_nextAutoMarkerName := 1 })

/-- The constructor `PluginActivity()`, up to the registration done by `initialise()`. -/
def new : Except Failure ExperimentPlugin :=
  ExperimentPlugin.add_data_fields
    { m_data := [], m_eventQueue := [], members := .Activity Members.new, played_blocks := [] }
    [kHeaderActivityMarker, kHeaderActivityPositionTravelled, kHeaderActivityRotationTravelled,
     kHeaderActivityBaseTurns]

/-- The method `PluginActivity::configure_from_json` on the members. -/
def configure_members (m : Members) (jsonData : Json.Plugin) : Members :=
  { m with m_autoMarkerInterval := jsonData.autoMarkerIntervalSeconds }

/-- The method `PluginActivity::reset`. -/
def reset (p : ExperimentPlugin) (m : Members) : Except Failure (ExperimentPlugin × Members) := do
  let p1 ← p.data_reset kHeaderActivityMarker
  let p2 ← p1.data_reset kHeaderActivityPositionTravelled
  let p3 ← p2.data_reset kHeaderActivityRotationTravelled
  let p4 ← p3.data_reset kHeaderActivityBaseTurns
  let m1 := reset_auto_markers (reset_helpers m)
  .ok (p4, { m1 with m_lastHMDMatrix := m4.identity, m_bIsMonitoring := false })

/-- The method `PluginActivity::handle_event`; it changes members only. -/
def handle_event (m : Members) (evt : Event) : Members :=
  match evt.eventType with
  | .kGamePlay_OnStepRotate =>
    { m with m_numberBaseTurns := (m.m_numberBaseTurns + 1) % 4294967296 }
  | .kExperiment_IssueActivityMarker =>
    { m with m_nextMarkerName := evt.uUserArg.as_name }
  | .kExperiment_End =>
    { m with m_nextMarkerName := Name.mk "End" }
  | _ => m

/-- The test `m_lastAutoMarkerAge >= m_autoMarkerInterval`; nothing reaches infinity. -/
def auto_marker_due (age : ℚ) : Option ℚ → Bool
  | none => false
  | some interval => decide (age ≥ interval)

/-- The method `PluginActivity::update_internal`. -/
def update_internal (vm : Vectormath) (g : GamePlay.GlobalGameState) (p : ExperimentPlugin)
    (m : Members) (fDeltaTime : ℚ) : Except Failure (ExperimentPlugin × Members) :=
  if m.m_bIsMonitoring then
    let currentHMDMatrix := g.camera_track_matrix
    let m1 := { m with
      m_positionTravelled :=
        m.m_positionTravelled + vm.dist_translation currentHMDMatrix m.m_lastHMDMatrix,
      m_rotationTravelled :=
        m.m_rotationTravelled + vm.dist_gaze currentHMDMatrix m.m_lastHMDMatrix,
      m_lastAutoMarkerAge := m.m_lastAutoMarkerAge + fDeltaTime }
    let m2 :=
      if auto_marker_due m1.m_lastAutoMarkerAge m1.m_autoMarkerInterval then
        { m1 with
          m_lastAutoMarkerAge := m1.m_lastAutoMarkerAge - m1.m_autoMarkerInterval.getD 0,
          m_nextMarkerName := Name.mk ("Auto" ++ to_string_u32 m1.m_nextAutoMarkerName),
          m_nextAutoMarkerName := (m1.m_nextAutoMarkerName + 1) % 4294967296 }
      else m1
    if m2.m_nextMarkerName ≠ Name.kInvalidHash then do
      let p1 ← p.data_set kHeaderActivityMarker m2.m_nextMarkerName.get_message
      let p2 ← p1.data_set kHeaderActivityPositionTravelled (to_string_f32 m2.m_positionTravelled)
      let p3 ← p2.data_set kHeaderActivityRotationTravelled (to_string_f32 m2.m_rotationTravelled)
      let p4 ← p3.data_set kHeaderActivityBaseTurns (to_string_u32 m2.m_numberBaseTurns)
      .ok (p4, { reset_helpers m2 with m_lastHMDMatrix := currentHMDMatrix })
    else
      .ok (p, { m2 with m_lastHMDMatrix := currentHMDMatrix })
  else
    .ok (p, { m with m_lastHMDMatrix := g.camera_track_matrix, m_bIsMonitoring := true })

/-- An Activity plug-in between two automatic markers: no event is queued, no marker is pending,
its four fields are undefined, the interval is `interval`, the timer of the automatic markers
stands at `timer`, the next automatic marker is `Auto<next>`, and `monitoring` tells whether an
update has happened since the reset. -/
def between_markers (interval timer : ℚ) (next : Nat) (monitoring : Bool)
    (p : ExperimentPlugin) : Prop :=
  ∃ (f1 f2 f3 f4 : ExperimentPluginDataField) (m : Members) (played : List Name),
    p = { m_data := [(Name.mk kHeaderActivityMarker, f1),
            (Name.mk kHeaderActivityPositionTravelled, f2),
            (Name.mk kHeaderActivityRotationTravelled, f3),
            (Name.mk kHeaderActivityBaseTurns, f4)],
          m_eventQueue := [], members := .Activity m, played_blocks := played } ∧
      f1.is_undefined = true ∧ f2.is_undefined = true ∧ f3.is_undefined = true ∧
      f4.is_undefined = true ∧
      m.m_bIsMonitoring = monitoring ∧ m.m_nextMarkerName = Name.kInvalidHash ∧
      m.m_autoMarkerInterval = some interval ∧ m.m_lastAutoMarkerAge = timer ∧
      m.m_nextAutoMarkerName = next

end PluginActivity

/-! ## PluginVoice.cpp -/

namespace PluginVoice

def kHeaderVoiceRecording : String := "voiceRecording"

/-- The method `PluginVoice::reset`. -/
def reset (p : ExperimentPlugin) : Except Failure ExperimentPlugin := do
  let p1 ← p.data_set kHeaderVoiceRecording "FALSE"
  .ok { p1 with members := .Voice false }

/-- The constructor `PluginVoice()`, up to the registration done by `initialise()`. -/
def new : Except Failure ExperimentPlugin := do
  let p1 ← ExperimentPlugin.add_data_field
    { m_data := [], m_eventQueue := [], members := .Voice false, played_blocks := [] }
    kHeaderVoiceRecording (ExperimentPluginDataField.ofFlag true)
  reset p1

/-- The method `PluginVoice::handle_event`. -/
def handle_event (p : ExperimentPlugin) (m_bRecording : Bool) (evt : Event) :
    Except Failure ExperimentPlugin :=
  match evt.eventType with
  | .kExperiment_StartAudioRecording =>
    if !m_bRecording then do
      let p1 ← p.data_set kHeaderVoiceRecording "TRUE"
      .ok { p1 with members := .Voice true }
    else .ok p
  | .kExperiment_StopAudioRecording | .kExperiment_End =>
    if m_bRecording then do
      let p1 ← p.data_set kHeaderVoiceRecording "FALSE"
      .ok { p1 with members := .Voice false }
    else .ok p
  | _ => .ok p

end PluginVoice

/-! ## PluginCollectionCounter.cpp -/

namespace PluginCollectionCounter

def kHeaderCollectionCounterItems : String := "items"

/-- The constructor `PluginCollectionCounter()`, up to the registration done by `initialise()`.
It leaves `m_onlyInventory` uninitialised; the value that member happens to hold is the
argument. -/
def new (onlyInventory : Bool) : Except Failure ExperimentPlugin :=
  ExperimentPlugin.add_data_field
    { m_data := [], m_eventQueue := [],
      members := .CollectionCounter
        { m_commandBlocks := [], m_onlyInventory := onlyInventory, m_currentItems := 0 },
      played_blocks := [] }
    kHeaderCollectionCounterItems (ExperimentPluginDataField.ofData "0" true)

/-- The method `PluginCollectionCounter::configure_from_json` on the members. -/
def configure_members (m : Members) (jsonData : Json.Plugin) : Except Failure Members := do
  let blocks := (jsonData.commandBlocks.getD []).map Name.mk
  RV_ASSERT jsonData.onlyInventoryItems.isSome
  .ok { m with m_commandBlocks := blocks, m_onlyInventory := jsonData.onlyInventoryItems.getD false }

/-- The method `PluginCollectionCounter::reset`. -/
def reset (p : ExperimentPlugin) (m : Members) : Except Failure ExperimentPlugin := do
  let p1 ← p.data_copy kHeaderCollectionCounterItems (ExperimentPluginDataField.ofData "0" true)
  .ok { p1 with members := .CollectionCounter { m with m_currentItems := 0 } }

/-- The call `artifact->is_inventory_item()` for the node with the id in the event: the node is
looked up in the world graph, and calling through the pointer of a node that is not there is
undefined behaviour. -/
def is_inventory_item (g : GamePlay.GlobalGameState) (evt : Event) : Except Failure Bool :=
  match evt.uUserArg.as_index with
  | none => .error .undefined_behaviour
  | some id =>
    match g.world_graph.lookup id with
    | some flag => .ok flag
    | none => .error .undefined_behaviour

/-- The condition `!m_onlyInventory || artifact->is_inventory_item()`; the right operand is
evaluated only when the left one is false. -/
def counts_item (g : GamePlay.GlobalGameState) (m : Members) (evt : Event) : Except Failure Bool :=
  if !m.m_onlyInventory then .ok true else is_inventory_item g evt

/-- The statement `if (m_commandBlocks.size() > 0) play_block(...)`: the history of played blocks
afterwards. -/
def play_next_block (p : ExperimentPlugin) (m : Members) : Except Failure (List Name) :=
  if m.m_commandBlocks.length > 0 then
    match m.m_commandBlocks[m.m_currentItems % m.m_commandBlocks.length]? with
    | some block => .ok (p.played_blocks ++ [block])
    | none => .error .undefined_behaviour
  else .ok p.played_blocks

/-- The method `PluginCollectionCounter::handle_event`. -/
def handle_event (g : GamePlay.GlobalGameState) (p : ExperimentPlugin) (m : Members)
    (evt : Event) : Except Failure ExperimentPlugin :=
  match evt.eventType with
  | .kGamePlay_OnPickArtifact => do
    let counts ← counts_item g m evt
    if counts then do
      let played ← play_next_block p m
      let items := (m.m_currentItems + 1) % 4294967296
      let p1 ← ExperimentPlugin.data_set { p with played_blocks := played }
        kHeaderCollectionCounterItems (to_string_u32 items)
      .ok { p1 with members := .CollectionCounter { m with m_currentItems := items } }
    else .ok p
  | _ => .ok p

/-- The picked item of the event is a node of the world graph. -/
def known_item (g : GamePlay.GlobalGameState) (evt : Event) : Bool :=
  match evt.uUserArg.as_index with
  | some id => (g.world_graph.lookup id).isSome
  | none => false

/-- In the words of the specification: a pickup event qualifies when "onlyInventoryItems is
false, or the picked item is an inventory item". -/
def qualifies (onlyInventory : Bool) (g : GamePlay.GlobalGameState) (evt : Event) : Bool :=
  decide (evt.eventType = .kGamePlay_OnPickArtifact) &&
    (!onlyInventory ||
      (match evt.uUserArg.as_index with
        | some id => decide (g.world_graph.lookup id = some true)
        | none => false))

/-- In the words of the specification: the blocks played by `n` qualifying pickups from a reset
on, "the i-th qualifying pickup (i = 0, 1, ...) plays commandBlocks[i mod len(commandBlocks)] when
the list is non-empty and plays nothing when it is empty". -/
def round_robin (commandBlocks : List Name) (n : Nat) : List Name :=
  (List.range n).filterMap (fun i => commandBlocks[i % commandBlocks.length]?)

/-- The blocks that `n` qualifying pickups play when the counter stands at `first` before them:
each plays the block at the position of the 32-bit counter modulo the length of the list, and
nothing when the list is empty. -/
def blocks_played (commandBlocks : List Name) (first n : Nat) : List Name :=
  (List.range n).filterMap (fun i =>
    commandBlocks[((first + i) % 4294967296) % commandBlocks.length]?)

end PluginCollectionCounter

/-! ## The virtual methods and `ExperimentPlugin::update` -/

namespace ExperimentPlugin

/-- The virtual method `get_name`. -/
def get_name (p : ExperimentPlugin) : Name :=
  match p.members with
  | .Controller => Name.mk "controller"
  | .HMD _ => Name.mk "HMD"
  | .Locomotion => Name.mk "locomotion"
  | .Activity _ => Name.mk "activity"
  | .Voice _ => Name.mk "voice"
  | .Hands _ => Name.mk "hands"
  | .CollectionCounter _ => Name.mk "collectionCounter"

/-- The virtual method `configure_from_json`. -/
def configure_from_json (p : ExperimentPlugin) (jsonData : Json.Plugin) :
    Except Failure ExperimentPlugin :=
  match p.members with
  | .Controller => PluginController.configure_from_json p jsonData
  | .HMD m => do
    let m1 ← PluginHMD.configure_members m jsonData
    .ok { p with members := .HMD m1 }
  | .Locomotion => .ok p
  | .Activity m => .ok { p with members := .Activity (PluginActivity.configure_members m jsonData) }
  | .Voice _ => .ok p
  | .Hands m => do
    let m1 ← PluginHMD.configure_members m jsonData
    .ok { p with members := .Hands m1 }
  | .CollectionCounter m => do
    let m1 ← PluginCollectionCounter.configure_members m jsonData
    .ok { p with members := .CollectionCounter m1 }

/-- The virtual method `reset`. -/
def reset (p : ExperimentPlugin) : Except Failure ExperimentPlugin :=
  match p.members with
  | .Controller => PluginController.reset p
  | .HMD m => do
    let p1 ← p.data_reset_all PluginHMD.kHeaderHMDMatrix
    .ok { p1 with members := .HMD (PluginHMD.reset_helpers m) }
  | .Locomotion => PluginLocomotion.reset p
  | .Activity m => do
    let (p1, m1) ← PluginActivity.reset p m
    .ok { p1 with members := .Activity m1 }
  | .Voice _ => PluginVoice.reset p
  | .Hands m => do
    let p1 ← p.data_reset_all PluginHands.kHeaderHandsMatrix
    .ok { p1 with members := .Hands (PluginHMD.reset_helpers m) }
  | .CollectionCounter m => PluginCollectionCounter.reset p m

/-- The virtual method `handle_event`. -/
def handle_event (g : GamePlay.GlobalGameState) (p : ExperimentPlugin) (evt : Event) :
    Except Failure ExperimentPlugin :=
  match p.members with
  | .Controller => PluginController.handle_event p evt
  | .HMD m =>
    match evt.eventType with
    | .kExperiment_StartHMDRecording => do
      let (p1, m1) ← PluginHMD.start_recording PluginHMD.kHeaderHMDMatrix p m evt
      .ok { p1 with members := .HMD m1 }
    | .kExperiment_StopHMDRecording => .ok { p with members := .HMD { m with m_recording := false } }
    | _ => .ok p
  | .Locomotion => PluginLocomotion.handle_event p evt
  | .Activity m => .ok { p with members := .Activity (PluginActivity.handle_event m evt) }
  | .Voice m_bRecording => PluginVoice.handle_event p m_bRecording evt
  | .Hands m =>
    match evt.eventType with
    | .kExperiment_StartHandsRecording => do
      let (p1, m1) ← PluginHMD.start_recording PluginHands.kHeaderHandsMatrix p m evt
      .ok { p1 with members := .Hands m1 }
    | .kExperiment_StopHandsRecording =>
      .ok { p with members := .Hands { m with m_recording := false } }
    | _ => .ok p
  | .CollectionCounter m => PluginCollectionCounter.handle_event g p m evt

/-- The virtual method `update_internal`. -/
def update_internal (vm : Vectormath) (g : GamePlay.GlobalGameState) (p : ExperimentPlugin)
    (fDeltaTime : ℚ) : Except Failure ExperimentPlugin :=
  match p.members with
  | .Controller => PluginController.update_internal p fDeltaTime
  | .HMD m => do
    let (p1, m1) ←
      PluginHMD.update_internal PluginHMD.kHeaderHMDMatrix g.camera_track_matrix p m fDeltaTime
    .ok { p1 with members := .HMD m1 }
  | .Locomotion => .ok p
  | .Activity m => do
    let (p1, m1) ← PluginActivity.update_internal vm g p m fDeltaTime
    .ok { p1 with members := .Activity m1 }
  | .Voice _ => .ok p
  | .Hands m => do
    let (p1, m1) ←
      PluginHMD.update_internal PluginHands.kHeaderHandsMatrix g.controller_track_matrix p m
        fDeltaTime
    .ok { p1 with members := .Hands m1 }
  | .CollectionCounter _ => .ok p

/-- The loop `while (m_eventQueue.size() > 0) { handle_event(front()); pop_front(); }` run on
the queue content `queue`; no handler touches the queue, so after a step the queue is the rest. -/
def handle_queued_events (g : GamePlay.GlobalGameState) (p : ExperimentPlugin) :
    List Event → Except Failure ExperimentPlugin
  | [] => .ok p
  | evt :: rest => do
    let p1 ← p.handle_event g evt
    handle_queued_events g { p1 with m_eventQueue := rest } rest

/-- The result `writeRequired` of `update`: some field is neither undefined nor old. -/
def write_required (p : ExperimentPlugin) : Bool :=
  p.m_data.any (fun dataPair => !dataPair.2.is_undefined_or_old)

/-- The method `ExperimentPlugin::update`: the result and the object afterwards. -/
def update (vm : Vectormath) (g : GamePlay.GlobalGameState) (p : ExperimentPlugin)
    (fDeltaTime : ℚ) : Except Failure (Bool × ExperimentPlugin) := do
  let p1 := { p with m_data := p.m_data.map (fun dataPair =>
    (dataPair.1, dataPair.2.update_age fDeltaTime)) }
  let p2 ← handle_queued_events g p1 p1.m_eventQueue
  let p3 ← p2.update_internal vm g fDeltaTime
  .ok (p3.write_required, p3)

/-- The method `ExperimentPlugin::on_event`, given `GExperimentManager::instance().is_running()`.
Modelled from the spec: the queue is "bounded (capacity 1024)"; `RingArray::push_back` is outside
the given sources and pushing onto a full queue is taken to be undefined behaviour. -/
def on_event (p : ExperimentPlugin) (is_running : Bool) (evt : Event) :
    Except Failure ExperimentPlugin :=
  if is_running then
    if p.m_eventQueue.length < kEventQueueCapacity then
      .ok { p with m_eventQueue := p.m_eventQueue ++ [evt] }
    else .error .undefined_behaviour
  else .ok p

/-- The calls `update(dt)` for the frame times given, one after the other, no event arriving in
between: the object they leave. -/
def updates (vm : Vectormath) (g : GamePlay.GlobalGameState) (p : ExperimentPlugin) :
    List ℚ → Except Failure ExperimentPlugin
  | [] => .ok p
  | fDeltaTime :: rest => do
    let r ← p.update vm g fDeltaTime
    updates vm g r.2 rest

/-- The calls `handle_event(evt)` for the events given, one after the other: the object they
leave. -/
def handle_events (g : GamePlay.GlobalGameState) (p : ExperimentPlugin) :
    List Event → Except Failure ExperimentPlugin
  | [] => .ok p
  | evt :: rest => do
    let p1 ← p.handle_event g evt
    handle_events g p1 rest

/-- The header table and the members that `update_internal` of the object works with, when the
object is an HMD or a Hands plug-in. -/
def recorder_of (p : ExperimentPlugin) : Option (List String × PluginHMD.Members) :=
  match p.members with
  | .HMD m => some (PluginHMD.kHeaderHMDMatrix, m)
  | .Hands m => some (PluginHands.kHeaderHandsMatrix, m)
  | _ => none

/-- An HMD or Hands plug-in that is recording with the interval `interval`, no event queued, its
fields those of its header table, the first of them at the age `age`, and the last recording
delay `delay`. -/
def recording (interval age delay : ℚ) (p : ExperimentPlugin) : Prop :=
  ∃ headers m first,
    p.recorder_of = some (headers, m) ∧ p.m_eventQueue = [] ∧
      p.m_data.map Prod.fst = headers.map Name.mk ∧
      UMap.find p.m_data (Name.mk (headers.headD "")) = some first ∧ first.fAge = age ∧
      m.m_recording = true ∧ m.m_interval = interval ∧ m.m_lastRecordingDelay = delay

/-- In the words of the specification: the phase of a recording, that is the age of the first
matrix field, the last delay stored, the number of samples taken and the time elapsed since the
recording started. -/
structure Phase where
  age : ℚ
  lastDelay : ℚ
  samples : Nat
  elapsed : ℚ
  deriving DecidableEq, Repr

/-- The phase when the recording starts: "fields freshly reset and lastDelay = 0". -/
def Phase.start : Phase :=
  { age := 0, lastDelay := 0, samples := 0, elapsed := 0 }

/-- In the words of the specification: "a sample is taken in a frame exactly when the first matrix
field's age exceeds I - lastDelay", and the delay stored at the sample is "age at fire - (I -
previous lastDelay)". -/
def Phase.frame (interval : ℚ) (phase : Phase) (fDeltaTime : ℚ) : Phase :=
  if phase.age + fDeltaTime > interval - phase.lastDelay then
    { age := 0, lastDelay := phase.age + fDeltaTime - (interval - phase.lastDelay),
      samples := phase.samples + 1, elapsed := phase.elapsed + fDeltaTime }
  else
    { phase with age := phase.age + fDeltaTime, elapsed := phase.elapsed + fDeltaTime }

/-- The phase after the frames with the given frame times. -/
def Phase.frames (interval : ℚ) (phase : Phase) : List ℚ → Phase
  | [] => phase
  | fDeltaTime :: rest => Phase.frames interval (phase.frame interval fDeltaTime) rest

end ExperimentPlugin

/-! ## ExperimentManager.h, ExperimentManager.cpp: the state -/

/-- The member `m_separator`. -/
def m_separator : String := "\t"

/-- One line handed to `m_outputWriter`, by the statement group that writes it: the header line of
`start`, a data line of `record_experiment_state` (both as the values in the order written, a
separator before each but the first) and the line of `abort`. -/
inductive Line where
  | header (cells : List String)
  | row (cells : List String)
  | aborted
  deriving DecidableEq, Repr

/-- The text `m_separator << cell` for each cell in turn. -/
def separated : List String → String
  | [] => ""
  | cell :: rest => m_separator ++ cell ++ separated rest

/-- The characters of a line as inserted into the stream. -/
def Line.text : Line → String
  | .header [] => "\n"
  | .header (cell :: rest) => cell ++ separated rest ++ "\n"
  | .row [] => "\n"
  | .row (cell :: rest) => cell ++ separated rest ++ "\n"
  | .aborted => "ABORTED!" ++ "\n"

/-- The number of separator-delimited columns of a piece of text: separators in it, plus one. -/
def columns (text : String) : Nat :=
  text.data.count (Char.ofNat 9) + 1

/-- The text `cell` does not contain the separator character. -/
def no_separator (cell : String) : Prop :=
  Char.ofNat 9 ∉ cell.data

/-- The stream `std::ofstream m_outputWriter`: whether a file is open, whether the state flags are
clear (`good()`), the path of the file opened last and the lines inserted into it since. The file
system behind the stream is not modelled: opening a closed stream succeeds on an empty file. -/
structure OutputWriter where
  is_open : Bool
  good : Bool
  path : String
  written : List Line
  deriving DecidableEq, Repr

namespace OutputWriter

/-- The call `open(path, std::ios::app)`; opening an open stream fails and sets `failbit`. -/
def open_ (w : OutputWriter) (path : String) : OutputWriter :=
  if w.is_open then { w with good := false }
  else { is_open := true, good := true, path := path, written := [] }

/-- The insertion of a whole line; a stream that is not open or not good takes nothing. -/
def insert (w : OutputWriter) (line : Line) : OutputWriter :=
  if w.is_open && w.good then { w with written := w.written ++ [line] }
  else { w with good := false }

/-- The call `close()`; closing a stream that is not open sets `failbit`. -/
def close (w : OutputWriter) : OutputWriter :=
  if w.is_open then { w with is_open := false } else { w with good := false }

end OutputWriter

/-- The struct `ExperimentArgs`; the hash of the condition is identified with its name. -/
structure ExperimentArgs where
  conditionHash : Name
  newValue : ConditionValue
  increment : Int
  deriving DecidableEq, Repr

/-- The constant `kInvalidParticipantNumber`. -/
def kInvalidParticipantNumber : Nat := 4294967295

/-- The constant `kMaximumParticipantNumber`. -/
def kMaximumParticipantNumber : Nat := 99

/-- The non-static members of the class `ExperimentManager`. A plug-in pointer is the index of the
object in `System.plugins`. `m_audioThread_joinable` stands for `m_audioThread.joinable()`, and
`saved_audio_files` is a history variable: the paths given to `m_audioRecording.save`. The
recorded samples are not modelled. -/
structure ExperimentManager where
  m_isRunning : Bool
  m_isAudioRecording : Bool
  m_lastHaltEvent : ERevealEventTypes
  m_currentParticipant : Nat
  m_fTotalTime : ℚ
  m_conditionDefaults : List (Name × ConditionValue)
  m_conditionValues : List (Name × ConditionValue)
  m_triggers : List (Name × Trigger)
  m_activePlugins : List Nat
  m_conditionChanged : Bool
  m_outputWriter : OutputWriter
  m_undefinedValue : String
  m_enableAudioRecording : Bool
  m_audioPort : Int
  m_audioFilePath : String
  m_audioThread_joinable : Bool
  saved_audio_files : List String
  deriving DecidableEq, Repr

/-- The manager singleton together with the globals it works on: the plug-in objects (a pointer to
one is its index here), the static register `m_sAvailablePlugins`, the argument bank
`g_CI_experiment_args_bank`, and as a history variable the command blocks that `trigger` has
handed to `command_block_manager().play_block`, oldest first. -/
structure System where
  manager : ExperimentManager
  plugins : List ExperimentPlugin
  m_sAvailablePlugins : List (Name × Nat)
  g_CI_experiment_args_bank : List ExperimentArgs
  played_blocks : List Name
  deriving DecidableEq, Repr

/-- What the platform answers during `start()`: the text `strftime` produces for the current time
and the return values of `sceUserServiceGetInitialUser` and `sceAudioInOpen`. -/
structure Platform where
  dateString : String
  sceUserServiceGetInitialUser : Int
  sceAudioInOpen : Int
  deriving DecidableEq, Repr

/-- The insertion `operator <<(std::ostream&, const ConditionValue&)`. -/
def ConditionValue.operator_shl : ConditionValue → String
  | .kInteger integer => to_string_s32 integer
  | .kString stringHash => stringHash.get_message
  | .kInvalid => "NA"

namespace ExperimentManager

/-- The members after construction: the default member initialisers. `m_enableAudioRecording` and
`m_audioPort` have none; the values they happen to hold are the arguments. -/
def new (enableAudioRecording : Bool) (audioPort : Int) : ExperimentManager :=
  { m_isRunning := false, m_isAudioRecording := false,
    m_lastHaltEvent := .kDummyEvent, m_currentParticipant := kInvalidParticipantNumber,
    m_fTotalTime := 0, m_conditionDefaults := [], m_conditionValues := [], m_triggers := [],
    m_activePlugins := [], m_conditionChanged := false,
    m_outputWriter := { is_open := false, good := true, path := "", written := [] },
    m_undefinedValue := "", m_enableAudioRecording := enableAudioRecording,
    m_audioPort := audioPort, m_audioFilePath := "", m_audioThread_joinable := false,
    saved_audio_files := [] }

/-- The method `is_running`. -/
def is_running (m : ExperimentManager) : Bool := m.m_isRunning

/-- The method `get_current_participant`. -/
def get_current_participant (m : ExperimentManager) : Nat := m.m_currentParticipant

/-- The method `get_elapsed_time`. -/
def get_elapsed_time (m : ExperimentManager) : ℚ := m.m_fTotalTime

/-- The method `get_experiment_condition_value`; it is `const` and returns by value. -/
def get_experiment_condition_value (m : ExperimentManager) (conditionName : String) :
    ConditionValue :=
  match UMap.find m.m_conditionValues (Name.mk conditionName) with
  | some value => value
  | none => ConditionValue.default

/-- The method `set_participant`. -/
def set_participant (m : ExperimentManager) (number : Nat) : Except Failure ExperimentManager := do
  RV_ASSERT (!m.m_isRunning)
  .ok { m with m_currentParticipant := number }

/-- The method `add_experiment_condition`. -/
def add_experiment_condition (m : ExperimentManager) (conditionName : String)
    (value : ConditionValue) : Except Failure ExperimentManager := do
  RV_ASSERT (!m.m_isRunning)
  RV_ASSERT (!UMap.contains m.m_conditionDefaults (Name.mk conditionName))
  .ok { m with m_conditionDefaults := UMap.insert m.m_conditionDefaults (Name.mk conditionName) value }

/-- The method `remove_experiment_condition`. -/
def remove_experiment_condition (m : ExperimentManager) (conditionName : String) :
    Except Failure ExperimentManager := do
  RV_ASSERT (!m.m_isRunning)
  RV_ASSERT (UMap.contains m.m_conditionDefaults (Name.mk conditionName))
  .ok { m with m_conditionDefaults := UMap.erase m.m_conditionDefaults (Name.mk conditionName) }

/-- The method `add_experiment_trigger`. -/
def add_experiment_trigger (m : ExperimentManager) (triggerName : String) (trigger : Trigger) :
    Except Failure ExperimentManager := do
  RV_ASSERT (!m.m_isRunning)
  RV_ASSERT (!UMap.contains m.m_triggers (Name.mk triggerName))
  .ok { m with m_triggers := UMap.insert m.m_triggers (Name.mk triggerName) trigger }

/-- The method `remove_experiment_trigger`. -/
def remove_experiment_trigger (m : ExperimentManager) (triggerName : String) :
    Except Failure ExperimentManager := do
  RV_ASSERT (!m.m_isRunning)
  RV_ASSERT (UMap.contains m.m_triggers (Name.mk triggerName))
  .ok { m with m_triggers := UMap.erase m.m_triggers (Name.mk triggerName) }

/-- The method `set_experiment_condition`. -/
def set_experiment_condition (m : ExperimentManager) (conditionName : String)
    (conditionValue : ConditionValue) : Except Failure ExperimentManager := do
  RV_ASSERT (UMap.contains m.m_conditionValues (Name.mk conditionName))
  .ok { m with
    m_conditionValues :=
      UMap.subscript_assign m.m_conditionValues (Name.mk conditionName) conditionValue,
    m_conditionChanged := true }

/-- The method `increment_experiment_condition`; the `s32` addition wraps around. -/
def increment_experiment_condition (m : ExperimentManager) (conditionName : String)
    (increment : Int) : Except Failure ExperimentManager :=
  match m.get_experiment_condition_value conditionName with
  | .kInteger integer =>
    m.set_experiment_condition conditionName (.kInteger (to_s32 (integer + increment)))
  | _ => .ok m

/-- The method `reset`. -/
def reset (m : ExperimentManager) : ExperimentManager :=
  let m1 :=
    if m.m_outputWriter.is_open then { m with m_outputWriter := m.m_outputWriter.close } else m
  let m2 :=
    if m1.m_enableAudioRecording && decide (m1.m_audioPort ≥ 0) then
      let m1a :=
        if m1.m_isAudioRecording then
          { m1 with m_isAudioRecording := false, m_audioThread_joinable := false }
        else m1
      { m1a with saved_audio_files := m1a.saved_audio_files ++ [m1a.m_audioFilePath],
                 m_audioPort := -1 }
    else m1
  { m2 with m_isRunning := false, m_isAudioRecording := false,
            m_lastHaltEvent := .kDummyEvent, m_currentParticipant := kInvalidParticipantNumber,
            m_fTotalTime := 0, m_conditionValues := [] }

/-- The method `end`. -/
def end_ (m : ExperimentManager) : ExperimentManager :=
  if m.m_isRunning then m.reset else m

/-- The method `abort`. -/
def abort (m : ExperimentManager) : ExperimentManager :=
  if m.m_isRunning then
    reset { m with m_outputWriter := m.m_outputWriter.insert .aborted }
  else m

end ExperimentManager

/-! ## ExperimentManager.cpp: the methods that reach the plug-ins -/

/-- The conversion `%02d` of `sprintf_s` applied to a `u32` argument. -/
def format_02d (n : Nat) : String :=
  if to_s32 n < 0 then "-" ++ pad_zeros 1 (to_s32 n).natAbs else pad_zeros 2 (to_s32 n).natAbs

namespace System

/-- The object a plug-in pointer points to; a pointer to no object is undefined behaviour. -/
def deref (s : System) (pPlugin : Nat) : Except Failure ExperimentPlugin :=
  match s.plugins[pPlugin]? with
  | some plugin => .ok plugin
  | none => .error .undefined_behaviour

/-- The method `register_plugin` (static). -/
def register_plugin (s : System) (pluginName : Name) (pPlugin : Nat) : System :=
  let available :=
    if !UMap.contains s.m_sAvailablePlugins pluginName then
      UMap.insert s.m_sAvailablePlugins pluginName pPlugin
    else
      UMap.assign s.m_sAvailablePlugins pluginName pPlugin
  { s with m_sAvailablePlugins := UMap.insert available pluginName pPlugin }

/-- The method `enable_plugin`: the returned pointer (`none` for `nullptr`) and the state. -/
def enable_plugin (s : System) (pluginName : Name) : Except Failure (Option Nat × System) := do
  RV_ASSERT (!s.manager.m_isRunning)
  match UMap.find s.m_sAvailablePlugins pluginName with
  | some pPlugin =>
    if !s.manager.m_activePlugins.contains pPlugin then
      .ok (some pPlugin, { s with manager := { s.manager with
        m_activePlugins := s.manager.m_activePlugins ++ [pPlugin] } })
    else
      .ok (some pPlugin, s)
  | none => .ok (none, s)

/-- The method `disable_plugin`: the returned pointer (`none` for `nullptr`) and the state. -/
def disable_plugin (s : System) (pluginName : Name) : Except Failure (Option Nat × System) := do
  RV_ASSERT (!s.manager.m_isRunning)
  match UMap.find s.m_sAvailablePlugins pluginName with
  | some pPlugin =>
    if s.manager.m_activePlugins.contains pPlugin then
      .ok (some pPlugin, { s with manager := { s.manager with
        m_activePlugins := s.manager.m_activePlugins.erase pPlugin } })
    else
      .ok (some pPlugin, s)
  | none => .ok (none, s)

/-- The value written for one data field by `record_experiment_state`. -/
def field_value (undefinedValue : String) (field : ExperimentPluginDataField) : String :=
  let ignoreOld := !field.is_always_up_to_date && field.older_than 0
  if ignoreOld || field.is_undefined then undefinedValue else field.get

/-- The names of the data fields of the active plug-ins, in the order `start` writes them. -/
def plugin_header_cells (s : System) : List Nat → Except Failure (List String)
  | [] => .ok []
  | pPlugin :: rest => do
    let plugin ← s.deref pPlugin
    let cells ← plugin_header_cells s rest
    .ok (plugin.get_data.map (fun field => field.1.get_message) ++ cells)

/-- The values of the data fields of the active plug-ins, in the order
`record_experiment_state` writes them. -/
def plugin_row_cells (s : System) : List Nat → Except Failure (List String)
  | [] => .ok []
  | pPlugin :: rest => do
    let plugin ← s.deref pPlugin
    let cells ← plugin_row_cells s rest
    .ok (plugin.get_data.map (fun field => field_value s.manager.m_undefinedValue field.2) ++ cells)

/-- The values that `record_experiment_state` inserts into the stream, in order. -/
def row_cells (s : System) : Except Failure (List String) := do
  let pluginCells ← plugin_row_cells s s.manager.m_activePlugins
  .ok ([to_string_u32 s.manager.m_currentParticipant, format_fixed 2 s.manager.m_fTotalTime] ++
    s.manager.m_conditionValues.map (fun conditionPair => conditionPair.2.operator_shl) ++
    pluginCells)

/-- The column names that `start` inserts into the stream, in order. -/
def header_cells (s : System) : Except Failure (List String) := do
  let pluginCells ← plugin_header_cells s s.manager.m_activePlugins
  .ok (["participant", "elapsedTime"] ++
    s.manager.m_conditionValues.map (fun conditionPair => conditionPair.1.get_message) ++
    pluginCells)

/-- The method `record_experiment_state`. -/
def record_experiment_state (s : System) : Except Failure System := do
  RV_ASSERT s.manager.m_isRunning
  let cells ← row_cells s
  .ok { s with manager := { s.manager with
    m_outputWriter := s.manager.m_outputWriter.insert (.row cells) } }

/-- The loop `for (auto plugin : m_activePlugins) plugin->reset();` of `start`. -/
def reset_plugins (s : System) : List Nat → Except Failure System
  | [] => .ok s
  | pPlugin :: rest => do
    let plugin ← s.deref pPlugin
    let plugin1 ← plugin.reset
    reset_plugins { s with plugins := s.plugins.set pPlugin plugin1 } rest

/-- The statement of `start` that opens the audio port when recording is enabled and the initial
user is known, and names the audio file when the port could be opened. -/
def open_audio_port (os : Platform) (stem : String) (m : ExperimentManager) : ExperimentManager :=
  if m.m_enableAudioRecording && decide (os.sceUserServiceGetInitialUser ≥ 0) then
    if os.sceAudioInOpen ≥ 0 then
      { m with m_audioPort := os.sceAudioInOpen, m_audioFilePath := stem ++ ".wav" }
    else
      { m with m_audioPort := os.sceAudioInOpen }
  else m

/-- The method `start`. -/
def start (os : Platform) (s : System) : Except Failure System := do
  RV_ASSERT (!s.manager.m_isRunning)
  RV_ASSERT (decide (s.manager.m_currentParticipant ≠ kInvalidParticipantNumber))
  let stem :=
    "Media/Config/participant_" ++ format_02d s.manager.m_currentParticipant ++ "_" ++ os.dateString
  let s1 := { s with manager := { s.manager with
    m_outputWriter := s.manager.m_outputWriter.open_ (stem ++ ".csv"),
    m_conditionValues := s.manager.m_conditionDefaults } }
  let s2 ← reset_plugins s1 s1.manager.m_activePlugins
  let cells ← header_cells s2
  let m3 := { s2.manager with m_outputWriter := s2.manager.m_outputWriter.insert (.header cells) }
  record_experiment_state
    { s2 with manager := { open_audio_port os stem m3 with m_isRunning := true } }

/-- The loop `for (auto plugin : m_activePlugins) writeRequest |= plugin->update(fDeltaTime);`
of `update`. -/
def update_plugins (vm : Vectormath) (g : GamePlay.GlobalGameState) (fDeltaTime : ℚ)
    (s : System) (writeRequest : Bool) : List Nat → Except Failure (Bool × System)
  | [] => .ok (writeRequest, s)
  | pPlugin :: rest => do
    let plugin ← s.deref pPlugin
    let (result, plugin1) ← plugin.update vm g fDeltaTime
    update_plugins vm g fDeltaTime { s with plugins := s.plugins.set pPlugin plugin1 }
      (writeRequest || result) rest

/-- The values returned by the calls `plugin->update(fDeltaTime)` of that loop, in order, and
the state after them. -/
def update_results (vm : Vectormath) (g : GamePlay.GlobalGameState) (fDeltaTime : ℚ)
    (s : System) : List Nat → Except Failure (List Bool × System)
  | [] => .ok ([], s)
  | pPlugin :: rest => do
    let plugin ← s.deref pPlugin
    let (result, plugin1) ← plugin.update vm g fDeltaTime
    let (results, s1) ←
      update_results vm g fDeltaTime { s with plugins := s.plugins.set pPlugin plugin1 } rest
    .ok (result :: results, s1)

/-- The statement `if (writeRequired) { record_experiment_state(); m_conditionChanged = false; }`
of `update`. -/
def record_if_required (s : System) (writeRequired : Bool) : Except Failure System :=
  if writeRequired then do
    let s1 ← record_experiment_state s
    .ok { s1 with manager := { s1.manager with m_conditionChanged := false } }
  else .ok s

/-- The statement `if (m_lastHaltEvent != kDummyEvent) { ... }` of `update`. -/
def halt_if_requested (s : System) (writeRequired : Bool) : Except Failure System :=
  if s.manager.m_lastHaltEvent ≠ .kDummyEvent then do
    let s1 ← (if !writeRequired then record_experiment_state s else .ok s)
    if s1.manager.m_lastHaltEvent = .kExperiment_End then
      .ok { s1 with manager := s1.manager.end_ }
    else if s1.manager.m_lastHaltEvent = .kExperiment_Abort then
      .ok { s1 with manager := s1.manager.abort }
    else .ok s1
  else .ok s

/-- The method `update`; the input controller it is given is not used. -/
def update (vm : Vectormath) (g : GamePlay.GlobalGameState) (fDeltaTime : ℚ) (s : System) :
    Except Failure System :=
  if s.manager.m_isRunning then do
    let s1 := { s with manager := { s.manager with
      m_fTotalTime := s.manager.m_fTotalTime + fDeltaTime } }
    let (writeRequest, s2) ← update_plugins vm g fDeltaTime s1 false s1.manager.m_activePlugins
    let writeRequired := s2.manager.m_conditionChanged || writeRequest
    let s3 ← record_if_required s2 writeRequired
    halt_if_requested s3 writeRequired
  else .ok s

/-- The method `trigger`. -/
def trigger (s : System) (triggerName : String) : Except Failure System := do
  RV_ASSERT (UMap.contains s.manager.m_triggers (Name.mk triggerName))
  match UMap.find s.manager.m_triggers (Name.mk triggerName) with
  | some trigger =>
    let blockName ← trigger.get_command_block s.manager.m_currentParticipant
    .ok { s with played_blocks := s.played_blocks ++ [blockName] }
  | none => .error .assertion

/-- The element `g_CI_experiment_args_bank[evt.uUserArg]`; an index past the end is undefined
behaviour. -/
def experiment_args (s : System) (evt : Event) : Except Failure ExperimentArgs :=
  match evt.uUserArg.as_index with
  | none => .error .undefined_behaviour
  | some i =>
    match s.g_CI_experiment_args_bank[i]? with
    | some arg => .ok arg
    | none => .error .undefined_behaviour

/-- The method `on_event` of the manager. -/
def on_event (os : Platform) (s : System) (evt : Event) : Except Failure System :=
  if s.manager.m_isRunning then do
    RV_ASSERT s.manager.m_outputWriter.good
    match evt.eventType with
    | .kExperiment_End =>
      .ok { s with manager := { s.manager with m_lastHaltEvent := .kExperiment_End } }
    | .kExperiment_Abort =>
      .ok { s with manager := { s.manager with m_lastHaltEvent := .kExperiment_Abort } }
    | .kExperiment_SetCondition => do
      let arg ← experiment_args s evt
      let m1 ← s.manager.set_experiment_condition arg.conditionHash.get_message arg.newValue
      .ok { s with manager := m1 }
    | .kExperiment_IncrementCondition => do
      let arg ← experiment_args s evt
      let m1 ← s.manager.increment_experiment_condition arg.conditionHash.get_message arg.increment
      .ok { s with manager := m1 }
    | .kExperiment_Trigger => trigger s evt.uUserArg.as_name.get_message
    | .kExperiment_StartAudioRecording =>
      if !s.manager.m_isAudioRecording && s.manager.m_enableAudioRecording
          && decide (s.manager.m_audioPort ≥ 0) then
        .ok { s with manager := { s.manager with
          m_isAudioRecording := true, m_audioThread_joinable := true } }
      else .ok s
    | .kExperiment_StopAudioRecording =>
      .ok { s with manager := { s.manager with m_isAudioRecording := false } }
    | _ => .ok s
  else if evt.eventType = .kExperiment_Start then
    start os s
  else .ok s

/-- The calls `plugin->on_event(evt)` that the event system makes on the active plug-ins. -/
def plugins_on_event (evt : Event) (s : System) : List Nat → Except Failure System
  | [] => .ok s
  | pPlugin :: rest => do
    let plugin ← s.deref pPlugin
    let plugin1 ← plugin.on_event s.manager.is_running evt
    plugins_on_event evt { s with plugins := s.plugins.set pPlugin plugin1 } rest

/-- Modelled from the spec: the event system is "an external pub/sub mechanism". An event sent on
the gameplay or the experiment channel reaches the observers registered there, which are the
manager (`init`) and the active plug-ins (`enable_plugin`), in the order of registration. -/
def dispatch (os : Platform) (s : System) (evt : Event) : Except Failure System := do
  let s1 ← on_event os s evt
  plugins_on_event evt s1 s1.manager.m_activePlugins

/-- The loop over the `conditions` array in `configure_from_json`. -/
def configure_conditions (m : ExperimentManager) :
    List Json.Condition → Except Failure ExperimentManager
  | [] => .ok m
  | condition :: rest => do
    let defaultValue :=
      match condition.value with
      | some jsonValue => ConditionValue.ofJson jsonValue
      | none => ConditionValue.default
    let m1 ← m.add_experiment_condition condition.name defaultValue
    configure_conditions m1 rest

/-- The loop over the `triggers` array in `configure_from_json`. -/
def configure_triggers (m : ExperimentManager) :
    List Json.Trigger → Except Failure ExperimentManager
  | [] => .ok m
  | trigger :: rest => do
    let currentTrigger : Trigger :=
      { Trigger.ofInterval trigger.participantRotateInterval with
        commands := trigger.commandBlocks.map Name.mk }
    let m1 ← m.add_experiment_trigger trigger.name currentTrigger
    configure_triggers m1 rest

/-- The names pushed onto `dis` by the `std::for_each` over the active plug-ins. -/
def active_plugin_names (s : System) : List Nat → Except Failure (List Name)
  | [] => .ok []
  | pPlugin :: rest => do
    let plugin ← s.deref pPlugin
    let names ← active_plugin_names s rest
    .ok (plugin.get_name :: names)

/-- The loop `for (auto it : dis) disable_plugin(it);`. -/
def disable_plugins (s : System) : List Name → Except Failure System
  | [] => .ok s
  | pluginName :: rest => do
    let (_, s1) ← disable_plugin s pluginName
    disable_plugins s1 rest

/-- The loop over the `plugins` array in `configure_from_json`. -/
def configure_plugins (s : System) : List Json.Plugin → Except Failure System
  | [] => .ok s
  | jsonPlugin :: rest => do
    let (pPlugin, s1) ← enable_plugin s (Name.mk jsonPlugin.name)
    match pPlugin with
    | some pointer =>
      let plugin ← s1.deref pointer
      let plugin1 ← plugin.configure_from_json jsonPlugin
      configure_plugins { s1 with plugins := s1.plugins.set pointer plugin1 } rest
    | none => configure_plugins s1 rest

/-- The method `configure_from_json`. The vector `dis` starts with as many default-constructed
names as there are active plug-ins, taken to be the sentinel name. -/
def configure_from_json (s : System) (jsonData : Json.Experiment) : Except Failure System := do
  RV_ASSERT (!s.manager.m_isRunning)
  let m1 := { s.manager with
    m_undefinedValue := jsonData.undefinedValue.getD "NA", m_conditionDefaults := [] }
  let m2 ← configure_conditions m1 (jsonData.conditions.getD [])
  let m3 ← configure_triggers { m2 with m_triggers := [] } (jsonData.triggers.getD [])
  let s3 := { s with manager := m3 }
  let names ← active_plugin_names s3 s3.manager.m_activePlugins
  let dis := List.replicate s3.manager.m_activePlugins.length Name.kInvalidHash ++ names
  let s4 ← disable_plugins s3 dis
  let s5 ← configure_plugins s4 (jsonData.plugins.getD [])
  .ok { s5 with manager := { s5.manager with
    m_enableAudioRecording := jsonData.enableAudioRecording.getD false } }

/-- The method `init`, up to the registration with the event system. -/
def init (s : System) : System :=
  { s with manager := s.manager.reset }

/-- The state after static initialisation and the construction of the manager: the seven global
plug-in objects in the order of `ExperimentPlugins.h`, each registered under its name by
`initialise()`. The arguments are the values of the members no constructor initialises. -/
def new (enableAudioRecording : Bool) (audioPort : Int) (onlyInventory : Bool) :
    Except Failure System := do
  let controller ← PluginController.new
  let hmd ← PluginHMD.new
  let locomotion ← PluginLocomotion.new
  let activity ← PluginActivity.new
  let voice ← PluginVoice.new
  let hands ← PluginHands.new
  let collectionCounter ← PluginCollectionCounter.new onlyInventory
  let plugins := [controller, hmd, locomotion, activity, voice, hands, collectionCounter]
  let s0 : System :=
    { manager := ExperimentManager.new enableAudioRecording audioPort, plugins := plugins,
      m_sAvailablePlugins := [], g_CI_experiment_args_bank := [], played_blocks := [] }
  .ok ((List.range plugins.length).foldl
    (fun s pPlugin => s.register_plugin ((plugins.getD pPlugin controller).get_name) pPlugin) s0)

/-! ## Sessions -/

/-- What can happen to the manager between `start()` and the end of a session: a frame update, a
direct call of a condition method, a trigger, or an event sent on the bus. -/
inductive Op where
  | update (fDeltaTime : ℚ) (g : GamePlay.GlobalGameState)
  | set_experiment_condition (conditionName : String) (conditionValue : ConditionValue)
  | increment_experiment_condition (conditionName : String) (increment : Int)
  | trigger (triggerName : String)
  | dispatch (evt : Event)
  deriving DecidableEq, Repr

/-- The effect of one operation. -/
def step (vm : Vectormath) (os : Platform) (s : System) : Op → Except Failure System
  | .update fDeltaTime g => update vm g fDeltaTime s
  | .set_experiment_condition conditionName conditionValue => do
    let m1 ← s.manager.set_experiment_condition conditionName conditionValue
    .ok { s with manager := m1 }
  | .increment_experiment_condition conditionName increment => do
    let m1 ← s.manager.increment_experiment_condition conditionName increment
    .ok { s with manager := m1 }
  | .trigger triggerName => trigger s triggerName
  | .dispatch evt => dispatch os s evt

/-- The effect of a sequence of operations; a failure ends it. -/
def run (vm : Vectormath) (os : Platform) (s : System) : List Op → Except Failure System
  | [] => .ok s
  | op :: rest => do
    let s1 ← step vm os s op
    run vm os s1 rest

/-- The number of data fields of the plug-ins behind the given pointers. -/
def count_fields (s : System) : List Nat → Nat
  | [] => 0
  | pPlugin :: rest =>
    (match s.plugins[pPlugin]? with
      | some plugin => plugin.get_data.length
      | none => 0) + count_fields s rest

/-- The names of the data fields of every plug-in object, by pointer. -/
def field_names (s : System) : List (List Name) :=
  s.plugins.map (fun plugin => plugin.m_data.map Prod.fst)

/-- The lines `written` start with a header of `k` column names, and every data row among them
has `k` values. -/
def written_ok (k : Nat) (written : List Line) : Prop :=
  ∃ headerCells rest, written = Line.header headerCells :: rest ∧ headerCells.length = k ∧
    ∀ cells, Line.row cells ∈ rest → cells.length = k

/-- The invariant of the states from `start()` on, for the configuration the session was started
with: the active plug-ins, the data fields of the plug-in objects and the number of registered
conditions stay what they were; the lines written are a header and rows of the same width; while
running the stream is open and good and the live map has as many entries as there are registered
conditions; between sessions the stream is closed. -/
structure session_invariant (active : List Nat) (fields : List (List Name)) (conditions : Nat)
    (s : System) : Prop where
  activePlugins : s.manager.m_activePlugins = active
  fieldNames : s.field_names = fields
  defaults : s.manager.m_conditionDefaults.length = conditions
  written : written_ok (2 + conditions + count_fields s active) s.manager.m_outputWriter.written
  running : s.manager.m_isRunning = true →
    s.manager.m_outputWriter.is_open = true ∧ s.manager.m_outputWriter.good = true ∧
      s.manager.m_conditionValues.length = conditions
  stopped : s.manager.m_isRunning = false → s.manager.m_outputWriter.is_open = false

/-- A call of a public member function of the manager, or an event sent on the bus; `session`
stands for the calls that `Op` lists. -/
inductive Call where
  | init
  | configure_from_json (jsonData : Json.Experiment)
  | set_participant (number : Nat)
  | add_experiment_condition (conditionName : String) (defaultValue : ConditionValue)
  | remove_experiment_condition (conditionName : String)
  | add_experiment_trigger (triggerName : String) (trigger : Trigger)
  | remove_experiment_trigger (triggerName : String)
  | register_plugin (pluginName : Name) (pPlugin : Nat)
  | enable_plugin (pluginName : Name)
  | disable_plugin (pluginName : Name)
  | start
  | record_experiment_state
  | end_
  | abort
  | reset
  | session (op : Op)
  deriving DecidableEq, Repr

/-- The effect of one call. -/
def call (vm : Vectormath) (os : Platform) (s : System) : Call → Except Failure System
  | .init => .ok s.init
  | .configure_from_json jsonData => configure_from_json s jsonData
  | .set_participant number => do
    let m1 ← s.manager.set_participant number
    .ok { s with manager := m1 }
  | .add_experiment_condition conditionName defaultValue => do
    let m1 ← s.manager.add_experiment_condition conditionName defaultValue
    .ok { s with manager := m1 }
  | .remove_experiment_condition conditionName => do
    let m1 ← s.manager.remove_experiment_condition conditionName
    .ok { s with manager := m1 }
  | .add_experiment_trigger triggerName trigger => do
    let m1 ← s.manager.add_experiment_trigger triggerName trigger
    .ok { s with manager := m1 }
  | .remove_experiment_trigger triggerName => do
    let m1 ← s.manager.remove_experiment_trigger triggerName
    .ok { s with manager := m1 }
  | .register_plugin pluginName pPlugin => .ok (s.register_plugin pluginName pPlugin)
  | .enable_plugin pluginName => do
    let r ← enable_plugin s pluginName
    .ok r.2
  | .disable_plugin pluginName => do
    let r ← disable_plugin s pluginName
    .ok r.2
  | .start => start os s
  | .record_experiment_state => record_experiment_state s
  | .end_ => .ok { s with manager := s.manager.end_ }
  | .abort => .ok { s with manager := s.manager.abort }
  | .reset => .ok { s with manager := s.manager.reset }
  | .session op => step vm os s op

/-- The effect of a sequence of calls; a failure ends it. -/
def calls (vm : Vectormath) (os : Platform) (s : System) : List Call → Except Failure System
  | [] => .ok s
  | c :: rest => do
    let s1 ← call vm os s c
    calls vm os s1 rest

/-- The invariant of the manager under all calls: a running manager has a participant, and no
plug-in is active twice. -/
def consistent (s : System) : Prop :=
  (s.manager.m_isRunning = true → s.manager.m_currentParticipant ≠ kInvalidParticipantNumber) ∧
    s.manager.m_activePlugins.Nodup

/-- What an operation of `Op` keeps of the manager `m` in the manager `t` it leaves: the default
map and the active plug-ins; and when it leaves the manager running, the participant, and either
the keys of the live map of the session that was running, or, when it started the session, the
keys of the default map. -/
def session_step (m t : ExperimentManager) : Prop :=
  t.m_conditionDefaults = m.m_conditionDefaults ∧ t.m_activePlugins = m.m_activePlugins ∧
    (t.m_isRunning = true → t.m_currentParticipant = m.m_currentParticipant ∧
      ((m.m_isRunning = true ∧
          UMap.keys t.m_conditionValues = UMap.keys m.m_conditionValues) ∨
        (m.m_isRunning = false ∧ m.m_currentParticipant ≠ kInvalidParticipantNumber ∧
          t.m_conditionValues = m.m_conditionDefaults)))

end System

/-! ## Sample values -/

namespace Sample

/-- A `Vectormath` in which every distance is zero. -/
def vm : Vectormath :=
  { dist_translation := fun _ _ => 0, dist_gaze := fun _ _ => 0 }

/-- A game state with the player at the identity pose and an empty world graph. -/
def game : GamePlay.GlobalGameState :=
  { camera_track_matrix := m4.identity, controller_track_matrix := m4.identity, world_graph := [] }

/-- A platform on which no audio port can be opened. -/
def os : Platform :=
  { dateString := "Monday_01-01-2024_10-00-00", sceUserServiceGetInitialUser := 0,
    sceAudioInOpen := -1 }

/-- An event of the given type without payload. -/
def event (eventType : ERevealEventTypes) : Event :=
  { eventType := eventType, uUserArg := .number 0, fUserArg := 0, userPtr := .null }

/-- The Voice plug-in, not recording, its field set to `FALSE` in an earlier frame, with the given
events queued. -/
def voice (queue : List Event) : ExperimentPlugin :=
  { m_data := [(Name.mk "voiceRecording", { data := "FALSE", fAge := 1, bAlwaysUpToDate := true })],
    m_eventQueue := queue, members := .Voice false, played_blocks := [] }

/-- A running session of participant 7 with one condition `group` (default 5) and the Voice
plug-in active, after the header and the first row were written; the live value of `group`, the
condition-changed flag, the pending halt and the queue of the plug-in are the arguments. -/
def session (group : Int) (changed : Bool) (halt : ERevealEventTypes) (queue : List Event) :
    System :=
  { manager :=
      { ExperimentManager.new false 0 with
        m_isRunning := true, m_currentParticipant := 7, m_fTotalTime := 1,
        m_lastHaltEvent := halt,
        m_conditionDefaults := [(Name.mk "group", .kInteger 5)],
        m_conditionValues := [(Name.mk "group", .kInteger group)],
        m_activePlugins := [0], m_conditionChanged := changed, m_undefinedValue := "NA",
        m_outputWriter :=
          { is_open := true, good := true,
            path := "Media/Config/participant_07_Monday_01-01-2024_10-00-00.csv",
            written := [.header ["participant", "elapsedTime", "group", "voiceRecording"],
              .row ["7", "0.00", "5", "FALSE"]] } },
    plugins := [voice queue],
    m_sAvailablePlugins := [(Name.mk "voice", 0)],
    g_CI_experiment_args_bank := [],
    played_blocks := [] }

/-- The state of `session` at the start of an update of half a second: the time advanced. -/
def session_at_update (group : Int) (changed : Bool) (halt : ERevealEventTypes)
    (queue : List Event) : System :=
  { session group changed halt queue with manager :=
      { (session group changed halt queue).manager with
        m_fTotalTime := (session group changed halt queue).manager.m_fTotalTime + 1 / 2 } }

/-- The state of `session` after the plug-ins were updated in an update of half a second. -/
def session_plugins_updated (group : Int) (changed : Bool) (halt : ERevealEventTypes)
    (queue : List Event) : System :=
  match System.update_results vm game (1 / 2) (session_at_update group changed halt queue) [0] with
  | .ok r => r.2
  | .error _ => session group changed halt queue

/-- A configured manager between sessions: participant 7 is set, the condition `group` is
registered with default 5 and the Voice plug-in is active. -/
def between_sessions : System :=
  { manager :=
      { ExperimentManager.new false 0 with
        m_currentParticipant := 7,
        m_conditionDefaults := [(Name.mk "group", .kInteger 5)],
        m_activePlugins := [0], m_undefinedValue := "NA" },
    plugins := [voice []],
    m_sAvailablePlugins := [(Name.mk "voice", 0)],
    g_CI_experiment_args_bank := [],
    played_blocks := [] }

/-- The session started from `between_sessions`. -/
def started : System :=
  match System.start os between_sessions with
  | .ok t => t
  | .error _ => between_sessions

/-- A session: recording starts, a frame, the condition is set, a frame without news, a frame
after an abort event. -/
def ops : List System.Op :=
  [.dispatch (event .kExperiment_StartAudioRecording), .update (1 / 2) game,
   .set_experiment_condition "group" (.kInteger 6), .update (1 / 2) game, .update (1 / 2) game,
   .dispatch (event .kExperiment_Abort), .update (1 / 2) game]

/-- The state after the operations `ops` on `started`. -/
def finished : System :=
  match System.run vm os started ops with
  | .ok t => t
  | .error _ => started

/-- A configuration: the conditions `group` (default 5), `side` (default `left`) and `note`
(no default), and the Voice plug-in. -/
def configuration : Json.Experiment :=
  { undefinedValue := none
    conditions := some
      [{ name := "group", value := some (.kNumberType 5) },
       { name := "side", value := some (.kStringType "left") },
       { name := "note", value := none }]
    triggers := none
    plugins := some
      [{ name := "voice", recordMovementFlag := none, autoMarkerIntervalSeconds := none,
         recordIntervalSeconds := none, autoStart := none, commandBlocks := none,
         onlyInventoryItems := none }]
    enableAudioRecording := none }

/-- The state after `between_sessions` was configured with `configuration`. -/
def configured : System :=
  match System.configure_from_json between_sessions configuration with
  | .ok t => t
  | .error _ => between_sessions

/-- The state after `set_participant(7)` on `configured`. -/
def configured_for_participant : System :=
  match configured.manager.set_participant 7 with
  | .ok m => { configured with manager := m }
  | .error _ => configured

/-- The session started from `configured_for_participant`. -/
def round_trip : System :=
  match System.start os configured_for_participant with
  | .ok t => t
  | .error _ => configured_for_participant

/-- The state after `init()` on a manager whose uninitialised members happened to hold `true`
and port 3; the Voice plug-in is registered and no plug-in is active. -/
def initial : System :=
  System.init
    { manager := ExperimentManager.new true 3
      plugins := [voice []]
      m_sAvailablePlugins := [(Name.mk "voice", 0)]
      g_CI_experiment_args_bank := []
      played_blocks := [] }

/-- Operations of a session that goes on: recording starts, a frame, the condition is set and
incremented, a frame. -/
def session_ops : List System.Op :=
  [.dispatch (event .kExperiment_StartAudioRecording), .update (1 / 2) game,
   .set_experiment_condition "group" (.kInteger 6), .increment_experiment_condition "group" 2,
   .update (1 / 2) game]

/-- The state after the operations `session_ops` on `started`. -/
def in_session : System :=
  match System.run vm os started session_ops with
  | .ok t => t
  | .error _ => started

/-- The state after construction: the uninitialised members of the manager happen to hold
`true` and port 3; the Voice plug-in is registered and no plug-in is active. -/
def constructed : System :=
  { manager := ExperimentManager.new true 3
    plugins := [voice []]
    m_sAvailablePlugins := [(Name.mk "voice", 0)]
    g_CI_experiment_args_bank := []
    played_blocks := [] }

/-- Calls that configure the manager, start a session for participant 7 and update it once. -/
def session_calls : List System.Call :=
  [.configure_from_json configuration, .set_participant 7, .start,
   .session (.update (1 / 2) game)]

/-- The state after `init()` and the calls `session_calls` on `constructed`. -/
def after_session_calls : System :=
  match System.calls vm os constructed.init session_calls with
  | .ok t => t
  | .error _ => constructed

/-- Calls that enable the Voice plug-in twice, disable it twice and enable it again. -/
def plugin_calls : List System.Call :=
  [.enable_plugin (Name.mk "voice"), .enable_plugin (Name.mk "voice"),
   .disable_plugin (Name.mk "voice"), .disable_plugin (Name.mk "voice"),
   .enable_plugin (Name.mk "voice")]

/-- The state after the calls `plugin_calls` on `constructed`. -/
def after_plugin_calls : System :=
  match System.calls vm os constructed plugin_calls with
  | .ok t => t
  | .error _ => constructed

/-- The event that announces a direct jump to the node of the given name. -/
def direct_jump (nodeName : String) : Event :=
  { eventType := .kGamePlay_PerformDirectJump, uUserArg := .hash (Name.mk nodeName),
    fUserArg := 0, userPtr := .null }

/-- The analytics event of a teleport over the given distance. -/
def teleport (distance : ℚ) : Event :=
  { eventType := .kAnalytics_Teleport, uUserArg := .number 0, fUserArg := 0,
    userPtr := .TeleportArgs distance }

/-- The analytics event of a node reached after the given distance. -/
def node_reached (nodeName : String) (distance : ℚ) : Event :=
  { eventType := .kAnalytics_NodeReached, uUserArg := .number 0, fUserArg := 0,
    userPtr := .NodeReachedArgs (Name.mk nodeName) distance }

/-- The Locomotion plug-in with the given fields and the given events queued. -/
def locomotion (node distance : ExperimentPluginDataField) (queue : List Event) :
    ExperimentPlugin :=
  { m_data := [(Name.mk "locomotionNode", node), (Name.mk "locomotionDistance", distance)],
    m_eventQueue := queue, members := .Locomotion, played_blocks := [] }

/-- A running session of participant 7 without conditions and with the Locomotion plug-in
active, its fields undefined, after the header and the first row were written. -/
def locomotion_session : System :=
  { manager :=
      { ExperimentManager.new false 0 with
        m_isRunning := true, m_currentParticipant := 7, m_fTotalTime := 1,
        m_activePlugins := [0], m_undefinedValue := "NA",
        m_outputWriter :=
          { is_open := true, good := true,
            path := "Media/Config/participant_07_Monday_01-01-2024_10-00-00.csv",
            written := [.header ["participant", "elapsedTime", "locomotionNode",
                "locomotionDistance"],
              .row ["7", "0.00", "NA", "NA"]] } },
    plugins := [locomotion (ExperimentPluginDataField.ofFlag true)
      (ExperimentPluginDataField.ofFlag false) []],
    m_sAvailablePlugins := [(Name.mk "locomotion", 0)],
    g_CI_experiment_args_bank := [],
    played_blocks := [] }

/-- The HMD plug-in after the constructor, the configuration with a recording interval of 1/25 s
and automatic start, and a reset: it is recording, its sixteen fields are undefined at age 0. -/
def hmd : ExperimentPlugin :=
  match (do
    let p0 ← PluginHMD.new
    let p1 ← p0.configure_from_json
      { name := "HMD", recordMovementFlag := none, autoMarkerIntervalSeconds := none,
        recordIntervalSeconds := some (1 / 25), autoStart := some true, commandBlocks := none,
        onlyInventoryItems := none }
    p1.reset) with
  | .ok p => p
  | .error _ =>
    { m_data := [], m_eventQueue := [], members := .HMD PluginHMD.Members.new, played_blocks := [] }

end Sample

end Experiment

end rv

/-! # Theorems -/

namespace rv

namespace Experiment

open Utilities (Name)

open Events (ERevealEventTypes Event UserArg UserPtr)

/-- C6. After `set(x)` a data field holds `x` with age zero, whatever it held before; and when `x`
is not the undefined sentinel the field is neither undefined nor "undefined or old". -/
theorem data_field_set_is_fresh (f : ExperimentPluginDataField) (x : String) :
    (f.set x).get = x ∧ (f.set x).get_age = 0 ∧
      (x ≠ ExperimentPluginDataField.kUndefinedValue →
        (f.set x).is_undefined = false ∧ (f.set x).is_undefined_or_old = false) := by
  refine ⟨rfl, rfl, fun hx => ?_⟩
  have hdef : (f.set x).is_undefined = false := by
    simp [ExperimentPluginDataField.is_undefined, ExperimentPluginDataField.set, hx]
  refine ⟨hdef, ?_⟩
  unfold ExperimentPluginDataField.is_undefined_or_old
  rw [hdef]
  simp [ExperimentPluginDataField.older_than, ExperimentPluginDataField.get_age,
    ExperimentPluginDataField.set]

/-- Witness of C6: an old, undefined, not always-current field set to `"TRUE"`. -/
theorem data_field_set_is_fresh_witness :
    ((ExperimentPluginDataField.mk "" 5 false).set "TRUE").get = "TRUE" ∧
      ((ExperimentPluginDataField.mk "" 5 false).set "TRUE").get_age = 0 ∧
      ((ExperimentPluginDataField.mk "" 5 false).set "TRUE").is_undefined = false ∧
      ((ExperimentPluginDataField.mk "" 5 false).set "TRUE").is_undefined_or_old = false :=
  have h := data_field_set_is_fresh (ExperimentPluginDataField.mk "" 5 false) "TRUE"
  ⟨h.1, h.2.1, h.2.2 (by decide)⟩

/-- C7. For every interval given to the constructor and every command list and participant,
`get_command_block` returns: the stored interval is `max r 1`, never zero; with no commands the
result is the sentinel name; otherwise the index `(p / max r 1) mod len` is in range and the
result is the command at that index. -/
theorem trigger_get_command_block_total (r : Nat) (commands : List Name) (p : Nat) :
    (Trigger.ofInterval r).participantRotateInterval = max r 1 ∧
      (Trigger.ofInterval r).participantRotateInterval ≠ 0 ∧
      (commands = [] →
        Trigger.get_command_block { Trigger.ofInterval r with commands := commands } p =
          .ok Name.kInvalidHash) ∧
      (commands ≠ [] →
        (p / max r 1) % commands.length < commands.length ∧
        ∃ block, commands[(p / max r 1) % commands.length]? = some block ∧
          Trigger.get_command_block { Trigger.ofInterval r with commands := commands } p =
            .ok block) := by
  have hmax : (if r > 0 then r else 1) = max r 1 := by
    split_ifs with h
    · omega
    · omega
  refine ⟨by simp [Trigger.ofInterval, hmax], by simp [Trigger.ofInterval, hmax], ?_, ?_⟩
  · intro h
    subst h
    simp [Trigger.get_command_block]
  · intro h
    have hlen : 0 < commands.length := List.length_pos.mpr h
    have hidx : (p / max r 1) % commands.length < commands.length := Nat.mod_lt _ hlen
    refine ⟨hidx, commands[(p / max r 1) % commands.length], List.getElem?_eq_getElem hidx, ?_⟩
    have hne : max r 1 ≠ 0 := by omega
    simp [Trigger.get_command_block, Trigger.ofInterval, hmax, hlen, hne,
      List.getElem?_eq_getElem hidx]

/-- Helper: on an integer inside the `u32` range the conversion is the identity. -/
theorem to_u32_of_range (z : Int) (h0 : 0 ≤ z) (h1 : z < 4294967296) : (to_u32 z : Int) = z := by
  unfold to_u32
  rw [Int.emod_eq_of_lt h0 h1]
  exact Int.toNat_of_nonneg h0

/-- Helper: the index that `get_command_block` computes is periodic with period `r * n`. -/
theorem rotate_index_periodic (r n p q : Nat) (k : Int) (hr : 1 ≤ r)
    (hq : (q : Int) = (p : Int) + (r : Int) * k * (n : Int)) : (q / r) % n = (p / r) % n := by
  have hr0 : (r : Int) ≠ 0 := by omega
  have h1 : ((q / r : Nat) : Int) = ((p / r : Nat) : Int) + k * n := by
    rw [Int.natCast_div, Int.natCast_div, hq]
    have : (p : Int) + (r : Int) * k * (n : Int) = (p : Int) + (r : Int) * (k * n) := by ring
    rw [this, Int.add_mul_ediv_left _ _ hr0]
  have h2 : (((q / r) % n : Nat) : Int) = (((p / r) % n : Nat) : Int) := by
    rw [Int.natCast_mod, Int.natCast_mod, h1, Int.add_mul_emod_self]
  exact_mod_cast h2

/-- C8 as stated fails at the wrap-around of `u32`: with interval 1, three command blocks and
participant `2^32 - 2`, adding `1 * 1 * 3` gives participant number 1 after the reduction modulo
`2^32`, and the two participants get different blocks. -/
theorem trigger_period_wraps_counterexample :
    Trigger.get_command_block
        { Trigger.ofInterval 1 with commands := [Name.mk "A", Name.mk "B", Name.mk "C"] }
        4294967294 = .ok (Name.mk "C") ∧
      Trigger.get_command_block
        { Trigger.ofInterval 1 with commands := [Name.mk "A", Name.mk "B", Name.mk "C"] }
        (to_u32 ((4294967294 : Int) + 1 * 1 * 3)) = .ok (Name.mk "B") ∧
      Trigger.get_command_block
        { Trigger.ofInterval 1 with commands := [Name.mk "A", Name.mk "B", Name.mk "C"] }
        4294967294 ≠
      Trigger.get_command_block
        { Trigger.ofInterval 1 with commands := [Name.mk "A", Name.mk "B", Name.mk "C"] }
        (to_u32 ((4294967294 : Int) + 1 * 1 * 3)) := by
  decide

/-- C8, amended. Trigger selection is periodic as long as no wrap-around occurs: for interval
`r >= 1`, a non-empty command list of length `n`, a participant `p` and an integer `k` such that
`p + r*k*n` is again a `u32` value, both participants get the same command block. -/
theorem trigger_selection_periodic (r : Nat) (commands : List Name) (p : Nat) (k : Int)
    (hr : 1 ≤ r) (_hn : 1 ≤ commands.length) (_hp : p < 4294967296)
    (hlo : 0 ≤ (p : Int) + (r : Int) * k * (commands.length : Int))
    (hhi : (p : Int) + (r : Int) * k * (commands.length : Int) < 4294967296) :
    Trigger.get_command_block { Trigger.ofInterval r with commands := commands }
        (to_u32 ((p : Int) + (r : Int) * k * (commands.length : Int))) =
      Trigger.get_command_block { Trigger.ofInterval r with commands := commands } p := by
  have hq := to_u32_of_range _ hlo hhi
  have hidx := rotate_index_periodic r commands.length p _ k hr hq
  have hr' : (if r > 0 then r else 1) = r := by
    split_ifs with h
    · rfl
    · omega
  simp only [Trigger.get_command_block, Trigger.ofInterval, hr', hidx]

/-- Witness of the amended C8: interval 2, three blocks, participant 7 and `k = -1`. -/
theorem trigger_selection_periodic_witness :
    Trigger.get_command_block
        { Trigger.ofInterval 2 with commands := [Name.mk "A", Name.mk "B", Name.mk "C"] }
        (to_u32 ((7 : Nat) + ((2 : Nat) : Int) * (-1) *
          (([Name.mk "A", Name.mk "B", Name.mk "C"] : List Name).length : Int))) =
      Trigger.get_command_block
        { Trigger.ofInterval 2 with commands := [Name.mk "A", Name.mk "B", Name.mk "C"] } 7 :=
  trigger_selection_periodic 2 [Name.mk "A", Name.mk "B", Name.mk "C"] 7 (-1)
    (by decide) (by decide) (by decide) (by decide) (by decide)

/-- C10. `get_experiment_condition_value` is a total function of the manager state (the method is
`const`: it returns a value and the state is not touched): for a name that is a key of the live
map it returns the live value, for every other name the invalid value, whose type is
`kInvalid`. -/
theorem get_experiment_condition_value_total (m : ExperimentManager) (conditionName : String) :
    (UMap.contains m.m_conditionValues (Name.mk conditionName) = true →
        UMap.find m.m_conditionValues (Name.mk conditionName) =
          some (m.get_experiment_condition_value conditionName)) ∧
      (UMap.contains m.m_conditionValues (Name.mk conditionName) = false →
        m.get_experiment_condition_value conditionName = ConditionValue.kInvalid ∧
        (m.get_experiment_condition_value conditionName).type = ConditionValue.Type_.kInvalid) := by
  unfold UMap.contains ExperimentManager.get_experiment_condition_value
  cases h : UMap.find m.m_conditionValues (Name.mk conditionName) with
  | none => simp [ConditionValue.default, ConditionValue.type]
  | some value => simp

/-- Witness of C10: a live map with the single key `group`, probed with `group` and with
`other`. -/
theorem get_experiment_condition_value_total_witness :
    UMap.find
        ({ ExperimentManager.new false 0 with
            m_conditionValues := [(Name.mk "group", ConditionValue.kInteger 5)] }).m_conditionValues
        (Name.mk "group") =
      some (({ ExperimentManager.new false 0 with
            m_conditionValues := [(Name.mk "group", ConditionValue.kInteger 5)] }
          ).get_experiment_condition_value "group") ∧
      ({ ExperimentManager.new false 0 with
          m_conditionValues := [(Name.mk "group", ConditionValue.kInteger 5)] }
        ).get_experiment_condition_value "other" = ConditionValue.kInvalid :=
  ⟨(get_experiment_condition_value_total _ "group").1 (by decide),
   ((get_experiment_condition_value_total
      { ExperimentManager.new false 0 with
        m_conditionValues := [(Name.mk "group", ConditionValue.kInteger 5)] } "other").2
      (by decide)).1⟩
/-! ## Helper lemmas: failure monad and maps -/

/-- Helper: a sequenced computation returns exactly when both parts return. -/
theorem bind_eq_ok {α β : Type} (e : Except Failure α) (f : α → Except Failure β) (y : β) :
    (e >>= f) = .ok y ↔ ∃ x, e = .ok x ∧ f x = .ok y := by
  cases e with
  | error err => simp [bind, Except.bind]
  | ok x => simp [bind, Except.bind]

/-- Helper: an assertion returns exactly when its condition holds. -/
theorem RV_ASSERT_eq_ok (c : Bool) (u : Unit) : RV_ASSERT c = .ok u ↔ c = true := by
  cases c <;> simp [RV_ASSERT]

theorem ensures_ok {α : Type} (x : α) (P : α → Prop) :
    ensures (Except.ok x : Except Failure α) P ↔ P x := by
  simp [ensures]

theorem ensures_error {α : Type} (err : Failure) (P : α → Prop) :
    ensures (Except.error err : Except Failure α) P ↔ True := by
  simp [ensures]

theorem ensures_bind {α β : Type} (e : Except Failure α) (f : α → Except Failure β)
    (P : β → Prop) : ensures (e >>= f) P ↔ ensures e (fun x => ensures (f x) P) := by
  cases e with
  | error err => simp [ensures, bind, Except.bind]
  | ok x => simp [ensures, bind, Except.bind]

theorem ensures_ite {α : Type} (c : Prop) [Decidable c] (a b : Except Failure α) (P : α → Prop) :
    ensures (if c then a else b) P ↔ (c → ensures a P) ∧ (¬c → ensures b P) := by
  split_ifs with h <;> simp [h]

theorem ensures_mono {α : Type} {e : Except Failure α} {P Q : α → Prop} (h : ensures e P)
    (hPQ : ∀ x, P x → Q x) : ensures e Q :=
  fun x hx => hPQ x (h x hx)

theorem ensures_RV_ASSERT (c : Bool) (P : Unit → Prop) :
    ensures (RV_ASSERT c) P ↔ (c = true → P ()) := by
  cases c
  · simp [RV_ASSERT, ensures]
  · simp only [RV_ASSERT, ensures, if_true, Except.ok.injEq, forall_const]
    exact ⟨fun h => h (), fun h _ => h⟩

/-- Helper: the rule of sequencing, with an intermediate assertion `R`. -/
theorem ensures_bind_of {α β : Type} {e : Except Failure α} {f : α → Except Failure β}
    {P : β → Prop} (R : α → Prop) (h1 : ensures e R) (h2 : ∀ x, R x → ensures (f x) P) :
    ensures (e >>= f) P := by
  rw [ensures_bind]
  exact fun x hx => h2 x (h1 x hx)

/-- Helper: assignment at a key keeps the keys. -/
theorem UMap.assign_keys {V : Type} (m : List (Name × V)) (k : Name) (v : V) :
    (UMap.assign m k v).map Prod.fst = m.map Prod.fst := by
  induction m with
  | nil => rfl
  | cons kv rest ih =>
    simp only [UMap.assign, List.map_cons] at ih ⊢
    rw [ih]
    split_ifs <;> rfl

/-- Helper: assignment at a key keeps the number of entries. -/
theorem UMap.assign_length {V : Type} (m : List (Name × V)) (k : Name) (v : V) :
    (UMap.assign m k v).length = m.length := by
  simp [UMap.assign]

/-! ## Helper lemmas: the plug-ins keep their data fields -/

namespace ExperimentPlugin

theorem same_fields_refl (p : ExperimentPlugin) : p.same_fields p := rfl

theorem same_fields_trans {p q r : ExperimentPlugin} (h1 : p.same_fields q)
    (h2 : q.same_fields r) : p.same_fields r := by
  unfold same_fields at *
  rw [h2, h1]

theorem ensures_data_modify (p : ExperimentPlugin) (headerName : String)
    (f : ExperimentPluginDataField → ExperimentPluginDataField) (P : ExperimentPlugin → Prop) :
    ensures (p.data_modify headerName f) P ↔
      ∀ field, UMap.find p.m_data (Name.mk headerName) = some field →
        P { p with m_data := UMap.assign p.m_data (Name.mk headerName) (f field) } := by
  unfold data_modify
  cases UMap.find p.m_data (Name.mk headerName) <;> simp [ensures]

theorem ensures_data (p : ExperimentPlugin) (headerName : String)
    (P : ExperimentPluginDataField → Prop) :
    ensures (p.data headerName) P ↔
      ∀ field, UMap.find p.m_data (Name.mk headerName) = some field → P field := by
  unfold data
  cases UMap.find p.m_data (Name.mk headerName) <;> simp [ensures]

end ExperimentPlugin

theorem PluginVoice.voice_event_same_fields (p : ExperimentPlugin) (b : Bool) (evt : Event) :
    ensures (PluginVoice.handle_event p b evt) (fun q => p.same_fields q) := by
  unfold PluginVoice.handle_event
  split <;>
  simp [ensures_ok, ensures_bind, ensures_ite, ExperimentPlugin.data_set,
    ExperimentPlugin.ensures_data_modify, ExperimentPlugin.same_fields, UMap.assign_keys]

theorem PluginController.controller_event_same_fields (p : ExperimentPlugin) (evt : Event) :
    ensures (PluginController.handle_event p evt) (fun q => p.same_fields q) := by
  unfold PluginController.handle_event
  split <;>
  simp [ensures_ok, ensures_bind, ensures_ite, ExperimentPlugin.data_set,
    ExperimentPlugin.data_reset, ExperimentPlugin.ensures_data,
    ExperimentPlugin.ensures_data_modify, ExperimentPlugin.same_fields, UMap.assign_keys]

namespace ExperimentPlugin

theorem data_reset_all_same_fields (headers : List String) :
    ∀ p : ExperimentPlugin, ensures (p.data_reset_all headers) (fun q => p.same_fields q) := by
  induction headers with
  | nil =>
    intro p
    simp [data_reset_all, ensures_ok, same_fields]
  | cons header rest ih =>
    intro p
    simp only [data_reset_all]
    refine ensures_bind_of (fun q => p.same_fields q) ?_ ?_
    · simp [data_reset, ensures_data_modify, same_fields, UMap.assign_keys]
    · exact fun q hq => ensures_mono (ih q) (fun r hr => same_fields_trans hq hr)

end ExperimentPlugin

theorem PluginHMD.write_matrix_same_fields (matrix : m4) (headers : List String) :
    ∀ (p : ExperimentPlugin) (i : Nat),
      ensures (PluginHMD.write_matrix matrix p i headers) (fun q => p.same_fields q) := by
  induction headers with
  | nil =>
    intro p i
    simp [PluginHMD.write_matrix, ensures_ok, ExperimentPlugin.same_fields]
  | cons header rest ih =>
    intro p i
    simp only [PluginHMD.write_matrix]
    refine ensures_bind_of (fun q => p.same_fields q) ?_ ?_
    · simp [ExperimentPlugin.data_set, ExperimentPlugin.ensures_data_modify,
        ExperimentPlugin.same_fields, UMap.assign_keys]
    · exact fun q hq =>
        ensures_mono (ih q (i + 1)) (fun r hr => ExperimentPlugin.same_fields_trans hq hr)

theorem PluginHMD.start_recording_same_fields (headers : List String) (p : ExperimentPlugin)
    (m : PluginHMD.Members) (evt : Event) :
    ensures (PluginHMD.start_recording headers p m evt) (fun r => p.same_fields r.1) := by
  unfold PluginHMD.start_recording
  refine ensures_bind_of (fun q => p.same_fields q)
    (ExperimentPlugin.data_reset_all_same_fields headers p) ?_
  intro q hq
  simpa [ensures_ok] using hq

theorem PluginHMD.recorder_update_same_fields (headers : List String) (matrix : m4)
    (p : ExperimentPlugin) (m : PluginHMD.Members) (dt : ℚ) :
    ensures (PluginHMD.update_internal headers matrix p m dt) (fun r => p.same_fields r.1) := by
  unfold PluginHMD.update_internal
  simp only [ensures_ite, ensures_bind, ExperimentPlugin.ensures_data, ensures_ok]
  refine ⟨fun _ field _ => ⟨fun _ field1 _ => ?_, fun _ => ExperimentPlugin.same_fields_refl p⟩,
    fun _ => ExperimentPlugin.same_fields_refl p⟩
  exact ensures_mono (PluginHMD.write_matrix_same_fields matrix headers p 0) (fun q hq => hq)

theorem PluginLocomotion.locomotion_event_same_fields (p : ExperimentPlugin) (evt : Event) :
    ensures (PluginLocomotion.handle_event p evt) (fun q => p.same_fields q) := by
  unfold PluginLocomotion.handle_event
  split
  · simp [ExperimentPlugin.data_set, ExperimentPlugin.ensures_data_modify,
      ExperimentPlugin.same_fields, UMap.assign_keys]
  · split <;>
    simp [ensures_ok, ensures_error, ensures_bind, ExperimentPlugin.data_set,
      ExperimentPlugin.ensures_data_modify, ExperimentPlugin.same_fields, UMap.assign_keys]
  · split <;>
    simp [ensures_ok, ensures_error, ensures_bind, ExperimentPlugin.data_set,
      ExperimentPlugin.ensures_data_modify, ExperimentPlugin.same_fields, UMap.assign_keys]
  · simp [ensures_ok, ExperimentPlugin.same_fields]

theorem PluginActivity.activity_update_same_fields (vm : Vectormath)
    (g : GamePlay.GlobalGameState) (p : ExperimentPlugin) (m : PluginActivity.Members) (dt : ℚ) :
    ensures (PluginActivity.update_internal vm g p m dt) (fun r => p.same_fields r.1) := by
  unfold PluginActivity.update_internal
  simp [ensures_ok, ensures_ite, ensures_bind, ExperimentPlugin.data_set,
    ExperimentPlugin.ensures_data_modify, ExperimentPlugin.same_fields, UMap.assign_keys]

theorem PluginCollectionCounter.counter_event_same_fields (g : GamePlay.GlobalGameState)
    (p : ExperimentPlugin) (m : PluginCollectionCounter.Members) (evt : Event) :
    ensures (PluginCollectionCounter.handle_event g p m evt) (fun q => p.same_fields q) := by
  unfold PluginCollectionCounter.handle_event
  split
  · simp only [ensures_bind]
    intro counts _
    split
    · simp only [ensures_bind]
      intro played _
      simp [ensures_ok, ensures_bind, ExperimentPlugin.data_set,
        ExperimentPlugin.ensures_data_modify, ExperimentPlugin.same_fields, UMap.assign_keys]
    · simp [ensures_ok, ExperimentPlugin.same_fields]
  · simp [ensures_ok, ExperimentPlugin.same_fields]
namespace ExperimentPlugin

theorem handle_event_same_fields (g : GamePlay.GlobalGameState) (p : ExperimentPlugin)
    (evt : Event) : ensures (p.handle_event g evt) (fun q => p.same_fields q) := by
  unfold handle_event
  split
  · exact PluginController.controller_event_same_fields p evt
  · split
    · exact ensures_bind_of _ (PluginHMD.start_recording_same_fields _ p _ evt)
        (fun r hr => by simpa [ensures_ok, same_fields] using hr)
    · simp [ensures_ok, same_fields]
    · simp [ensures_ok, same_fields]
  · exact PluginLocomotion.locomotion_event_same_fields p evt
  · simp [ensures_ok, same_fields]
  · exact PluginVoice.voice_event_same_fields p _ evt
  · split
    · exact ensures_bind_of _ (PluginHMD.start_recording_same_fields _ p _ evt)
        (fun r hr => by simpa [ensures_ok, same_fields] using hr)
    · simp [ensures_ok, same_fields]
    · simp [ensures_ok, same_fields]
  · exact PluginCollectionCounter.counter_event_same_fields g p _ evt

theorem update_internal_same_fields (vm : Vectormath) (g : GamePlay.GlobalGameState)
    (p : ExperimentPlugin) (dt : ℚ) :
    ensures (p.update_internal vm g dt) (fun q => p.same_fields q) := by
  unfold update_internal
  split
  · simp [PluginController.update_internal, ensures_ok, same_fields]
  · exact ensures_bind_of _ (PluginHMD.recorder_update_same_fields _ _ p _ dt)
      (fun r hr => by simpa [ensures_ok, same_fields] using hr)
  · simp [ensures_ok, same_fields]
  · exact ensures_bind_of _ (PluginActivity.activity_update_same_fields vm g p _ dt)
      (fun r hr => by simpa [ensures_ok, same_fields] using hr)
  · simp [ensures_ok, same_fields]
  · exact ensures_bind_of _ (PluginHMD.recorder_update_same_fields _ _ p _ dt)
      (fun r hr => by simpa [ensures_ok, same_fields] using hr)
  · simp [ensures_ok, same_fields]

theorem handle_queued_events_same_fields (g : GamePlay.GlobalGameState) (queue : List Event) :
    ∀ p : ExperimentPlugin,
      ensures (p.handle_queued_events g queue) (fun q => p.same_fields q) := by
  induction queue with
  | nil =>
    intro p
    simp [handle_queued_events, ensures_ok, same_fields]
  | cons evt rest ih =>
    intro p
    simp only [handle_queued_events]
    refine ensures_bind_of _ (handle_event_same_fields g p evt) ?_
    intro p1 h1
    exact ensures_mono (ih { p1 with m_eventQueue := rest })
      (fun q hq => same_fields_trans h1 hq)

theorem update_same_fields (vm : Vectormath) (g : GamePlay.GlobalGameState)
    (p : ExperimentPlugin) (dt : ℚ) :
    ensures (p.update vm g dt) (fun r => p.same_fields r.2) := by
  unfold update
  have h0 : p.same_fields { p with m_data := p.m_data.map (fun dataPair =>
      (dataPair.1, dataPair.2.update_age dt)) } := by
    simp [same_fields, Function.comp_def]
  refine ensures_bind_of _ (handle_queued_events_same_fields g _ _) ?_
  intro p2 h2
  refine ensures_bind_of _ (update_internal_same_fields vm g p2 dt) ?_
  intro p3 h3
  rw [ensures_ok]
  exact same_fields_trans h0 (same_fields_trans h2 h3)

theorem on_event_same_fields (p : ExperimentPlugin) (running : Bool) (evt : Event) :
    ensures (p.on_event running evt) (fun q => p.same_fields q) := by
  unfold on_event
  simp [ensures_ite, ensures_ok, ensures_error, same_fields]

theorem reset_same_fields (p : ExperimentPlugin) :
    ensures p.reset (fun q => p.same_fields q) := by
  unfold reset
  split
  · simp [PluginController.reset, ensures_ok, ensures_bind, ensures_ite, data_reset,
      ensures_data_modify, same_fields, UMap.assign_keys]
  · exact ensures_bind_of _ (data_reset_all_same_fields _ p)
      (fun r hr => by simpa [ensures_ok, same_fields] using hr)
  · simp [PluginLocomotion.reset, ensures_ok, ensures_bind, ensures_ite, data_reset,
      ensures_data_modify, same_fields, UMap.assign_keys]
  · simp [PluginActivity.reset, ensures_ok, ensures_bind, ensures_ite, data_reset,
      ensures_data_modify, same_fields, UMap.assign_keys]
  · simp [PluginVoice.reset, ensures_ok, ensures_bind, ensures_ite, data_set,
      ensures_data_modify, same_fields, UMap.assign_keys]
  · exact ensures_bind_of _ (data_reset_all_same_fields _ p)
      (fun r hr => by simpa [ensures_ok, same_fields] using hr)
  · simp [PluginCollectionCounter.reset, ensures_ok, ensures_bind, ensures_ite, data_copy,
      ensures_data_modify, same_fields, UMap.assign_keys]

end ExperimentPlugin
/-! ## Helper lemmas: the manager and the plug-in objects -/

namespace System

/-- Helper: the number of fields behind some pointers depends on the field names only. -/
theorem count_fields_congr {s t : System} (h : t.field_names = s.field_names) (ptrs : List Nat) :
    count_fields t ptrs = count_fields s ptrs := by
  induction ptrs with
  | nil => rfl
  | cons ptr rest ih =>
    simp only [count_fields, ih]
    congr 1
    have h1 : (t.field_names[ptr]?).map List.length = (s.field_names[ptr]?).map List.length := by
      rw [h]
    simp only [field_names, List.getElem?_map, Option.map_map] at h1
    cases ht : t.plugins[ptr]? <;> cases hs : s.plugins[ptr]? <;>
      simp_all [ExperimentPlugin.get_data]

/-- Helper: replacing an object by one with the same fields keeps all field names. -/
theorem field_names_set {s : System} {ptr : Nat} {p q : ExperimentPlugin}
    (hp : s.deref ptr = .ok p) (hq : p.same_fields q) :
    field_names { s with plugins := s.plugins.set ptr q } = s.field_names := by
  unfold deref at hp
  split at hp
  · rename_i plugin hplugin
    cases hp
    simp only [field_names, List.map_set]
    unfold ExperimentPlugin.same_fields at hq
    rw [hq]
    apply List.ext_getElem?
    intro i
    by_cases hi : i = ptr
    · subst hi
      have hlt : i < s.plugins.length := by
        by_contra hcon
        rw [List.getElem?_eq_none (by omega)] at hplugin
        cases hplugin
      have hget : s.plugins[i] = p := by
        rw [List.getElem?_eq_getElem hlt] at hplugin
        exact Option.some.inj hplugin
      simp [List.getElem?_set, hlt, hget]
    · rw [List.getElem?_set_ne (Ne.symm hi)]
  · cases hp

theorem plugin_row_cells_length (s : System) (ptrs : List Nat) :
    ensures (plugin_row_cells s ptrs) (fun cells => cells.length = count_fields s ptrs) := by
  induction ptrs with
  | nil => simp [plugin_row_cells, ensures_ok, count_fields]
  | cons ptr rest ih =>
    simp only [plugin_row_cells, ensures_bind, ensures_ok]
    intro plugin hplugin cells hcells
    have := ih cells hcells
    unfold deref at hplugin
    split at hplugin
    · rename_i p hp
      cases hplugin
      simp [count_fields, hp, this]
    · cases hplugin

theorem plugin_header_cells_length (s : System) (ptrs : List Nat) :
    ensures (plugin_header_cells s ptrs) (fun cells => cells.length = count_fields s ptrs) := by
  induction ptrs with
  | nil => simp [plugin_header_cells, ensures_ok, count_fields]
  | cons ptr rest ih =>
    simp only [plugin_header_cells, ensures_bind, ensures_ok]
    intro plugin hplugin cells hcells
    have := ih cells hcells
    unfold deref at hplugin
    split at hplugin
    · rename_i p hp
      cases hplugin
      simp [count_fields, hp, this]
    · cases hplugin

theorem row_cells_length (s : System) :
    ensures (row_cells s) (fun cells => cells.length =
      2 + s.manager.m_conditionValues.length + count_fields s s.manager.m_activePlugins) := by
  unfold row_cells
  refine ensures_bind_of _ (plugin_row_cells_length s _) ?_
  intro cells hcells
  simp [ensures_ok, hcells]
  omega

theorem header_cells_length (s : System) :
    ensures (header_cells s) (fun cells => cells.length =
      2 + s.manager.m_conditionValues.length + count_fields s s.manager.m_activePlugins) := by
  unfold header_cells
  refine ensures_bind_of _ (plugin_header_cells_length s _) ?_
  intro cells hcells
  simp [ensures_ok, hcells]
  omega

/-- Helper: what `record_experiment_state` does when it returns. -/
theorem record_experiment_state_eq_ok (s t : System) :
    record_experiment_state s = .ok t ↔
      s.manager.m_isRunning = true ∧ ∃ cells, row_cells s = .ok cells ∧
        t = { s with manager := { s.manager with
          m_outputWriter := s.manager.m_outputWriter.insert (.row cells) } } := by
  unfold record_experiment_state
  simp only [bind_eq_ok, RV_ASSERT_eq_ok, exists_and_left, exists_const, Except.ok.injEq]
  constructor
  · rintro ⟨h1, cells, h2, h3⟩
    exact ⟨h1, cells, h2, h3.symm⟩
  · rintro ⟨h1, cells, h2, h3⟩
    exact ⟨h1, cells, h2, h3.symm⟩

end System
namespace System

theorem reset_plugins_frame (ptrs : List Nat) :
    ∀ s : System, ensures (reset_plugins s ptrs)
      (fun t => t.manager = s.manager ∧ t.field_names = s.field_names) := by
  induction ptrs with
  | nil =>
    intro s
    simp [reset_plugins, ensures_ok]
  | cons ptr rest ih =>
    intro s
    simp only [reset_plugins, ensures_bind]
    intro plugin hplugin plugin1 hplugin1
    have hsame := ExperimentPlugin.reset_same_fields plugin plugin1 hplugin1
    refine ensures_mono (ih _) ?_
    rintro t ⟨h1, h2⟩
    exact ⟨h1, h2.trans (field_names_set hplugin hsame)⟩

theorem update_results_frame (vm : Vectormath) (g : GamePlay.GlobalGameState) (dt : ℚ)
    (ptrs : List Nat) :
    ∀ s : System, ensures (update_results vm g dt s ptrs)
      (fun r => r.2.manager = s.manager ∧ r.2.field_names = s.field_names ∧
        r.2.plugins.length = s.plugins.length ∧ ∀ ptr ∈ ptrs, ptr < s.plugins.length) := by
  induction ptrs with
  | nil =>
    intro s
    simp [update_results, ensures_ok]
  | cons ptr rest ih =>
    intro s
    simp only [update_results, ensures_bind]
    intro plugin hplugin r hr
    have hsame := ExperimentPlugin.update_same_fields vm g plugin dt r hr
    intro r1 hr1
    obtain ⟨h1, h2, h3, h4⟩ := ih _ r1 hr1
    rw [ensures_ok]
    refine ⟨h1, h2.trans (field_names_set hplugin hsame), by simpa using h3, ?_⟩
    intro ptr1 hptr1
    rcases List.mem_cons.mp hptr1 with h | h
    · subst h
      unfold deref at hplugin
      split at hplugin
      · rename_i p hp
        by_contra hcon
        rw [List.getElem?_eq_none (by omega)] at hp
        cases hp
      · cases hplugin
    · simpa using h4 ptr1 h

/-- Helper: the loop of `update` returns the disjunction of the values the plug-ins return. -/
theorem update_plugins_eq (vm : Vectormath) (g : GamePlay.GlobalGameState) (dt : ℚ)
    (ptrs : List Nat) :
    ∀ (s : System) (writeRequest : Bool),
      update_plugins vm g dt s writeRequest ptrs =
        (update_results vm g dt s ptrs >>= fun r =>
          .ok (writeRequest || r.1.any (fun result => result), r.2)) := by
  induction ptrs with
  | nil =>
    intro s writeRequest
    simp [update_plugins, update_results, bind, Except.bind]
  | cons ptr rest ih =>
    intro s writeRequest
    simp only [update_plugins, update_results]
    cases hderef : s.deref ptr with
    | error err => simp [bind, Except.bind]
    | ok plugin =>
      simp only [bind, Except.bind]
      cases hup : ExperimentPlugin.update vm g plugin dt with
      | error err => rfl
      | ok r =>
        simp only [ih, bind, Except.bind]
        cases update_results vm g dt { s with plugins := s.plugins.set ptr r.2 } rest with
        | error err => rfl
        | ok r1 => simp [Bool.or_assoc]

theorem plugins_on_event_frame (evt : Event) (ptrs : List Nat) :
    ∀ s : System, ensures (plugins_on_event evt s ptrs)
      (fun t => t.manager = s.manager ∧ t.field_names = s.field_names) := by
  induction ptrs with
  | nil =>
    intro s
    simp [plugins_on_event, ensures_ok]
  | cons ptr rest ih =>
    intro s
    simp only [plugins_on_event, ensures_bind]
    intro plugin hplugin plugin1 hplugin1
    have hsame := ExperimentPlugin.on_event_same_fields plugin _ evt plugin1 hplugin1
    refine ensures_mono (ih _) ?_
    rintro t ⟨h1, h2⟩
    exact ⟨h1, h2.trans (field_names_set hplugin hsame)⟩

/-- Helper: with valid pointers the values of the plug-in columns can be read. -/
theorem plugin_row_cells_returns (s : System) (ptrs : List Nat)
    (h : ∀ ptr ∈ ptrs, ptr < s.plugins.length) : ∃ cells, plugin_row_cells s ptrs = .ok cells := by
  induction ptrs with
  | nil => exact ⟨[], rfl⟩
  | cons ptr rest ih =>
    obtain ⟨cells, hcells⟩ := ih (fun q hq => h q (List.mem_cons_of_mem _ hq))
    have hlt := h ptr (List.mem_cons_self _ _)
    simp only [plugin_row_cells, deref, List.getElem?_eq_getElem hlt, hcells, bind, Except.bind]
    exact ⟨_, rfl⟩

/-- Helper: the row can be computed whenever the plug-in columns can. -/
theorem row_cells_returns (s : System)
    (h : ∀ ptr ∈ s.manager.m_activePlugins, ptr < s.plugins.length) :
    ∃ cells, row_cells s = .ok cells := by
  obtain ⟨cells, hcells⟩ := plugin_row_cells_returns s _ h
  simp only [row_cells, hcells, bind, Except.bind]
  exact ⟨_, rfl⟩

end System
namespace System

/-- Helper: inserting a line into an open and good stream appends it. -/
theorem insert_open (w : OutputWriter) (line : Line) (hopen : w.is_open = true)
    (hgood : w.good = true) : w.insert line = { w with written := w.written ++ [line] } := by
  simp [OutputWriter.insert, hopen, hgood]

/-- Helper: `update` on a running session, in terms of the values the plug-ins return. -/
theorem update_running (vm : Vectormath) (g : GamePlay.GlobalGameState) (fDeltaTime : ℚ)
    (s : System) (hrun : s.manager.m_isRunning = true) :
    update vm g fDeltaTime s =
      (update_results vm g fDeltaTime
        { s with manager := { s.manager with
          m_fTotalTime := s.manager.m_fTotalTime + fDeltaTime } }
        s.manager.m_activePlugins >>= fun r =>
          record_if_required r.2
              (r.2.manager.m_conditionChanged || r.1.any (fun result => result)) >>= fun s3 =>
            halt_if_requested s3
              (r.2.manager.m_conditionChanged || r.1.any (fun result => result))) := by
  unfold update
  rw [if_pos hrun]
  dsimp only
  rw [update_plugins_eq]
  cases update_results vm g fDeltaTime
    { s with manager := { s.manager with m_fTotalTime := s.manager.m_fTotalTime + fDeltaTime } }
    s.manager.m_activePlugins with
  | error err => rfl
  | ok r => simp [bind, Except.bind]

/-- Helper: with nothing to write `record_if_required` does nothing. -/
theorem record_if_required_false (s : System) : record_if_required s false = .ok s := rfl

/-- Helper: `record_if_required` when a write is required and the row can be computed. -/
theorem record_if_required_true (s : System) (cells : List String)
    (hrun : s.manager.m_isRunning = true) (hcells : row_cells s = .ok cells) :
    record_if_required s true = .ok { s with manager := { s.manager with
      m_outputWriter := s.manager.m_outputWriter.insert (.row cells),
      m_conditionChanged := false } } := by
  have hrec := (record_experiment_state_eq_ok s _).mpr ⟨hrun, cells, hcells, rfl⟩
  simp only [record_if_required, if_true, hrec, bind, Except.bind]

/-- Helper: without a pending halt `halt_if_requested` does nothing. -/
theorem halt_if_requested_none (s : System) (writeRequired : Bool)
    (hhalt : s.manager.m_lastHaltEvent = ERevealEventTypes.kDummyEvent) :
    halt_if_requested s writeRequired = .ok s := by
  simp [halt_if_requested, hhalt]

/-- C2. In a running session with no halt pending, whose stream is open and good, let the
plug-in updates of this frame return `results`. Then `update` returns; it appends exactly one
data row when the condition-changed flag was set or some plug-in returned true, and nothing
otherwise; the row is computed after all plug-ins were updated, from the live conditions and the
plug-in fields of that moment, so a condition change and a write request of the same frame share
it; afterwards the flag is clear and the session still runs. -/
theorem update_writes_one_row_when_required (vm : Vectormath) (g : GamePlay.GlobalGameState)
    (fDeltaTime : ℚ) (s : System) (results : List Bool) (s2 : System)
    (hrun : s.manager.m_isRunning = true)
    (hhalt : s.manager.m_lastHaltEvent = ERevealEventTypes.kDummyEvent)
    (hopen : s.manager.m_outputWriter.is_open = true)
    (hgood : s.manager.m_outputWriter.good = true)
    (hplugins : update_results vm g fDeltaTime
      { s with manager := { s.manager with m_fTotalTime := s.manager.m_fTotalTime + fDeltaTime } }
      s.manager.m_activePlugins = .ok (results, s2)) :
    ∃ cells t, row_cells s2 = .ok cells ∧ update vm g fDeltaTime s = .ok t ∧
      s2.manager.m_conditionValues = s.manager.m_conditionValues ∧
      t.plugins = s2.plugins ∧
      t.manager.m_outputWriter.written = s.manager.m_outputWriter.written ++
        (if s.manager.m_conditionChanged || results.any (fun result => result)
          then [Line.row cells] else []) ∧
      t.manager.m_conditionChanged = false ∧ t.manager.m_isRunning = true := by
  obtain ⟨hm, -, hlen, hvalid⟩ := update_results_frame vm g fDeltaTime _ _ _ hplugins
  simp only at hm hlen hvalid
  have hactive : s2.manager.m_activePlugins = s.manager.m_activePlugins := by rw [hm]
  have hcond : s2.manager.m_conditionValues = s.manager.m_conditionValues := by rw [hm]
  have hwriter : s2.manager.m_outputWriter = s.manager.m_outputWriter := by rw [hm]
  have hhalt2 : s2.manager.m_lastHaltEvent = ERevealEventTypes.kDummyEvent := by rw [hm]; exact hhalt
  have hchanged : s2.manager.m_conditionChanged = s.manager.m_conditionChanged := by rw [hm]
  have hrun2 : s2.manager.m_isRunning = true := by rw [hm]; exact hrun
  obtain ⟨cells, hcells⟩ := row_cells_returns s2 (by rw [hactive, hlen]; exact hvalid)
  refine ⟨cells, ?_⟩
  rw [update_running vm g fDeltaTime s hrun, hplugins]
  simp only [bind, Except.bind, hchanged]
  cases hreq : (s.manager.m_conditionChanged || results.any (fun result => result))
  · rw [record_if_required_false]
    simp only [halt_if_requested_none s2 false hhalt2]
    refine ⟨s2, hcells, rfl, hcond, rfl, by simp [hwriter], ?_, hrun2⟩
    rw [hchanged]
    simp only [Bool.or_eq_false_iff] at hreq
    exact hreq.1
  · have hhalt3 : halt_if_requested { s2 with manager := { s2.manager with
          m_outputWriter := s2.manager.m_outputWriter.insert (.row cells),
          m_conditionChanged := false } } true = .ok _ :=
      halt_if_requested_none _ true hhalt2
    rw [record_if_required_true s2 cells hrun2 hcells]
    refine ⟨_, hcells, hhalt3, hcond, rfl, ?_, rfl, hrun2⟩
    simp [hwriter, insert_open _ _ hopen hgood]

end System
/-- Witness of C2: in the sample session the condition `group` was set to 6 and the Voice plug-in
has a start-recording event queued; the update of this frame writes the single row
`7, 1.50, 6, TRUE`. -/
theorem update_writes_one_row_when_required_witness :
    (∃ cells t,
      System.row_cells
          (Sample.session_plugins_updated 6 true .kDummyEvent
            [Sample.event .kExperiment_StartAudioRecording]) = .ok cells ∧
        System.update Sample.vm Sample.game (1 / 2)
          (Sample.session 6 true .kDummyEvent [Sample.event .kExperiment_StartAudioRecording]) =
            .ok t ∧
        (Sample.session_plugins_updated 6 true .kDummyEvent
            [Sample.event .kExperiment_StartAudioRecording]).manager.m_conditionValues =
          (Sample.session 6 true .kDummyEvent
            [Sample.event .kExperiment_StartAudioRecording]).manager.m_conditionValues ∧
        t.plugins =
          (Sample.session_plugins_updated 6 true .kDummyEvent
            [Sample.event .kExperiment_StartAudioRecording]).plugins ∧
        t.manager.m_outputWriter.written =
          (Sample.session 6 true .kDummyEvent
            [Sample.event .kExperiment_StartAudioRecording]).manager.m_outputWriter.written ++
            (if (Sample.session 6 true .kDummyEvent
                  [Sample.event .kExperiment_StartAudioRecording]).manager.m_conditionChanged ||
                [true].any (fun result => result)
              then [Line.row cells] else []) ∧
        t.manager.m_conditionChanged = false ∧ t.manager.m_isRunning = true) ∧
      System.row_cells
          (Sample.session_plugins_updated 6 true .kDummyEvent
            [Sample.event .kExperiment_StartAudioRecording]) = .ok ["7", "1.50", "6", "TRUE"] :=
  ⟨System.update_writes_one_row_when_required Sample.vm Sample.game (1 / 2)
      (Sample.session 6 true .kDummyEvent [Sample.event .kExperiment_StartAudioRecording]) [true]
      (Sample.session_plugins_updated 6 true .kDummyEvent
        [Sample.event .kExperiment_StartAudioRecording])
      (by decide) (by decide) (by decide) (by decide) (by decide!),
    by decide!⟩
namespace ExperimentManager

/-- Helper: `reset` keeps the lines written and leaves the manager stopped, the stream closed. -/
theorem reset_effect (m : ExperimentManager) :
    m.reset.m_outputWriter.written = m.m_outputWriter.written ∧
      m.reset.m_isRunning = false ∧
      (m.m_outputWriter.is_open = true → m.reset.m_outputWriter.is_open = false) ∧
      (m.m_outputWriter.is_open = false → m.reset.m_outputWriter = m.m_outputWriter) := by
  unfold reset
  by_cases hopen : m.m_outputWriter.is_open = true <;>
  by_cases haudio : (m.m_enableAudioRecording && decide (m.m_audioPort ≥ 0)) = true <;>
  by_cases hrec : m.m_isAudioRecording = true <;>
  simp [hopen, haudio, hrec, OutputWriter.close]

/-- C4. `abort()` on a running session whose stream is open and good appends the line
`ABORTED!` as the last line written and leaves the manager not running; `abort()` and `end()` on a
manager that is not running return the state unchanged. -/
theorem abort_marks_output (m : ExperimentManager) :
    (m.m_isRunning = true → m.m_outputWriter.is_open = true → m.m_outputWriter.good = true →
        m.abort.m_outputWriter.written = m.m_outputWriter.written ++ [Line.aborted] ∧
        m.abort.m_outputWriter.written.getLast? = some Line.aborted ∧
        Line.aborted.text = "ABORTED!\n" ∧
        m.abort.is_running = false) ∧
      (m.m_isRunning = false → m.abort = m ∧ m.end_ = m) := by
  constructor
  · intro hrun hopen hgood
    have h := reset_effect { m with m_outputWriter := m.m_outputWriter.insert .aborted }
    have hab : m.abort = reset { m with m_outputWriter := m.m_outputWriter.insert .aborted } := by
      unfold abort
      rw [if_pos hrun]
    have hw : m.abort.m_outputWriter.written = m.m_outputWriter.written ++ [Line.aborted] := by
      rw [hab, h.1]
      simp [OutputWriter.insert, hopen, hgood]
    refine ⟨hw, by rw [hw]; simp, by decide, ?_⟩
    rw [hab]
    exact h.2.1
  · intro hstop
    simp [abort, end_, hstop]

/-- Witness of C4: the running sample session is aborted, and a fresh manager is not touched. -/
theorem abort_marks_output_witness :
    ((Sample.session 5 false .kDummyEvent []).manager.abort.m_outputWriter.written =
        (Sample.session 5 false .kDummyEvent []).manager.m_outputWriter.written ++ [Line.aborted] ∧
      (Sample.session 5 false .kDummyEvent []).manager.abort.m_outputWriter.written.getLast? =
        some Line.aborted ∧
      Line.aborted.text = "ABORTED!\n" ∧
      (Sample.session 5 false .kDummyEvent []).manager.abort.is_running = false) ∧
    ((ExperimentManager.new false 0).abort = ExperimentManager.new false 0 ∧
      (ExperimentManager.new false 0).end_ = ExperimentManager.new false 0) :=
  ⟨(abort_marks_output (Sample.session 5 false .kDummyEvent []).manager).1
      (by decide) (by decide) (by decide),
    (abort_marks_output (ExperimentManager.new false 0)).2 (by decide)⟩

end ExperimentManager
namespace System

/-- Helper: `halt_if_requested` with a pending End or Abort whose final row is still to be
written or already written; the session ends after at most one more row. -/
theorem halt_if_requested_pending (s : System) (writeRequired : Bool) (cells : List String)
    (hrun : s.manager.m_isRunning = true)
    (hhalt : s.manager.m_lastHaltEvent = ERevealEventTypes.kExperiment_End ∨
      s.manager.m_lastHaltEvent = ERevealEventTypes.kExperiment_Abort)
    (hopen : s.manager.m_outputWriter.is_open = true)
    (hgood : s.manager.m_outputWriter.good = true)
    (hcells : row_cells s = .ok cells) :
    ∃ t, halt_if_requested s writeRequired = .ok t ∧ t.plugins = s.plugins ∧
      t.manager.m_isRunning = false ∧
      t.manager.m_outputWriter.written = s.manager.m_outputWriter.written ++
        (if writeRequired then [] else [Line.row cells]) ++
        (if s.manager.m_lastHaltEvent = ERevealEventTypes.kExperiment_Abort
          then [Line.aborted] else []) := by
  have hne : s.manager.m_lastHaltEvent ≠ ERevealEventTypes.kDummyEvent := by
    rcases hhalt with h | h <;> rw [h] <;> decide
  have hrec := (record_experiment_state_eq_ok s _).mpr ⟨hrun, cells, hcells, rfl⟩
  unfold halt_if_requested
  rw [if_pos hne]
  cases writeRequired
  · simp only [Bool.not_false, if_true, hrec, bind, Except.bind]
    rcases hhalt with h | h
    · simp only [h, if_true]
      refine ⟨_, rfl, rfl, ?_, ?_⟩
      · simp only [ExperimentManager.end_, hrun, if_true]
        exact (ExperimentManager.reset_effect _).2.1
      · simp only [ExperimentManager.end_, hrun, if_true]
        rw [(ExperimentManager.reset_effect _).1]
        simp [insert_open _ _ hopen hgood]
    · have h1 : ERevealEventTypes.kExperiment_Abort ≠ ERevealEventTypes.kExperiment_End := by
        decide
      simp only [h, h1, if_true, if_false]
      refine ⟨_, rfl, rfl, ?_, ?_⟩
      · simp only [ExperimentManager.abort, hrun, if_true]
        exact (ExperimentManager.reset_effect _).2.1
      · simp only [ExperimentManager.abort, hrun, if_true]
        rw [(ExperimentManager.reset_effect _).1]
        simp [insert_open _ _ hopen hgood, OutputWriter.insert, hopen, hgood]
  · simp only [Bool.not_true, Bool.false_eq_true, if_false, bind, Except.bind]
    rcases hhalt with h | h
    · simp only [h, if_true]
      refine ⟨_, rfl, rfl, ?_, ?_⟩
      · simp only [ExperimentManager.end_, hrun, if_true]
        exact (ExperimentManager.reset_effect _).2.1
      · simp only [ExperimentManager.end_, hrun, if_true]
        rw [(ExperimentManager.reset_effect _).1]
        simp
    · have h1 : ERevealEventTypes.kExperiment_Abort ≠ ERevealEventTypes.kExperiment_End := by
        decide
      simp only [h, h1, if_true, if_false]
      refine ⟨_, rfl, rfl, ?_, ?_⟩
      · simp only [ExperimentManager.abort, hrun, if_true]
        exact (ExperimentManager.reset_effect _).2.1
      · simp only [ExperimentManager.abort, hrun, if_true]
        rw [(ExperimentManager.reset_effect _).1]
        simp [OutputWriter.insert, hopen, hgood]

end System
namespace System

/-- Helper: the values of the plug-in columns depend on the plug-in objects and on the
undefined-value string only. -/
theorem plugin_row_cells_congr {s t : System} (hp : t.plugins = s.plugins)
    (hu : t.manager.m_undefinedValue = s.manager.m_undefinedValue) (ptrs : List Nat) :
    plugin_row_cells t ptrs = plugin_row_cells s ptrs := by
  induction ptrs with
  | nil => rfl
  | cons ptr rest ih => simp only [plugin_row_cells, deref, hp, hu, ih]

/-- Helper: the row depends on the plug-in objects and on five members of the manager only. -/
theorem row_cells_congr {s t : System} (hp : t.plugins = s.plugins)
    (hu : t.manager.m_undefinedValue = s.manager.m_undefinedValue)
    (ha : t.manager.m_activePlugins = s.manager.m_activePlugins)
    (hc : t.manager.m_conditionValues = s.manager.m_conditionValues)
    (hn : t.manager.m_currentParticipant = s.manager.m_currentParticipant)
    (ht : t.manager.m_fTotalTime = s.manager.m_fTotalTime) :
    row_cells t = row_cells s := by
  unfold row_cells
  rw [plugin_row_cells_congr hp hu, ha, hc, hn, ht]

/-- Helper: writing to the stream and clearing the condition-changed flag do not change the row
that would be written next. -/
theorem row_cells_after_record (s : System) (w : OutputWriter) (changed : Bool) :
    row_cells { s with manager := { s.manager with
      m_outputWriter := w, m_conditionChanged := changed } } = row_cells s :=
  row_cells_congr rfl rfl rfl rfl rfl rfl

/-- C3. An End or Abort event that reaches the manager of a running session (stream good) only
sets the pending halt: the session keeps running and nothing is written. At the next `update`
of a running session with that halt pending (stream open and good, the plug-in updates
returning), exactly one data row is written, whether or not a plug-in asked for one or a
condition changed; after it, for an Abort, comes the line `ABORTED!`; and the session is no
longer running when `update` returns. -/
theorem halt_writes_final_row (vm : Vectormath) (os : Platform) (g : GamePlay.GlobalGameState)
    (fDeltaTime : ℚ) (s u : System) (evt : Event) (results : List Bool) (u2 : System)
    (hevt : evt.eventType = ERevealEventTypes.kExperiment_End ∨
      evt.eventType = ERevealEventTypes.kExperiment_Abort)
    (hrun : s.manager.m_isRunning = true) (hgood : s.manager.m_outputWriter.good = true)
    (hurun : u.manager.m_isRunning = true)
    (huhalt : u.manager.m_lastHaltEvent = evt.eventType)
    (huopen : u.manager.m_outputWriter.is_open = true)
    (hugood : u.manager.m_outputWriter.good = true)
    (hplugins : update_results vm g fDeltaTime
      { u with manager := { u.manager with m_fTotalTime := u.manager.m_fTotalTime + fDeltaTime } }
      u.manager.m_activePlugins = .ok (results, u2)) :
    on_event os s evt =
        .ok { s with manager := { s.manager with m_lastHaltEvent := evt.eventType } } ∧
      ∃ cells t, row_cells u2 = .ok cells ∧ update vm g fDeltaTime u = .ok t ∧
        t.manager.m_outputWriter.written = u.manager.m_outputWriter.written ++ [Line.row cells] ++
          (if evt.eventType = ERevealEventTypes.kExperiment_Abort then [Line.aborted] else []) ∧
        t.manager.is_running = false := by
  constructor
  · unfold on_event
    rw [if_pos hrun]
    rcases hevt with h | h <;> simp [h, hgood, RV_ASSERT, bind, Except.bind]
  · obtain ⟨hm, -, hlen, hvalid⟩ := update_results_frame vm g fDeltaTime _ _ _ hplugins
    simp only at hm hlen hvalid
    have hactive : u2.manager.m_activePlugins = u.manager.m_activePlugins := by rw [hm]
    have hwriter : u2.manager.m_outputWriter = u.manager.m_outputWriter := by rw [hm]
    have hhalt2 : u2.manager.m_lastHaltEvent = evt.eventType := by rw [hm]; exact huhalt
    have hrun2 : u2.manager.m_isRunning = true := by rw [hm]; exact hurun
    obtain ⟨cells, hcells⟩ := row_cells_returns u2 (by rw [hactive, hlen]; exact hvalid)
    refine ⟨cells, ?_⟩
    rw [update_running vm g fDeltaTime u hurun, hplugins]
    simp only [bind, Except.bind]
    cases hreq : (u2.manager.m_conditionChanged || results.any (fun result => result))
    · rw [record_if_required_false]
      obtain ⟨t, ht, -, htrun, htw⟩ := halt_if_requested_pending u2 false cells hrun2
        (by rw [hhalt2]; exact hevt) (by rw [hwriter]; exact huopen)
        (by rw [hwriter]; exact hugood) hcells
      refine ⟨t, hcells, ht, ?_, htrun⟩
      rw [htw, hwriter, hhalt2]
      simp
    · rw [record_if_required_true u2 cells hrun2 hcells]
      have hcells3 : row_cells { u2 with manager := { u2.manager with
          m_outputWriter := u2.manager.m_outputWriter.insert (.row cells),
          m_conditionChanged := false } } = .ok cells := by
        rw [row_cells_after_record]
        exact hcells
      obtain ⟨t, ht, -, htrun, htw⟩ := halt_if_requested_pending
        { u2 with manager := { u2.manager with
          m_outputWriter := u2.manager.m_outputWriter.insert (.row cells),
          m_conditionChanged := false } } true cells
        (show _ = true from hrun2)
        (by show u2.manager.m_lastHaltEvent = _ ∨ _; rw [hhalt2]; exact hevt)
        (by
          show (u2.manager.m_outputWriter.insert (.row cells)).is_open = true
          rw [hwriter, insert_open _ _ huopen hugood]
          exact huopen)
        (by
          show (u2.manager.m_outputWriter.insert (.row cells)).good = true
          rw [hwriter, insert_open _ _ huopen hugood]
          exact hugood)
        hcells3
      refine ⟨t, hcells, ht, ?_, htrun⟩
      rw [htw]
      show (u2.manager.m_outputWriter.insert (.row cells)).written ++ _ ++
        (if u2.manager.m_lastHaltEvent = _ then _ else _) = _
      rw [hwriter, insert_open _ _ huopen hugood, hhalt2]
      simp

end System
/-- Witness of C3: the sample session receives an Abort event; at the next update no plug-in
asks for a row and no condition changed, and the output ends with one more row and the line
`ABORTED!`. -/
theorem halt_writes_final_row_witness :
    (System.on_event Sample.os (Sample.session 5 false .kDummyEvent [])
          (Sample.event .kExperiment_Abort) =
        .ok { Sample.session 5 false .kDummyEvent [] with manager :=
          { (Sample.session 5 false .kDummyEvent []).manager with
            m_lastHaltEvent := (Sample.event .kExperiment_Abort).eventType } } ∧
      ∃ cells t,
        System.row_cells (Sample.session_plugins_updated 5 false .kExperiment_Abort []) =
          .ok cells ∧
        System.update Sample.vm Sample.game (1 / 2)
          (Sample.session 5 false .kExperiment_Abort []) = .ok t ∧
        t.manager.m_outputWriter.written =
          (Sample.session 5 false .kExperiment_Abort []).manager.m_outputWriter.written ++
            [Line.row cells] ++
            (if (Sample.event .kExperiment_Abort).eventType = ERevealEventTypes.kExperiment_Abort
              then [Line.aborted] else []) ∧
        t.manager.is_running = false) ∧
      (System.update Sample.vm Sample.game (1 / 2)
          (Sample.session 5 false .kExperiment_Abort [])).toOption.map
        (fun t => t.manager.m_outputWriter.written.map Line.text) =
        some ["participant\telapsedTime\tgroup\tvoiceRecording\n", "7\t0.00\t5\tFALSE\n",
          "7\t1.50\t5\tFALSE\n", "ABORTED!\n"] :=
  ⟨System.halt_writes_final_row Sample.vm Sample.os Sample.game (1 / 2)
      (Sample.session 5 false .kDummyEvent []) (Sample.session 5 false .kExperiment_Abort [])
      (Sample.event .kExperiment_Abort) [false]
      (Sample.session_plugins_updated 5 false .kExperiment_Abort [])
      (Or.inr rfl) (by decide) (by decide) (by decide) (by decide) (by decide) (by decide)
      (by decide!),
    by decide!⟩
namespace System

/-- Helper: appending a row of the right width, or the abort line, keeps the output shape. -/
theorem written_ok_append {k : Nat} {written : List Line} (line : Line)
    (h : written_ok k written) (hline : ∀ cells, line = Line.row cells → cells.length = k) :
    written_ok k (written ++ [line]) := by
  obtain ⟨headerCells, rest, hw, hlen, hrows⟩ := h
  refine ⟨headerCells, rest ++ [line], by rw [hw]; rfl, hlen, ?_⟩
  intro cells hmem
  rcases List.mem_append.mp hmem with h1 | h1
  · exact hrows cells h1
  · exact hline cells (List.mem_singleton.mp h1).symm

/-- Helper: the number of fields does not depend on the manager. -/
theorem count_fields_manager (s : System) (m : ExperimentManager) (ptrs : List Nat) :
    count_fields { s with manager := m } ptrs = count_fields s ptrs :=
  count_fields_congr (s := s) (t := { s with manager := m }) rfl ptrs

/-- Helper: opening the audio port touches the port and the audio file path only. -/
theorem open_audio_port_frame (os : Platform) (stem : String) (m : ExperimentManager) :
    (open_audio_port os stem m).m_outputWriter = m.m_outputWriter ∧
      (open_audio_port os stem m).m_conditionValues = m.m_conditionValues ∧
      (open_audio_port os stem m).m_conditionDefaults = m.m_conditionDefaults ∧
      (open_audio_port os stem m).m_activePlugins = m.m_activePlugins ∧
      (open_audio_port os stem m).m_undefinedValue = m.m_undefinedValue ∧
      (open_audio_port os stem m).m_currentParticipant = m.m_currentParticipant ∧
      (open_audio_port os stem m).m_fTotalTime = m.m_fTotalTime ∧
      (open_audio_port os stem m).m_conditionChanged = m.m_conditionChanged ∧
      (open_audio_port os stem m).m_lastHaltEvent = m.m_lastHaltEvent := by
  unfold open_audio_port
  split_ifs <;> simp

/-- Helper: what `start()` does when it returns, on a manager whose stream is closed. -/
theorem start_eq_ok (os : Platform) (s t : System)
    (hclosed : s.manager.m_outputWriter.is_open = false) (h : start os s = .ok t) :
    ∃ headerCells cells,
      headerCells.length =
        2 + s.manager.m_conditionDefaults.length + count_fields s s.manager.m_activePlugins ∧
      cells.length =
        2 + s.manager.m_conditionDefaults.length + count_fields s s.manager.m_activePlugins ∧
      t.manager.m_outputWriter =
        { is_open := true, good := true,
          path := "Media/Config/participant_" ++ format_02d s.manager.m_currentParticipant ++
            "_" ++ os.dateString ++ ".csv",
          written := [Line.header headerCells, Line.row cells] } ∧
      t.manager.m_isRunning = true ∧
      t.manager.m_conditionValues = s.manager.m_conditionDefaults ∧
      t.manager.m_conditionDefaults = s.manager.m_conditionDefaults ∧
      t.manager.m_activePlugins = s.manager.m_activePlugins ∧
      t.manager.m_currentParticipant = s.manager.m_currentParticipant ∧
      t.manager.m_fTotalTime = s.manager.m_fTotalTime ∧
      t.field_names = s.field_names := by
  unfold start at h
  simp only [bind_eq_ok, RV_ASSERT_eq_ok, exists_and_left, exists_const] at h
  obtain ⟨-, -, s2, hreset, headerCells, hheader, hrecord⟩ := h
  obtain ⟨hm2, hf2⟩ := reset_plugins_frame _ _ s2 hreset
  have hf2' : s2.field_names = s.field_names := hf2
  have hlive2 : s2.manager.m_conditionValues = s.manager.m_conditionDefaults := by rw [hm2]
  have hdef2 : s2.manager.m_conditionDefaults = s.manager.m_conditionDefaults := by rw [hm2]
  have hact2 : s2.manager.m_activePlugins = s.manager.m_activePlugins := by rw [hm2]
  have hpart2 : s2.manager.m_currentParticipant = s.manager.m_currentParticipant := by rw [hm2]
  have htime2 : s2.manager.m_fTotalTime = s.manager.m_fTotalTime := by rw [hm2]
  have hw2 : s2.manager.m_outputWriter =
      { is_open := true, good := true,
        path := "Media/Config/participant_" ++ format_02d s.manager.m_currentParticipant ++ "_" ++
          os.dateString ++ ".csv",
        written := [] } := by
    rw [hm2]
    simp [OutputWriter.open_, hclosed]
  clear hm2 hf2 hreset
  rw [record_experiment_state_eq_ok] at hrecord
  obtain ⟨-, cells, hcells, ht⟩ := hrecord
  have hhl := header_cells_length s2 headerCells hheader
  have hcl := row_cells_length _ cells hcells
  obtain ⟨ha1, ha2, ha3, ha4, -, ha6, ha7, -, -⟩ := open_audio_port_frame os
    ("Media/Config/participant_" ++ format_02d s.manager.m_currentParticipant ++ "_" ++
      os.dateString)
    { s2.manager with m_outputWriter := s2.manager.m_outputWriter.insert (.header headerCells) }
  simp only [ha2, ha4] at hcl
  simp only [hlive2, hact2] at hhl hcl
  simp only [count_fields_manager] at hcl
  rw [count_fields_congr hf2'] at hhl hcl
  refine ⟨headerCells, cells, hhl, hcl, ?_, ?_, ?_, ?_, ?_, ?_, ?_, ?_⟩
  · rw [ht]
    simp only [ha1]
    simp [hw2, OutputWriter.insert]
  · rw [ht]
  · rw [ht]
    simp only [ha2]
    exact hlive2
  · rw [ht]
    simp only [ha3]
    exact hdef2
  · rw [ht]
    simp only [ha4]
    exact hact2
  · rw [ht]
    simp only [ha6]
    exact hpart2
  · rw [ht]
    simp only [ha7]
    exact htime2
  · rw [ht]
    exact hf2'

end System
namespace System

/-- Helper: the invariant depends on the field names and on five members of the manager only. -/
theorem session_invariant_congr {active : List Nat} {fields : List (List Name)} {conditions : Nat}
    {s t : System} (h : session_invariant active fields conditions s)
    (ha : t.manager.m_activePlugins = s.manager.m_activePlugins)
    (hf : t.field_names = s.field_names)
    (hd : t.manager.m_conditionDefaults.length = s.manager.m_conditionDefaults.length)
    (hw : t.manager.m_outputWriter = s.manager.m_outputWriter)
    (hr : t.manager.m_isRunning = s.manager.m_isRunning)
    (hl : t.manager.m_conditionValues.length = s.manager.m_conditionValues.length) :
    session_invariant active fields conditions t where
  activePlugins := ha.trans h.activePlugins
  fieldNames := hf.trans h.fieldNames
  defaults := hd.trans h.defaults
  written := by
    rw [hw, count_fields_congr hf]
    exact h.written
  running := by
    rw [hw, hr, hl]
    exact h.running
  stopped := by
    rw [hw, hr]
    exact h.stopped

/-- Helper: a row written during a running session keeps the invariant. -/
theorem record_keeps_invariant {active : List Nat} {fields : List (List Name)} {conditions : Nat}
    {s t : System} (h : session_invariant active fields conditions s)
    (hrec : record_experiment_state s = .ok t) :
    session_invariant active fields conditions t ∧ t.manager.m_isRunning = true ∧
      t.manager.m_lastHaltEvent = s.manager.m_lastHaltEvent := by
  rw [record_experiment_state_eq_ok] at hrec
  obtain ⟨hrun, cells, hcells, ht⟩ := hrec
  obtain ⟨hopen, hgood, hlive⟩ := h.running hrun
  have hlen := row_cells_length s cells hcells
  simp only [hlive, h.activePlugins] at hlen
  subst ht
  refine ⟨⟨h.activePlugins, h.fieldNames, h.defaults, ?_, ?_, ?_⟩, hrun, rfl⟩
  · simp only [count_fields_manager, insert_open _ _ hopen hgood]
    exact written_ok_append _ h.written (fun cells1 h1 => by cases h1; exact hlen)
  · intro _
    simp only [insert_open _ _ hopen hgood]
    exact ⟨hopen, hgood, hlive⟩
  · intro hstop
    rw [show _ = false from hstop] at hrun
    cases hrun

end System

namespace ExperimentManager

/-- Helper: `reset` keeps the configuration members the invariant speaks about. -/
theorem reset_frame (m : ExperimentManager) :
    m.reset.m_activePlugins = m.m_activePlugins ∧
      m.reset.m_conditionDefaults = m.m_conditionDefaults := by
  unfold reset
  by_cases hopen : m.m_outputWriter.is_open = true <;>
  by_cases haudio : (m.m_enableAudioRecording && decide (m.m_audioPort ≥ 0)) = true <;>
  by_cases hrec : m.m_isAudioRecording = true <;>
  simp [hopen, haudio, hrec]

end ExperimentManager

namespace System

/-- Helper: ending a running session keeps the invariant. -/
theorem end_keeps_invariant {active : List Nat} {fields : List (List Name)} {conditions : Nat}
    {s : System} (h : session_invariant active fields conditions s)
    (hrun : s.manager.m_isRunning = true) :
    session_invariant active fields conditions { s with manager := s.manager.end_ } := by
  obtain ⟨hopen, -, -⟩ := h.running hrun
  have he : s.manager.end_ = s.manager.reset := by
    unfold ExperimentManager.end_
    rw [if_pos hrun]
  obtain ⟨hw, hnr, hclose, -⟩ := ExperimentManager.reset_effect s.manager
  obtain ⟨ha, hd⟩ := ExperimentManager.reset_frame s.manager
  refine ⟨?_, h.fieldNames, ?_, ?_, ?_, ?_⟩
  · show s.manager.end_.m_activePlugins = active
    rw [he, ha]
    exact h.activePlugins
  · show s.manager.end_.m_conditionDefaults.length = conditions
    rw [he, hd]
    exact h.defaults
  · show written_ok _ s.manager.end_.m_outputWriter.written
    rw [he, hw, count_fields_manager]
    exact h.written
  · intro hr
    have : s.manager.end_.m_isRunning = true := hr
    rw [he, hnr] at this
    cases this
  · intro _
    show s.manager.end_.m_outputWriter.is_open = false
    rw [he]
    exact hclose hopen

/-- Helper: aborting a running session keeps the invariant. -/
theorem abort_keeps_invariant {active : List Nat} {fields : List (List Name)} {conditions : Nat}
    {s : System} (h : session_invariant active fields conditions s)
    (hrun : s.manager.m_isRunning = true) :
    session_invariant active fields conditions { s with manager := s.manager.abort } := by
  obtain ⟨hopen, hgood, -⟩ := h.running hrun
  have he : s.manager.abort =
      ExperimentManager.reset
        { s.manager with m_outputWriter := s.manager.m_outputWriter.insert .aborted } := by
    unfold ExperimentManager.abort
    rw [if_pos hrun]
  obtain ⟨hw, hnr, hclose, -⟩ := ExperimentManager.reset_effect
    { s.manager with m_outputWriter := s.manager.m_outputWriter.insert .aborted }
  obtain ⟨ha, hd⟩ := ExperimentManager.reset_frame
    { s.manager with m_outputWriter := s.manager.m_outputWriter.insert .aborted }
  refine ⟨?_, h.fieldNames, ?_, ?_, ?_, ?_⟩
  · show s.manager.abort.m_activePlugins = active
    rw [he, ha]
    exact h.activePlugins
  · show s.manager.abort.m_conditionDefaults.length = conditions
    rw [he, hd]
    exact h.defaults
  · show written_ok _ s.manager.abort.m_outputWriter.written
    rw [he, hw, count_fields_manager]
    simp only [insert_open _ _ hopen hgood]
    exact written_ok_append _ h.written (fun cells1 h1 => by cases h1)
  · intro hr
    have : s.manager.abort.m_isRunning = true := hr
    rw [he, hnr] at this
    cases this
  · intro _
    show s.manager.abort.m_outputWriter.is_open = false
    rw [he]
    apply hclose
    simp only [insert_open _ _ hopen hgood]
    exact hopen

end System
namespace System

/-- Helper: `record_if_required` keeps the invariant of a running session. -/
theorem record_if_required_keeps_invariant {active : List Nat} {fields : List (List Name)}
    {conditions : Nat} {s : System} (writeRequired : Bool)
    (h : session_invariant active fields conditions s) (hrun : s.manager.m_isRunning = true) :
    ensures (record_if_required s writeRequired) (fun t =>
      session_invariant active fields conditions t ∧ t.manager.m_isRunning = true) := by
  unfold record_if_required
  cases writeRequired
  · simpa [ensures_ok] using And.intro h hrun
  · simp only [if_true, ensures_bind, ensures_ok]
    intro s1 hs1
    obtain ⟨h1, hrun1, -⟩ := record_keeps_invariant h hs1
    exact ⟨session_invariant_congr h1 rfl rfl rfl rfl rfl rfl, hrun1⟩

/-- Helper: `halt_if_requested` keeps the invariant of a running session. -/
theorem halt_if_requested_keeps_invariant {active : List Nat} {fields : List (List Name)}
    {conditions : Nat} {s : System} (writeRequired : Bool)
    (h : session_invariant active fields conditions s) (hrun : s.manager.m_isRunning = true) :
    ensures (halt_if_requested s writeRequired) (session_invariant active fields conditions) := by
  unfold halt_if_requested
  rw [ensures_ite]
  refine ⟨fun _ => ?_, fun _ => by simpa [ensures_ok] using h⟩
  have hfinal : ∀ s1 : System, session_invariant active fields conditions s1 →
      s1.manager.m_isRunning = true →
      ensures
        (if s1.manager.m_lastHaltEvent = ERevealEventTypes.kExperiment_End then
          (Except.ok { s1 with manager := s1.manager.end_ } : Except Failure System)
        else if s1.manager.m_lastHaltEvent = ERevealEventTypes.kExperiment_Abort then
          Except.ok { s1 with manager := s1.manager.abort }
        else Except.ok s1)
        (session_invariant active fields conditions) := by
    intro s1 h1 hrun1
    simp only [ensures_ite, ensures_ok]
    exact ⟨fun _ => end_keeps_invariant h1 hrun1,
      fun _ => ⟨fun _ => abort_keeps_invariant h1 hrun1, fun _ => h1⟩⟩
  rw [ensures_bind]
  cases writeRequired
  · simp only [Bool.not_false, if_true]
    intro s1 hs1
    obtain ⟨h1, hrun1, -⟩ := record_keeps_invariant h hs1
    exact hfinal s1 h1 hrun1
  · simp only [Bool.not_true, Bool.false_eq_true, if_false, ensures_ok]
    exact hfinal s h hrun

/-- Helper: `update` keeps the invariant. -/
theorem update_keeps_invariant {active : List Nat} {fields : List (List Name)}
    {conditions : Nat} (vm : Vectormath) (g : GamePlay.GlobalGameState) (fDeltaTime : ℚ)
    {s : System} (h : session_invariant active fields conditions s) :
    ensures (update vm g fDeltaTime s) (session_invariant active fields conditions) := by
  by_cases hrun : s.manager.m_isRunning = true
  · rw [update_running vm g fDeltaTime s hrun, ensures_bind]
    intro r hr
    obtain ⟨hm, hf, -, -⟩ := update_results_frame vm g fDeltaTime _ _ r hr
    have h2 : session_invariant active fields conditions r.2 :=
      session_invariant_congr h (by rw [hm]) hf (by rw [hm]) (by rw [hm]) (by rw [hm])
        (by rw [hm])
    have hrun2 : r.2.manager.m_isRunning = true := by rw [hm]; exact hrun
    rw [ensures_bind]
    intro s3 hs3
    obtain ⟨h3, hrun3⟩ := record_if_required_keeps_invariant _ h2 hrun2 s3 hs3
    exact halt_if_requested_keeps_invariant _ h3 hrun3
  · unfold update
    rw [if_neg hrun, ensures_ok]
    exact h

end System

/-- Helper: `m[k] = v` at a present key keeps the number of entries. -/
theorem UMap.subscript_assign_length {V : Type} (m : List (Name × V)) (k : Name) (v : V)
    (h : UMap.contains m k = true) : (UMap.subscript_assign m k v).length = m.length := by
  simp [UMap.subscript_assign, h, UMap.assign_length]

namespace ExperimentManager

/-- Helper: what `set_experiment_condition` does when it returns. -/
theorem set_experiment_condition_eq_ok (m t : ExperimentManager) (conditionName : String)
    (v : ConditionValue) (h : m.set_experiment_condition conditionName v = .ok t) :
    UMap.contains m.m_conditionValues (Name.mk conditionName) = true ∧
      t = { m with
        m_conditionValues := UMap.subscript_assign m.m_conditionValues (Name.mk conditionName) v,
        m_conditionChanged := true } := by
  unfold set_experiment_condition at h
  simp only [bind_eq_ok, RV_ASSERT_eq_ok, exists_and_left, exists_const, Except.ok.injEq] at h
  exact ⟨h.1, h.2.symm⟩

/-- Helper: the members that `set_experiment_condition` keeps. -/
theorem set_experiment_condition_frame (m : ExperimentManager) (conditionName : String)
    (v : ConditionValue) :
    ensures (m.set_experiment_condition conditionName v) (fun t =>
      t.m_activePlugins = m.m_activePlugins ∧ t.m_conditionDefaults = m.m_conditionDefaults ∧
      t.m_outputWriter = m.m_outputWriter ∧ t.m_isRunning = m.m_isRunning ∧
      t.m_conditionValues.length = m.m_conditionValues.length) := by
  intro t ht
  obtain ⟨hc, rfl⟩ := set_experiment_condition_eq_ok m t conditionName v ht
  exact ⟨rfl, rfl, rfl, rfl, UMap.subscript_assign_length _ _ _ hc⟩

/-- Helper: the members that `increment_experiment_condition` keeps. -/
theorem increment_experiment_condition_frame (m : ExperimentManager) (conditionName : String)
    (increment : Int) :
    ensures (m.increment_experiment_condition conditionName increment) (fun t =>
      t.m_activePlugins = m.m_activePlugins ∧ t.m_conditionDefaults = m.m_conditionDefaults ∧
      t.m_outputWriter = m.m_outputWriter ∧ t.m_isRunning = m.m_isRunning ∧
      t.m_conditionValues.length = m.m_conditionValues.length) := by
  unfold increment_experiment_condition
  split
  · exact set_experiment_condition_frame m conditionName _
  · simp [ensures_ok]

end ExperimentManager
namespace System

/-- Helper: `trigger` changes the history of played blocks only. -/
theorem trigger_frame (s : System) (triggerName : String) :
    ensures (trigger s triggerName) (fun t => t.manager = s.manager ∧ t.plugins = s.plugins) := by
  unfold trigger
  simp only [ensures_bind, ensures_RV_ASSERT]
  intro _
  split
  · simp only [ensures_bind, ensures_ok]
    intro _ _
    trivial
  · simp [ensures_error]

/-- Helper: the manager's `on_event` keeps the invariant, given that a session can only be
started on a closed stream, which the invariant provides. -/
theorem on_event_keeps_invariant {active : List Nat} {fields : List (List Name)}
    {conditions : Nat} (os : Platform) (evt : Event) {s : System}
    (h : session_invariant active fields conditions s) :
    ensures (on_event os s evt) (session_invariant active fields conditions) := by
  unfold on_event
  by_cases hrun : s.manager.m_isRunning = true
  · rw [if_pos hrun]
    simp only [ensures_bind, ensures_RV_ASSERT]
    intro _
    split
    · rw [ensures_ok]
      exact session_invariant_congr h rfl rfl rfl rfl rfl rfl
    · rw [ensures_ok]
      exact session_invariant_congr h rfl rfl rfl rfl rfl rfl
    · simp only [ensures_bind, ensures_ok]
      intro arg _ m1 hm1
      obtain ⟨h1, h2, h3, h4, h5⟩ :=
        ExperimentManager.set_experiment_condition_frame _ _ _ m1 hm1
      exact session_invariant_congr h h1 rfl (by rw [show _ = _ from h2]) h3 h4 h5
    · simp only [ensures_bind, ensures_ok]
      intro arg _ m1 hm1
      obtain ⟨h1, h2, h3, h4, h5⟩ :=
        ExperimentManager.increment_experiment_condition_frame _ _ _ m1 hm1
      exact session_invariant_congr h h1 rfl (by rw [show _ = _ from h2]) h3 h4 h5
    · intro t ht
      obtain ⟨hm, hp⟩ := trigger_frame s _ t ht
      exact session_invariant_congr h (by rw [hm]) (by simp only [field_names, hp])
        (by rw [hm]) (by rw [hm]) (by rw [hm]) (by rw [hm])
    · rw [ensures_ite]
      refine ⟨fun _ => ?_, fun _ => ?_⟩
      · rw [ensures_ok]
        exact session_invariant_congr h rfl rfl rfl rfl rfl rfl
      · rw [ensures_ok]
        exact h
    · rw [ensures_ok]
      exact session_invariant_congr h rfl rfl rfl rfl rfl rfl
    · rw [ensures_ok]
      exact h
  · rw [if_neg hrun, ensures_ite]
    refine ⟨fun _ => ?_, fun _ => by rw [ensures_ok]; exact h⟩
    intro t ht
    have hstop : s.manager.m_isRunning = false := by simpa using hrun
    obtain ⟨headerCells, cells, hhl, hcl, hw, hr, hl, hd, ha, -, -, hf⟩ :=
      start_eq_ok os s t (h.stopped hstop) ht
    have hcount : count_fields t active = count_fields s s.manager.m_activePlugins := by
      rw [h.activePlugins]
      exact count_fields_congr hf _
    refine ⟨ha.trans h.activePlugins, hf.trans h.fieldNames, ?_, ?_, ?_, ?_⟩
    · rw [hd]
      exact h.defaults
    · rw [hw, hcount, ← h.defaults]
      refine ⟨headerCells, [Line.row cells], rfl, hhl, ?_⟩
      intro cells1 hmem
      simp only [List.mem_singleton, Line.row.injEq] at hmem
      rw [hmem]
      exact hcl
    · intro _
      rw [hw, hl]
      exact ⟨rfl, rfl, h.defaults⟩
    · intro hstop1
      rw [hr] at hstop1
      cases hstop1

/-- Helper: an event sent on the bus keeps the invariant. -/
theorem dispatch_keeps_invariant {active : List Nat} {fields : List (List Name)}
    {conditions : Nat} (os : Platform) (evt : Event) {s : System}
    (h : session_invariant active fields conditions s) :
    ensures (dispatch os s evt) (session_invariant active fields conditions) := by
  unfold dispatch
  refine ensures_bind_of _ (on_event_keeps_invariant os evt h) ?_
  intro s1 h1 t ht
  obtain ⟨hm, hf⟩ := plugins_on_event_frame evt _ s1 t ht
  exact session_invariant_congr h1 (by rw [hm]) hf (by rw [hm]) (by rw [hm]) (by rw [hm])
    (by rw [hm])

/-- Helper: every operation of a session keeps the invariant. -/
theorem step_keeps_invariant {active : List Nat} {fields : List (List Name)}
    {conditions : Nat} (vm : Vectormath) (os : Platform) (op : Op) {s : System}
    (h : session_invariant active fields conditions s) :
    ensures (step vm os s op) (session_invariant active fields conditions) := by
  cases op with
  | update fDeltaTime g => exact update_keeps_invariant vm g fDeltaTime h
  | set_experiment_condition conditionName conditionValue =>
    simp only [step, ensures_bind, ensures_ok]
    intro m1 hm1
    obtain ⟨h1, h2, h3, h4, h5⟩ :=
      ExperimentManager.set_experiment_condition_frame _ _ _ m1 hm1
    exact session_invariant_congr h h1 rfl (by rw [show _ = _ from h2]) h3 h4 h5
  | increment_experiment_condition conditionName increment =>
    simp only [step, ensures_bind, ensures_ok]
    intro m1 hm1
    obtain ⟨h1, h2, h3, h4, h5⟩ :=
      ExperimentManager.increment_experiment_condition_frame _ _ _ m1 hm1
    exact session_invariant_congr h h1 rfl (by rw [show _ = _ from h2]) h3 h4 h5
  | trigger triggerName =>
    intro t ht
    obtain ⟨hm, hp⟩ := trigger_frame s _ t ht
    exact session_invariant_congr h (by rw [hm]) (by simp only [field_names, hp])
      (by rw [hm]) (by rw [hm]) (by rw [hm]) (by rw [hm])
  | dispatch evt => exact dispatch_keeps_invariant os evt h

/-- Helper: every sequence of operations keeps the invariant. -/
theorem run_keeps_invariant {active : List Nat} {fields : List (List Name)}
    {conditions : Nat} (vm : Vectormath) (os : Platform) (ops : List Op) :
    ∀ {s : System}, session_invariant active fields conditions s →
      ensures (run vm os s ops) (session_invariant active fields conditions) := by
  induction ops with
  | nil =>
    intro s h
    simpa [run, ensures_ok] using h
  | cons op rest ih =>
    intro s h
    simp only [run]
    exact ensures_bind_of _ (step_keeps_invariant vm os op h) (fun s1 h1 => ih h1)

end System
/-! ## Columns of the text written -/

/-- Helper: the separators in the text written for the cells after the first. -/
theorem separated_count (cells : List String) (h : ∀ cell ∈ cells, no_separator cell) :
    (separated cells).data.count (Char.ofNat 9) = cells.length := by
  induction cells with
  | nil => rfl
  | cons cell rest ih =>
    have hcell : cell.data.count (Char.ofNat 9) = 0 :=
      List.count_eq_zero.mpr (h cell (List.mem_cons_self _ _))
    have hrest := ih (fun c hc => h c (List.mem_cons_of_mem _ hc))
    have hsep : m_separator.data.count (Char.ofNat 9) = 1 := by decide
    simp only [separated, String.data_append, List.count_append, hcell, hrest, hsep,
      List.length_cons]
    omega

/-- Helper: a line of cells none of which contains the separator has one column per cell. -/
theorem columns_of_cells (cell : String) (rest : List String)
    (h : ∀ c ∈ cell :: rest, no_separator c) :
    columns (cell ++ separated rest ++ "\n") = (cell :: rest).length := by
  have hcell : cell.data.count (Char.ofNat 9) = 0 :=
    List.count_eq_zero.mpr (h cell (List.mem_cons_self _ _))
  have hrest := separated_count rest (fun c hc => h c (List.mem_cons_of_mem _ hc))
  have hnl : ("\n" : String).data.count (Char.ofNat 9) = 0 := by decide
  simp only [columns, String.data_append, List.count_append, hcell, hrest, hnl, List.length_cons]
  omega

/-- Helper: the columns of a data row without separators inside its values. -/
theorem columns_row (cells : List String) (hne : cells ≠ [])
    (h : ∀ c ∈ cells, no_separator c) : columns (Line.row cells).text = cells.length := by
  cases cells with
  | nil => exact absurd rfl hne
  | cons cell rest => exact columns_of_cells cell rest h

/-- Helper: the columns of a header line without separators inside its names. -/
theorem columns_header (cells : List String) (hne : cells ≠ [])
    (h : ∀ c ∈ cells, no_separator c) : columns (Line.header cells).text = cells.length := by
  cases cells with
  | nil => exact absurd rfl hne
  | cons cell rest => exact columns_of_cells cell rest h

namespace System

/-- C1 as stated fails for a value that contains the separator: a manager with the single
condition `side`, default the string `left<TAB>right`, is started for participant 7; the header
line has 3 separator-delimited columns and the first data row has 4. -/
theorem row_columns_counterexample :
    (do
      let m1 ← (ExperimentManager.new false 0).add_experiment_condition "side"
        (.kString (Name.mk "left\tright"))
      let m2 ← m1.set_participant 7
      let t ← start Sample.os
        { manager := m2, plugins := [], m_sAvailablePlugins := [],
          g_CI_experiment_args_bank := [], played_blocks := [] }
      pure (t.manager.m_outputWriter.written.map (fun line => (line.text, columns line.text)))) =
      (.ok [("participant\telapsedTime\tside\n", 3), ("7\t0.00\tleft\tright\n", 4)] :
        Except Failure (List (String × Nat))) := by
  decide!

/-- C1, amended. Take a manager between sessions (stream closed), start a session and let any
sequence of updates, condition changes, triggers and bus events follow. In the state reached the
output is the header followed by lines of which every data row has exactly as many values as
the header has column names, namely 2 + the number of live conditions + the number of data
fields of the active plug-ins (counted when the session started). The row text has as many
separator-delimited columns as the header text whenever no column name and no value of the row
contains the separator. -/
theorem session_rows_match_header (vm : Vectormath) (os : Platform) (s0 s1 s2 : System)
    (ops : List Op) (hclosed : s0.manager.m_outputWriter.is_open = false)
    (hstart : start os s0 = .ok s1) (hrun : run vm os s1 ops = .ok s2) :
    ∃ headerCells rest,
      s2.manager.m_outputWriter.written = Line.header headerCells :: rest ∧
      headerCells.length =
        2 + s1.manager.m_conditionValues.length + count_fields s1 s1.manager.m_activePlugins ∧
      (∀ cells, Line.row cells ∈ rest → cells.length = headerCells.length) ∧
      (∀ cells, Line.row cells ∈ rest → (∀ c ∈ headerCells, no_separator c) →
        (∀ c ∈ cells, no_separator c) →
        columns (Line.row cells).text = columns (Line.header headerCells).text) := by
  obtain ⟨hc1, c1, hhl, hcl, hw, hr, hl, hd, ha, -, -, hf⟩ := start_eq_ok os s0 s1 hclosed hstart
  have hcount : count_fields s1 s1.manager.m_activePlugins =
      count_fields s0 s0.manager.m_activePlugins := by
    rw [ha]
    exact count_fields_congr hf _
  have hinv : session_invariant s1.manager.m_activePlugins s1.field_names
      s1.manager.m_conditionDefaults.length s1 := by
    refine ⟨rfl, rfl, rfl, ?_, ?_, ?_⟩
    · rw [hw, hd, hcount]
      refine ⟨hc1, [Line.row c1], rfl, hhl, ?_⟩
      intro cells hmem
      simp only [List.mem_singleton, Line.row.injEq] at hmem
      rw [hmem]
      exact hcl
    · intro _
      rw [hw, hl, hd]
      exact ⟨rfl, rfl, rfl⟩
    · intro hstop
      rw [hr] at hstop
      cases hstop
  obtain ⟨headerCells, rest, hw2, hlen2, hrows2⟩ :=
    (run_keeps_invariant vm os ops hinv s2 hrun).written
  have hk : s2.count_fields s1.manager.m_activePlugins =
      count_fields s1 s1.manager.m_activePlugins :=
    count_fields_congr (run_keeps_invariant vm os ops hinv s2 hrun).fieldNames _
  rw [hk, hd, ← hl] at hlen2 hrows2
  refine ⟨headerCells, rest, hw2, hlen2, fun cells hmem => (hrows2 cells hmem).trans hlen2.symm,
    ?_⟩
  intro cells hmem hheader hcells
  have hne : headerCells ≠ [] := by
    intro hnil
    rw [hnil] at hlen2
    simp at hlen2
    omega
  have hne2 : cells ≠ [] := by
    intro hnil
    have := hrows2 cells hmem
    rw [hnil] at this
    simp at this
    omega
  rw [columns_row cells hne2 hcells, columns_header headerCells hne hheader, hrows2 cells hmem,
    hlen2]

end System
/-- Witness of the amended C1: the sample session with the Voice plug-in; its output is the
header, five rows of four values and the abort line. -/
theorem session_rows_match_header_witness :
    (∃ headerCells rest,
      Sample.finished.manager.m_outputWriter.written = Line.header headerCells :: rest ∧
      headerCells.length =
        2 + Sample.started.manager.m_conditionValues.length +
          System.count_fields Sample.started Sample.started.manager.m_activePlugins ∧
      (∀ cells, Line.row cells ∈ rest → cells.length = headerCells.length) ∧
      (∀ cells, Line.row cells ∈ rest → (∀ c ∈ headerCells, no_separator c) →
        (∀ c ∈ cells, no_separator c) →
        columns (Line.row cells).text = columns (Line.header headerCells).text)) ∧
      Sample.finished.manager.m_outputWriter.written.map Line.text =
        ["participant\telapsedTime\tgroup\tvoiceRecording\n", "7\t0.00\t5\tFALSE\n",
          "7\t0.50\t5\tTRUE\n", "7\t1.00\t6\tTRUE\n", "7\t2.00\t6\tTRUE\n", "ABORTED!\n"] :=
  ⟨System.session_rows_match_header Sample.vm Sample.os Sample.between_sessions Sample.started
      Sample.finished Sample.ops (by decide) (by decide!) (by decide!),
    by decide!⟩
namespace System

/-- Helper: two decimals of zero. -/
theorem format_fixed_zero : format_fixed 2 0 = "0.00" := by decide!

/-- Helper: `start()` without active plug-ins, on a stopped manager with a participant and a
closed, good stream: the state afterwards. -/
theorem start_without_plugins (os : Platform) (s : System)
    (hstop : s.manager.m_isRunning = false)
    (hpart : s.manager.m_currentParticipant ≠ kInvalidParticipantNumber)
    (hclosed : s.manager.m_outputWriter.is_open = false)
    (hact : s.manager.m_activePlugins = []) :
    ∃ t, start os s = .ok t ∧ t.plugins = s.plugins ∧
      t.manager.m_isRunning = true ∧
      t.manager.m_activePlugins = [] ∧
      t.manager.m_conditionValues = s.manager.m_conditionDefaults ∧
      t.manager.m_currentParticipant = s.manager.m_currentParticipant ∧
      t.manager.m_fTotalTime = s.manager.m_fTotalTime ∧
      t.manager.m_lastHaltEvent = s.manager.m_lastHaltEvent ∧
      t.manager.m_outputWriter.is_open = true ∧ t.manager.m_outputWriter.good = true ∧
      t.manager.m_outputWriter.written =
        [Line.header (["participant", "elapsedTime"] ++
            s.manager.m_conditionDefaults.map (fun conditionPair => conditionPair.1.get_message)),
          Line.row ([to_string_u32 s.manager.m_currentParticipant,
              format_fixed 2 s.manager.m_fTotalTime] ++
            s.manager.m_conditionDefaults.map
              (fun conditionPair => conditionPair.2.operator_shl))] := by
  obtain ⟨X, hstart, hXp, hXr, hXa, hXc, hXn, hXt, hXh, hXw⟩ : ∃ X : System,
      start os s = record_experiment_state X ∧ X.plugins = s.plugins ∧
      X.manager.m_isRunning = true ∧ X.manager.m_activePlugins = [] ∧
      X.manager.m_conditionValues = s.manager.m_conditionDefaults ∧
      X.manager.m_currentParticipant = s.manager.m_currentParticipant ∧
      X.manager.m_fTotalTime = s.manager.m_fTotalTime ∧
      X.manager.m_lastHaltEvent = s.manager.m_lastHaltEvent ∧
      X.manager.m_outputWriter =
        { is_open := true, good := true,
          path := "Media/Config/participant_" ++ format_02d s.manager.m_currentParticipant ++
            "_" ++ os.dateString ++ ".csv",
          written := [Line.header (["participant", "elapsedTime"] ++
            s.manager.m_conditionDefaults.map
              (fun conditionPair => conditionPair.1.get_message))] } := by
    obtain ⟨ha1, ha2, -, ha4, -, ha6, ha7, -, ha9⟩ := open_audio_port_frame os
      ("Media/Config/participant_" ++ format_02d s.manager.m_currentParticipant ++ "_" ++
        os.dateString)
      { s.manager with
        m_outputWriter := (s.manager.m_outputWriter.open_
          ("Media/Config/participant_" ++ format_02d s.manager.m_currentParticipant ++ "_" ++
            os.dateString ++ ".csv")).insert
            (.header (["participant", "elapsedTime"] ++
              s.manager.m_conditionDefaults.map
                (fun conditionPair => conditionPair.1.get_message))),
        m_conditionValues := s.manager.m_conditionDefaults }
    refine ⟨{ s with manager :=
        { open_audio_port os
            ("Media/Config/participant_" ++ format_02d s.manager.m_currentParticipant ++ "_" ++
              os.dateString)
            { s.manager with
              m_outputWriter := (s.manager.m_outputWriter.open_
                ("Media/Config/participant_" ++ format_02d s.manager.m_currentParticipant ++
                  "_" ++ os.dateString ++ ".csv")).insert
                  (.header (["participant", "elapsedTime"] ++
                    s.manager.m_conditionDefaults.map
                      (fun conditionPair => conditionPair.1.get_message))),
              m_conditionValues := s.manager.m_conditionDefaults }
          with m_isRunning := true } }, ?_, rfl, rfl, ?_, ?_, ?_, ?_, ?_, ?_⟩
    · unfold start
      simp only [hstop, hpart, hact, RV_ASSERT, reset_plugins, header_cells, plugin_header_cells,
        bind, Except.bind, Bool.not_false, if_true, ne_eq, not_false_eq_true, decide_True,
        List.append_nil]
    · exact ha4.trans hact
    · exact ha2
    · exact ha6
    · exact ha7
    · exact ha9
    · refine ha1.trans ?_
      simp [OutputWriter.open_, OutputWriter.insert, hclosed]
  have hcells : row_cells X = .ok ([to_string_u32 s.manager.m_currentParticipant,
      format_fixed 2 s.manager.m_fTotalTime] ++
      s.manager.m_conditionDefaults.map (fun conditionPair => conditionPair.2.operator_shl)) := by
    simp only [row_cells, hXa, plugin_row_cells, bind, Except.bind, hXn, hXt, hXc,
      List.append_nil]
  rw [hstart]
  refine ⟨_, (record_experiment_state_eq_ok _ _).mpr ⟨hXr, _, hcells, rfl⟩, hXp, hXr, hXa, hXc,
    hXn, hXt, hXh, ?_, ?_, ?_⟩
  · simp [hXw, OutputWriter.insert]
  · simp [hXw, OutputWriter.insert]
  · simp [hXw, OutputWriter.insert]

end System
namespace ExperimentManager

/-- Helper: `abort()` on a running manager whose stream is open and good. -/
theorem abort_running (m : ExperimentManager) (hrun : m.m_isRunning = true)
    (hopen : m.m_outputWriter.is_open = true) (hgood : m.m_outputWriter.good = true) :
    m.abort.m_outputWriter.written = m.m_outputWriter.written ++ [Line.aborted] ∧
      m.abort.m_isRunning = false := by
  have h := reset_effect { m with m_outputWriter := m.m_outputWriter.insert .aborted }
  have hab : m.abort = reset { m with m_outputWriter := m.m_outputWriter.insert .aborted } := by
    unfold abort
    rw [if_pos hrun]
  rw [hab]
  refine ⟨?_, h.2.1⟩
  rw [h.1]
  simp [OutputWriter.insert, hopen, hgood]

end ExperimentManager
namespace System

/-- C5. The scenario on a stopped manager without active plug-ins and without conditions, its
stream closed, its clock at zero and no halt pending (as after construction, after `init()` and
after a session; whatever the plug-in objects and the platform are): after the condition
`difficulty` is added with default `Integer(1)`, participant 7 is set and the session is started,
the output is the header `participant, elapsedTime, difficulty` and the row `7, 0.00, 1`; after
`increment_experiment_condition("difficulty", 2)` every update writes one row, whose last column
is `3`; after `abort()` the last line is `ABORTED!` and the manager is not running. -/
theorem scenario_difficulty (os : Platform) (s0 : System)
    (hstop : s0.manager.m_isRunning = false)
    (hclosed : s0.manager.m_outputWriter.is_open = false)
    (hact : s0.manager.m_activePlugins = [])
    (hdef : s0.manager.m_conditionDefaults = [])
    (htime : s0.manager.m_fTotalTime = 0)
    (hhalt : s0.manager.m_lastHaltEvent = ERevealEventTypes.kDummyEvent) :
    ∃ m1 m2 s3 m4,
      s0.manager.add_experiment_condition "difficulty" (.kInteger 1) = .ok m1 ∧
      m1.set_participant 7 = .ok m2 ∧
      start os { s0 with manager := m2 } = .ok s3 ∧
      s3.manager.m_outputWriter.written.map Line.text =
        ["participant\telapsedTime\tdifficulty\n", "7\t0.00\t1\n"] ∧
      s3.manager.increment_experiment_condition "difficulty" 2 = .ok m4 ∧
      m4.get_experiment_condition_value "difficulty" = .kInteger 3 ∧
      ∀ (vm : Vectormath) (g : GamePlay.GlobalGameState) (fDeltaTime : ℚ),
        ∃ s5, update vm g fDeltaTime { s3 with manager := m4 } = .ok s5 ∧
          s5.manager.m_outputWriter.written = s3.manager.m_outputWriter.written ++
            [Line.row ["7", format_fixed 2 fDeltaTime, "3"]] ∧
          (Line.row ["7", format_fixed 2 fDeltaTime, "3"]).text =
            "7" ++ "\t" ++ format_fixed 2 fDeltaTime ++ "\t" ++ "3" ++ "\n" ∧
          s5.manager.abort.m_outputWriter.written.getLast? = some Line.aborted ∧
          Line.aborted.text = "ABORTED!\n" ∧
          s5.manager.abort.is_running = false := by
  have hadd : s0.manager.add_experiment_condition "difficulty" (.kInteger 1) =
      .ok { s0.manager with m_conditionDefaults := [(Name.mk "difficulty", .kInteger 1)] } := by
    simp [ExperimentManager.add_experiment_condition, hstop, hdef, UMap.contains, UMap.find,
      UMap.insert, RV_ASSERT, bind, Except.bind]
  have hset : ExperimentManager.set_participant
      { s0.manager with m_conditionDefaults := [(Name.mk "difficulty", .kInteger 1)] } 7 =
      .ok { s0.manager with
        m_conditionDefaults := [(Name.mk "difficulty", .kInteger 1)]
        m_currentParticipant := 7 } := by
    simp [ExperimentManager.set_participant, hstop, RV_ASSERT, bind, Except.bind]
  obtain ⟨s3, hs3, -, hrun3, hact3, hlive3, hpart3, htime3, hhalt3, hopen3, hgood3, hw3⟩ :=
    start_without_plugins os
      { s0 with manager :=
          { s0.manager with
            m_conditionDefaults := [(Name.mk "difficulty", .kInteger 1)]
            m_currentParticipant := 7 } }
      hstop (by simp [kInvalidParticipantNumber]) hclosed hact
  simp only [htime, hhalt, List.map_cons, List.map_nil, Name.get_message,
    ConditionValue.operator_shl] at hlive3 hpart3 htime3 hhalt3 hw3
  have hinc : s3.manager.increment_experiment_condition "difficulty" 2 =
      .ok { s3.manager with
        m_conditionValues := [(Name.mk "difficulty", .kInteger 3)],
        m_conditionChanged := true } := by
    simp only [ExperimentManager.increment_experiment_condition,
      ExperimentManager.get_experiment_condition_value, hlive3, UMap.find, if_true,
      ExperimentManager.set_experiment_condition, UMap.contains, Option.isSome, RV_ASSERT, bind,
      Except.bind, UMap.subscript_assign, UMap.assign, List.map_cons, List.map_nil]
    rfl
  refine ⟨_, _, s3, _, hadd, hset, hs3, ?_, hinc, ?_, ?_⟩
  · rw [hw3]
    decide!
  · simp [ExperimentManager.get_experiment_condition_value, UMap.find]
  · intro vm g fDeltaTime
    have hcells : row_cells { s3 with manager := { s3.manager with
        m_conditionValues := [(Name.mk "difficulty", .kInteger 3)]
        m_conditionChanged := true
        m_fTotalTime := s3.manager.m_fTotalTime + fDeltaTime } } =
        .ok ["7", format_fixed 2 fDeltaTime, "3"] := by
      simp only [row_cells, hact3, plugin_row_cells, bind, Except.bind, hpart3, htime3, zero_add,
        List.map_cons, List.map_nil, ConditionValue.operator_shl, List.append_nil,
        List.cons_append, List.nil_append]
      rfl
    have hup : update vm g fDeltaTime { s3 with manager := { s3.manager with
        m_conditionValues := [(Name.mk "difficulty", .kInteger 3)],
        m_conditionChanged := true } } =
        .ok { s3 with manager := { s3.manager with
          m_conditionValues := [(Name.mk "difficulty", .kInteger 3)],
          m_fTotalTime := s3.manager.m_fTotalTime + fDeltaTime,
          m_outputWriter := s3.manager.m_outputWriter.insert
            (.row ["7", format_fixed 2 fDeltaTime, "3"]),
          m_conditionChanged := false } } := by
      rw [update_running vm g fDeltaTime { s3 with manager := { s3.manager with
        m_conditionValues := [(Name.mk "difficulty", .kInteger 3)],
        m_conditionChanged := true } } hrun3]
      have hres : update_results vm g fDeltaTime
          { s3 with manager := { s3.manager with
            m_conditionValues := [(Name.mk "difficulty", .kInteger 3)]
            m_conditionChanged := true
            m_fTotalTime := s3.manager.m_fTotalTime + fDeltaTime } }
          s3.manager.m_activePlugins =
          .ok ([], { s3 with manager := { s3.manager with
            m_conditionValues := [(Name.mk "difficulty", .kInteger 3)]
            m_conditionChanged := true
            m_fTotalTime := s3.manager.m_fTotalTime + fDeltaTime } }) := by
        rw [hact3]
        rfl
      have hrec := record_if_required_true { s3 with manager := { s3.manager with
        m_conditionValues := [(Name.mk "difficulty", .kInteger 3)]
        m_conditionChanged := true
        m_fTotalTime := s3.manager.m_fTotalTime + fDeltaTime } } _ hrun3 hcells
      show (update_results vm g fDeltaTime
          { s3 with manager := { s3.manager with
            m_conditionValues := [(Name.mk "difficulty", .kInteger 3)]
            m_conditionChanged := true
            m_fTotalTime := s3.manager.m_fTotalTime + fDeltaTime } }
          s3.manager.m_activePlugins >>= _) = _
      rw [hres]
      show (record_if_required { s3 with manager := { s3.manager with
            m_conditionValues := [(Name.mk "difficulty", .kInteger 3)]
            m_conditionChanged := true
            m_fTotalTime := s3.manager.m_fTotalTime + fDeltaTime } } true >>= _) = _
      rw [hrec]
      exact halt_if_requested_none _ true hhalt3
    have hab := ExperimentManager.abort_running
      { s3.manager with
        m_conditionValues := [(Name.mk "difficulty", .kInteger 3)],
        m_fTotalTime := s3.manager.m_fTotalTime + fDeltaTime,
        m_outputWriter := s3.manager.m_outputWriter.insert
          (.row ["7", format_fixed 2 fDeltaTime, "3"]),
        m_conditionChanged := false } hrun3
      (by simp [insert_open _ _ hopen3 hgood3, hopen3])
      (by simp [insert_open _ _ hopen3 hgood3, hgood3])
    refine ⟨_, hup, ?_, ?_, ?_, by decide, ?_⟩
    · simp [insert_open _ _ hopen3 hgood3]
    · apply String.ext
      simp [Line.text, separated, m_separator]
    · rw [hab.1]
      simp
    · exact hab.2

end System
/-- Witness of C5: the scenario on the sample manager after `init()`. -/
theorem scenario_difficulty_witness :
    ∃ m1 m2 s3 m4,
      Sample.initial.manager.add_experiment_condition "difficulty" (.kInteger 1) = .ok m1 ∧
      m1.set_participant 7 = .ok m2 ∧
      System.start Sample.os { Sample.initial with manager := m2 } = .ok s3 ∧
      s3.manager.m_outputWriter.written.map Line.text =
        ["participant\telapsedTime\tdifficulty\n", "7\t0.00\t1\n"] ∧
      s3.manager.increment_experiment_condition "difficulty" 2 = .ok m4 ∧
      m4.get_experiment_condition_value "difficulty" = .kInteger 3 ∧
      ∀ (vm : Vectormath) (g : GamePlay.GlobalGameState) (fDeltaTime : ℚ),
        ∃ s5, System.update vm g fDeltaTime { s3 with manager := m4 } = .ok s5 ∧
          s5.manager.m_outputWriter.written = s3.manager.m_outputWriter.written ++
            [Line.row ["7", format_fixed 2 fDeltaTime, "3"]] ∧
          (Line.row ["7", format_fixed 2 fDeltaTime, "3"]).text =
            "7" ++ "\t" ++ format_fixed 2 fDeltaTime ++ "\t" ++ "3" ++ "\n" ∧
          s5.manager.abort.m_outputWriter.written.getLast? = some Line.aborted ∧
          Line.aborted.text = "ABORTED!\n" ∧
          s5.manager.abort.is_running = false :=
  System.scenario_difficulty Sample.os Sample.initial (by decide) (by decide) (by decide)
    (by decide) (by decide!) (by decide)

/-- Helper: a key found in a map is found, with the same value, after entries are appended. -/
theorem UMap.find_append_of_some {V : Type} (m r : List (Name × V)) (k : Name) (v : V)
    (h : UMap.find m k = some v) : UMap.find (m ++ r) k = some v := by
  induction m with
  | nil => simp [UMap.find] at h
  | cons kv rest ih =>
    obtain ⟨k1, v1⟩ := kv
    simp only [UMap.find, List.cons_append] at h ⊢
    split_ifs at h ⊢ with hk
    · exact h
    · exact ih h

/-- Helper: a key absent from a map is looked up in the appended entries. -/
theorem UMap.find_append_of_none {V : Type} (m r : List (Name × V)) (k : Name)
    (h : UMap.find m k = none) : UMap.find (m ++ r) k = UMap.find r k := by
  induction m with
  | nil => rfl
  | cons kv rest ih =>
    obtain ⟨k1, v1⟩ := kv
    simp only [UMap.find, List.cons_append] at h ⊢
    split_ifs at h ⊢ with hk
    · exact ih h

/-- Helper: `insert` keeps what was mapped. -/
theorem UMap.find_insert_of_some {V : Type} (m : List (Name × V)) (k1 : Name) (v1 : V) (k : Name)
    (v : V) (h : UMap.find m k = some v) : UMap.find (UMap.insert m k1 v1) k = some v := by
  unfold UMap.insert
  split_ifs
  · exact h
  · exact UMap.find_append_of_some m _ k v h

/-- Helper: `insert` at an absent key maps the key to the value. -/
theorem UMap.find_insert_self {V : Type} (m : List (Name × V)) (k : Name) (v : V)
    (h : UMap.contains m k = false) : UMap.find (UMap.insert m k v) k = some v := by
  unfold UMap.insert
  rw [if_neg (by simp [h])]
  have hnone : UMap.find m k = none := by
    unfold UMap.contains at h
    cases hf : UMap.find m k with
    | none => rfl
    | some x => simp [hf] at h
  rw [UMap.find_append_of_none m _ k hnone]
  simp [UMap.find]

namespace System

/-- Helper: `start()` copies the default map into the live map and keeps the default map. -/
theorem start_copies_defaults (os : Platform) (s t : System) (h : start os s = .ok t) :
    t.manager.m_conditionValues = s.manager.m_conditionDefaults ∧
      t.manager.m_conditionDefaults = s.manager.m_conditionDefaults := by
  unfold start at h
  simp only [bind_eq_ok, RV_ASSERT_eq_ok, exists_and_left, exists_const] at h
  obtain ⟨-, -, s2, hreset, headerCells, -, hrecord⟩ := h
  obtain ⟨hm2, -⟩ := reset_plugins_frame _ _ s2 hreset
  have hlive2 : s2.manager.m_conditionValues = s.manager.m_conditionDefaults := by rw [hm2]
  have hdef2 : s2.manager.m_conditionDefaults = s.manager.m_conditionDefaults := by rw [hm2]
  clear hm2 hreset
  rw [record_experiment_state_eq_ok] at hrecord
  obtain ⟨-, cells, -, ht⟩ := hrecord
  obtain ⟨-, ha2, ha3, -⟩ := open_audio_port_frame os
    ("Media/Config/participant_" ++ format_02d s.manager.m_currentParticipant ++ "_" ++
      os.dateString)
    { s2.manager with m_outputWriter := s2.manager.m_outputWriter.insert (.header headerCells) }
  constructor
  · rw [ht]
    exact ha2.trans hlive2
  · rw [ht]
    exact ha3.trans hdef2

/-- Helper: the conditions of the configuration are found in the default map built from them, and
what was mapped before stays mapped. -/
theorem configure_conditions_finds (conditions : List Json.Condition) :
    ∀ m m1 : ExperimentManager, configure_conditions m conditions = .ok m1 →
      (∀ k v, UMap.find m.m_conditionDefaults k = some v →
        UMap.find m1.m_conditionDefaults k = some v) ∧
      ∀ condition ∈ conditions,
        UMap.find m1.m_conditionDefaults (Name.mk condition.name) =
          some (match condition.value with
            | some jsonValue => ConditionValue.ofJson jsonValue
            | none => ConditionValue.default) := by
  induction conditions with
  | nil =>
    intro m m1 h
    simp only [configure_conditions, Except.ok.injEq] at h
    subst h
    exact ⟨fun _ _ hk => hk, fun _ hc => by simp at hc⟩
  | cons condition rest ih =>
    intro m m1 h
    simp only [configure_conditions, ExperimentManager.add_experiment_condition, bind_eq_ok,
      RV_ASSERT_eq_ok, exists_and_left, exists_const, Except.ok.injEq] at h
    obtain ⟨m2, ⟨-, habsent, hm2⟩, hrest⟩ := h
    obtain ⟨hkeep, hfound⟩ := ih m2 m1 hrest
    have habsent1 : UMap.contains m.m_conditionDefaults (Name.mk condition.name) = false := by
      simpa using habsent
    subst hm2
    constructor
    · intro k v hk
      exact hkeep k v (UMap.find_insert_of_some _ _ _ k v hk)
    · intro c hc
      rcases List.mem_cons.mp hc with hc1 | hc1
      · subst hc1
        exact hkeep _ _ (UMap.find_insert_self _ _ _ habsent1)
      · exact hfound c hc1

/-- Helper: registering the triggers keeps the default map. -/
theorem configure_triggers_frame (triggers : List Json.Trigger) :
    ∀ m : ExperimentManager, ensures (configure_triggers m triggers)
      (fun m1 => m1.m_conditionDefaults = m.m_conditionDefaults) := by
  induction triggers with
  | nil =>
    intro m
    simp [configure_triggers, ensures_ok]
  | cons trigger rest ih =>
    intro m
    simp only [configure_triggers, ExperimentManager.add_experiment_trigger, ensures_bind,
      ensures_RV_ASSERT, ensures_ok]
    intro _ _
    exact ensures_mono (ih _) (fun _ h => h)

/-- Helper: `disable_plugin` keeps the default map. -/
theorem disable_plugin_frame (s : System) (pluginName : Name) :
    ensures (disable_plugin s pluginName)
      (fun r => r.2.manager.m_conditionDefaults = s.manager.m_conditionDefaults) := by
  unfold disable_plugin
  rw [ensures_bind, ensures_RV_ASSERT]
  intro _
  cases UMap.find s.m_sAvailablePlugins pluginName with
  | none => simp [ensures_ok]
  | some pPlugin =>
    dsimp only
    split_ifs <;> simp [ensures_ok]

/-- Helper: `enable_plugin` keeps the default map. -/
theorem enable_plugin_frame (s : System) (pluginName : Name) :
    ensures (enable_plugin s pluginName)
      (fun r => r.2.manager.m_conditionDefaults = s.manager.m_conditionDefaults) := by
  unfold enable_plugin
  rw [ensures_bind, ensures_RV_ASSERT]
  intro _
  cases UMap.find s.m_sAvailablePlugins pluginName with
  | none => simp [ensures_ok]
  | some pPlugin =>
    dsimp only
    split_ifs <;> simp [ensures_ok]

/-- Helper: disabling plug-ins keeps the default map. -/
theorem disable_plugins_frame (names : List Name) :
    ∀ s : System, ensures (disable_plugins s names)
      (fun t => t.manager.m_conditionDefaults = s.manager.m_conditionDefaults) := by
  induction names with
  | nil =>
    intro s
    simp [disable_plugins, ensures_ok]
  | cons pluginName rest ih =>
    intro s
    simp only [disable_plugins]
    refine ensures_bind_of _ (disable_plugin_frame s pluginName) ?_
    intro r hr
    obtain ⟨pPlugin, s1⟩ := r
    exact ensures_mono (ih s1) (fun t ht => ht.trans hr)

/-- Helper: enabling and configuring plug-ins keeps the default map. -/
theorem configure_plugins_frame (plugins : List Json.Plugin) :
    ∀ s : System, ensures (configure_plugins s plugins)
      (fun t => t.manager.m_conditionDefaults = s.manager.m_conditionDefaults) := by
  induction plugins with
  | nil =>
    intro s
    simp [configure_plugins, ensures_ok]
  | cons jsonPlugin rest ih =>
    intro s
    simp only [configure_plugins]
    refine ensures_bind_of _ (enable_plugin_frame s (Name.mk jsonPlugin.name)) ?_
    intro r hr
    obtain ⟨pPlugin, s1⟩ := r
    cases pPlugin with
    | none => exact ensures_mono (ih s1) (fun t ht => ht.trans hr)
    | some pointer =>
      simp only [ensures_bind]
      intro plugin _ plugin1 _
      exact ensures_mono (ih _) (fun t ht => ht.trans hr)

/-- Helper: after `configure_from_json` every condition of the configuration is mapped to its
default value in the default map. -/
theorem configure_from_json_defaults (s s1 : System) (jsonData : Json.Experiment)
    (h : configure_from_json s jsonData = .ok s1) :
    ∀ condition ∈ jsonData.conditions.getD [],
      UMap.find s1.manager.m_conditionDefaults (Name.mk condition.name) =
        some (match condition.value with
          | some jsonValue => ConditionValue.ofJson jsonValue
          | none => ConditionValue.default) := by
  unfold configure_from_json at h
  simp only [bind_eq_ok, RV_ASSERT_eq_ok, exists_and_left, exists_const, Except.ok.injEq] at h
  obtain ⟨-, m2, hm2, m3, hm3, names, -, s4, hs4, s5, hs5, ht⟩ := h
  have h2 := (configure_conditions_finds _ _ m2 hm2).2
  have h3 : m3.m_conditionDefaults = m2.m_conditionDefaults :=
    configure_triggers_frame _ { m2 with m_triggers := [] } m3 hm3
  have h4 : s4.manager.m_conditionDefaults = m3.m_conditionDefaults :=
    disable_plugins_frame _ { s with manager := m3 } s4 hs4
  have h5 : s5.manager.m_conditionDefaults = s4.manager.m_conditionDefaults :=
    configure_plugins_frame _ _ s5 hs5
  have h1 : s1.manager.m_conditionDefaults = m2.m_conditionDefaults := by
    rw [← ht]
    exact h5.trans (h4.trans h3)
  intro condition hc
  rw [h1]
  exact h2 condition hc

/-- C9. Round trip of the condition defaults. When `start()` returns, the live condition map is
the default map (which `start()` leaves as it was), so `get_experiment_condition_value(name)`
returns `v` for every condition registered with default `v`; in particular, when the state
before `start()` is the one reached by `configure_from_json` followed by `set_participant`, it
returns for every condition of the configuration the value given there (the invalid value when
none is given). -/
theorem condition_defaults_round_trip (os : Platform) (s t : System)
    (hstart : start os s = .ok t) :
    t.manager.m_conditionValues = s.manager.m_conditionDefaults ∧
      t.manager.m_conditionValues = t.manager.m_conditionDefaults ∧
      (∀ (name : String) (v : ConditionValue),
        UMap.find s.manager.m_conditionDefaults (Name.mk name) = some v →
          t.manager.get_experiment_condition_value name = v) ∧
      ∀ (s0 s1 : System) (jsonData : Json.Experiment) (participant : Nat),
        configure_from_json s0 jsonData = .ok s1 →
        s1.manager.set_participant participant = .ok s.manager →
        ∀ condition ∈ jsonData.conditions.getD [],
          t.manager.get_experiment_condition_value condition.name =
            match condition.value with
            | some jsonValue => ConditionValue.ofJson jsonValue
            | none => ConditionValue.default := by
  obtain ⟨hlive, hdef⟩ := start_copies_defaults os s t hstart
  have hget : ∀ (name : String) (v : ConditionValue),
      UMap.find s.manager.m_conditionDefaults (Name.mk name) = some v →
        t.manager.get_experiment_condition_value name = v := by
    intro name v hv
    unfold ExperimentManager.get_experiment_condition_value
    rw [hlive, hv]
  refine ⟨hlive, hlive.trans hdef.symm, hget, ?_⟩
  intro s0 s1 jsonData participant hconf hpart condition hc
  have hfound := configure_from_json_defaults s0 s1 jsonData hconf condition hc
  simp only [ExperimentManager.set_participant, bind_eq_ok, RV_ASSERT_eq_ok, exists_and_left,
    exists_const, Except.ok.injEq] at hpart
  have hsame : s.manager.m_conditionDefaults = s1.manager.m_conditionDefaults := by
    rw [← hpart.2]
  apply hget
  rw [hsame]
  exact hfound

end System
/-- Witness of C9: the sample configuration is read, participant 7 is set and the session is
started; the three conditions read back as `Integer(5)`, the string `left` and the invalid
value. -/
theorem condition_defaults_round_trip_witness :
    System.start Sample.os Sample.configured_for_participant = .ok Sample.round_trip ∧
      Sample.round_trip.manager.m_conditionValues =
        Sample.configured_for_participant.manager.m_conditionDefaults ∧
      Sample.round_trip.manager.m_conditionValues =
        Sample.round_trip.manager.m_conditionDefaults ∧
      Sample.round_trip.manager.get_experiment_condition_value "group" = .kInteger 5 ∧
      Sample.round_trip.manager.get_experiment_condition_value "side" =
        .kString (Name.mk "left") ∧
      Sample.round_trip.manager.get_experiment_condition_value "note" = .kInvalid :=
  have h := System.condition_defaults_round_trip Sample.os Sample.configured_for_participant
    Sample.round_trip (by decide!)
  have hjson := h.2.2.2 Sample.between_sessions Sample.configured Sample.configuration 7
    (by decide!) (by decide!)
  ⟨by decide!, h.1, h.2.1,
    hjson { name := "group", value := some (.kNumberType 5) } (by decide),
    hjson { name := "side", value := some (.kStringType "left") } (by decide),
    hjson { name := "note", value := none } (by decide)⟩

/-- Witness of C7: interval 0 is stored as 1; participant 9 gets the sentinel from a trigger
without command blocks and the second of two command blocks. -/
theorem trigger_get_command_block_total_witness :
    Trigger.get_command_block { Trigger.ofInterval 0 with commands := [] } 9 =
        .ok Name.kInvalidHash ∧
      ((9 / max 0 1) % [Name.mk "A", Name.mk "B"].length < [Name.mk "A", Name.mk "B"].length ∧
        ∃ block, [Name.mk "A", Name.mk "B"][(9 / max 0 1) % [Name.mk "A", Name.mk "B"].length]? =
            some block ∧
          Trigger.get_command_block
            { Trigger.ofInterval 0 with commands := [Name.mk "A", Name.mk "B"] } 9 = .ok block) ∧
      Trigger.get_command_block
        { Trigger.ofInterval 0 with commands := [Name.mk "A", Name.mk "B"] } 9 =
          .ok (Name.mk "B") :=
  ⟨(trigger_get_command_block_total 0 [] 9).2.2.1 rfl,
    (trigger_get_command_block_total 0 [Name.mk "A", Name.mk "B"] 9).2.2.2 (by decide),
    by decide⟩
namespace ExperimentManager

/-- C14. From any state `reset()` leaves the configuration as it was: the default map, the
triggers, the sequence of active plug-ins, the undefined-value string and the audio-enabled flag;
`end()` and `abort()`, which reset a running manager and do nothing otherwise, leave it as it
was too. -/
theorem reset_keeps_configuration (m : ExperimentManager) :
    (m.reset.m_conditionDefaults = m.m_conditionDefaults ∧
        m.reset.m_triggers = m.m_triggers ∧
        m.reset.m_activePlugins = m.m_activePlugins ∧
        m.reset.m_undefinedValue = m.m_undefinedValue ∧
        m.reset.m_enableAudioRecording = m.m_enableAudioRecording) ∧
      (m.end_.m_conditionDefaults = m.m_conditionDefaults ∧
        m.end_.m_triggers = m.m_triggers ∧
        m.end_.m_activePlugins = m.m_activePlugins ∧
        m.end_.m_undefinedValue = m.m_undefinedValue ∧
        m.end_.m_enableAudioRecording = m.m_enableAudioRecording) ∧
      (m.abort.m_conditionDefaults = m.m_conditionDefaults ∧
        m.abort.m_triggers = m.m_triggers ∧
        m.abort.m_activePlugins = m.m_activePlugins ∧
        m.abort.m_undefinedValue = m.m_undefinedValue ∧
        m.abort.m_enableAudioRecording = m.m_enableAudioRecording) := by
  have hreset : ∀ n : ExperimentManager,
      n.reset.m_conditionDefaults = n.m_conditionDefaults ∧
        n.reset.m_triggers = n.m_triggers ∧
        n.reset.m_activePlugins = n.m_activePlugins ∧
        n.reset.m_undefinedValue = n.m_undefinedValue ∧
        n.reset.m_enableAudioRecording = n.m_enableAudioRecording := by
    intro n
    unfold reset
    by_cases hopen : n.m_outputWriter.is_open = true <;>
    by_cases haudio : (n.m_enableAudioRecording && decide (n.m_audioPort ≥ 0)) = true <;>
    by_cases hrec : n.m_isAudioRecording = true <;>
    simp [hopen, haudio, hrec]
  refine ⟨hreset m, ?_, ?_⟩
  · unfold end_
    split_ifs
    · exact hreset m
    · simp
  · unfold abort
    split_ifs
    · exact hreset { m with m_outputWriter := m.m_outputWriter.insert .aborted }
    · simp

/-- C15. After `reset()` from any state the manager is not running, the audio-recording flag
is false, no halt is pending, the participant is the invalid sentinel `0xFFFFFFFF`, the elapsed
time is 0 and the live condition map is empty, so that every condition reads as invalid. -/
theorem reset_clears_session (m : ExperimentManager) :
    m.reset.is_running = false ∧
      m.reset.m_isAudioRecording = false ∧
      m.reset.m_lastHaltEvent = ERevealEventTypes.kDummyEvent ∧
      m.reset.get_current_participant = kInvalidParticipantNumber ∧
      kInvalidParticipantNumber = 0xFFFFFFFF ∧
      m.reset.get_elapsed_time = 0 ∧
      m.reset.m_conditionValues = [] ∧
      ∀ conditionName : String,
        m.reset.get_experiment_condition_value conditionName = ConditionValue.kInvalid := by
  have hlive : m.reset.m_conditionValues = [] := by
    unfold reset
    simp
  refine ⟨?_, ?_, ?_, ?_, rfl, ?_, hlive, ?_⟩
  · unfold is_running reset
    simp
  · unfold reset
    simp
  · unfold reset
    simp
  · unfold get_current_participant reset
    simp
  · unfold get_elapsed_time reset
    simp
  · intro conditionName
    unfold get_experiment_condition_value
    rw [hlive]
    rfl

/-- C16. `reset()` is idempotent: a second `reset()` right after the first changes nothing. -/
theorem reset_idempotent (m : ExperimentManager) : m.reset.reset = m.reset := by
  unfold reset
  by_cases hopen : m.m_outputWriter.is_open = true <;>
  by_cases henable : m.m_enableAudioRecording = true <;>
  by_cases hport : m.m_audioPort ≥ 0 <;>
  by_cases hrec : m.m_isAudioRecording = true <;>
  simp [hopen, henable, hport, hrec, OutputWriter.close]

end ExperimentManager

/-- Helper: assignment at a key changes what is found at that key, when the key is present. -/
theorem UMap.find_assign_self {V : Type} (m : List (Name × V)) (k : Name) (v : V)
    (h : UMap.contains m k = true) : UMap.find (UMap.assign m k v) k = some v := by
  induction m with
  | nil => simp [UMap.contains, UMap.find] at h
  | cons kv rest ih =>
    obtain ⟨k1, v1⟩ := kv
    show UMap.find ((if k1 = k then (k1, v) else (k1, v1)) :: UMap.assign rest k v) k = some v
    by_cases hk : k1 = k
    · rw [if_pos hk]
      simp only [UMap.find]
      rw [if_pos hk]
    · have hrest : UMap.contains rest k = true := by
        unfold UMap.contains at h ⊢
        simp only [UMap.find] at h
        rw [if_neg hk] at h
        exact h
      rw [if_neg hk]
      simp only [UMap.find]
      rw [if_neg hk]
      exact ih hrest

/-- Helper: assignment at a key does not change what is found at another key. -/
theorem UMap.find_assign_ne {V : Type} (m : List (Name × V)) (k k2 : Name) (v : V)
    (h : k2 ≠ k) : UMap.find (UMap.assign m k v) k2 = UMap.find m k2 := by
  induction m with
  | nil => rfl
  | cons kv rest ih =>
    obtain ⟨k1, v1⟩ := kv
    show UMap.find ((if k1 = k then (k1, v) else (k1, v1)) :: UMap.assign rest k v) k2 =
      UMap.find ((k1, v1) :: rest) k2
    by_cases hk : k1 = k
    · have hk2 : ¬k1 = k2 := fun h2 => h (h2.symm.trans hk)
      rw [if_pos hk]
      simp only [UMap.find]
      rw [if_neg hk2, if_neg hk2]
      exact ih
    · rw [if_neg hk]
      simp only [UMap.find]
      rw [ih]
namespace System

/-- Helper: the update of a running session without pending halt whose condition-changed flag is
set writes one row, given that the plug-in updates return. -/
theorem update_after_condition_change (vm : Vectormath) (g : GamePlay.GlobalGameState)
    (fDeltaTime : ℚ) (s : System) (results : List Bool) (s2 : System)
    (hrun : s.manager.m_isRunning = true)
    (hhalt : s.manager.m_lastHaltEvent = ERevealEventTypes.kDummyEvent)
    (hopen : s.manager.m_outputWriter.is_open = true)
    (hgood : s.manager.m_outputWriter.good = true)
    (hchanged : s.manager.m_conditionChanged = true)
    (hplugins : update_results vm g fDeltaTime
      { s with manager := { s.manager with m_fTotalTime := s.manager.m_fTotalTime + fDeltaTime } }
      s.manager.m_activePlugins = .ok (results, s2)) :
    ∃ cells t, row_cells s2 = .ok cells ∧ update vm g fDeltaTime s = .ok t ∧
      s2.manager.m_conditionValues = s.manager.m_conditionValues ∧
      t.manager.m_outputWriter.written = s.manager.m_outputWriter.written ++ [Line.row cells] ∧
      t.manager.m_conditionChanged = false ∧ t.manager.m_isRunning = true := by
  obtain ⟨hm, -, hlen, hvalid⟩ := update_results_frame vm g fDeltaTime _ _ _ hplugins
  simp only at hm hlen hvalid
  have hactive : s2.manager.m_activePlugins = s.manager.m_activePlugins := by rw [hm]
  have hcond : s2.manager.m_conditionValues = s.manager.m_conditionValues := by rw [hm]
  have hwriter : s2.manager.m_outputWriter = s.manager.m_outputWriter := by rw [hm]
  have hhalt2 : s2.manager.m_lastHaltEvent = ERevealEventTypes.kDummyEvent := by
    rw [hm]
    exact hhalt
  have hchanged2 : s2.manager.m_conditionChanged = true := by
    rw [hm]
    exact hchanged
  have hrun2 : s2.manager.m_isRunning = true := by
    rw [hm]
    exact hrun
  obtain ⟨cells, hcells⟩ := row_cells_returns s2 (by rw [hactive, hlen]; exact hvalid)
  refine ⟨cells, ?_⟩
  rw [update_running vm g fDeltaTime s hrun, hplugins]
  simp only [bind, Except.bind, hchanged2, Bool.true_or]
  have hhalt3 : halt_if_requested { s2 with manager := { s2.manager with
        m_outputWriter := s2.manager.m_outputWriter.insert (.row cells),
        m_conditionChanged := false } } true = .ok _ :=
    halt_if_requested_none _ true hhalt2
  rw [record_if_required_true s2 cells hrun2 hcells]
  refine ⟨_, hcells, hhalt3, hcond, ?_, rfl, hrun2⟩
  simp [hwriter, insert_open _ _ hopen hgood]

/-- C11. For a name in the live condition map, `set_experiment_condition(name, v)` returns;
afterwards the condition reads `v`, every other name reads what it read before, the keys of the
live map are the same, the condition-changed flag is set and no other member has changed; in a
running session (no halt pending, stream open and good, the plug-in updates returning) the next
`update` therefore writes a row. For a name that is not in the live map the call fails on its
assertion, and there is no state after it. -/
theorem set_experiment_condition_effect (vm : Vectormath) (g : GamePlay.GlobalGameState)
    (fDeltaTime : ℚ) (s : System) (conditionName : String) (v : ConditionValue) :
    (UMap.contains s.manager.m_conditionValues (Name.mk conditionName) = true →
      ∃ t, s.manager.set_experiment_condition conditionName v = .ok t ∧
        t.get_experiment_condition_value conditionName = v ∧
        (∀ other : String, other ≠ conditionName →
          t.get_experiment_condition_value other =
            s.manager.get_experiment_condition_value other) ∧
        UMap.keys t.m_conditionValues = UMap.keys s.manager.m_conditionValues ∧
        t.m_conditionChanged = true ∧
        t = { s.manager with m_conditionValues := t.m_conditionValues,
                             m_conditionChanged := true } ∧
        (s.manager.m_isRunning = true →
          s.manager.m_lastHaltEvent = ERevealEventTypes.kDummyEvent →
          s.manager.m_outputWriter.is_open = true → s.manager.m_outputWriter.good = true →
          ∀ (results : List Bool) (s2 : System),
            update_results vm g fDeltaTime
              { s with manager := { t with m_fTotalTime := t.m_fTotalTime + fDeltaTime } }
              t.m_activePlugins = .ok (results, s2) →
            ∃ cells u, row_cells s2 = .ok cells ∧
              update vm g fDeltaTime { s with manager := t } = .ok u ∧
              u.manager.m_outputWriter.written =
                s.manager.m_outputWriter.written ++ [Line.row cells])) ∧
      (UMap.contains s.manager.m_conditionValues (Name.mk conditionName) = false →
        s.manager.set_experiment_condition conditionName v = .error .assertion) := by
  constructor
  · intro hc
    have hset : s.manager.set_experiment_condition conditionName v =
        .ok { s.manager with
          m_conditionValues := UMap.assign s.manager.m_conditionValues (Name.mk conditionName) v,
          m_conditionChanged := true } := by
      simp [ExperimentManager.set_experiment_condition, hc, RV_ASSERT, bind, Except.bind,
        UMap.subscript_assign]
    refine ⟨_, hset, ?_, ?_, ?_, rfl, rfl, ?_⟩
    · unfold ExperimentManager.get_experiment_condition_value
      simp only [UMap.find_assign_self _ _ _ hc]
    · intro other hother
      have hne : Name.mk other ≠ Name.mk conditionName := fun h => hother (Name.mk.inj h)
      unfold ExperimentManager.get_experiment_condition_value
      simp only [UMap.find_assign_ne _ _ _ _ hne]
    · exact UMap.assign_keys _ _ _
    · intro hrun hhalt hopen hgood results s2 hplugins
      obtain ⟨cells, u, h1, h2, -, h4, -, -⟩ := update_after_condition_change vm g fDeltaTime
        { s with manager := { s.manager with
          m_conditionValues := UMap.assign s.manager.m_conditionValues (Name.mk conditionName) v,
          m_conditionChanged := true } } results s2 hrun hhalt hopen hgood rfl hplugins
      exact ⟨cells, u, h1, h2, h4⟩
  · intro hc
    simp [ExperimentManager.set_experiment_condition, hc, RV_ASSERT, bind, Except.bind]

end System
/-- Witness of C11: in the running sample session `group` is set to 6, which the next update
writes as the row `7, 1.50, 6, FALSE`; the name `other` is not in the live map. -/
theorem set_experiment_condition_effect_witness :
    (∃ t cells u,
      (Sample.session 5 false .kDummyEvent []).manager.set_experiment_condition "group"
          (.kInteger 6) = .ok t ∧
        t.get_experiment_condition_value "group" = .kInteger 6 ∧
        t.m_conditionChanged = true ∧
        System.update Sample.vm Sample.game (1 / 2)
          { Sample.session 5 false .kDummyEvent [] with manager := t } = .ok u ∧
        u.manager.m_outputWriter.written =
          (Sample.session 5 false .kDummyEvent []).manager.m_outputWriter.written ++
            [Line.row cells] ∧
        cells = ["7", "1.50", "6", "FALSE"]) ∧
      (Sample.session 5 false .kDummyEvent []).manager.set_experiment_condition "other"
        (.kInteger 6) = .error .assertion := by
  have h := System.set_experiment_condition_effect Sample.vm Sample.game (1 / 2)
    (Sample.session 5 false .kDummyEvent []) "group" (.kInteger 6)
  have h2 := (System.set_experiment_condition_effect Sample.vm Sample.game (1 / 2)
    (Sample.session 5 false .kDummyEvent []) "other" (.kInteger 6)).2 (by decide)
  obtain ⟨t, h1, hget, -, -, hflag, -, hupdate⟩ := h.1 (by decide)
  have hc : (Sample.session 5 false .kDummyEvent []).manager.set_experiment_condition "group"
      (.kInteger 6) = .ok (Sample.session 6 true .kDummyEvent []).manager := by decide
  have ht : t = (Sample.session 6 true .kDummyEvent []).manager :=
    Except.ok.inj (h1.symm.trans hc)
  subst ht
  obtain ⟨cells, u, hcells, hu, hw⟩ := hupdate (by decide) (by decide) (by decide) (by decide)
    [false] (Sample.session_plugins_updated 6 true .kDummyEvent []) (by decide!)
  have hrow : System.row_cells (Sample.session_plugins_updated 6 true .kDummyEvent []) =
      .ok ["7", "1.50", "6", "FALSE"] := by decide!
  exact ⟨⟨_, cells, u, h1, hget, hflag, hu, hw, Except.ok.inj (hcells.symm.trans hrow)⟩, h2⟩
namespace ExperimentManager

/-- C12. `increment_experiment_condition(name, d)`: when the live value of `name` is
`Integer(v)` the call returns, the value is then `Integer(v + d)` computed in `s32` (it is
`v + d` itself when that is an `s32`), the condition-changed flag is set and nothing else has
changed; when the live value is a string or invalid, or the name is not in the live map, the
call returns the manager as it was, the flag included. -/
theorem increment_experiment_condition_effect (m : ExperimentManager) (conditionName : String)
    (increment : Int) :
    (∀ v : Int, UMap.find m.m_conditionValues (Name.mk conditionName) = some (.kInteger v) →
      ∃ t, m.increment_experiment_condition conditionName increment = .ok t ∧
        t.get_experiment_condition_value conditionName = .kInteger (to_s32 (v + increment)) ∧
        (-2147483648 ≤ v + increment → v + increment < 2147483648 →
          t.get_experiment_condition_value conditionName = .kInteger (v + increment)) ∧
        t.m_conditionChanged = true ∧
        t = { m with m_conditionValues := t.m_conditionValues, m_conditionChanged := true }) ∧
      (∀ stringHash : Name,
        UMap.find m.m_conditionValues (Name.mk conditionName) = some (.kString stringHash) →
          m.increment_experiment_condition conditionName increment = .ok m) ∧
      (UMap.find m.m_conditionValues (Name.mk conditionName) = some .kInvalid →
        m.increment_experiment_condition conditionName increment = .ok m) ∧
      (UMap.find m.m_conditionValues (Name.mk conditionName) = none →
        m.increment_experiment_condition conditionName increment = .ok m) := by
  refine ⟨?_, ?_, ?_, ?_⟩
  · intro v hv
    have hc : UMap.contains m.m_conditionValues (Name.mk conditionName) = true := by
      simp [UMap.contains, hv]
    have hinc : m.increment_experiment_condition conditionName increment =
        .ok { m with
          m_conditionValues := UMap.assign m.m_conditionValues (Name.mk conditionName)
            (.kInteger (to_s32 (v + increment))),
          m_conditionChanged := true } := by
      simp [increment_experiment_condition, get_experiment_condition_value, hv,
        set_experiment_condition, hc, RV_ASSERT, bind, Except.bind, UMap.subscript_assign]
    have hget : get_experiment_condition_value
        { m with
          m_conditionValues := UMap.assign m.m_conditionValues (Name.mk conditionName)
            (.kInteger (to_s32 (v + increment))),
          m_conditionChanged := true } conditionName = .kInteger (to_s32 (v + increment)) := by
      unfold get_experiment_condition_value
      simp only [UMap.find_assign_self _ _ _ hc]
    refine ⟨_, hinc, hget, ?_, rfl, rfl⟩
    intro hlo hhi
    rw [hget]
    unfold to_s32
    rw [Int.emod_eq_of_lt (by omega) (by omega)]
    congr 1
    omega
  · intro stringHash hv
    simp [increment_experiment_condition, get_experiment_condition_value, hv]
  · intro hv
    simp [increment_experiment_condition, get_experiment_condition_value, hv]
  · intro hv
    simp [increment_experiment_condition, get_experiment_condition_value, hv,
      ConditionValue.default]

end ExperimentManager

/-- Witness of C12: a live map with the integer `group` (the largest `s32`), the string `side`
and the invalid `note`; incrementing `group` by 1 wraps around, by -7 gives `2147483640`, and the
other three calls change nothing. -/
theorem increment_experiment_condition_effect_witness :
    (∃ t, ({ ExperimentManager.new false 0 with
          m_conditionValues := [(Name.mk "group", .kInteger 2147483647),
            (Name.mk "side", .kString (Name.mk "left")), (Name.mk "note", .kInvalid)] }
          ).increment_experiment_condition "group" 1 = .ok t ∧
        t.get_experiment_condition_value "group" = .kInteger (-2147483648) ∧
        t.m_conditionChanged = true) ∧
      (∃ t, ({ ExperimentManager.new false 0 with
          m_conditionValues := [(Name.mk "group", .kInteger 2147483647),
            (Name.mk "side", .kString (Name.mk "left")), (Name.mk "note", .kInvalid)] }
          ).increment_experiment_condition "group" (-7) = .ok t ∧
        t.get_experiment_condition_value "group" = .kInteger 2147483640) ∧
      ({ ExperimentManager.new false 0 with
          m_conditionValues := [(Name.mk "group", .kInteger 2147483647),
            (Name.mk "side", .kString (Name.mk "left")), (Name.mk "note", .kInvalid)] }
          ).increment_experiment_condition "side" 1 =
        .ok { ExperimentManager.new false 0 with
          m_conditionValues := [(Name.mk "group", .kInteger 2147483647),
            (Name.mk "side", .kString (Name.mk "left")), (Name.mk "note", .kInvalid)] } ∧
      ({ ExperimentManager.new false 0 with
          m_conditionValues := [(Name.mk "group", .kInteger 2147483647),
            (Name.mk "side", .kString (Name.mk "left")), (Name.mk "note", .kInvalid)] }
          ).increment_experiment_condition "note" 1 =
        .ok { ExperimentManager.new false 0 with
          m_conditionValues := [(Name.mk "group", .kInteger 2147483647),
            (Name.mk "side", .kString (Name.mk "left")), (Name.mk "note", .kInvalid)] } ∧
      ({ ExperimentManager.new false 0 with
          m_conditionValues := [(Name.mk "group", .kInteger 2147483647),
            (Name.mk "side", .kString (Name.mk "left")), (Name.mk "note", .kInvalid)] }
          ).increment_experiment_condition "other" 1 =
        .ok { ExperimentManager.new false 0 with
          m_conditionValues := [(Name.mk "group", .kInteger 2147483647),
            (Name.mk "side", .kString (Name.mk "left")), (Name.mk "note", .kInvalid)] } := by
  have h1 := (ExperimentManager.increment_experiment_condition_effect
    { ExperimentManager.new false 0 with
      m_conditionValues := [(Name.mk "group", .kInteger 2147483647),
        (Name.mk "side", .kString (Name.mk "left")), (Name.mk "note", .kInvalid)] }
    "group" 1).1 2147483647 (by decide)
  have h2 := (ExperimentManager.increment_experiment_condition_effect
    { ExperimentManager.new false 0 with
      m_conditionValues := [(Name.mk "group", .kInteger 2147483647),
        (Name.mk "side", .kString (Name.mk "left")), (Name.mk "note", .kInvalid)] }
    "group" (-7)).1 2147483647 (by decide)
  obtain ⟨t1, ht1, hget1, -, hflag1, -⟩ := h1
  obtain ⟨t2, ht2, -, hget2, -, -⟩ := h2
  exact ⟨⟨t1, ht1, hget1, hflag1⟩, ⟨t2, ht2, hget2 (by decide) (by decide)⟩,
    (ExperimentManager.increment_experiment_condition_effect _ "side" 1).2.1 (Name.mk "left")
      (by decide),
    (ExperimentManager.increment_experiment_condition_effect _ "note" 1).2.2.1 (by decide),
    (ExperimentManager.increment_experiment_condition_effect _ "other" 1).2.2.2 (by decide)⟩
namespace System

/-- Helper: a manager that differs in members outside the relation takes the same step. -/
theorem session_step_same (m t : ExperimentManager)
    (hd : t.m_conditionDefaults = m.m_conditionDefaults)
    (ha : t.m_activePlugins = m.m_activePlugins)
    (hr : t.m_isRunning = true → m.m_isRunning = true)
    (hp : t.m_currentParticipant = m.m_currentParticipant)
    (hk : UMap.keys t.m_conditionValues = UMap.keys m.m_conditionValues) :
    session_step m t :=
  ⟨hd, ha, fun h => ⟨hp, Or.inl ⟨hr h, hk⟩⟩⟩

/-- Helper: a step that leaves the manager stopped. -/
theorem session_step_stopped (m t : ExperimentManager)
    (hd : t.m_conditionDefaults = m.m_conditionDefaults)
    (ha : t.m_activePlugins = m.m_activePlugins)
    (hr : t.m_isRunning = false) : session_step m t :=
  ⟨hd, ha, fun h => by rw [hr] at h; cases h⟩

/-- Helper: what `reset` leaves of the manager. -/
theorem reset_session_step (m n : ExperimentManager)
    (hd : n.m_conditionDefaults = m.m_conditionDefaults)
    (ha : n.m_activePlugins = m.m_activePlugins) : session_step m n.reset :=
  session_step_stopped m n.reset ((ExperimentManager.reset_frame n).2.trans hd)
    ((ExperimentManager.reset_frame n).1.trans ha) (ExperimentManager.reset_effect n).2.1

/-- Helper: `record_if_required` touches the stream and the condition-changed flag only. -/
theorem record_if_required_manager (s : System) (writeRequired : Bool) :
    ensures (record_if_required s writeRequired) (fun t =>
      ∃ w changed, t.manager =
        { s.manager with m_outputWriter := w, m_conditionChanged := changed }) := by
  unfold record_if_required
  split_ifs
  · intro t ht
    simp only [bind_eq_ok, Except.ok.injEq] at ht
    obtain ⟨s1, hs1, rfl⟩ := ht
    rw [record_experiment_state_eq_ok] at hs1
    obtain ⟨-, cells, -, rfl⟩ := hs1
    exact ⟨_, _, rfl⟩
  · rw [ensures_ok]
    exact ⟨_, _, rfl⟩

/-- Helper: `halt_if_requested` takes a step of the session. -/
theorem halt_if_requested_manager (s : System) (writeRequired : Bool) :
    ensures (halt_if_requested s writeRequired) (fun t => session_step s.manager t.manager) := by
  unfold halt_if_requested
  by_cases hhalt : s.manager.m_lastHaltEvent ≠ ERevealEventTypes.kDummyEvent
  · rw [if_pos hhalt, ensures_bind]
    intro s1 hs1
    have hm : ∃ w, s1.manager = { s.manager with m_outputWriter := w } := by
      by_cases hwrite : (!writeRequired) = true
      · rw [if_pos hwrite, record_experiment_state_eq_ok] at hs1
        obtain ⟨-, cells, -, rfl⟩ := hs1
        exact ⟨_, rfl⟩
      · rw [if_neg hwrite] at hs1
        simp only [Except.ok.injEq] at hs1
        subst hs1
        exact ⟨_, rfl⟩
    obtain ⟨w, hw⟩ := hm
    have hd : s1.manager.m_conditionDefaults = s.manager.m_conditionDefaults := by rw [hw]
    have ha : s1.manager.m_activePlugins = s.manager.m_activePlugins := by rw [hw]
    have hr : s1.manager.m_isRunning = s.manager.m_isRunning := by rw [hw]
    have hp : s1.manager.m_currentParticipant = s.manager.m_currentParticipant := by rw [hw]
    have hl : s1.manager.m_conditionValues = s.manager.m_conditionValues := by rw [hw]
    have hsame : session_step s.manager s1.manager :=
      session_step_same _ _ hd ha (fun h => hr ▸ h) hp (by rw [hl])
    by_cases hend : s1.manager.m_lastHaltEvent = ERevealEventTypes.kExperiment_End
    · rw [if_pos hend, ensures_ok]
      show session_step s.manager s1.manager.end_
      unfold ExperimentManager.end_
      split_ifs
      · exact reset_session_step _ _ hd ha
      · exact hsame
    · rw [if_neg hend]
      by_cases habort : s1.manager.m_lastHaltEvent = ERevealEventTypes.kExperiment_Abort
      · rw [if_pos habort, ensures_ok]
        show session_step s.manager s1.manager.abort
        unfold ExperimentManager.abort
        split_ifs
        · exact reset_session_step _ _ hd ha
        · exact hsame
      · rw [if_neg habort, ensures_ok]
        exact hsame
  · rw [if_neg hhalt, ensures_ok]
    exact session_step_same _ _ rfl rfl (fun h => h) rfl rfl

/-- Helper: `update` takes a step of the session, and it keeps the live map of a session that
goes on. -/
theorem update_session_step (vm : Vectormath) (g : GamePlay.GlobalGameState) (fDeltaTime : ℚ)
    (s : System) :
    ensures (update vm g fDeltaTime s) (fun t => session_step s.manager t.manager) := by
  by_cases hrun : s.manager.m_isRunning = true
  · rw [update_running vm g fDeltaTime s hrun, ensures_bind]
    intro r hr
    obtain ⟨hm, -, -, -⟩ := update_results_frame vm g fDeltaTime _ _ r hr
    simp only at hm
    rw [ensures_bind]
    intro s3 hs3
    obtain ⟨w, changed, hs3m⟩ := record_if_required_manager _ _ s3 hs3
    intro t ht
    obtain ⟨hd, ha, hstep⟩ := halt_if_requested_manager _ _ t ht
    have hd3 : s3.manager.m_conditionDefaults = s.manager.m_conditionDefaults := by
      rw [hs3m, hm]
    have ha3 : s3.manager.m_activePlugins = s.manager.m_activePlugins := by rw [hs3m, hm]
    have hr3 : s3.manager.m_isRunning = s.manager.m_isRunning := by rw [hs3m, hm]
    have hp3 : s3.manager.m_currentParticipant = s.manager.m_currentParticipant := by
      rw [hs3m, hm]
    have hl3 : s3.manager.m_conditionValues = s.manager.m_conditionValues := by rw [hs3m, hm]
    have hdef3 : s3.manager.m_conditionDefaults = s.manager.m_conditionDefaults := hd3
    refine ⟨hd.trans hd3, ha.trans ha3, fun h => ?_⟩
    obtain ⟨hp, hcase⟩ := hstep h
    refine ⟨hp.trans hp3, Or.inl ⟨hrun, ?_⟩⟩
    rcases hcase with ⟨-, hk⟩ | ⟨hstop, -, -⟩
    · rw [hk, hl3]
    · rw [hr3, hrun] at hstop
      cases hstop
  · unfold update
    rw [if_neg hrun, ensures_ok]
    exact session_step_same _ _ rfl rfl (fun h => h) rfl rfl

end System
namespace System

/-- Helper: `start()` returns only on a stopped manager with a participant; it keeps the
participant, the default map and the active plug-ins, copies the default map into the live map
and leaves the manager running. -/
theorem start_frame (os : Platform) (s t : System) (h : start os s = .ok t) :
    s.manager.m_isRunning = false ∧
      s.manager.m_currentParticipant ≠ kInvalidParticipantNumber ∧
      t.manager.m_isRunning = true ∧
      t.manager.m_currentParticipant = s.manager.m_currentParticipant ∧
      t.manager.m_activePlugins = s.manager.m_activePlugins ∧
      t.manager.m_conditionValues = s.manager.m_conditionDefaults ∧
      t.manager.m_conditionDefaults = s.manager.m_conditionDefaults := by
  obtain ⟨hlive, hdef⟩ := start_copies_defaults os s t h
  unfold start at h
  simp only [bind_eq_ok, RV_ASSERT_eq_ok, exists_and_left, exists_const] at h
  obtain ⟨hstop, hpart, s2, hreset, headerCells, -, hrecord⟩ := h
  obtain ⟨hm2, -⟩ := reset_plugins_frame _ _ s2 hreset
  have hact2 : s2.manager.m_activePlugins = s.manager.m_activePlugins := by rw [hm2]
  have hpart2 : s2.manager.m_currentParticipant = s.manager.m_currentParticipant := by rw [hm2]
  clear hm2 hreset
  rw [record_experiment_state_eq_ok] at hrecord
  obtain ⟨-, cells, -, ht⟩ := hrecord
  obtain ⟨-, -, -, ha4, -, ha6, -⟩ := open_audio_port_frame os
    ("Media/Config/participant_" ++ format_02d s.manager.m_currentParticipant ++ "_" ++
      os.dateString)
    { s2.manager with m_outputWriter := s2.manager.m_outputWriter.insert (.header headerCells) }
  refine ⟨by simpa using hstop, by simpa using hpart, ?_, ?_, ?_, hlive, hdef⟩
  · rw [ht]
  · rw [ht]
    exact ha6.trans hpart2
  · rw [ht]
    exact ha4.trans hact2

/-- Helper: `start()` takes a step of the session. -/
theorem start_session_step (os : Platform) (s : System) :
    ensures (start os s) (fun t => session_step s.manager t.manager) := by
  intro t ht
  obtain ⟨hstop, hpart, -, hp, ha, hl, hd⟩ := start_frame os s t ht
  exact ⟨hd, ha, fun _ => ⟨hp, Or.inr ⟨hstop, hpart, hl⟩⟩⟩

/-- Helper: `set_experiment_condition` takes a step of the session. -/
theorem set_experiment_condition_session_step (m : ExperimentManager) (conditionName : String)
    (v : ConditionValue) :
    ensures (m.set_experiment_condition conditionName v) (fun t => session_step m t) := by
  intro t ht
  obtain ⟨hc, rfl⟩ := ExperimentManager.set_experiment_condition_eq_ok m t conditionName v ht
  refine session_step_same _ _ rfl rfl (fun h => h) rfl ?_
  show UMap.keys (UMap.subscript_assign m.m_conditionValues (Name.mk conditionName) v) = _
  unfold UMap.subscript_assign
  rw [if_pos hc]
  exact UMap.assign_keys _ _ _

/-- Helper: `increment_experiment_condition` takes a step of the session. -/
theorem increment_experiment_condition_session_step (m : ExperimentManager)
    (conditionName : String) (increment : Int) :
    ensures (m.increment_experiment_condition conditionName increment)
      (fun t => session_step m t) := by
  unfold ExperimentManager.increment_experiment_condition
  split
  · exact set_experiment_condition_session_step m conditionName _
  · rw [ensures_ok]
    exact session_step_same _ _ rfl rfl (fun h => h) rfl rfl

/-- Helper: the manager's `on_event` takes a step of the session. -/
theorem on_event_session_step (os : Platform) (s : System) (evt : Event) :
    ensures (on_event os s evt) (fun t => session_step s.manager t.manager) := by
  unfold on_event
  by_cases hrun : s.manager.m_isRunning = true
  · rw [if_pos hrun]
    simp only [ensures_bind, ensures_RV_ASSERT]
    intro _
    split
    · rw [ensures_ok]
      exact session_step_same _ _ rfl rfl (fun h => h) rfl rfl
    · rw [ensures_ok]
      exact session_step_same _ _ rfl rfl (fun h => h) rfl rfl
    · simp only [ensures_bind, ensures_ok]
      intro arg _ m1 hm1
      exact set_experiment_condition_session_step _ _ _ m1 hm1
    · simp only [ensures_bind, ensures_ok]
      intro arg _ m1 hm1
      exact increment_experiment_condition_session_step _ _ _ m1 hm1
    · intro t ht
      obtain ⟨hm, -⟩ := trigger_frame s _ t ht
      rw [hm]
      exact session_step_same _ _ rfl rfl (fun h => h) rfl rfl
    · split_ifs
      · rw [ensures_ok]
        exact session_step_same _ _ rfl rfl (fun h => h) rfl rfl
      · rw [ensures_ok]
        exact session_step_same _ _ rfl rfl (fun h => h) rfl rfl
    · rw [ensures_ok]
      exact session_step_same _ _ rfl rfl (fun h => h) rfl rfl
    · rw [ensures_ok]
      exact session_step_same _ _ rfl rfl (fun h => h) rfl rfl
  · rw [if_neg hrun]
    split_ifs
    · exact start_session_step os s
    · rw [ensures_ok]
      exact session_step_same _ _ rfl rfl (fun h => h) rfl rfl

/-- Helper: every operation of `Op` takes a step of the session. -/
theorem step_session_step (vm : Vectormath) (os : Platform) (s : System) (op : Op) :
    ensures (step vm os s op) (fun t => session_step s.manager t.manager) := by
  cases op with
  | update fDeltaTime g => exact update_session_step vm g fDeltaTime s
  | set_experiment_condition conditionName conditionValue =>
    simp only [step, ensures_bind, ensures_ok]
    intro m1 hm1
    exact set_experiment_condition_session_step _ _ _ m1 hm1
  | increment_experiment_condition conditionName increment =>
    simp only [step, ensures_bind, ensures_ok]
    intro m1 hm1
    exact increment_experiment_condition_session_step _ _ _ m1 hm1
  | trigger triggerName =>
    intro t ht
    obtain ⟨hm, -⟩ := trigger_frame s _ t ht
    rw [hm]
    exact session_step_same _ _ rfl rfl (fun h => h) rfl rfl
  | dispatch evt =>
    simp only [step, dispatch, ensures_bind]
    intro s1 hs1 t ht
    obtain ⟨hm, -⟩ := plugins_on_event_frame evt _ s1 t ht
    rw [hm]
    exact on_event_session_step os s evt s1 hs1

end System
namespace System

/-- Helper: a step of the session keeps the default map, and the keys of the live map of a
running manager are those of the default map. -/
theorem session_step_keeps_keys {defaults : List (Name × ConditionValue)}
    {m t : ExperimentManager} (hstep : session_step m t)
    (hd : m.m_conditionDefaults = defaults)
    (hk : m.m_isRunning = true → UMap.keys m.m_conditionValues = UMap.keys defaults) :
    t.m_conditionDefaults = defaults ∧
      (t.m_isRunning = true → UMap.keys t.m_conditionValues = UMap.keys defaults) := by
  obtain ⟨hd1, -, hrun⟩ := hstep
  refine ⟨hd1.trans hd, fun h => ?_⟩
  rcases (hrun h).2 with ⟨hr, hkeys⟩ | ⟨-, -, hlive⟩
  · exact hkeys.trans (hk hr)
  · rw [hlive, hd]

/-- Helper: the operations of a session keep the default map and the keys of the live map. -/
theorem run_keeps_keys (vm : Vectormath) (os : Platform)
    (defaults : List (Name × ConditionValue)) (ops : List Op) :
    ∀ s : System, s.manager.m_conditionDefaults = defaults →
      (s.manager.m_isRunning = true →
        UMap.keys s.manager.m_conditionValues = UMap.keys defaults) →
      ensures (run vm os s ops) (fun t =>
        t.manager.m_conditionDefaults = defaults ∧
          (t.manager.m_isRunning = true →
            UMap.keys t.manager.m_conditionValues = UMap.keys defaults)) := by
  induction ops with
  | nil =>
    intro s hd hk
    simp only [run, ensures_ok]
    exact ⟨hd, hk⟩
  | cons op rest ih =>
    intro s hd hk
    simp only [run]
    refine ensures_bind_of _ (step_session_step vm os s op) ?_
    intro s1 hstep
    obtain ⟨hd1, hk1⟩ := session_step_keeps_keys hstep hd hk
    exact ih s1 hd1 hk1

/-- C13. Let a session be started and any sequence of updates, condition changes, triggers and
events follow (reading a condition changes nothing). In the state reached the default map is
the one `start()` found, and while the manager is running the keys of the live map are the keys
the default map had at `start()`. A running manager rejects `add_experiment_condition`,
`remove_experiment_condition` and `configure_from_json` on their first assertion. -/
theorem live_keys_fixed_while_running (vm : Vectormath) (os : Platform) (s0 s1 s2 : System)
    (ops : List Op) (hstart : start os s0 = .ok s1) (hrun : run vm os s1 ops = .ok s2) :
    s2.manager.m_conditionDefaults = s0.manager.m_conditionDefaults ∧
      (s2.manager.m_isRunning = true →
        UMap.keys s2.manager.m_conditionValues = UMap.keys s0.manager.m_conditionDefaults) ∧
      ∀ s : System, s.manager.m_isRunning = true →
        (∀ (conditionName : String) (value : ConditionValue),
          s.manager.add_experiment_condition conditionName value = .error .assertion) ∧
        (∀ conditionName : String,
          s.manager.remove_experiment_condition conditionName = .error .assertion) ∧
        ∀ jsonData : Json.Experiment, configure_from_json s jsonData = .error .assertion := by
  obtain ⟨-, -, -, -, -, hlive, hdef⟩ := start_frame os s0 s1 hstart
  obtain ⟨h1, h2⟩ := run_keeps_keys vm os s0.manager.m_conditionDefaults ops s1 hdef
    (fun _ => by rw [hlive]) s2 hrun
  refine ⟨h1, h2, ?_⟩
  intro s hs
  refine ⟨?_, ?_, ?_⟩
  · intro conditionName value
    simp [ExperimentManager.add_experiment_condition, hs, RV_ASSERT, bind, Except.bind]
  · intro conditionName
    simp [ExperimentManager.remove_experiment_condition, hs, RV_ASSERT, bind, Except.bind]
  · intro jsonData
    simp [configure_from_json, hs, RV_ASSERT, bind, Except.bind]

end System

/-- Witness of C13: the sample session after two frames and two changes of `group` is running
with the single key `group`, as registered before the start. -/
theorem live_keys_fixed_while_running_witness :
    System.start Sample.os Sample.between_sessions = .ok Sample.started ∧
      System.run Sample.vm Sample.os Sample.started Sample.session_ops = .ok Sample.in_session ∧
      Sample.in_session.manager.m_isRunning = true ∧
      UMap.keys Sample.in_session.manager.m_conditionValues = [Name.mk "group"] ∧
      Sample.in_session.manager.get_experiment_condition_value "group" = .kInteger 8 ∧
      Sample.in_session.manager.add_experiment_condition "other" .kInvalid =
        .error .assertion :=
  have h := System.live_keys_fixed_while_running Sample.vm Sample.os Sample.between_sessions
    Sample.started Sample.in_session Sample.session_ops (by decide!) (by decide!)
  ⟨by decide!, by decide!, by decide!, h.2.1 (by decide!), by decide!,
    ((h.2.2 Sample.in_session (by decide!)).1 "other" .kInvalid)⟩
/-- C17, evaluated on the code. In the running sample session `group` is set to 6 and the session
is ended by `end()` (or by `abort()`) before another update: the manager is stopped and the
condition-changed flag is still set. Participant 8 is set and the next session started: its
first update, in which the only active plug-in requests nothing and no condition is changed,
writes the row `8, 0.50, 5, FALSE`. -/
theorem condition_changed_survives_end :
    (do
      let m1 ← (Sample.session 5 false .kDummyEvent []).manager.set_experiment_condition "group"
        (.kInteger 6)
      pure (m1.end_.is_running, m1.end_.m_conditionChanged)) =
        (.ok (false, true) : Except Failure (Bool × Bool)) ∧
    (do
      let m1 ← (Sample.session 5 false .kDummyEvent []).manager.set_experiment_condition "group"
        (.kInteger 6)
      pure (m1.abort.is_running, m1.abort.m_conditionChanged)) =
        (.ok (false, true) : Except Failure (Bool × Bool)) ∧
    (do
      let m1 ← (Sample.session 5 false .kDummyEvent []).manager.set_experiment_condition "group"
        (.kInteger 6)
      let m2 ← m1.end_.set_participant 8
      let s3 ← System.start Sample.os
        { Sample.session 5 false .kDummyEvent [] with manager := m2 }
      let r ← System.update_results Sample.vm Sample.game (1 / 2)
        { s3 with manager :=
            { s3.manager with m_fTotalTime := s3.manager.m_fTotalTime + 1 / 2 } }
        s3.manager.m_activePlugins
      let s4 ← System.update Sample.vm Sample.game (1 / 2) s3
      pure (r.1, s4.manager.m_outputWriter.written.map Line.text)) =
      (.ok ([false],
          ["participant\telapsedTime\tgroup\tvoiceRecording\n", "8\t0.00\t5\tFALSE\n",
            "8\t0.50\t5\tFALSE\n"]) :
        Except Failure (List Bool × List String)) := by
  refine ⟨by decide, by decide, by decide!⟩
namespace System

/-- Helper: `enable_plugin` keeps the running flag, and an active sequence without repetition
stays without repetition. -/
theorem enable_plugin_consistent (s : System) (pluginName : Name) :
    ensures (enable_plugin s pluginName) (fun r =>
      r.2.manager.m_isRunning = s.manager.m_isRunning ∧
        (s.manager.m_activePlugins.Nodup → r.2.manager.m_activePlugins.Nodup)) := by
  unfold enable_plugin
  rw [ensures_bind, ensures_RV_ASSERT]
  intro _
  cases UMap.find s.m_sAvailablePlugins pluginName with
  | none => simp [ensures_ok]
  | some pPlugin =>
    dsimp only
    by_cases hin : pPlugin ∈ s.manager.m_activePlugins
    · simp [ensures_ok, hin]
    · have hc : s.manager.m_activePlugins.contains pPlugin = false := by simp [hin]
      rw [hc]
      simp only [Bool.not_false, if_true, ensures_ok, true_and]
      intro hnodup
      exact List.Nodup.append hnodup (List.nodup_singleton _)
        (by simpa [List.disjoint_singleton] using hin)

/-- Helper: `disable_plugin` keeps the running flag, and an active sequence without repetition
stays without repetition. -/
theorem disable_plugin_consistent (s : System) (pluginName : Name) :
    ensures (disable_plugin s pluginName) (fun r =>
      r.2.manager.m_isRunning = s.manager.m_isRunning ∧
        (s.manager.m_activePlugins.Nodup → r.2.manager.m_activePlugins.Nodup)) := by
  unfold disable_plugin
  rw [ensures_bind, ensures_RV_ASSERT]
  intro _
  cases UMap.find s.m_sAvailablePlugins pluginName with
  | none => simp [ensures_ok]
  | some pPlugin =>
    dsimp only
    by_cases hin : pPlugin ∈ s.manager.m_activePlugins
    · have hc : s.manager.m_activePlugins.contains pPlugin = true := by simp [hin]
      rw [hc]
      simp only [if_true, ensures_ok, true_and]
      intro hnodup
      exact hnodup.erase _
    · simp [ensures_ok, hin]

end System
namespace System

/-- Helper: registering the conditions keeps the running flag and the active plug-ins. -/
theorem configure_conditions_running (conditions : List Json.Condition) :
    ∀ m : ExperimentManager, ensures (configure_conditions m conditions) (fun t =>
      t.m_isRunning = m.m_isRunning ∧ t.m_activePlugins = m.m_activePlugins) := by
  induction conditions with
  | nil =>
    intro m
    simp [configure_conditions, ensures_ok]
  | cons condition rest ih =>
    intro m
    simp only [configure_conditions, ExperimentManager.add_experiment_condition, ensures_bind,
      ensures_RV_ASSERT, ensures_ok]
    intro _ _
    exact ensures_mono (ih _) (fun _ h => h)

/-- Helper: registering the triggers keeps the running flag and the active plug-ins. -/
theorem configure_triggers_running (triggers : List Json.Trigger) :
    ∀ m : ExperimentManager, ensures (configure_triggers m triggers) (fun t =>
      t.m_isRunning = m.m_isRunning ∧ t.m_activePlugins = m.m_activePlugins) := by
  induction triggers with
  | nil =>
    intro m
    simp [configure_triggers, ensures_ok]
  | cons trigger rest ih =>
    intro m
    simp only [configure_triggers, ExperimentManager.add_experiment_trigger, ensures_bind,
      ensures_RV_ASSERT, ensures_ok]
    intro _ _
    exact ensures_mono (ih _) (fun _ h => h)

/-- Helper: the loop that disables plug-ins keeps the running flag and leaves no repetition. -/
theorem disable_plugins_consistent (names : List Name) :
    ∀ s : System, ensures (disable_plugins s names) (fun t =>
      t.manager.m_isRunning = s.manager.m_isRunning ∧
        (s.manager.m_activePlugins.Nodup → t.manager.m_activePlugins.Nodup)) := by
  induction names with
  | nil =>
    intro s
    simp [disable_plugins, ensures_ok]
  | cons pluginName rest ih =>
    intro s
    simp only [disable_plugins]
    refine ensures_bind_of _ (disable_plugin_consistent s pluginName) ?_
    intro r hr
    obtain ⟨pPlugin, s1⟩ := r
    exact ensures_mono (ih s1) (fun t ht => ⟨ht.1.trans hr.1, fun h => ht.2 (hr.2 h)⟩)

/-- Helper: the loop that enables and configures plug-ins keeps the running flag and leaves no
repetition. -/
theorem configure_plugins_consistent (plugins : List Json.Plugin) :
    ∀ s : System, ensures (configure_plugins s plugins) (fun t =>
      t.manager.m_isRunning = s.manager.m_isRunning ∧
        (s.manager.m_activePlugins.Nodup → t.manager.m_activePlugins.Nodup)) := by
  induction plugins with
  | nil =>
    intro s
    simp [configure_plugins, ensures_ok]
  | cons jsonPlugin rest ih =>
    intro s
    simp only [configure_plugins]
    refine ensures_bind_of _ (enable_plugin_consistent s (Name.mk jsonPlugin.name)) ?_
    intro r hr
    obtain ⟨pPlugin, s1⟩ := r
    cases pPlugin with
    | none =>
      exact ensures_mono (ih s1) (fun t ht => ⟨ht.1.trans hr.1, fun h => ht.2 (hr.2 h)⟩)
    | some pointer =>
      simp only [ensures_bind]
      intro plugin _ plugin1 _
      exact ensures_mono (ih _) (fun t ht => ⟨ht.1.trans hr.1, fun h => ht.2 (hr.2 h)⟩)

/-- Helper: `configure_from_json` returns on a stopped manager only, leaves it stopped and leaves
no repetition among the active plug-ins. -/
theorem configure_from_json_consistent (s : System) (jsonData : Json.Experiment) :
    ensures (configure_from_json s jsonData) (fun t =>
      t.manager.m_isRunning = false ∧
        (s.manager.m_activePlugins.Nodup → t.manager.m_activePlugins.Nodup)) := by
  intro t h
  unfold configure_from_json at h
  simp only [bind_eq_ok, RV_ASSERT_eq_ok, exists_and_left, exists_const, Except.ok.injEq] at h
  obtain ⟨hstop, m2, hm2, m3, hm3, names, -, s4, hs4, s5, hs5, ht⟩ := h
  have h2 := configure_conditions_running _ _ m2 hm2
  have h3 := configure_triggers_running _ { m2 with m_triggers := [] } m3 hm3
  have h4 := disable_plugins_consistent _ { s with manager := m3 } s4 hs4
  have h5 := configure_plugins_consistent _ _ s5 hs5
  simp only at h2 h3 h4
  have hstop1 : s.manager.m_isRunning = false := by simpa using hstop
  rw [← ht]
  constructor
  · show s5.manager.m_isRunning = false
    rw [h5.1, h4.1, h3.1, h2.1]
    exact hstop1
  · intro hnodup
    show s5.manager.m_activePlugins.Nodup
    apply h5.2
    apply h4.2
    rw [h3.2, h2.2]
    exact hnodup

/-- Helper: a step of the session keeps the invariant. -/
theorem session_step_consistent {s t : System} (hstep : session_step s.manager t.manager)
    (h : consistent s) : consistent t := by
  obtain ⟨-, ha, hrun⟩ := hstep
  refine ⟨fun ht => ?_, by rw [ha]; exact h.2⟩
  obtain ⟨hp, hcase⟩ := hrun ht
  rw [hp]
  rcases hcase with ⟨hr, -⟩ | ⟨-, hpart, -⟩
  · exact h.1 hr
  · exact hpart

/-- Helper: a state whose manager is stopped and whose active plug-ins are not repeated. -/
theorem consistent_stopped {t : System} (hr : t.manager.m_isRunning = false)
    (hn : t.manager.m_activePlugins.Nodup) : consistent t :=
  ⟨fun h => absurd (hr.symm.trans h) (by decide), hn⟩

end System
namespace System

/-- Helper: `enable_plugin` and `disable_plugin` return on a stopped manager only. -/
theorem plugin_change_stopped (s : System) (pluginName : Name) :
    ensures (enable_plugin s pluginName) (fun _ => s.manager.m_isRunning = false) ∧
      ensures (disable_plugin s pluginName) (fun _ => s.manager.m_isRunning = false) := by
  constructor
  · unfold enable_plugin
    rw [ensures_bind, ensures_RV_ASSERT]
    intro h _ _
    simpa using h
  · unfold disable_plugin
    rw [ensures_bind, ensures_RV_ASSERT]
    intro h _ _
    simpa using h

/-- Helper: ending, aborting and resetting keep the invariant. -/
theorem halt_consistent {s : System} (h : consistent s) :
    consistent { s with manager := s.manager.reset } ∧
      consistent { s with manager := s.manager.end_ } ∧
      consistent { s with manager := s.manager.abort } := by
  have hreset : ∀ n : ExperimentManager, n.m_activePlugins = s.manager.m_activePlugins →
      consistent { s with manager := n.reset } := fun n hn =>
    consistent_stopped (ExperimentManager.reset_effect n).2.1
      (by
        show n.reset.m_activePlugins.Nodup
        rw [(ExperimentManager.reset_frame n).1, hn]
        exact h.2)
  refine ⟨hreset _ rfl, ?_, ?_⟩
  · unfold ExperimentManager.end_
    split_ifs
    · exact hreset _ rfl
    · exact h
  · unfold ExperimentManager.abort
    split_ifs
    · exact hreset _ rfl
    · exact h

/-- Helper: every call keeps the invariant. -/
theorem call_keeps_consistent (vm : Vectormath) (os : Platform) (c : Call) {s : System}
    (h : consistent s) : ensures (call vm os s c) consistent := by
  cases c with
  | init =>
    simp only [call, ensures_ok]
    exact (halt_consistent h).1
  | configure_from_json jsonData =>
    intro t ht
    obtain ⟨hr, hn⟩ := configure_from_json_consistent s jsonData t ht
    exact consistent_stopped hr (hn h.2)
  | set_participant number =>
    simp only [call, ExperimentManager.set_participant, ensures_bind, ensures_RV_ASSERT,
      ensures_ok]
    intro hstop
    exact consistent_stopped (by simpa using hstop) h.2
  | add_experiment_condition conditionName defaultValue =>
    simp only [call, ExperimentManager.add_experiment_condition, ensures_bind,
      ensures_RV_ASSERT, ensures_ok]
    intro hstop _
    exact consistent_stopped (by simpa using hstop) h.2
  | remove_experiment_condition conditionName =>
    simp only [call, ExperimentManager.remove_experiment_condition, ensures_bind,
      ensures_RV_ASSERT, ensures_ok]
    intro hstop _
    exact consistent_stopped (by simpa using hstop) h.2
  | add_experiment_trigger triggerName trigger =>
    simp only [call, ExperimentManager.add_experiment_trigger, ensures_bind,
      ensures_RV_ASSERT, ensures_ok]
    intro hstop _
    exact consistent_stopped (by simpa using hstop) h.2
  | remove_experiment_trigger triggerName =>
    simp only [call, ExperimentManager.remove_experiment_trigger, ensures_bind,
      ensures_RV_ASSERT, ensures_ok]
    intro hstop _
    exact consistent_stopped (by simpa using hstop) h.2
  | register_plugin pluginName pPlugin =>
    simp only [call, ensures_ok]
    exact h
  | enable_plugin pluginName =>
    simp only [call, ensures_bind, ensures_ok]
    intro r hr
    obtain ⟨hrun, hn⟩ := enable_plugin_consistent s pluginName r hr
    exact consistent_stopped (hrun.trans ((plugin_change_stopped s pluginName).1 r hr)) (hn h.2)
  | disable_plugin pluginName =>
    simp only [call, ensures_bind, ensures_ok]
    intro r hr
    obtain ⟨hrun, hn⟩ := disable_plugin_consistent s pluginName r hr
    exact consistent_stopped (hrun.trans ((plugin_change_stopped s pluginName).2 r hr)) (hn h.2)
  | start =>
    intro t ht
    exact session_step_consistent (start_session_step os s t ht) h
  | record_experiment_state =>
    intro t ht
    simp only [call] at ht
    rw [record_experiment_state_eq_ok] at ht
    obtain ⟨-, cells, -, rfl⟩ := ht
    exact h
  | end_ =>
    simp only [call, ensures_ok]
    exact (halt_consistent h).2.1
  | abort =>
    simp only [call, ensures_ok]
    exact (halt_consistent h).2.2
  | reset =>
    simp only [call, ensures_ok]
    exact (halt_consistent h).1
  | session op =>
    intro t ht
    exact session_step_consistent (step_session_step vm os s op t ht) h

/-- Helper: every sequence of calls keeps the invariant. -/
theorem calls_keep_consistent (vm : Vectormath) (os : Platform) (cs : List Call) :
    ∀ {s : System}, consistent s → ensures (calls vm os s cs) consistent := by
  induction cs with
  | nil =>
    intro s h
    simpa [calls, ensures_ok] using h
  | cons c rest ih =>
    intro s h
    simp only [calls]
    exact ensures_bind_of _ (call_keeps_consistent vm os c h) (fun s1 h1 => ih h1)

end System
namespace System

/-- C18. On a stopped manager: `disable_plugin` of a registered plug-in that is not active and
`enable_plugin` of a registered plug-in that is active return the plug-in and leave the whole
state, the active sequence included, as it was; both calls on a name that is not registered
return null and leave the state as it was. From a state without active plug-ins, as the manager
is constructed, no sequence of calls leads to an active sequence that holds a plug-in twice. -/
theorem redundant_plugin_changes (vm : Vectormath) (os : Platform) (s : System)
    (pluginName : Name) (cs : List Call) :
    (s.manager.m_isRunning = false →
      (∀ pPlugin, UMap.find s.m_sAvailablePlugins pluginName = some pPlugin →
        pPlugin ∉ s.manager.m_activePlugins →
          disable_plugin s pluginName = .ok (some pPlugin, s)) ∧
      (∀ pPlugin, UMap.find s.m_sAvailablePlugins pluginName = some pPlugin →
        pPlugin ∈ s.manager.m_activePlugins →
          enable_plugin s pluginName = .ok (some pPlugin, s)) ∧
      (UMap.find s.m_sAvailablePlugins pluginName = none →
        enable_plugin s pluginName = .ok (none, s) ∧
          disable_plugin s pluginName = .ok (none, s))) ∧
      (s.manager.m_isRunning = false → s.manager.m_activePlugins = [] →
        ∀ t, calls vm os s cs = .ok t → t.manager.m_activePlugins.Nodup) := by
  constructor
  · intro hstop
    refine ⟨?_, ?_, ?_⟩
    · intro pPlugin hfind hin
      simp [disable_plugin, hstop, hfind, hin, RV_ASSERT, bind, Except.bind]
    · intro pPlugin hfind hin
      simp [enable_plugin, hstop, hfind, hin, RV_ASSERT, bind, Except.bind]
    · intro hfind
      constructor
      · simp [enable_plugin, hstop, hfind, RV_ASSERT, bind, Except.bind]
      · simp [disable_plugin, hstop, hfind, RV_ASSERT, bind, Except.bind]
  · intro hstop hactive t ht
    have hs : consistent s := consistent_stopped hstop (by rw [hactive]; exact List.nodup_nil)
    exact (calls_keep_consistent vm os cs hs t ht).2

/-- C19. Let the manager be constructed and `init()` and any sequence of calls and events
follow. In the state reached a running manager has a participant other than the invalid
sentinel. `start()` fails on its assertions when no participant is set or when the manager is
running, and `set_participant` fails on its assertion when the manager is running. -/
theorem running_has_participant (vm : Vectormath) (os : Platform) (s0 : System)
    (enableAudioRecording : Bool) (audioPort : Int) (cs : List Call) (t : System)
    (hnew : s0.manager = ExperimentManager.new enableAudioRecording audioPort)
    (hcalls : calls vm os s0.init cs = .ok t) :
    (t.manager.is_running = true →
        t.manager.get_current_participant ≠ kInvalidParticipantNumber) ∧
      (∀ s : System, s.manager.m_currentParticipant = kInvalidParticipantNumber →
        start os s = .error .assertion) ∧
      (∀ s : System, s.manager.m_isRunning = true → start os s = .error .assertion) ∧
      ∀ (m : ExperimentManager) (number : Nat), m.m_isRunning = true →
        m.set_participant number = .error .assertion := by
  have hs : consistent s0.init :=
    consistent_stopped (ExperimentManager.reset_effect s0.manager).2.1
      (by
        show s0.manager.reset.m_activePlugins.Nodup
        rw [(ExperimentManager.reset_frame s0.manager).1, hnew]
        exact List.nodup_nil)
  refine ⟨(calls_keep_consistent vm os cs hs t hcalls).1, ?_, ?_, ?_⟩
  · intro s hpart
    unfold start
    by_cases hrun : s.manager.m_isRunning = true
    · simp [hrun, RV_ASSERT, bind, Except.bind]
    · simp [hrun, hpart, RV_ASSERT, bind, Except.bind]
  · intro s hrun
    simp [start, hrun, RV_ASSERT, bind, Except.bind]
  · intro m number hrun
    simp [ExperimentManager.set_participant, hrun, RV_ASSERT, bind, Except.bind]

end System

/-- Witness of C18: on the sample manager between sessions the Voice plug-in is active and is
enabled again; after `init()` it is registered but not active and is disabled; the name `hmd` is
not registered; and after enabling Voice twice, disabling it twice and enabling it again the
active sequence holds it once. -/
theorem redundant_plugin_changes_witness :
    System.enable_plugin Sample.between_sessions (Name.mk "voice") =
        .ok (some 0, Sample.between_sessions) ∧
      System.disable_plugin Sample.initial (Name.mk "voice") = .ok (some 0, Sample.initial) ∧
      System.enable_plugin Sample.initial (Name.mk "hmd") = .ok (none, Sample.initial) ∧
      System.disable_plugin Sample.initial (Name.mk "hmd") = .ok (none, Sample.initial) ∧
      System.calls Sample.vm Sample.os Sample.constructed Sample.plugin_calls =
        .ok Sample.after_plugin_calls ∧
      Sample.after_plugin_calls.manager.m_activePlugins = [0] ∧
      Sample.after_plugin_calls.manager.m_activePlugins.Nodup :=
  ⟨((System.redundant_plugin_changes Sample.vm Sample.os Sample.between_sessions
      (Name.mk "voice") []).1 (by decide)).2.1 0 (by decide) (by decide),
    ((System.redundant_plugin_changes Sample.vm Sample.os Sample.initial
      (Name.mk "voice") []).1 (by decide)).1 0 (by decide) (by decide),
    (((System.redundant_plugin_changes Sample.vm Sample.os Sample.initial
      (Name.mk "hmd") []).1 (by decide)).2.2 (by decide)).1,
    (((System.redundant_plugin_changes Sample.vm Sample.os Sample.initial
      (Name.mk "hmd") []).1 (by decide)).2.2 (by decide)).2,
    by decide!, by decide!,
    (System.redundant_plugin_changes Sample.vm Sample.os Sample.constructed
      (Name.mk "voice") Sample.plugin_calls).2 (by decide) (by decide)
      Sample.after_plugin_calls (by decide!)⟩

/-- Witness of C19: the sample manager is constructed, initialised, configured, given
participant 7 and started, and updated once; it is running for participant 7. -/
theorem running_has_participant_witness :
    System.calls Sample.vm Sample.os Sample.constructed.init Sample.session_calls =
        .ok Sample.after_session_calls ∧
      Sample.after_session_calls.manager.is_running = true ∧
      Sample.after_session_calls.manager.get_current_participant = 7 ∧
      Sample.after_session_calls.manager.get_current_participant ≠
        kInvalidParticipantNumber ∧
      System.start Sample.os Sample.initial = .error .assertion ∧
      System.start Sample.os Sample.after_session_calls = .error .assertion ∧
      Sample.after_session_calls.manager.set_participant 8 = .error .assertion :=
  have h := System.running_has_participant Sample.vm Sample.os Sample.constructed true 3
    Sample.session_calls Sample.after_session_calls rfl (by decide!)
  ⟨by decide!, by decide!, by decide!, h.1 (by decide!),
    h.2.1 Sample.initial (by decide!),
    h.2.2.1 Sample.after_session_calls (by decide!),
    h.2.2.2 Sample.after_session_calls.manager 8 (by decide!)⟩
namespace ExperimentPlugin

/-- Helper: the result of `update` is `write_required` of the object that ageing, the queued
events and the internal update leave. -/
theorem update_eq_ok (vm : Vectormath) (g : GamePlay.GlobalGameState) (p : ExperimentPlugin)
    (fDeltaTime : ℚ) (b : Bool) (p3 : ExperimentPlugin) :
    update vm g p fDeltaTime = .ok (b, p3) ↔
      ∃ p2, handle_queued_events g
          { p with m_data := p.m_data.map (fun dataPair =>
            (dataPair.1, dataPair.2.update_age fDeltaTime)) } p.m_eventQueue = .ok p2 ∧
        p2.update_internal vm g fDeltaTime = .ok p3 ∧ b = p3.write_required := by
  unfold update
  simp only [bind_eq_ok, Except.ok.injEq, Prod.mk.injEq]
  constructor
  · rintro ⟨p2, h2, p3', h3, hb, rfl⟩
    exact ⟨p2, h2, h3, hb.symm⟩
  · rintro ⟨p2, h2, h3, hb⟩
    exact ⟨p2, h2, p3, h3, hb.symm, rfl⟩

/-- Helper: `write_required` says that some field is neither undefined nor older than 0. -/
theorem write_required_iff (p : ExperimentPlugin) :
    p.write_required = true ↔
      ∃ dataPair ∈ p.m_data,
        dataPair.2.is_undefined = false ∧ dataPair.2.older_than 0 = false := by
  unfold write_required ExperimentPluginDataField.is_undefined_or_old
  simp only [List.any_eq_true, Bool.not_eq_true', Bool.or_eq_false_iff]
  constructor
  · rintro ⟨dataPair, hmem, h1, h2⟩
    exact ⟨dataPair, hmem, h2, h1⟩
  · rintro ⟨dataPair, hmem, h1, h2⟩
    exact ⟨dataPair, hmem, h2, h1⟩

/-- C20 as stated fails after a negative frame time: the Voice plug-in as constructed is
updated with `dt = -1`, which leaves its field `FALSE` at age -1. In the next update `dt = 1/2`
is positive, no event is queued and the internal update leaves the object as it is, and yet the
update returns true, the field being at age -1/2. -/
theorem update_after_negative_age_counterexample :
    (do
      let p0 ← PluginVoice.new
      let r ← p0.update Sample.vm Sample.game (-1)
      pure r.2) =
      .ok { m_data := [(Name.mk "voiceRecording",
                { data := "FALSE", fAge := -1, bAlwaysUpToDate := true })],
            m_eventQueue := [], members := .Voice false, played_blocks := [] } ∧
    (0 : ℚ) < 1 / 2 ∧
    update_internal Sample.vm Sample.game
        { m_data := [(Name.mk "voiceRecording",
            { data := "FALSE", fAge := -1 + 1 / 2, bAlwaysUpToDate := true })],
          m_eventQueue := [], members := .Voice false, played_blocks := [] } (1 / 2) =
      .ok { m_data := [(Name.mk "voiceRecording",
                { data := "FALSE", fAge := -1 + 1 / 2, bAlwaysUpToDate := true })],
            m_eventQueue := [], members := .Voice false, played_blocks := [] } ∧
    update Sample.vm Sample.game
        { m_data := [(Name.mk "voiceRecording",
            { data := "FALSE", fAge := -1, bAlwaysUpToDate := true })],
          m_eventQueue := [], members := .Voice false, played_blocks := [] } (1 / 2) =
      .ok (true,
        { m_data := [(Name.mk "voiceRecording",
            { data := "FALSE", fAge := -1 / 2, bAlwaysUpToDate := true })],
          m_eventQueue := [], members := .Voice false, played_blocks := [] }) := by
  refine ⟨by decide!, by decide!, by decide!, by decide!⟩

/-- C20, amended. When `update(dt)` returns, the object it leaves is the one after ageing, the
queued events and the internal update of this call, and the result is true exactly when in that
object some data field is neither undefined nor older than 0 (age > 0, strict). Hence with
`dt > 0`, no field of negative age before the call, no queued event and an internal update that
returns and leaves the data fields as ageing left them, `update` returns false. -/
theorem update_returns_write_required (vm : Vectormath) (g : GamePlay.GlobalGameState)
    (p : ExperimentPlugin) (fDeltaTime : ℚ) :
    (∀ (b : Bool) (p3 : ExperimentPlugin), update vm g p fDeltaTime = .ok (b, p3) →
      (∃ p2, handle_queued_events g
          { p with m_data := p.m_data.map (fun dataPair =>
            (dataPair.1, dataPair.2.update_age fDeltaTime)) } p.m_eventQueue = .ok p2 ∧
        p2.update_internal vm g fDeltaTime = .ok p3) ∧
      (b = true ↔ ∃ dataPair ∈ p3.m_data,
        dataPair.2.is_undefined = false ∧ dataPair.2.older_than 0 = false)) ∧
      (0 < fDeltaTime → (∀ dataPair ∈ p.m_data, 0 ≤ dataPair.2.get_age) →
        p.m_eventQueue = [] →
        ∀ p3 : ExperimentPlugin,
          update_internal vm g
            { p with m_data := p.m_data.map (fun dataPair =>
              (dataPair.1, dataPair.2.update_age fDeltaTime)) } fDeltaTime = .ok p3 →
          p3.m_data = p.m_data.map (fun dataPair =>
            (dataPair.1, dataPair.2.update_age fDeltaTime)) →
          update vm g p fDeltaTime = .ok (false, p3)) := by
  constructor
  · intro b p3 h
    rw [update_eq_ok] at h
    obtain ⟨p2, h2, h3, hb⟩ := h
    refine ⟨⟨p2, h2, h3⟩, ?_⟩
    rw [hb]
    exact write_required_iff p3
  · intro hdt hage hqueue p3 hinternal hdata
    rw [update_eq_ok]
    refine ⟨_, ?_, hinternal, ?_⟩
    · rw [hqueue]
      rfl
    · symm
      rw [← Bool.not_eq_true, write_required_iff, hdata]
      rintro ⟨dataPair, hmem, -, hold⟩
      obtain ⟨original, horiginal, rfl⟩ := List.mem_map.mp hmem
      have h0 := hage original horiginal
      simp only [ExperimentPluginDataField.older_than, ExperimentPluginDataField.get_age,
        ExperimentPluginDataField.update_age, decide_eq_false_iff_not, not_lt] at hold h0
      linarith

end ExperimentPlugin

/-- Witness of the amended C20: the sample Voice plug-in, its field `FALSE` at age 1, is
updated with `dt = 1/2`; without a queued event the update returns false, and with a queued
start-recording event it returns true, the field being `TRUE` at age 0. -/
theorem update_returns_write_required_witness :
    ExperimentPlugin.update Sample.vm Sample.game (Sample.voice []) (1 / 2) =
        .ok (false,
          { m_data := [(Name.mk "voiceRecording",
              { data := "FALSE", fAge := 1 + 1 / 2, bAlwaysUpToDate := true })],
            m_eventQueue := [], members := .Voice false, played_blocks := [] }) ∧
      (∃ dataPair ∈
          [(Name.mk "voiceRecording",
            ({ data := "TRUE", fAge := 0, bAlwaysUpToDate := true } :
              ExperimentPluginDataField))],
        dataPair.2.is_undefined = false ∧ dataPair.2.older_than 0 = false) :=
  ⟨(ExperimentPlugin.update_returns_write_required Sample.vm Sample.game (Sample.voice [])
      (1 / 2)).2 (by decide!) (by decide!) (by decide) _ (by decide!) (by decide!),
    ((ExperimentPlugin.update_returns_write_required Sample.vm Sample.game
      (Sample.voice [Sample.event .kExperiment_StartAudioRecording]) (1 / 2)).1 true
      { m_data := [(Name.mk "voiceRecording",
          { data := "TRUE", fAge := 0, bAlwaysUpToDate := true })],
        m_eventQueue := [], members := .Voice true, played_blocks := [] }
      (by decide!)).2.mp rfl⟩
namespace System

/-- C23. In a data row the column of a plug-in field shows the value of the field when the
field is defined and its age is not greater than 0 or it is marked always up to date, and the
undefined-value string in every other case; the columns of a plug-in in the row are these, field
by field. So a defined always-up-to-date field of age greater than 0 is written with its value,
while a plug-in all of whose fields have an age greater than 0 does not request a row. -/
theorem field_value_rule (s : System) (pPlugin : Nat) (plugin : ExperimentPlugin)
    (field : ExperimentPluginDataField) :
    field_value s.manager.m_undefinedValue field =
        (if field.is_undefined = false ∧
            (¬field.get_age > 0 ∨ field.is_always_up_to_date = true)
          then field.get else s.manager.m_undefinedValue) ∧
      (s.plugins[pPlugin]? = some plugin →
        plugin_row_cells s [pPlugin] = .ok (plugin.get_data.map (fun dataPair =>
          if dataPair.2.is_undefined = false ∧
              (¬dataPair.2.get_age > 0 ∨ dataPair.2.is_always_up_to_date = true)
            then dataPair.2.get else s.manager.m_undefinedValue))) ∧
      (field.is_undefined = false → field.is_always_up_to_date = true → field.get_age > 0 →
        field_value s.manager.m_undefinedValue field = field.get ∧
          field.is_undefined_or_old = true) ∧
      ((∀ dataPair ∈ plugin.m_data, dataPair.2.get_age > 0) →
        plugin.write_required = false) := by
  have hrule : ∀ f : ExperimentPluginDataField,
      field_value s.manager.m_undefinedValue f =
        (if f.is_undefined = false ∧ (¬f.get_age > 0 ∨ f.is_always_up_to_date = true)
          then f.get else s.manager.m_undefinedValue) := by
    intro f
    unfold field_value ExperimentPluginDataField.older_than
    by_cases hu : f.is_undefined = true <;>
    by_cases ha : f.is_always_up_to_date = true <;>
    by_cases hold : f.get_age > 0 <;>
    simp [hu, ha, hold]
  refine ⟨hrule field, ?_, ?_, ?_⟩
  · intro hplugin
    simp only [plugin_row_cells, deref, hplugin, bind, Except.bind, List.append_nil]
    congr 1
    exact List.map_congr_left (fun dataPair _ => hrule dataPair.2)
  · intro hu ha hold
    constructor
    · rw [hrule, if_pos ⟨hu, Or.inr ha⟩]
    · simp [ExperimentPluginDataField.is_undefined_or_old,
        ExperimentPluginDataField.older_than, hold]
  · intro hall
    unfold ExperimentPlugin.write_required
    rw [List.any_eq_false]
    intro dataPair hmem
    simp [ExperimentPluginDataField.is_undefined_or_old,
      ExperimentPluginDataField.older_than, hall dataPair hmem]

end System
/-- Witness of C23: a Locomotion plug-in whose fields were set in an earlier frame, the node
(always up to date) to `A` and the distance to `2.500000`; the row shows `A` and the
undefined-value string `NA`, and the plug-in does not request a row. -/
theorem field_value_rule_witness :
    System.plugin_row_cells
        { Sample.session 5 false .kDummyEvent [] with
          plugins := [{ m_data := [(Name.mk "locomotionNode",
                          { data := "A", fAge := 1, bAlwaysUpToDate := true }),
                        (Name.mk "locomotionDistance",
                          { data := "2.500000", fAge := 1, bAlwaysUpToDate := false })],
                        m_eventQueue := [], members := .Locomotion, played_blocks := [] }] }
        [0] = .ok ["A", "NA"] ∧
      ExperimentPlugin.write_required
        { m_data := [(Name.mk "locomotionNode",
            { data := "A", fAge := 1, bAlwaysUpToDate := true }),
          (Name.mk "locomotionDistance",
            { data := "2.500000", fAge := 1, bAlwaysUpToDate := false })],
          m_eventQueue := [], members := .Locomotion, played_blocks := [] } = false ∧
      (System.field_value "NA" { data := "A", fAge := 1, bAlwaysUpToDate := true } = "A" ∧
        ExperimentPluginDataField.is_undefined_or_old
          { data := "A", fAge := 1, bAlwaysUpToDate := true } = true) :=
  have h := System.field_value_rule
    { Sample.session 5 false .kDummyEvent [] with
      plugins := [{ m_data := [(Name.mk "locomotionNode",
                      { data := "A", fAge := 1, bAlwaysUpToDate := true }),
                    (Name.mk "locomotionDistance",
                      { data := "2.500000", fAge := 1, bAlwaysUpToDate := false })],
                    m_eventQueue := [], members := .Locomotion, played_blocks := [] }] }
    0
    { m_data := [(Name.mk "locomotionNode",
        { data := "A", fAge := 1, bAlwaysUpToDate := true }),
      (Name.mk "locomotionDistance",
        { data := "2.500000", fAge := 1, bAlwaysUpToDate := false })],
      m_eventQueue := [], members := .Locomotion, played_blocks := [] }
    { data := "A", fAge := 1, bAlwaysUpToDate := true }
  ⟨(h.2.1 rfl).trans (by decide!), h.2.2.2 (by decide!), h.2.2.1 (by decide) (by decide)
    (by decide!)⟩
/-- C24, evaluated on the code. The manager is configured with the undefined-value string `-`,
the condition `note` without a default value and the Locomotion plug-in, whose two fields are
undefined; participant 7 is set and the session started. The first row shows `-` for the two
plug-in fields and `NA` for the condition. -/
theorem invalid_condition_written_as_NA :
    (do
      let locomotion ← PluginLocomotion.new
      let s1 ← System.configure_from_json
        { manager := ExperimentManager.new false 0
          plugins := [locomotion]
          m_sAvailablePlugins := [(Name.mk "locomotion", 0)]
          g_CI_experiment_args_bank := []
          played_blocks := [] }
        { undefinedValue := some "-"
          conditions := some [{ name := "note", value := none }]
          triggers := none
          plugins := some
            [{ name := "locomotion", recordMovementFlag := none,
               autoMarkerIntervalSeconds := none, recordIntervalSeconds := none,
               autoStart := none, commandBlocks := none, onlyInventoryItems := none }]
          enableAudioRecording := none }
      let m2 ← s1.manager.set_participant 7
      let s3 ← System.start Sample.os { s1 with manager := m2 }
      pure (s3.manager.m_undefinedValue,
        s3.manager.m_outputWriter.written.map Line.text)) =
      (.ok ("-",
          ["participant\telapsedTime\tnote\tlocomotionNode\tlocomotionDistance\n",
            "7\t0.00\tNA\t-\t-\n"]) :
        Except Failure (String × List String)) := by
  decide!

/-- C25, evaluated on the code. The name `voice` is registered with the plug-in object 0;
`register_plugin` with the same name and the object 1 leaves one entry for the name, which now
maps to the object 1. -/
theorem register_plugin_replaces :
    ({ Sample.constructed with plugins := [Sample.voice [], Sample.voice []]
        }).m_sAvailablePlugins = [(Name.mk "voice", 0)] ∧
      (System.register_plugin
          { Sample.constructed with plugins := [Sample.voice [], Sample.voice []] }
          (Name.mk "voice") 1).m_sAvailablePlugins = [(Name.mk "voice", 1)] ∧
      UMap.find
        (System.register_plugin
          { Sample.constructed with plugins := [Sample.voice [], Sample.voice []] }
          (Name.mk "voice") 1).m_sAvailablePlugins (Name.mk "voice") = some 1 := by
  decide

/-- C30, evaluated on the code. The Controller plug-in as constructed, and equally after a
configuration with `recordMovementFlag` false, has no field `controllerMovement`; handling a
SwitchController event ends with the exception `std::out_of_range` of `m_data.at`, in
`handle_event` and so in `update`. With `recordMovementFlag` true the event is handled and the
field `controller` is defined with age 0. -/
theorem switch_controller_out_of_range :
    (do
      let p ← PluginController.new
      p.handle_event Sample.game (Sample.event .kGamePlay_SwitchController)) =
        .error .out_of_range ∧
    (do
      let p ← PluginController.new
      let r ← ExperimentPlugin.update Sample.vm Sample.game
        { p with m_eventQueue := [Sample.event .kGamePlay_SwitchController] } (1 / 2)
      pure r.1) = .error .out_of_range ∧
    (do
      let p ← PluginController.new
      let p1 ← p.configure_from_json
        { name := "controller", recordMovementFlag := some false,
          autoMarkerIntervalSeconds := none, recordIntervalSeconds := none,
          autoStart := none, commandBlocks := none, onlyInventoryItems := none }
      p1.handle_event Sample.game (Sample.event .kGamePlay_SwitchController)) =
        .error .out_of_range ∧
    (do
      let p ← PluginController.new
      let p1 ← p.configure_from_json
        { name := "controller", recordMovementFlag := some true,
          autoMarkerIntervalSeconds := none, recordIntervalSeconds := none,
          autoStart := none, commandBlocks := none, onlyInventoryItems := none }
      let p2 ← p1.handle_event Sample.game (Sample.event .kGamePlay_SwitchController)
      pure (p2.m_data.map (fun dataPair =>
        (dataPair.1.get_message, dataPair.2.get, dataPair.2.get_age)))) =
      (.ok [("controller", "ControllerName", 0), ("controllerMovement", "", 0)] :
        Except Failure (List (String × String × ℚ))) := by
  refine ⟨by decide, by decide!, by decide, by decide!⟩
/-- Helper: an entry of a map after an assignment is the assigned one or an entry from before. -/
theorem UMap.mem_assign {V : Type} (m : List (Name × V)) (k : Name) (v : V)
    (kv : Name × V) (h : kv ∈ UMap.assign m k v) :
    (kv.1 = k ∧ kv.2 = v) ∨ (kv.1 ≠ k ∧ kv ∈ m) := by
  unfold UMap.assign at h
  obtain ⟨original, hmem, heq⟩ := List.mem_map.mp h
  by_cases hk : original.1 = k
  · rw [if_pos hk] at heq
    subst heq
    exact Or.inl ⟨hk, rfl⟩
  · rw [if_neg hk] at heq
    subst heq
    exact Or.inr ⟨hk, hmem⟩

namespace ExperimentPlugin

/-- Helper: after `data(header).reset()` the fields of that name are undefined with age 0 and
every other field is as before. -/
theorem data_reset_effect (p q : ExperimentPlugin) (headerName : String)
    (h : p.data_reset headerName = .ok q) :
    ∀ dataPair ∈ q.m_data,
      (dataPair.1 = Name.mk headerName ∧ dataPair.2.is_undefined = true ∧
        dataPair.2.get_age = 0) ∨
      (dataPair.1 ≠ Name.mk headerName ∧ dataPair ∈ p.m_data) := by
  have hq := (ensures_data_modify p headerName _ (fun q =>
    ∃ field, q.m_data = UMap.assign p.m_data (Name.mk headerName)
      (ExperimentPluginDataField.reset field))).mpr (fun field _ => ⟨field, rfl⟩) q h
  obtain ⟨field, hdata⟩ := hq
  intro dataPair hmem
  rw [hdata] at hmem
  rcases UMap.mem_assign _ _ _ _ hmem with ⟨hk, hv⟩ | ⟨hk, hm⟩
  · refine Or.inl ⟨hk, ?_, ?_⟩
    · rw [hv]
      rfl
    · rw [hv]
      rfl
  · exact Or.inr ⟨hk, hm⟩

/-- Helper: the fields named in `headers` that are undefined with age 0 stay so under
`data(header).reset()`, and those of the name `header` join them. -/
theorem data_reset_undefined (p q : ExperimentPlugin) (headerName : String)
    (headers : List String) (h : p.data_reset headerName = .ok q)
    (hp : ∀ dataPair ∈ p.m_data, dataPair.1 ∈ headers.map Name.mk →
      dataPair.2.is_undefined = true ∧ dataPair.2.get_age = 0) :
    ∀ dataPair ∈ q.m_data, dataPair.1 ∈ (headerName :: headers).map Name.mk →
      dataPair.2.is_undefined = true ∧ dataPair.2.get_age = 0 := by
  intro dataPair hmem hname
  rcases data_reset_effect p q headerName h dataPair hmem with ⟨-, hu, ha⟩ | ⟨hne, hold⟩
  · exact ⟨hu, ha⟩
  · rw [List.map_cons, List.mem_cons] at hname
    rcases hname with hname | hname
    · exact absurd hname hne
    · exact hp dataPair hold hname

/-- Helper: after `data(header).reset()` for every header of a table, the fields named in the
table are undefined with age 0. -/
theorem data_reset_all_undefined (headers : List String) :
    ∀ (p q : ExperimentPlugin) (done : List String), p.data_reset_all headers = .ok q →
      (∀ dataPair ∈ p.m_data, dataPair.1 ∈ done.map Name.mk →
        dataPair.2.is_undefined = true ∧ dataPair.2.get_age = 0) →
      ∀ dataPair ∈ q.m_data, dataPair.1 ∈ (headers ++ done).map Name.mk →
        dataPair.2.is_undefined = true ∧ dataPair.2.get_age = 0 := by
  induction headers with
  | nil =>
    intro p q done h hp
    simp only [data_reset_all, Except.ok.injEq] at h
    subst h
    simpa using hp
  | cons header rest ih =>
    intro p q done h hp
    simp only [data_reset_all, bind_eq_ok] at h
    obtain ⟨p1, h1, hrest⟩ := h
    have hp1 := data_reset_undefined p p1 header done h1 hp
    have hq := ih p1 q (header :: done) hrest hp1
    intro dataPair hmem hname
    apply hq dataPair hmem
    simp only [List.map_append, List.map_cons, List.mem_append, List.mem_cons] at hname ⊢
    tauto

end ExperimentPlugin
/-- Helper: a key that is not found is the key of no entry. -/
theorem UMap.not_mem_of_find_none {V : Type} (m : List (Name × V)) (k : Name)
    (h : UMap.find m k = none) : ∀ kv ∈ m, kv.1 ≠ k := by
  induction m with
  | nil =>
    intro kv hkv
    cases hkv
  | cons head rest ih =>
    obtain ⟨k1, v1⟩ := head
    simp only [UMap.find] at h
    by_cases hk : k1 = k
    · rw [if_pos hk] at h
      cases h
    · rw [if_neg hk] at h
      intro kv hkv
      rcases List.mem_cons.mp hkv with heq | hmem
      · rw [heq]
        exact hk
      · exact ih h kv hmem

namespace ExperimentPlugin

/-- Helper: after an assignment through `data(header)` the fields of that name hold the value
assigned, computed from the field found first. -/
theorem data_modify_effect (p q : ExperimentPlugin) (headerName : String)
    (f : ExperimentPluginDataField → ExperimentPluginDataField)
    (h : p.data_modify headerName f = .ok q) :
    ∃ field, UMap.find p.m_data (Name.mk headerName) = some field ∧
      q = { p with m_data := UMap.assign p.m_data (Name.mk headerName) (f field) } ∧
      ∀ dataPair ∈ q.m_data,
        (dataPair.1 = Name.mk headerName ∧ dataPair.2 = f field) ∨
        (dataPair.1 ≠ Name.mk headerName ∧ dataPair ∈ p.m_data) := by
  unfold data_modify at h
  cases hfind : UMap.find p.m_data (Name.mk headerName) with
  | none =>
    rw [hfind] at h
    cases h
  | some field =>
    rw [hfind] at h
    simp only [Except.ok.injEq] at h
    subst h
    exact ⟨field, rfl, rfl, fun dataPair hmem => UMap.mem_assign _ _ _ _ hmem⟩

/-- C22 as stated fails for two plug-ins: after `reset()` the field of the Voice plug-in holds
`FALSE` and the field of the CollectionCounter plug-in holds `0`; neither is undefined. -/
theorem reset_defined_fields_counterexample :
    (do
      let p ← PluginVoice.new
      let q ← p.reset
      pure (q.m_data.map (fun dataPair =>
        (dataPair.1.get_message, dataPair.2.get, dataPair.2.is_undefined)))) =
      (.ok [("voiceRecording", "FALSE", false)] :
        Except Failure (List (String × String × Bool))) ∧
    (do
      let p ← PluginCollectionCounter.new false
      let q ← p.reset
      pure (q.m_data.map (fun dataPair =>
        (dataPair.1.get_message, dataPair.2.get, dataPair.2.is_undefined)))) =
      (.ok [("items", "0", false)] : Except Failure (List (String × String × Bool))) := by
  refine ⟨by decide, by decide⟩

/-- C22, amended. When `reset()` returns: for the Controller, HMD, Locomotion, Activity and
Hands plug-ins every data field the plug-in registers is undefined, with age 0; the field of the
Voice plug-in holds `FALSE` and the field of the CollectionCounter plug-in holds `0`, their
initial values, with age 0. -/
theorem reset_restores_initial_values (p q : ExperimentPlugin) (h : p.reset = .ok q) :
    match p.members with
    | .Controller =>
      ∀ dataPair ∈ q.m_data,
        dataPair.1 ∈ [PluginController.kHeaderController,
          PluginController.kHeaderControllerMovement].map Name.mk →
        dataPair.2.is_undefined = true ∧ dataPair.2.get_age = 0
    | .HMD _ =>
      ∀ dataPair ∈ q.m_data, dataPair.1 ∈ PluginHMD.kHeaderHMDMatrix.map Name.mk →
        dataPair.2.is_undefined = true ∧ dataPair.2.get_age = 0
    | .Locomotion =>
      ∀ dataPair ∈ q.m_data,
        dataPair.1 ∈ [PluginLocomotion.kHeaderLocomotionNode,
          PluginLocomotion.kHeaderLocomotionDistance].map Name.mk →
        dataPair.2.is_undefined = true ∧ dataPair.2.get_age = 0
    | .Activity _ =>
      ∀ dataPair ∈ q.m_data,
        dataPair.1 ∈ [PluginActivity.kHeaderActivityMarker,
          PluginActivity.kHeaderActivityPositionTravelled,
          PluginActivity.kHeaderActivityRotationTravelled,
          PluginActivity.kHeaderActivityBaseTurns].map Name.mk →
        dataPair.2.is_undefined = true ∧ dataPair.2.get_age = 0
    | .Voice _ =>
      ∀ dataPair ∈ q.m_data, dataPair.1 = Name.mk PluginVoice.kHeaderVoiceRecording →
        dataPair.2.get = "FALSE" ∧ dataPair.2.is_undefined = false ∧ dataPair.2.get_age = 0
    | .Hands _ =>
      ∀ dataPair ∈ q.m_data, dataPair.1 ∈ PluginHands.kHeaderHandsMatrix.map Name.mk →
        dataPair.2.is_undefined = true ∧ dataPair.2.get_age = 0
    | .CollectionCounter _ =>
      ∀ dataPair ∈ q.m_data,
        dataPair.1 = Name.mk PluginCollectionCounter.kHeaderCollectionCounterItems →
        dataPair.2.get = "0" ∧ dataPair.2.is_undefined = false ∧ dataPair.2.get_age = 0 := by
  have hnone : ∀ (r : ExperimentPlugin) (dataPair : Name × ExperimentPluginDataField),
      dataPair ∈ r.m_data → dataPair.1 ∈ ([] : List String).map Name.mk →
        dataPair.2.is_undefined = true ∧ dataPair.2.get_age = 0 := by
    intro r dataPair _ hname
    cases hname
  obtain ⟨data, queue, members, played⟩ := p
  cases members with
  | Controller =>
    simp only [reset, PluginController.reset, bind_eq_ok] at h ⊢
    obtain ⟨p1, h1, h2⟩ := h
    have hp1 := data_reset_undefined _ p1 _ [] h1 (hnone _)
    by_cases hexists : p1.exists_data_field PluginController.kHeaderControllerMovement = true
    · rw [if_pos hexists] at h2
      have hq := data_reset_undefined p1 q _ _ h2 hp1
      intro dataPair hmem hname
      apply hq dataPair hmem
      simp only [List.map_cons, List.map_nil, List.mem_cons, List.mem_singleton] at hname ⊢
      tauto
    · rw [if_neg hexists] at h2
      simp only [Except.ok.injEq] at h2
      subst h2
      have hfind : UMap.find p1.m_data (Name.mk PluginController.kHeaderControllerMovement) =
          none := by
        unfold exists_data_field UMap.contains at hexists
        cases hf : UMap.find p1.m_data (Name.mk PluginController.kHeaderControllerMovement) with
        | none => rfl
        | some field => simp [hf] at hexists
      intro dataPair hmem hname
      simp only [List.map_cons, List.map_nil, List.mem_cons, List.mem_singleton] at hname
      rcases hname with hname | hname | hname
      · exact hp1 dataPair hmem (by simp [hname])
      · exact absurd hname (UMap.not_mem_of_find_none _ _ hfind dataPair hmem)
      · cases hname
  | HMD m =>
    simp only [reset, bind_eq_ok, Except.ok.injEq] at h ⊢
    obtain ⟨p1, h1, rfl⟩ := h
    have hq := data_reset_all_undefined _ _ p1 [] h1 (hnone _)
    simpa using hq
  | Locomotion =>
    simp only [reset, PluginLocomotion.reset, bind_eq_ok] at h ⊢
    obtain ⟨p1, h1, h2⟩ := h
    have hp1 := data_reset_undefined _ p1 _ [] h1 (hnone _)
    have hq := data_reset_undefined p1 q _ _ h2 hp1
    intro dataPair hmem hname
    apply hq dataPair hmem
    simp only [List.map_cons, List.map_nil, List.mem_cons, List.mem_singleton] at hname ⊢
    tauto
  | Activity m =>
    simp only [reset, PluginActivity.reset, bind_eq_ok, Except.ok.injEq] at h ⊢
    obtain ⟨r, ⟨p1, h1, p2, h2, p3, h3, p4, h4, rfl⟩, rfl⟩ := h
    have hp1 := data_reset_undefined _ p1 _ [] h1 (hnone _)
    have hp2 := data_reset_undefined p1 p2 _ _ h2 hp1
    have hp3 := data_reset_undefined p2 p3 _ _ h3 hp2
    have hp4 := data_reset_undefined p3 p4 _ _ h4 hp3
    intro dataPair hmem hname
    apply hp4 dataPair hmem
    simp only [List.map_cons, List.map_nil, List.mem_cons, List.mem_singleton] at hname ⊢
    tauto
  | Voice m_bRecording =>
    simp only [reset, PluginVoice.reset, bind_eq_ok, Except.ok.injEq] at h ⊢
    obtain ⟨p1, h1, rfl⟩ := h
    obtain ⟨field, -, -, hall⟩ := data_modify_effect _ p1 _ _ h1
    intro dataPair hmem hname
    rcases hall dataPair hmem with ⟨-, hv⟩ | ⟨hne, -⟩
    · rw [hv]
      exact ⟨rfl, rfl, rfl⟩
    · exact absurd hname hne
  | Hands m =>
    simp only [reset, bind_eq_ok, Except.ok.injEq] at h ⊢
    obtain ⟨p1, h1, rfl⟩ := h
    have hq := data_reset_all_undefined _ _ p1 [] h1 (hnone _)
    simpa using hq
  | CollectionCounter m =>
    simp only [reset, PluginCollectionCounter.reset, bind_eq_ok, Except.ok.injEq] at h ⊢
    obtain ⟨p1, h1, rfl⟩ := h
    obtain ⟨field, -, -, hall⟩ := data_modify_effect _ p1 _ _ h1
    intro dataPair hmem hname
    rcases hall dataPair hmem with ⟨-, hv⟩ | ⟨hne, -⟩
    · rw [hv]
      exact ⟨rfl, rfl, rfl⟩
    · exact absurd hname hne

end ExperimentPlugin
/-- Witness of the amended C22: a Locomotion plug-in with both fields set in an earlier frame
is reset, which leaves both undefined with age 0; the sample Voice plug-in is reset, which
leaves its field `FALSE`. -/
theorem reset_restores_initial_values_witness :
    ExperimentPlugin.reset
        { m_data := [(Name.mk "locomotionNode",
            { data := "A", fAge := 1, bAlwaysUpToDate := true }),
          (Name.mk "locomotionDistance",
            { data := "2.500000", fAge := 1, bAlwaysUpToDate := false })],
          m_eventQueue := [], members := .Locomotion, played_blocks := [] } =
      .ok { m_data := [(Name.mk "locomotionNode",
              { data := "", fAge := 0, bAlwaysUpToDate := true }),
            (Name.mk "locomotionDistance",
              { data := "", fAge := 0, bAlwaysUpToDate := false })],
            m_eventQueue := [], members := .Locomotion, played_blocks := [] } ∧
      (∀ dataPair ∈
          [(Name.mk "locomotionNode",
            ({ data := "", fAge := 0, bAlwaysUpToDate := true } : ExperimentPluginDataField)),
          (Name.mk "locomotionDistance",
            { data := "", fAge := 0, bAlwaysUpToDate := false })],
        dataPair.1 ∈ [PluginLocomotion.kHeaderLocomotionNode,
          PluginLocomotion.kHeaderLocomotionDistance].map Name.mk →
        dataPair.2.is_undefined = true ∧ dataPair.2.get_age = 0) ∧
      (∀ dataPair ∈
          [(Name.mk "voiceRecording",
            ({ data := "FALSE", fAge := 0, bAlwaysUpToDate := true } :
              ExperimentPluginDataField))],
        dataPair.1 = Name.mk PluginVoice.kHeaderVoiceRecording →
        dataPair.2.get = "FALSE" ∧ dataPair.2.is_undefined = false ∧
          dataPair.2.get_age = 0) :=
  ⟨by decide!,
    ExperimentPlugin.reset_restores_initial_values
      { m_data := [(Name.mk "locomotionNode",
          { data := "A", fAge := 1, bAlwaysUpToDate := true }),
        (Name.mk "locomotionDistance",
          { data := "2.500000", fAge := 1, bAlwaysUpToDate := false })],
        m_eventQueue := [], members := .Locomotion, played_blocks := [] }
      { m_data := [(Name.mk "locomotionNode",
          { data := "", fAge := 0, bAlwaysUpToDate := true }),
        (Name.mk "locomotionDistance",
          { data := "", fAge := 0, bAlwaysUpToDate := false })],
        m_eventQueue := [], members := .Locomotion, played_blocks := [] }
      (by decide!),
    ExperimentPlugin.reset_restores_initial_values (Sample.voice [])
      { m_data := [(Name.mk "voiceRecording",
          { data := "FALSE", fAge := 0, bAlwaysUpToDate := true })],
        m_eventQueue := [], members := .Voice false, played_blocks := [] }
      (by decide!)⟩
/-- C26 as stated fails: the Activity plug-in is constructed, configured with
`autoMarkerIntervalSeconds = 1` and reset. After four updates of 0.3 s no marker is written and
the timer stands at 0.9 s, since the first update after a reset only starts the monitoring; the
marker `Auto1` is written by the fifth update, which leaves the timer at 0.2 s. -/
theorem auto_marker_fourth_update_counterexample :
    (do
      let p0 ← PluginActivity.new
      let p1 ← p0.configure_from_json
        { name := "activity", recordMovementFlag := none, autoMarkerIntervalSeconds := some 1,
          recordIntervalSeconds := none, autoStart := none, commandBlocks := none,
          onlyInventoryItems := none }
      let p2 ← p1.reset
      let p3 ← p2.updates Sample.vm Sample.game [3 / 10, 3 / 10, 3 / 10, 3 / 10]
      let r ← p3.update Sample.vm Sample.game (3 / 10)
      pure (p3.m_data.map (fun dataPair => dataPair.2.get),
        r.2.m_data.map (fun dataPair => dataPair.2.get))) =
      (.ok (["", "", "", ""], ["Auto1", "0.000000", "0.000000", "0"]) :
        Except Failure (List String × List String)) ∧
    (do
      let p0 ← PluginActivity.new
      let p1 ← p0.configure_from_json
        { name := "activity", recordMovementFlag := none, autoMarkerIntervalSeconds := some 1,
          recordIntervalSeconds := none, autoStart := none, commandBlocks := none,
          onlyInventoryItems := none }
      let p2 ← p1.reset
      let p3 ← p2.updates Sample.vm Sample.game [3 / 10, 3 / 10, 3 / 10, 3 / 10]
      let r ← p3.update Sample.vm Sample.game (3 / 10)
      pure (match p3.members, r.2.members with
        | .Activity m3, .Activity m4 => [m3.m_lastAutoMarkerAge, m4.m_lastAutoMarkerAge]
        | _, _ => [])) =
      (.ok [9 / 10, 1 / 5] : Except Failure (List ℚ)) := by
  refine ⟨by decide!, by decide!⟩
namespace PluginActivity

/-- Helper: the first update after a reset, no event queued: the fields age and the monitoring
starts; the timer of the automatic markers does not advance. -/
theorem first_update_starts_monitoring (vm : Vectormath) (g : GamePlay.GlobalGameState)
    (data : List (Name × ExperimentPluginDataField)) (m : Members) (played : List Name)
    (fDeltaTime : ℚ) (hmon : m.m_bIsMonitoring = false) :
    ExperimentPlugin.update vm g
        { m_data := data, m_eventQueue := [], members := .Activity m, played_blocks := played }
        fDeltaTime =
      .ok (ExperimentPlugin.write_required
          { m_data := data.map (fun dataPair => (dataPair.1, dataPair.2.update_age fDeltaTime)),
            m_eventQueue := [], members := .Activity m, played_blocks := played },
        { m_data := data.map (fun dataPair => (dataPair.1, dataPair.2.update_age fDeltaTime)),
          m_eventQueue := [],
          members := .Activity
            { m with m_lastHMDMatrix := g.camera_track_matrix, m_bIsMonitoring := true },
          played_blocks := played }) := by
  simp [ExperimentPlugin.update, ExperimentPlugin.handle_queued_events,
    ExperimentPlugin.update_internal, update_internal, hmon, bind, Except.bind,
    ExperimentPlugin.write_required]

/-- Helper: an update while monitoring, no event queued and no marker pending, before the
timer of the automatic markers reaches the interval: the fields age and the timer advances. -/
theorem update_before_marker (vm : Vectormath) (g : GamePlay.GlobalGameState)
    (data : List (Name × ExperimentPluginDataField)) (m : Members) (played : List Name)
    (fDeltaTime interval : ℚ) (hmon : m.m_bIsMonitoring = true)
    (hnone : m.m_nextMarkerName = Name.kInvalidHash)
    (hinterval : m.m_autoMarkerInterval = some interval)
    (hearly : m.m_lastAutoMarkerAge + fDeltaTime < interval) :
    ExperimentPlugin.update vm g
        { m_data := data, m_eventQueue := [], members := .Activity m, played_blocks := played }
        fDeltaTime =
      .ok (ExperimentPlugin.write_required
          { m_data := data.map (fun dataPair => (dataPair.1, dataPair.2.update_age fDeltaTime)),
            m_eventQueue := [], members := .Activity m, played_blocks := played },
        { m_data := data.map (fun dataPair => (dataPair.1, dataPair.2.update_age fDeltaTime)),
          m_eventQueue := [],
          members := .Activity
            { m with
              m_positionTravelled := m.m_positionTravelled +
                vm.dist_translation g.camera_track_matrix m.m_lastHMDMatrix,
              m_rotationTravelled := m.m_rotationTravelled +
                vm.dist_gaze g.camera_track_matrix m.m_lastHMDMatrix,
              m_lastAutoMarkerAge := m.m_lastAutoMarkerAge + fDeltaTime,
              m_lastHMDMatrix := g.camera_track_matrix },
          played_blocks := played }) := by
  have hdue : auto_marker_due (m.m_lastAutoMarkerAge + fDeltaTime) (some interval) = false := by
    simp [auto_marker_due, hearly]
  simp [ExperimentPlugin.update, ExperimentPlugin.handle_queued_events,
    ExperimentPlugin.update_internal, update_internal, hmon, hnone, hinterval, hdue, bind,
    Except.bind, ExperimentPlugin.write_required]

/-- Helper: an update while monitoring, no event queued, in which the timer of the automatic
markers reaches the interval: the marker `Auto<n>` is written with the
accumulated values, the update returns true, and the timer keeps what exceeds the interval. -/
theorem update_writes_auto_marker (vm : Vectormath) (g : GamePlay.GlobalGameState)
    (f1 f2 f3 f4 : ExperimentPluginDataField) (m : Members) (played : List Name)
    (fDeltaTime interval : ℚ) (hmon : m.m_bIsMonitoring = true)
    (hinterval : m.m_autoMarkerInterval = some interval)
    (hdue : interval ≤ m.m_lastAutoMarkerAge + fDeltaTime) :
    ExperimentPlugin.update vm g
        { m_data := [(Name.mk "activityMarker", f1), (Name.mk "activityPosition", f2),
            (Name.mk "activityRotation", f3), (Name.mk "activityBaseTurns", f4)],
          m_eventQueue := [], members := .Activity m, played_blocks := played }
        fDeltaTime =
      .ok (true,
        { m_data :=
            [(Name.mk "activityMarker",
              { data := "Auto" ++ to_string_u32 m.m_nextAutoMarkerName, fAge := 0,
                bAlwaysUpToDate := f1.bAlwaysUpToDate }),
            (Name.mk "activityPosition",
              { data := to_string_f32 (m.m_positionTravelled +
                  vm.dist_translation g.camera_track_matrix m.m_lastHMDMatrix),
                fAge := 0, bAlwaysUpToDate := f2.bAlwaysUpToDate }),
            (Name.mk "activityRotation",
              { data := to_string_f32 (m.m_rotationTravelled +
                  vm.dist_gaze g.camera_track_matrix m.m_lastHMDMatrix),
                fAge := 0, bAlwaysUpToDate := f3.bAlwaysUpToDate }),
            (Name.mk "activityBaseTurns",
              { data := to_string_u32 m.m_numberBaseTurns, fAge := 0,
                bAlwaysUpToDate := f4.bAlwaysUpToDate })],
          m_eventQueue := [],
          members := .Activity
            { m with
              m_positionTravelled := 0, m_rotationTravelled := 0, m_numberBaseTurns := 0,
              m_nextMarkerName := Name.kInvalidHash,
              m_lastAutoMarkerAge := m.m_lastAutoMarkerAge + fDeltaTime - interval,
              m_nextAutoMarkerName := (m.m_nextAutoMarkerName + 1) % 4294967296,
              m_lastHMDMatrix := g.camera_track_matrix },
          played_blocks := played }) := by
  have hd : auto_marker_due (m.m_lastAutoMarkerAge + fDeltaTime) (some interval) = true := by
    simp [auto_marker_due, hdue]
  simp [ExperimentPlugin.update, ExperimentPlugin.handle_queued_events,
    ExperimentPlugin.update_internal, update_internal, hmon, hinterval, hd, bind,
    Except.bind, ExperimentPlugin.write_required, ExperimentPlugin.data_set,
    ExperimentPlugin.data_modify, UMap.find, UMap.assign, kHeaderActivityMarker,
    kHeaderActivityPositionTravelled, kHeaderActivityRotationTravelled,
    kHeaderActivityBaseTurns, reset_helpers, ExperimentPluginDataField.set,
    ExperimentPluginDataField.update_age, Name.get_message]
  left
  have hne : "Auto" ++ to_string_u32 m.m_nextAutoMarkerName ≠ "" := by
    intro h
    have hlen := congrArg String.length h
    rw [String.length_append] at hlen
    have h4 : ("Auto" : String).length = 4 := by decide
    have h0 : ("" : String).length = 0 := by decide
    omega
  simp [ExperimentPluginDataField.is_undefined_or_old, ExperimentPluginDataField.older_than,
    ExperimentPluginDataField.get_age, ExperimentPluginDataField.is_undefined,
    ExperimentPluginDataField.kUndefinedValue, hne]

/-- Helper: the first update after a reset leaves the plug-in monitoring, the timer where it
was. -/
theorem first_update_between_markers (vm : Vectormath) (g : GamePlay.GlobalGameState)
    (p : ExperimentPlugin) (interval timer fDeltaTime : ℚ) (next : Nat)
    (h : between_markers interval timer next false p) :
    ∃ r, p.update vm g fDeltaTime = .ok r ∧ between_markers interval timer next true r.2 := by
  obtain ⟨f1, f2, f3, f4, m, played, rfl, h1, h2, h3, h4, hmon, hnone, hint, htimer, hnext⟩ := h
  refine ⟨_, first_update_starts_monitoring vm g _ m played fDeltaTime hmon, ?_⟩
  exact ⟨_, _, _, _, _, played, rfl, h1, h2, h3, h4, rfl, hnone, hint, htimer, hnext⟩

/-- Helper: an update before the timer reaches the interval advances the timer. -/
theorem waiting_update_between_markers (vm : Vectormath) (g : GamePlay.GlobalGameState)
    (p : ExperimentPlugin) (interval timer fDeltaTime : ℚ) (next : Nat)
    (h : between_markers interval timer next true p) (hearly : timer + fDeltaTime < interval) :
    ∃ r, p.update vm g fDeltaTime = .ok r ∧
      between_markers interval (timer + fDeltaTime) next true r.2 := by
  obtain ⟨f1, f2, f3, f4, m, played, rfl, h1, h2, h3, h4, hmon, hnone, hint, htimer, hnext⟩ := h
  refine ⟨_, update_before_marker vm g _ m played fDeltaTime interval hmon hnone hint
    (by rw [htimer]; exact hearly), ?_⟩
  exact ⟨_, _, _, _, _, played, rfl, h1, h2, h3, h4, hmon, hnone, hint, by rw [← htimer],
    hnext⟩

/-- Helper: the update in which the timer reaches the interval writes the automatic marker
and keeps the surplus. -/
theorem marker_update_between_markers (vm : Vectormath) (g : GamePlay.GlobalGameState)
    (p : ExperimentPlugin) (interval timer fDeltaTime : ℚ) (next : Nat)
    (h : between_markers interval timer next true p) (hdue : interval ≤ timer + fDeltaTime) :
    ∃ r m, p.update vm g fDeltaTime = .ok r ∧ r.1 = true ∧
      (∃ flag, UMap.find r.2.m_data (Name.mk kHeaderActivityMarker) =
        some { data := "Auto" ++ to_string_u32 next, fAge := 0, bAlwaysUpToDate := flag }) ∧
      r.2.members = .Activity m ∧
      m.m_lastAutoMarkerAge = timer + fDeltaTime - interval ∧
      m.m_nextAutoMarkerName = (next + 1) % 4294967296 := by
  obtain ⟨f1, f2, f3, f4, m, played, rfl, h1, h2, h3, h4, hmon, hnone, hint, htimer, hnext⟩ := h
  refine ⟨_, _, update_writes_auto_marker vm g f1 f2 f3 f4 m played fDeltaTime interval hmon
    hint (by rw [htimer]; exact hdue), rfl, ⟨f1.bAlwaysUpToDate, ?_⟩, rfl, by rw [← htimer],
    by rw [← hnext]⟩
  rw [hnext]
  simp [UMap.find, kHeaderActivityMarker]

/-- C26, amended. The Activity plug-in is constructed, configured with
`autoMarkerIntervalSeconds = 1` and reset; whatever the head does, after four updates of 0.3 s
all fields are still undefined and the timer of the automatic markers stands at 0.9 s (the first
update after a reset only starts the monitoring), and the fifth update of 0.3 s returns true,
writes the marker `Auto1` and leaves the timer at the surplus of 0.2 s (timer + dt - interval),
not at 0. -/
theorem auto_marker_fifth_update (vm : Vectormath) (g : GamePlay.GlobalGameState) :
    ∃ p2 p3 r m3 m4,
      (do
        let p0 ← PluginActivity.new
        let p1 ← p0.configure_from_json
          { name := "activity", recordMovementFlag := none,
            autoMarkerIntervalSeconds := some 1, recordIntervalSeconds := none,
            autoStart := none, commandBlocks := none, onlyInventoryItems := none }
        p1.reset) = .ok p2 ∧
      p2.updates vm g [3 / 10, 3 / 10, 3 / 10, 3 / 10] = .ok p3 ∧
      p3.members = .Activity m3 ∧ m3.m_lastAutoMarkerAge = 9 / 10 ∧
      (∀ dataPair ∈ p3.m_data, dataPair.2.is_undefined = true) ∧
      p3.update vm g (3 / 10) = .ok r ∧ r.1 = true ∧
      (∃ flag, UMap.find r.2.m_data (Name.mk "activityMarker") =
        some { data := "Auto1", fAge := 0, bAlwaysUpToDate := flag }) ∧
      r.2.members = .Activity m4 ∧ m4.m_lastAutoMarkerAge = 1 / 5 := by
  refine ⟨{ m_data := [(Name.mk "activityMarker", ExperimentPluginDataField.ofFlag false),
              (Name.mk "activityPosition", ExperimentPluginDataField.ofFlag false),
              (Name.mk "activityRotation", ExperimentPluginDataField.ofFlag false),
              (Name.mk "activityBaseTurns", ExperimentPluginDataField.ofFlag false)],
            m_eventQueue := [],
            members := .Activity
              { m_positionTravelled := 0, m_rotationTravelled := 0, m_numberBaseTurns := 0,
                m_bIsMonitoring := false, m_nextMarkerName := Name.kInvalidHash,
                m_lastHMDMatrix := m4.identity, m_autoMarkerInterval := some 1,
                m_lastAutoMarkerAge := 0, m_nextAutoMarkerName := 1 },
            played_blocks := [] }, ?_⟩
  have h0 : between_markers 1 0 1 false
      { m_data := [(Name.mk "activityMarker", ExperimentPluginDataField.ofFlag false),
          (Name.mk "activityPosition", ExperimentPluginDataField.ofFlag false),
          (Name.mk "activityRotation", ExperimentPluginDataField.ofFlag false),
          (Name.mk "activityBaseTurns", ExperimentPluginDataField.ofFlag false)],
        m_eventQueue := [],
        members := .Activity
          { m_positionTravelled := 0, m_rotationTravelled := 0, m_numberBaseTurns := 0,
            m_bIsMonitoring := false, m_nextMarkerName := Name.kInvalidHash,
            m_lastHMDMatrix := m4.identity, m_autoMarkerInterval := some 1,
            m_lastAutoMarkerAge := 0, m_nextAutoMarkerName := 1 },
        played_blocks := [] } :=
    ⟨_, _, _, _, _, _, rfl, rfl, rfl, rfl, rfl, rfl, rfl, rfl, rfl, rfl⟩
  obtain ⟨r1, hr1, h1⟩ := first_update_between_markers vm g _ 1 0 (3 / 10) 1 h0
  obtain ⟨r2, hr2, h2⟩ := waiting_update_between_markers vm g _ 1 0 (3 / 10) 1 h1
    (by norm_num)
  obtain ⟨r3, hr3, h3⟩ := waiting_update_between_markers vm g _ 1 _ (3 / 10) 1 h2
    (by norm_num)
  obtain ⟨r4, hr4, h4⟩ := waiting_update_between_markers vm g _ 1 _ (3 / 10) 1 h3
    (by norm_num)
  obtain ⟨r5, m5, hr5, htrue, ⟨flag, hmarker⟩, hm5, htimer5, -⟩ :=
    marker_update_between_markers vm g _ 1 _ (3 / 10) 1 h4 (by norm_num)
  obtain ⟨f1, f2, f3, f4, m, played, hp4, hu1, hu2, hu3, hu4, -, -, -, htimer4, -⟩ := h4
  refine ⟨r4.2, r5, m, m5, by decide, ?_, ?_, ?_, ?_, hr5, htrue, ?_, hm5, ?_⟩
  · simp only [ExperimentPlugin.updates, hr1, hr2, hr3, hr4, bind, Except.bind]
  · rw [hp4]
  · rw [htimer4]
    norm_num
  · rw [hp4]
    intro dataPair hmem
    simp only [List.mem_cons, List.mem_singleton, List.not_mem_nil, or_false] at hmem
    rcases hmem with rfl | rfl | rfl | rfl
    · exact hu1
    · exact hu2
    · exact hu3
    · exact hu4
  · exact ⟨flag, hmarker⟩
  · rw [htimer5]
    norm_num

end PluginActivity
/-! ## C21: the order of ageing, queued events and the internal update -/

namespace ExperimentPlugin

theorem set_or_kept_refl (p : ExperimentPlugin) : p.set_or_kept p :=
  ⟨rfl, fun _ h => Or.inl h⟩

theorem set_or_kept_trans {p q r : ExperimentPlugin} (h1 : p.set_or_kept q)
    (h2 : q.set_or_kept r) : p.set_or_kept r := by
  refine ⟨h2.1.trans h1.1, fun dataPair hmem => ?_⟩
  rcases h2.2 dataPair hmem with h | h
  · exact h1.2 dataPair h
  · exact Or.inr h

/-- Helper: an assignment through `data(header)` of a value of age 0. -/
theorem data_modify_set_or_kept (p : ExperimentPlugin) (headerName : String)
    (f : ExperimentPluginDataField → ExperimentPluginDataField) (hf : ∀ field, (f field).fAge = 0) :
    ensures (p.data_modify headerName f) (fun q => p.set_or_kept q) := by
  rw [ensures_data_modify]
  intro field _
  refine ⟨rfl, fun dataPair hmem => ?_⟩
  rcases UMap.mem_assign _ _ _ _ hmem with ⟨_, h⟩ | ⟨_, h⟩
  · right
    rw [h]
    exact hf field
  · exact Or.inl h

theorem data_set_set_or_kept (p : ExperimentPlugin) (headerName newData : String) :
    ensures (p.data_set headerName newData) (fun q => p.set_or_kept q) :=
  data_modify_set_or_kept p headerName _ (fun _ => rfl)

theorem data_reset_set_or_kept (p : ExperimentPlugin) (headerName : String) :
    ensures (p.data_reset headerName) (fun q => p.set_or_kept q) :=
  data_modify_set_or_kept p headerName _ (fun _ => rfl)

theorem data_reset_all_set_or_kept (headers : List String) :
    ∀ p : ExperimentPlugin, ensures (p.data_reset_all headers) (fun q => p.set_or_kept q) := by
  induction headers with
  | nil =>
    intro p
    simp only [data_reset_all, ensures_ok]
    exact set_or_kept_refl p
  | cons header rest ih =>
    intro p
    simp only [data_reset_all]
    refine ensures_bind_of (fun q => p.set_or_kept q) (data_reset_set_or_kept p header) ?_
    exact fun q hq => ensures_mono (ih q) (fun r hr => set_or_kept_trans hq hr)

/-- Helper: a change of the members or of the played blocks touches neither queue nor fields. -/
theorem set_or_kept_of_eq {p q r : ExperimentPlugin} (h : p.set_or_kept q)
    (hq : r.m_eventQueue = q.m_eventQueue) (hd : r.m_data = q.m_data) : p.set_or_kept r := by
  refine ⟨hq.trans h.1, fun dataPair hmem => ?_⟩
  rw [hd] at hmem
  exact h.2 dataPair hmem

end ExperimentPlugin

theorem PluginHMD.write_matrix_set_or_kept (matrix : m4) (headers : List String) :
    ∀ (p : ExperimentPlugin) (i : Nat),
      ensures (PluginHMD.write_matrix matrix p i headers) (fun q => p.set_or_kept q) := by
  induction headers with
  | nil =>
    intro p i
    simp only [PluginHMD.write_matrix, ensures_ok]
    exact ExperimentPlugin.set_or_kept_refl p
  | cons header rest ih =>
    intro p i
    simp only [PluginHMD.write_matrix]
    refine ensures_bind_of (fun q => p.set_or_kept q)
      (ExperimentPlugin.data_set_set_or_kept p header _) ?_
    exact fun q hq =>
      ensures_mono (ih q (i + 1)) (fun r hr => ExperimentPlugin.set_or_kept_trans hq hr)

theorem PluginHMD.start_recording_set_or_kept (headers : List String) (p : ExperimentPlugin)
    (m : PluginHMD.Members) (evt : Event) :
    ensures (PluginHMD.start_recording headers p m evt) (fun r => p.set_or_kept r.1) := by
  unfold PluginHMD.start_recording
  refine ensures_bind_of (fun q => p.set_or_kept q)
    (ExperimentPlugin.data_reset_all_set_or_kept headers p) ?_
  intro q hq
  simpa [ensures_ok] using hq

theorem PluginHMD.recorder_update_set_or_kept (headers : List String) (matrix : m4)
    (p : ExperimentPlugin) (m : PluginHMD.Members) (dt : ℚ) :
    ensures (PluginHMD.update_internal headers matrix p m dt) (fun r => p.set_or_kept r.1) := by
  unfold PluginHMD.update_internal
  simp only [ensures_ite, ensures_bind, ExperimentPlugin.ensures_data, ensures_ok]
  refine ⟨fun _ field _ => ⟨fun _ field1 _ => ?_, fun _ => ExperimentPlugin.set_or_kept_refl p⟩,
    fun _ => ExperimentPlugin.set_or_kept_refl p⟩
  exact ensures_mono (PluginHMD.write_matrix_set_or_kept matrix headers p 0) (fun q hq => hq)

theorem PluginVoice.voice_event_set_or_kept (p : ExperimentPlugin) (b : Bool) (evt : Event) :
    ensures (PluginVoice.handle_event p b evt) (fun q => p.set_or_kept q) := by
  have hset : ∀ (value : String) (flag : Bool),
      ensures (do
        let p1 ← p.data_set PluginVoice.kHeaderVoiceRecording value
        Except.ok { p1 with members := .Voice flag }) (fun q => p.set_or_kept q) := fun value flag =>
    ensures_bind_of _ (ExperimentPlugin.data_set_set_or_kept p _ value)
      (fun q hq => by
        rw [ensures_ok]
        exact ExperimentPlugin.set_or_kept_of_eq hq rfl rfl)
  unfold PluginVoice.handle_event
  split
  · rw [ensures_ite]
    exact ⟨fun _ => hset _ _, fun _ => by rw [ensures_ok]; exact ExperimentPlugin.set_or_kept_refl p⟩
  · rw [ensures_ite]
    exact ⟨fun _ => hset _ _, fun _ => by rw [ensures_ok]; exact ExperimentPlugin.set_or_kept_refl p⟩
  · rw [ensures_ite]
    exact ⟨fun _ => hset _ _, fun _ => by rw [ensures_ok]; exact ExperimentPlugin.set_or_kept_refl p⟩
  · rw [ensures_ok]
    exact ExperimentPlugin.set_or_kept_refl p

theorem PluginController.controller_event_set_or_kept (p : ExperimentPlugin) (evt : Event) :
    ensures (PluginController.handle_event p evt) (fun q => p.set_or_kept q) := by
  unfold PluginController.handle_event
  split
  · refine ensures_bind_of _ (ExperimentPlugin.data_set_set_or_kept p _ _) (fun p1 h1 => ?_)
    rw [ensures_bind]
    intro movementFlagData _
    rw [ensures_ite]
    refine ⟨fun _ => ?_, fun _ => by rw [ensures_ok]; exact h1⟩
    exact ensures_mono (ExperimentPlugin.data_reset_set_or_kept p1 _)
      (fun q hq => ExperimentPlugin.set_or_kept_trans h1 hq)
  · rw [ensures_ite]
    exact ⟨fun _ => ExperimentPlugin.data_set_set_or_kept p _ _,
      fun _ => by rw [ensures_ok]; exact ExperimentPlugin.set_or_kept_refl p⟩
  · rw [ensures_ok]
    exact ExperimentPlugin.set_or_kept_refl p

theorem PluginLocomotion.locomotion_event_set_or_kept (p : ExperimentPlugin) (evt : Event) :
    ensures (PluginLocomotion.handle_event p evt) (fun q => p.set_or_kept q) := by
  unfold PluginLocomotion.handle_event
  split
  · exact ExperimentPlugin.data_set_set_or_kept p _ _
  · split
    · exact (ensures_error _ _).mpr trivial
    · refine ensures_bind_of _ (ExperimentPlugin.data_set_set_or_kept p _ _) (fun p1 h1 => ?_)
      exact ensures_mono (ExperimentPlugin.data_set_set_or_kept p1 _ _)
        (fun q hq => ExperimentPlugin.set_or_kept_trans h1 hq)
    · exact (ensures_error _ _).mpr trivial
  · split
    · exact (ensures_error _ _).mpr trivial
    · exact ExperimentPlugin.data_set_set_or_kept p _ _
    · exact (ensures_error _ _).mpr trivial
  · rw [ensures_ok]
    exact ExperimentPlugin.set_or_kept_refl p

theorem PluginActivity.activity_update_set_or_kept (vm : Vectormath)
    (g : GamePlay.GlobalGameState) (p : ExperimentPlugin) (m : PluginActivity.Members) (dt : ℚ) :
    ensures (PluginActivity.update_internal vm g p m dt) (fun r => p.set_or_kept r.1) := by
  unfold PluginActivity.update_internal
  rw [ensures_ite]
  refine ⟨fun _ => ?_, fun _ => by rw [ensures_ok]; exact ExperimentPlugin.set_or_kept_refl p⟩
  simp only []
  rw [ensures_ite]
  refine ⟨fun _ => ?_, fun _ => by rw [ensures_ok]; exact ExperimentPlugin.set_or_kept_refl p⟩
  refine ensures_bind_of _ (ExperimentPlugin.data_set_set_or_kept p _ _) (fun p1 h1 => ?_)
  refine ensures_bind_of _ (ensures_mono (ExperimentPlugin.data_set_set_or_kept p1 _ _)
    (fun q hq => ExperimentPlugin.set_or_kept_trans h1 hq)) (fun p2 h2 => ?_)
  refine ensures_bind_of _ (ensures_mono (ExperimentPlugin.data_set_set_or_kept p2 _ _)
    (fun q hq => ExperimentPlugin.set_or_kept_trans h2 hq)) (fun p3 h3 => ?_)
  refine ensures_bind_of _ (ensures_mono (ExperimentPlugin.data_set_set_or_kept p3 _ _)
    (fun q hq => ExperimentPlugin.set_or_kept_trans h3 hq)) (fun p4 h4 => ?_)
  rw [ensures_ok]
  exact h4

theorem PluginCollectionCounter.counter_event_set_or_kept (g : GamePlay.GlobalGameState)
    (p : ExperimentPlugin) (m : PluginCollectionCounter.Members) (evt : Event) :
    ensures (PluginCollectionCounter.handle_event g p m evt) (fun q => p.set_or_kept q) := by
  unfold PluginCollectionCounter.handle_event
  split
  · simp only [ensures_bind]
    intro counts _
    split
    · simp only [ensures_bind]
      intro played _
      intro p1 h1
      rw [ensures_ok]
      have h := ExperimentPlugin.data_set_set_or_kept { p with played_blocks := played }
        PluginCollectionCounter.kHeaderCollectionCounterItems _ p1 h1
      exact ⟨h.1, h.2⟩
    · rw [ensures_ok]
      exact ExperimentPlugin.set_or_kept_refl p
  · rw [ensures_ok]
    exact ExperimentPlugin.set_or_kept_refl p

namespace ExperimentPlugin

theorem handle_event_set_or_kept (g : GamePlay.GlobalGameState) (p : ExperimentPlugin)
    (evt : Event) : ensures (p.handle_event g evt) (fun q => p.set_or_kept q) := by
  unfold handle_event
  split
  · exact PluginController.controller_event_set_or_kept p evt
  · split
    · exact ensures_bind_of _ (PluginHMD.start_recording_set_or_kept _ p _ evt)
        (fun r hr => by rw [ensures_ok]; exact set_or_kept_of_eq hr rfl rfl)
    · rw [ensures_ok]
      exact set_or_kept_of_eq (set_or_kept_refl p) rfl rfl
    · rw [ensures_ok]
      exact set_or_kept_refl p
  · exact PluginLocomotion.locomotion_event_set_or_kept p evt
  · rw [ensures_ok]
    exact set_or_kept_of_eq (set_or_kept_refl p) rfl rfl
  · exact PluginVoice.voice_event_set_or_kept p _ evt
  · split
    · exact ensures_bind_of _ (PluginHMD.start_recording_set_or_kept _ p _ evt)
        (fun r hr => by rw [ensures_ok]; exact set_or_kept_of_eq hr rfl rfl)
    · rw [ensures_ok]
      exact set_or_kept_of_eq (set_or_kept_refl p) rfl rfl
    · rw [ensures_ok]
      exact set_or_kept_refl p
  · exact PluginCollectionCounter.counter_event_set_or_kept g p _ evt

theorem update_internal_set_or_kept (vm : Vectormath) (g : GamePlay.GlobalGameState)
    (p : ExperimentPlugin) (dt : ℚ) :
    ensures (p.update_internal vm g dt) (fun q => p.set_or_kept q) := by
  unfold update_internal
  split
  · rw [PluginController.update_internal, ensures_ok]
    exact set_or_kept_refl p
  · exact ensures_bind_of _ (PluginHMD.recorder_update_set_or_kept _ _ p _ dt)
      (fun r hr => by rw [ensures_ok]; exact set_or_kept_of_eq hr rfl rfl)
  · rw [ensures_ok]
    exact set_or_kept_refl p
  · exact ensures_bind_of _ (PluginActivity.activity_update_set_or_kept vm g p _ dt)
      (fun r hr => by rw [ensures_ok]; exact set_or_kept_of_eq hr rfl rfl)
  · rw [ensures_ok]
    exact set_or_kept_refl p
  · exact ensures_bind_of _ (PluginHMD.recorder_update_set_or_kept _ _ p _ dt)
      (fun r hr => by rw [ensures_ok]; exact set_or_kept_of_eq hr rfl rfl)
  · rw [ensures_ok]
    exact set_or_kept_refl p

/-- Helper: the loop over the queue leaves the queue empty, and every field as the events found
it or at age 0. -/
theorem handle_queued_events_set_or_kept (g : GamePlay.GlobalGameState) (queue : List Event) :
    ∀ p : ExperimentPlugin, p.m_eventQueue = queue →
      ensures (p.handle_queued_events g queue)
        (fun q => q.m_eventQueue = [] ∧
          ∀ dataPair ∈ q.m_data, dataPair ∈ p.m_data ∨ dataPair.2.fAge = 0) := by
  induction queue with
  | nil =>
    intro p hp
    simp only [handle_queued_events, ensures_ok]
    exact ⟨hp, fun _ h => Or.inl h⟩
  | cons evt rest ih =>
    intro p _
    simp only [handle_queued_events]
    refine ensures_bind_of _ (handle_event_set_or_kept g p evt) ?_
    intro p1 h1
    refine ensures_mono (ih { p1 with m_eventQueue := rest } rfl) ?_
    intro q hq
    refine ⟨hq.1, fun dataPair hmem => ?_⟩
    rcases hq.2 dataPair hmem with h | h
    · exact h1.2 dataPair h
    · exact Or.inr h

end ExperimentPlugin
/-! ### The handlers do not read the queue -/

/-- Helper: a bind of two computations that commute with a change `W` of the object. -/
theorem bind_map_of {α β : Type} (W : α → α) (V : β → β) {a a1 : Except Failure α}
    {f f1 : α → Except Failure β} (ha : a1 = a.map W) (hf : ∀ x, f1 (W x) = (f x).map V) :
    (a1 >>= f1) = (a >>= f).map V := by
  subst ha
  cases a with
  | error err => rfl
  | ok x => exact hf x

namespace ExperimentPlugin

theorem data_modify_queue (p : ExperimentPlugin) (queue : List Event) (headerName : String)
    (f : ExperimentPluginDataField → ExperimentPluginDataField) :
    data_modify { p with m_eventQueue := queue } headerName f =
      (p.data_modify headerName f).map (fun r => { r with m_eventQueue := queue }) := by
  unfold data_modify
  simp only []
  cases UMap.find p.m_data (Name.mk headerName) <;> rfl

theorem data_reset_all_queue (queue : List Event) (headers : List String) :
    ∀ p : ExperimentPlugin, data_reset_all { p with m_eventQueue := queue } headers =
      (p.data_reset_all headers).map (fun r => { r with m_eventQueue := queue }) := by
  induction headers with
  | nil => intro p; rfl
  | cons header rest ih =>
    intro p
    simp only [data_reset_all]
    exact bind_map_of _ _ (data_modify_queue p queue header _) (fun x => ih x)

end ExperimentPlugin

theorem PluginVoice.voice_event_queue (p : ExperimentPlugin) (queue : List Event) (b : Bool)
    (evt : Event) :
    PluginVoice.handle_event { p with m_eventQueue := queue } b evt =
      (PluginVoice.handle_event p b evt).map (fun r => { r with m_eventQueue := queue }) := by
  unfold PluginVoice.handle_event
  split
  · split
    · exact bind_map_of _ _ (ExperimentPlugin.data_modify_queue p queue _ _) (fun x => rfl)
    · rfl
  · split
    · exact bind_map_of _ _ (ExperimentPlugin.data_modify_queue p queue _ _) (fun x => rfl)
    · rfl
  · split
    · exact bind_map_of _ _ (ExperimentPlugin.data_modify_queue p queue _ _) (fun x => rfl)
    · rfl
  · rfl

theorem PluginController.controller_event_queue (p : ExperimentPlugin) (queue : List Event)
    (evt : Event) :
    PluginController.handle_event { p with m_eventQueue := queue } evt =
      (PluginController.handle_event p evt).map (fun r => { r with m_eventQueue := queue }) := by
  unfold PluginController.handle_event
  split
  · refine bind_map_of _ _ (ExperimentPlugin.data_modify_queue p queue _ _) (fun p1 => ?_)
    show (ExperimentPlugin.data p1 _ >>= _) = _
    cases hdata : ExperimentPlugin.data p1 PluginController.kHeaderControllerMovement with
    | error err => simp [bind, Except.bind, Except.map, hdata]
    | ok field =>
      simp only [bind, Except.bind, hdata]
      split
      · exact ExperimentPlugin.data_modify_queue p1 queue _ _
      · rfl
  · show (if ExperimentPlugin.exists_data_field p PluginController.kHeaderControllerMovement = true
        then _ else _) = _
    split
    · exact ExperimentPlugin.data_modify_queue p queue _ _
    · rfl
  · rfl

theorem PluginLocomotion.locomotion_event_queue (p : ExperimentPlugin) (queue : List Event)
    (evt : Event) :
    PluginLocomotion.handle_event { p with m_eventQueue := queue } evt =
      (PluginLocomotion.handle_event p evt).map (fun r => { r with m_eventQueue := queue }) := by
  unfold PluginLocomotion.handle_event
  split
  · exact ExperimentPlugin.data_modify_queue p queue _ _
  · split
    · rfl
    · exact bind_map_of _ _ (ExperimentPlugin.data_modify_queue p queue _ _)
        (fun p1 => ExperimentPlugin.data_modify_queue p1 queue _ _)
    · rfl
  · split
    · rfl
    · exact ExperimentPlugin.data_modify_queue p queue _ _
    · rfl
  · rfl

theorem PluginHMD.start_recording_queue (headers : List String) (p : ExperimentPlugin)
    (queue : List Event) (m : PluginHMD.Members) (evt : Event) :
    PluginHMD.start_recording headers { p with m_eventQueue := queue } m evt =
      (PluginHMD.start_recording headers p m evt).map
        (fun r => ({ r.1 with m_eventQueue := queue }, r.2)) := by
  unfold PluginHMD.start_recording
  exact bind_map_of _ _ (ExperimentPlugin.data_reset_all_queue queue headers p) (fun x => rfl)

theorem PluginCollectionCounter.counter_event_queue (g : GamePlay.GlobalGameState)
    (p : ExperimentPlugin) (queue : List Event) (m : PluginCollectionCounter.Members)
    (evt : Event) :
    PluginCollectionCounter.handle_event g { p with m_eventQueue := queue } m evt =
      (PluginCollectionCounter.handle_event g p m evt).map
        (fun r => { r with m_eventQueue := queue }) := by
  unfold PluginCollectionCounter.handle_event
  split
  · cases PluginCollectionCounter.counts_item g m evt with
    | error err => rfl
    | ok counts =>
      simp only [bind, Except.bind]
      split
      · have hplay : PluginCollectionCounter.play_next_block { p with m_eventQueue := queue } m =
            PluginCollectionCounter.play_next_block p m := rfl
        rw [hplay]
        cases PluginCollectionCounter.play_next_block p m with
        | error err => rfl
        | ok played =>
          exact bind_map_of _ _
            (ExperimentPlugin.data_modify_queue { p with played_blocks := played } queue _ _)
            (fun x => rfl)
      · rfl
  · rfl

namespace ExperimentPlugin

/-- Helper: no handler reads the event queue: with another queue in the object the handler does
the same and leaves that queue. -/
theorem handle_event_queue (g : GamePlay.GlobalGameState) (p : ExperimentPlugin)
    (queue : List Event) (evt : Event) :
    handle_event g { p with m_eventQueue := queue } evt =
      (p.handle_event g evt).map (fun r => { r with m_eventQueue := queue }) := by
  unfold handle_event
  simp only []
  split
  · exact PluginController.controller_event_queue p queue evt
  · split
    · exact bind_map_of _ _ (PluginHMD.start_recording_queue _ p queue _ evt) (fun x => rfl)
    · rfl
    · rfl
  · exact PluginLocomotion.locomotion_event_queue p queue evt
  · rfl
  · exact PluginVoice.voice_event_queue p queue _ evt
  · split
    · exact bind_map_of _ _ (PluginHMD.start_recording_queue _ p queue _ evt) (fun x => rfl)
    · rfl
    · rfl
  · exact PluginCollectionCounter.counter_event_queue g p queue _ evt

/-- Helper: the loop over the queue handles the events one after the other, first in first, and
leaves the queue empty. -/
theorem handle_queued_events_eq (g : GamePlay.GlobalGameState) (queue : List Event) :
    ∀ p : ExperimentPlugin,
      handle_queued_events g { p with m_eventQueue := queue } queue =
        (p.handle_events g queue).map (fun r => { r with m_eventQueue := [] }) := by
  induction queue with
  | nil => intro p; rfl
  | cons evt tail ih =>
    intro p
    simp only [handle_queued_events, handle_events]
    refine bind_map_of (fun r => { r with m_eventQueue := evt :: tail }) _
      (handle_event_queue g p _ evt) (fun p1 => ?_)
    exact ih p1

end ExperimentPlugin
namespace ExperimentPlugin

/-- Helper: the Voice plug-in, not recording, with one start-recording event queued: the update
returns true and leaves the field `TRUE` at age 0, the queue empty and the plug-in recording. -/
theorem voice_update_start_recording (vm : Vectormath) (g : GamePlay.GlobalGameState)
    (field : ExperimentPluginDataField) (played : List Name) (evt : Event) (fDeltaTime : ℚ)
    (hevt : evt.eventType = .kExperiment_StartAudioRecording) :
    update vm g
        { m_data := [(Name.mk "voiceRecording", field)], m_eventQueue := [evt],
          members := .Voice false, played_blocks := played } fDeltaTime =
      .ok (true,
        { m_data := [(Name.mk "voiceRecording",
            { data := "TRUE", fAge := 0, bAlwaysUpToDate := field.bAlwaysUpToDate })],
          m_eventQueue := [], members := .Voice true, played_blocks := played }) := by
  simp [update, handle_queued_events, handle_event, PluginVoice.handle_event, hevt, data_set,
    data_modify, UMap.find, UMap.assign, update_internal, write_required,
    PluginVoice.kHeaderVoiceRecording, ExperimentPluginDataField.set,
    ExperimentPluginDataField.update_age, ExperimentPluginDataField.is_undefined_or_old,
    ExperimentPluginDataField.older_than, ExperimentPluginDataField.get_age,
    ExperimentPluginDataField.is_undefined, ExperimentPluginDataField.kUndefinedValue,
    bind, Except.bind]

/-- Helper: `update` is the ageing of every field, then the queued events in the order of their
arrival, then the internal update with the queue empty. -/
theorem update_eq_handle_events (vm : Vectormath) (g : GamePlay.GlobalGameState)
    (p : ExperimentPlugin) (fDeltaTime : ℚ) :
    p.update vm g fDeltaTime =
      (do
        let p2 ← handle_events g
          { p with m_data := p.m_data.map (fun dataPair =>
            (dataPair.1, dataPair.2.update_age fDeltaTime)) } p.m_eventQueue
        let p3 ← update_internal vm g { p2 with m_eventQueue := [] } fDeltaTime
        .ok (p3.write_required, p3)) := by
  unfold update
  have h := handle_queued_events_eq g p.m_eventQueue
    { p with m_data := p.m_data.map (fun dataPair =>
      (dataPair.1, dataPair.2.update_age fDeltaTime)) }
  show (handle_queued_events g
    { m_data := p.m_data.map (fun dataPair => (dataPair.1, dataPair.2.update_age fDeltaTime)),
      m_eventQueue := p.m_eventQueue, members := p.members, played_blocks := p.played_blocks }
    p.m_eventQueue >>= _) = _
  rw [h]
  cases handle_events g
    { p with m_data := p.m_data.map (fun dataPair =>
      (dataPair.1, dataPair.2.update_age fDeltaTime)) } p.m_eventQueue <;> rfl

/-- Helper: after `update` the queue is empty and every field is the aged field from before or
has age 0. -/
theorem update_set_or_aged (vm : Vectormath) (g : GamePlay.GlobalGameState)
    (p : ExperimentPlugin) (fDeltaTime : ℚ) (b : Bool) (p3 : ExperimentPlugin)
    (h : p.update vm g fDeltaTime = .ok (b, p3)) :
    p3.m_eventQueue = [] ∧
      ∀ dataPair ∈ p3.m_data,
        (∃ field, (dataPair.1, field) ∈ p.m_data ∧ dataPair.2 = field.update_age fDeltaTime) ∨
        dataPair.2.fAge = 0 := by
  obtain ⟨p2, h2, h3, _⟩ := (update_eq_ok vm g p fDeltaTime b p3).mp h
  have hq := handle_queued_events_set_or_kept g p.m_eventQueue
    { p with m_data := p.m_data.map (fun dataPair =>
      (dataPair.1, dataPair.2.update_age fDeltaTime)) } rfl p2 h2
  have hu := update_internal_set_or_kept vm g p2 fDeltaTime p3 h3
  refine ⟨hu.1.trans hq.1, fun dataPair hmem => ?_⟩
  rcases hu.2 dataPair hmem with h4 | h4
  · rcases hq.2 dataPair h4 with h5 | h5
    · left
      obtain ⟨original, horiginal, heq⟩ := List.mem_map.mp h5
      subst heq
      exact ⟨original.2, horiginal, rfl⟩
    · exact Or.inr h5
  · exact Or.inr h4

/-- C21. `update(dt)` ages every field by `dt`, then handles the queued events one after the
other in the order of their arrival, on the aged fields, then runs the internal update with the
queue empty. When it returns, the queue is empty, every field is the aged field from before or
has age 0 (what the frame set was not aged afterwards), and a field of age 0 that is not
undefined makes the update return true. The Voice plug-in, not recording, with one
start-recording event queued: for every `dt` the update returns true, the field is `TRUE` at
age 0 and the queue is empty. -/
theorem update_ages_then_handles_queue (vm : Vectormath) (g : GamePlay.GlobalGameState)
    (p : ExperimentPlugin) (fDeltaTime : ℚ) :
    p.update vm g fDeltaTime =
      (do
        let p2 ← handle_events g
          { p with m_data := p.m_data.map (fun dataPair =>
            (dataPair.1, dataPair.2.update_age fDeltaTime)) } p.m_eventQueue
        let p3 ← update_internal vm g { p2 with m_eventQueue := [] } fDeltaTime
        .ok (p3.write_required, p3)) ∧
    (∀ b p3, p.update vm g fDeltaTime = .ok (b, p3) →
      p3.m_eventQueue = [] ∧
      ∀ dataPair ∈ p3.m_data,
        ((∃ field, (dataPair.1, field) ∈ p.m_data ∧
            dataPair.2 = field.update_age fDeltaTime) ∨ dataPair.2.fAge = 0) ∧
        (dataPair.2.fAge = 0 → dataPair.2.is_undefined = false → b = true)) ∧
    (∀ (field : ExperimentPluginDataField) (played : List Name) (evt : Event),
      evt.eventType = .kExperiment_StartAudioRecording →
      update vm g
          { m_data := [(Name.mk "voiceRecording", field)], m_eventQueue := [evt],
            members := .Voice false, played_blocks := played } fDeltaTime =
        .ok (true,
          { m_data := [(Name.mk "voiceRecording",
              { data := "TRUE", fAge := 0, bAlwaysUpToDate := field.bAlwaysUpToDate })],
            m_eventQueue := [], members := .Voice true, played_blocks := played })) := by
  refine ⟨update_eq_handle_events vm g p fDeltaTime, fun b p3 h => ?_,
    fun field played evt hevt => voice_update_start_recording vm g field played evt fDeltaTime hevt⟩
  obtain ⟨hqueue, hfields⟩ := update_set_or_aged vm g p fDeltaTime b p3 h
  refine ⟨hqueue, fun dataPair hmem => ⟨hfields dataPair hmem, fun hage hdefined => ?_⟩⟩
  obtain ⟨p2, _, _, hb⟩ := (update_eq_ok vm g p fDeltaTime b p3).mp h
  rw [hb]
  refine (write_required_iff p3).mpr ⟨dataPair, hmem, hdefined, ?_⟩
  simp [ExperimentPluginDataField.older_than, ExperimentPluginDataField.get_age, hage]

end ExperimentPlugin

/-- Witness of C21: the sample Voice plug-in, not recording, its field `FALSE` at age 1, with one
start-recording event queued, is updated with `dt = 1/2`: the update returns true, the queue is
empty and the field holds `TRUE` at age 0. -/
theorem update_ages_then_handles_queue_witness :
    ExperimentPlugin.update Sample.vm Sample.game
        (Sample.voice [Sample.event .kExperiment_StartAudioRecording]) (1 / 2) =
      .ok (true,
        { m_data := [(Name.mk "voiceRecording",
            { data := "TRUE", fAge := 0, bAlwaysUpToDate := true })],
          m_eventQueue := [], members := .Voice true, played_blocks := [] }) ∧
    (([] : List Event) = [] ∧
      ∀ dataPair ∈ [(Name.mk "voiceRecording",
          ({ data := "TRUE", fAge := 0, bAlwaysUpToDate := true } : ExperimentPluginDataField))],
        ((∃ field, (dataPair.1, field) ∈
              (Sample.voice [Sample.event .kExperiment_StartAudioRecording]).m_data ∧
            dataPair.2 = field.update_age (1 / 2)) ∨ dataPair.2.fAge = 0) ∧
        (dataPair.2.fAge = 0 → dataPair.2.is_undefined = false → true = true)) :=
  ⟨(ExperimentPlugin.update_ages_then_handles_queue Sample.vm Sample.game
      (Sample.voice [Sample.event .kExperiment_StartAudioRecording]) (1 / 2)).2.2
      { data := "FALSE", fAge := 1, bAlwaysUpToDate := true } [] _ rfl,
    (ExperimentPlugin.update_ages_then_handles_queue Sample.vm Sample.game
      (Sample.voice [Sample.event .kExperiment_StartAudioRecording]) (1 / 2)).2.1 true
      { m_data := [(Name.mk "voiceRecording",
          { data := "TRUE", fAge := 0, bAlwaysUpToDate := true })],
        m_eventQueue := [], members := .Voice true, played_blocks := [] }
      (by decide!)⟩
/-! ## C28: the Locomotion plug-in and the row of a direct jump -/

/-- C28 as stated fails in two frames. In the sample session with the Locomotion plug-in a
teleport over 2.5 and a direct jump to `B` are sent before one update: the row of that frame
shows the node `B` and the distance `2.500000`. And when the teleport is sent before an update
of half a second and the direct jump before a following update with frame time 0, the row of the
frame of the direct jump shows `B` and again the distance `2.500000`, the distance field still
being at age 0. -/
theorem direct_jump_row_counterexample :
    (System.run Sample.vm Sample.os Sample.locomotion_session
        [.dispatch (Sample.teleport (5 / 2)), .dispatch (Sample.direct_jump "B"),
         .update (1 / 2) Sample.game]).map (fun t => t.manager.m_outputWriter.written) =
      .ok [.header ["participant", "elapsedTime", "locomotionNode", "locomotionDistance"],
        .row ["7", "0.00", "NA", "NA"],
        .row ["7", "1.50", "B", "2.500000"]] ∧
    (System.run Sample.vm Sample.os Sample.locomotion_session
        [.dispatch (Sample.teleport (5 / 2)), .update (1 / 2) Sample.game,
         .dispatch (Sample.direct_jump "B"), .update 0 Sample.game]).map
        (fun t => t.manager.m_outputWriter.written) =
      .ok [.header ["participant", "elapsedTime", "locomotionNode", "locomotionDistance"],
        .row ["7", "0.00", "NA", "NA"],
        .row ["7", "1.50", "NA", "2.500000"],
        .row ["7", "1.50", "B", "2.500000"]] := by
  refine ⟨by decide!, by decide!⟩
namespace ExperimentPlugin

/-- Helper: handling a list of events is handling a first part and then the rest. -/
theorem handle_events_append (g : GamePlay.GlobalGameState) (first rest : List Event) :
    ∀ p : ExperimentPlugin,
      p.handle_events g (first ++ rest) =
        (p.handle_events g first >>= fun q => q.handle_events g rest) := by
  induction first with
  | nil => intro p; rfl
  | cons evt tail ih =>
    intro p
    simp only [List.cons_append, handle_events]
    cases handle_event g p evt with
    | error err => rfl
    | ok p1 => exact ih p1

end ExperimentPlugin

namespace PluginLocomotion

/-- Helper: the direct jump sets the node field and nothing else. -/
theorem direct_jump_effect (g : GamePlay.GlobalGameState)
    (node distance : ExperimentPluginDataField) (queue : List Event) (played : List Name)
    (evt : Event) (hevt : evt.eventType = .kGamePlay_PerformDirectJump) :
    ExperimentPlugin.handle_event g
        { m_data := [(Name.mk "locomotionNode", node), (Name.mk "locomotionDistance", distance)],
          m_eventQueue := queue, members := .Locomotion, played_blocks := played } evt =
      .ok { m_data := [(Name.mk "locomotionNode", node.set evt.uUserArg.as_name.get_message),
              (Name.mk "locomotionDistance", distance)],
            m_eventQueue := queue, members := .Locomotion, played_blocks := played } := by
  simp [ExperimentPlugin.handle_event, handle_event, hevt, ExperimentPlugin.data_set,
    ExperimentPlugin.data_modify, UMap.find, UMap.assign, kHeaderLocomotionNode]

/-- Helper: an event that is neither a direct jump nor one of the two analytics events leaves
the plug-in as it is. -/
theorem other_event_effect (g : GamePlay.GlobalGameState) (p : ExperimentPlugin) (evt : Event)
    (hp : p.members = .Locomotion)
    (h1 : evt.eventType ≠ .kGamePlay_PerformDirectJump)
    (h2 : evt.eventType ≠ .kAnalytics_NodeReached)
    (h3 : evt.eventType ≠ .kAnalytics_Teleport) :
    p.handle_event g evt = .ok p := by
  unfold ExperimentPlugin.handle_event
  rw [hp]
  simp only []
  unfold handle_event
  split
  · exact absurd (by assumption) h1
  · exact absurd (by assumption) h2
  · exact absurd (by assumption) h3
  · rfl

/-- Helper: events without a node reached and without a teleport leave the distance field as
it is, and the node field with its flag. -/
theorem events_keep_distance (g : GamePlay.GlobalGameState) (distance : ExperimentPluginDataField)
    (queue : List Event) (played : List Name) (events : List Event)
    (hevents : ∀ evt ∈ events, evt.eventType ≠ .kAnalytics_NodeReached ∧
      evt.eventType ≠ .kAnalytics_Teleport) :
    ∀ node : ExperimentPluginDataField, ∃ node1 : ExperimentPluginDataField,
      node1.bAlwaysUpToDate = node.bAlwaysUpToDate ∧
      ExperimentPlugin.handle_events g
          { m_data := [(Name.mk "locomotionNode", node),
              (Name.mk "locomotionDistance", distance)],
            m_eventQueue := queue, members := .Locomotion, played_blocks := played } events =
        .ok { m_data := [(Name.mk "locomotionNode", node1),
                (Name.mk "locomotionDistance", distance)],
              m_eventQueue := queue, members := .Locomotion, played_blocks := played } := by
  induction events with
  | nil => exact fun node => ⟨node, rfl, rfl⟩
  | cons evt rest ih =>
    intro node
    have hrest : ∀ e ∈ rest, e.eventType ≠ .kAnalytics_NodeReached ∧
        e.eventType ≠ .kAnalytics_Teleport :=
      fun e he => hevents e (List.mem_cons_of_mem _ he)
    obtain ⟨h2, h3⟩ := hevents evt (List.mem_cons_self _ _)
    by_cases h1 : evt.eventType = .kGamePlay_PerformDirectJump
    · obtain ⟨node1, hflag, hrun⟩ := ih hrest (node.set evt.uUserArg.as_name.get_message)
      refine ⟨node1, hflag, ?_⟩
      simp only [ExperimentPlugin.handle_events]
      rw [direct_jump_effect g node distance queue played evt h1]
      exact hrun
    · obtain ⟨node1, hflag, hrun⟩ := ih hrest node
      refine ⟨node1, hflag, ?_⟩
      simp only [ExperimentPlugin.handle_events]
      rw [other_event_effect g _ evt rfl h1 h2 h3]
      exact hrun

/-- Helper: events without a direct jump, a node reached and a teleport leave the plug-in as it
is. -/
theorem other_events_effect (g : GamePlay.GlobalGameState) (p : ExperimentPlugin)
    (hp : p.members = .Locomotion) (events : List Event)
    (hevents : ∀ evt ∈ events, evt.eventType ≠ .kAnalytics_NodeReached ∧
      evt.eventType ≠ .kAnalytics_Teleport ∧ evt.eventType ≠ .kGamePlay_PerformDirectJump) :
    p.handle_events g events = .ok p := by
  induction events with
  | nil => rfl
  | cons evt rest ih =>
    obtain ⟨h2, h3, h1⟩ := hevents evt (List.mem_cons_self _ _)
    simp only [ExperimentPlugin.handle_events]
    rw [other_event_effect g p evt hp h1 h2 h3]
    exact ih (fun e he => hevents e (List.mem_cons_of_mem _ he))

end PluginLocomotion
namespace PluginLocomotion

/-- Helper: the events of a frame with a last direct jump and neither a node reached nor a
teleport set the node field to the target of that jump and leave the distance field. -/
theorem frame_events_effect (g : GamePlay.GlobalGameState)
    (node distance : ExperimentPluginDataField) (queue : List Event) (played : List Name)
    (earlier later : List Event) (jump : Event)
    (hjump : jump.eventType = .kGamePlay_PerformDirectJump)
    (hearlier : ∀ evt ∈ earlier, evt.eventType ≠ .kAnalytics_NodeReached ∧
      evt.eventType ≠ .kAnalytics_Teleport)
    (hlater : ∀ evt ∈ later, evt.eventType ≠ .kAnalytics_NodeReached ∧
      evt.eventType ≠ .kAnalytics_Teleport ∧ evt.eventType ≠ .kGamePlay_PerformDirectJump) :
    ExperimentPlugin.handle_events g
        { m_data := [(Name.mk "locomotionNode", node), (Name.mk "locomotionDistance", distance)],
          m_eventQueue := queue, members := .Locomotion, played_blocks := played }
        (earlier ++ jump :: later) =
      .ok { m_data := [(Name.mk "locomotionNode",
                { data := jump.uUserArg.as_name.get_message, fAge := 0,
                  bAlwaysUpToDate := node.bAlwaysUpToDate }),
              (Name.mk "locomotionDistance", distance)],
            m_eventQueue := queue, members := .Locomotion, played_blocks := played } := by
  obtain ⟨node1, hflag, hrun⟩ := events_keep_distance g distance queue played earlier hearlier node
  rw [ExperimentPlugin.handle_events_append, hrun]
  show ExperimentPlugin.handle_events g _ (jump :: later) = _
  simp only [ExperimentPlugin.handle_events]
  rw [direct_jump_effect g node1 distance queue played jump hjump]
  show ExperimentPlugin.handle_events g _ later = _
  rw [other_events_effect g _ rfl later hlater]
  simp only [ExperimentPluginDataField.set, hflag]

/-- C28, amended. The Locomotion plug-in with its two fields, the distance field not marked
always up to date (as constructed) and undefined or older than 0 once aged by the frame time: in
a frame whose queued events contain a direct jump, after it no further direct jump, and neither
a node reached nor a teleport, `update` returns, the node field holds the name of the target at
age 0, the distance field is the aged one from before, and the row shows the distance as the
undefined-value string. A node reached sets both the node name and the distance, a teleport
sets the distance only. -/
theorem direct_jump_row (vm : Vectormath) (g : GamePlay.GlobalGameState)
    (node distance : ExperimentPluginDataField) (played : List Name)
    (earlier later : List Event) (jump : Event) (fDeltaTime : ℚ) (s : System) (pPlugin : Nat)
    (hjump : jump.eventType = .kGamePlay_PerformDirectJump)
    (hearlier : ∀ evt ∈ earlier, evt.eventType ≠ .kAnalytics_NodeReached ∧
      evt.eventType ≠ .kAnalytics_Teleport)
    (hlater : ∀ evt ∈ later, evt.eventType ≠ .kAnalytics_NodeReached ∧
      evt.eventType ≠ .kAnalytics_Teleport ∧ evt.eventType ≠ .kGamePlay_PerformDirectJump)
    (hflag : distance.bAlwaysUpToDate = false)
    (hold : distance.is_undefined = true ∨ distance.fAge + fDeltaTime > 0) :
    ExperimentPlugin.update vm g
        { m_data := [(Name.mk "locomotionNode", node), (Name.mk "locomotionDistance", distance)],
          m_eventQueue := earlier ++ jump :: later, members := .Locomotion,
          played_blocks := played } fDeltaTime =
      .ok (decide (jump.uUserArg.as_name.get_message ≠ ""),
        { m_data := [(Name.mk "locomotionNode",
              { data := jump.uUserArg.as_name.get_message, fAge := 0,
                bAlwaysUpToDate := node.bAlwaysUpToDate }),
            (Name.mk "locomotionDistance", distance.update_age fDeltaTime)],
          m_eventQueue := [], members := .Locomotion, played_blocks := played }) ∧
    System.field_value s.manager.m_undefinedValue (distance.update_age fDeltaTime) =
      s.manager.m_undefinedValue ∧
    (s.plugins[pPlugin]? = some
        { m_data := [(Name.mk "locomotionNode",
              { data := jump.uUserArg.as_name.get_message, fAge := 0,
                bAlwaysUpToDate := node.bAlwaysUpToDate }),
            (Name.mk "locomotionDistance", distance.update_age fDeltaTime)],
          m_eventQueue := [], members := .Locomotion, played_blocks := played } →
      System.plugin_row_cells s [pPlugin] =
        .ok [System.field_value s.manager.m_undefinedValue
            { data := jump.uUserArg.as_name.get_message, fAge := 0,
              bAlwaysUpToDate := node.bAlwaysUpToDate },
          s.manager.m_undefinedValue]) ∧
    (∀ (evt : Event) (nodeName : Name) (reached : ℚ),
      evt.eventType = .kAnalytics_NodeReached →
      evt.userPtr = .NodeReachedArgs nodeName reached →
      ExperimentPlugin.handle_event g
          { m_data := [(Name.mk "locomotionNode", node),
              (Name.mk "locomotionDistance", distance)],
            m_eventQueue := earlier, members := .Locomotion, played_blocks := played } evt =
        .ok { m_data := [(Name.mk "locomotionNode", node.set nodeName.get_message),
                (Name.mk "locomotionDistance", distance.set (to_string_f32 reached))],
              m_eventQueue := earlier, members := .Locomotion, played_blocks := played }) ∧
    (∀ (evt : Event) (teleported : ℚ),
      evt.eventType = .kAnalytics_Teleport →
      evt.userPtr = .TeleportArgs teleported →
      ExperimentPlugin.handle_event g
          { m_data := [(Name.mk "locomotionNode", node),
              (Name.mk "locomotionDistance", distance)],
            m_eventQueue := earlier, members := .Locomotion, played_blocks := played } evt =
        .ok { m_data := [(Name.mk "locomotionNode", node),
                (Name.mk "locomotionDistance", distance.set (to_string_f32 teleported))],
              m_eventQueue := earlier, members := .Locomotion, played_blocks := played }) := by
  have hvalue : System.field_value s.manager.m_undefinedValue
      (distance.update_age fDeltaTime) = s.manager.m_undefinedValue := by
    unfold System.field_value
    rcases hold with hu | hage
    · have hu1 : (distance.update_age fDeltaTime).is_undefined = true := hu
      simp [hu1]
    · have hage1 : (distance.update_age fDeltaTime).older_than 0 = true := by
        simp [ExperimentPluginDataField.older_than, ExperimentPluginDataField.get_age,
          ExperimentPluginDataField.update_age, hage]
      have hflag1 : (distance.update_age fDeltaTime).is_always_up_to_date = false := hflag
      simp [hage1, hflag1]
  have hquiet : (distance.update_age fDeltaTime).is_undefined_or_old = true := by
    unfold ExperimentPluginDataField.is_undefined_or_old
    rcases hold with hu | hage
    · have hu1 : (distance.update_age fDeltaTime).is_undefined = true := hu
      simp [hu1]
    · simp [ExperimentPluginDataField.older_than, ExperimentPluginDataField.get_age,
        ExperimentPluginDataField.update_age, hage]
  refine ⟨?_, hvalue, ?_, ?_, ?_⟩
  · rw [ExperimentPlugin.update_eq_handle_events]
    simp only [List.map_cons, List.map_nil]
    rw [frame_events_effect g _ _ _ played earlier later jump hjump hearlier hlater]
    simp only [ExperimentPlugin.update_internal, ExperimentPlugin.write_required, hquiet,
      List.any_cons, List.any_nil, bind, Except.bind]
    simp [ExperimentPluginDataField.is_undefined_or_old, ExperimentPluginDataField.older_than,
      ExperimentPluginDataField.get_age, ExperimentPluginDataField.is_undefined,
      ExperimentPluginDataField.kUndefinedValue, ExperimentPluginDataField.update_age,
      bind, Except.bind]
  · intro hplugin
    simp only [System.plugin_row_cells, System.deref, hplugin, bind, Except.bind,
      ExperimentPlugin.get_data, List.map_cons, List.map_nil, List.append_nil, hvalue]
  · intro evt nodeName reached hevt hptr
    simp [ExperimentPlugin.handle_event, handle_event, hevt, hptr, ExperimentPlugin.data_set,
      ExperimentPlugin.data_modify, UMap.find, UMap.assign, kHeaderLocomotionNode,
      kHeaderLocomotionDistance, bind, Except.bind]
  · intro evt teleported hevt hptr
    simp [ExperimentPlugin.handle_event, handle_event, hevt, hptr, ExperimentPlugin.data_set,
      ExperimentPlugin.data_modify, UMap.find, UMap.assign, kHeaderLocomotionNode,
      kHeaderLocomotionDistance, bind, Except.bind]

end PluginLocomotion
/-- Witness of the amended C28: the Locomotion plug-in with the node `A` and a distance
`2.500000` set in the frame before (age 0) gets a direct jump to `B` in a frame of half a
second: the update returns true, the node is `B` at age 0, the distance field is at age 1/2, and
the row of the plug-in shows `B` and the undefined-value string `NA`. -/
theorem direct_jump_row_witness :
    ExperimentPlugin.update Sample.vm Sample.game
        (Sample.locomotion { data := "A", fAge := 0, bAlwaysUpToDate := true }
          { data := "2.500000", fAge := 0, bAlwaysUpToDate := false }
          [Sample.direct_jump "B"]) (1 / 2) =
      .ok (true,
        Sample.locomotion { data := "B", fAge := 0, bAlwaysUpToDate := true }
          { data := "2.500000", fAge := 0 + 1 / 2, bAlwaysUpToDate := false } []) ∧
    System.plugin_row_cells
        { Sample.locomotion_session with
          plugins := [Sample.locomotion { data := "B", fAge := 0, bAlwaysUpToDate := true }
            { data := "2.500000", fAge := 0 + 1 / 2, bAlwaysUpToDate := false } []] } [0] =
      .ok ["B", "NA"] :=
  have h := PluginLocomotion.direct_jump_row Sample.vm Sample.game
    { data := "A", fAge := 0, bAlwaysUpToDate := true }
    { data := "2.500000", fAge := 0, bAlwaysUpToDate := false } [] [] []
    (Sample.direct_jump "B") (1 / 2)
    { Sample.locomotion_session with
      plugins := [Sample.locomotion { data := "B", fAge := 0, bAlwaysUpToDate := true }
        { data := "2.500000", fAge := 0 + 1 / 2, bAlwaysUpToDate := false } []] } 0
    rfl (fun _ hmem => absurd hmem (List.not_mem_nil _))
    (fun _ hmem => absurd hmem (List.not_mem_nil _)) rfl (Or.inr (by decide!))
  ⟨h.1, h.2.2.1 rfl⟩
/-! ## C29: the CollectionCounter plug-in -/

namespace PluginCollectionCounter

/-- Helper: for a pickup of a known item the condition of the handler is `qualifies`. -/
theorem counts_item_eq (g : GamePlay.GlobalGameState) (m : Members) (evt : Event)
    (hevt : evt.eventType = .kGamePlay_OnPickArtifact)
    (hknown : m.m_onlyInventory = true → known_item g evt = true) :
    counts_item g m evt = .ok (qualifies m.m_onlyInventory g evt) := by
  unfold counts_item qualifies
  cases honly : m.m_onlyInventory with
  | false => simp [hevt]
  | true =>
    have hk := hknown honly
    unfold known_item at hk
    unfold is_inventory_item
    cases hidx : evt.uUserArg.as_index with
    | none => rw [hidx] at hk; cases hk
    | some id =>
      rw [hidx] at hk
      cases hlook : g.world_graph.lookup id with
      | none => simp [hlook] at hk
      | some flag => cases flag <;> simp [hevt, hlook]

/-- Helper: the block played next, in a list that is not empty. -/
theorem play_next_block_eq (p : ExperimentPlugin) (m : Members) :
    play_next_block p m =
      .ok (p.played_blocks ++
        (m.m_commandBlocks[m.m_currentItems % m.m_commandBlocks.length]?).toList) := by
  unfold play_next_block
  by_cases hlen : m.m_commandBlocks.length > 0
  · rw [if_pos hlen]
    have hlt : m.m_currentItems % m.m_commandBlocks.length < m.m_commandBlocks.length :=
      Nat.mod_lt _ hlen
    rw [List.getElem?_eq_getElem hlt]
    rfl
  · rw [if_neg hlen]
    have hzero : m.m_commandBlocks.length = 0 := by omega
    have hnil : m.m_commandBlocks = [] := List.length_eq_zero.mp hzero
    rw [hnil]
    simp

/-- Helper: one event on a plug-in with the field `items`: a qualifying pickup plays the block
of the current count, adds one to the 32-bit counter and writes it; every other event changes
nothing. -/
theorem handle_event_effect (g : GamePlay.GlobalGameState) (field : ExperimentPluginDataField)
    (queue : List Event) (played : List Name) (m : Members) (evt : Event)
    (hknown : m.m_onlyInventory = true → evt.eventType = .kGamePlay_OnPickArtifact →
      known_item g evt = true) :
    ExperimentPlugin.handle_event g
        { m_data := [(Name.mk "items", field)], m_eventQueue := queue,
          members := .CollectionCounter m, played_blocks := played } evt =
      .ok (if qualifies m.m_onlyInventory g evt = true then
          { m_data := [(Name.mk "items",
              field.set (to_string_u32 ((m.m_currentItems + 1) % 4294967296)))],
            m_eventQueue := queue,
            members := .CollectionCounter
              { m with m_currentItems := (m.m_currentItems + 1) % 4294967296 },
            played_blocks := played ++
              (m.m_commandBlocks[m.m_currentItems % m.m_commandBlocks.length]?).toList }
        else
          { m_data := [(Name.mk "items", field)], m_eventQueue := queue,
            members := .CollectionCounter m, played_blocks := played }) := by
  by_cases hevt : evt.eventType = .kGamePlay_OnPickArtifact
  · have hcounts := counts_item_eq g m evt hevt (fun h => hknown h hevt)
    simp only [ExperimentPlugin.handle_event, handle_event, hevt, hcounts, bind, Except.bind,
      play_next_block_eq]
    cases hq : qualifies m.m_onlyInventory g evt with
    | false => simp
    | true =>
      simp [ExperimentPlugin.data_set, ExperimentPlugin.data_modify, UMap.find, UMap.assign,
        kHeaderCollectionCounterItems]
  · have hq : qualifies m.m_onlyInventory g evt = false := by
      simp [qualifies, hevt]
    rw [hq]
    simp only [Bool.false_eq_true, if_false, ExperimentPlugin.handle_event, handle_event]

/-- Helper: the blocks of `n + 1` pickups are the block of the first and the blocks of the
others. -/
theorem blocks_played_succ (commandBlocks : List Name) (first n : Nat)
    (hfirst : first < 4294967296) :
    blocks_played commandBlocks first (n + 1) =
      (commandBlocks[first % commandBlocks.length]?).toList ++
        blocks_played commandBlocks ((first + 1) % 4294967296) n := by
  unfold blocks_played
  rw [List.range_succ_eq_map, List.filterMap_cons, List.filterMap_map]
  have hhead : (first + 0) % 4294967296 = first := Nat.mod_eq_of_lt hfirst
  have htail : (fun i => commandBlocks[((first + i) % 4294967296) % commandBlocks.length]?) ∘
      Nat.succ =
      fun i => commandBlocks[(((first + 1) % 4294967296 + i) % 4294967296) %
        commandBlocks.length]? := by
    funext i
    have hi : (first + Nat.succ i) % 4294967296 =
        ((first + 1) % 4294967296 + i) % 4294967296 := by
      show (first + (i + 1)) % 4294967296 = _
      omega
    show commandBlocks[((first + Nat.succ i) % 4294967296) % commandBlocks.length]? = _
    rw [hi]
  rw [hhead, htail]
  cases commandBlocks[first % commandBlocks.length]? <;> rfl

/-- Helper: a list of events on a plug-in with the field `items` and the count `count`: the
counter ends at `count` plus the number of qualifying pickups, in 32 bits, the field holds its
decimal string once a pickup qualified, and the blocks played are those of the counts passed. -/
theorem handle_events_effect (g : GamePlay.GlobalGameState) (commandBlocks : List Name)
    (onlyInventory : Bool) (queue : List Event) (events : List Event)
    (hknown : onlyInventory = true → ∀ evt ∈ events,
      evt.eventType = .kGamePlay_OnPickArtifact → known_item g evt = true) :
    ∀ (count : Nat) (field : ExperimentPluginDataField) (played : List Name),
      count < 4294967296 →
      ExperimentPlugin.handle_events g
          { m_data := [(Name.mk "items", field)], m_eventQueue := queue,
            members := .CollectionCounter
              { m_commandBlocks := commandBlocks, m_onlyInventory := onlyInventory,
                m_currentItems := count },
            played_blocks := played } events =
        .ok { m_data := [(Name.mk "items",
                if events.countP (qualifies onlyInventory g) = 0 then field
                else { data := to_string_u32
                         ((count + events.countP (qualifies onlyInventory g)) % 4294967296),
                       fAge := 0, bAlwaysUpToDate := field.bAlwaysUpToDate })],
              m_eventQueue := queue,
              members := .CollectionCounter
                { m_commandBlocks := commandBlocks, m_onlyInventory := onlyInventory,
                  m_currentItems :=
                    (count + events.countP (qualifies onlyInventory g)) % 4294967296 },
              played_blocks := played ++
                blocks_played commandBlocks count
                  (events.countP (qualifies onlyInventory g)) } := by
  induction events with
  | nil =>
    intro count field played hcount
    simp [ExperimentPlugin.handle_events, blocks_played, Nat.mod_eq_of_lt hcount]
  | cons evt rest ih =>
    intro count field played hcount
    have hrest := ih (fun honly e he => hknown honly e (List.mem_cons_of_mem _ he))
    simp only [ExperimentPlugin.handle_events]
    rw [handle_event_effect g field queue played _ evt
      (fun honly => hknown honly evt (List.mem_cons_self _ _))]
    by_cases hq : qualifies onlyInventory g evt = true
    · rw [if_pos hq, List.countP_cons_of_pos _ _ hq]
      show ExperimentPlugin.handle_events g _ rest = _
      rw [hrest ((count + 1) % 4294967296) _ (played ++ _) (Nat.mod_lt _ (by norm_num))]
      rw [blocks_played_succ commandBlocks count _ hcount]
      have hsum : ((count + 1) % 4294967296 + List.countP (qualifies onlyInventory g) rest) %
          4294967296 =
          (count + (List.countP (qualifies onlyInventory g) rest + 1)) % 4294967296 := by
        omega
      rw [hsum]
      by_cases hzero : List.countP (qualifies onlyInventory g) rest = 0
      · simp [hzero, ExperimentPluginDataField.set]
      · simp [hzero, ExperimentPluginDataField.set]
    · rw [if_neg hq, List.countP_cons_of_neg _ _ hq]
      exact hrest count field played hcount

end PluginCollectionCounter
namespace PluginCollectionCounter

/-- Helper: below 2^32 pickups the blocks played are those of the round robin. -/
theorem blocks_played_eq_round_robin (commandBlocks : List Name) (n : Nat)
    (hn : n ≤ 4294967296) : blocks_played commandBlocks 0 n = round_robin commandBlocks n := by
  unfold blocks_played round_robin
  refine List.filterMap_congr (fun i hi => ?_)
  have hlt : i < n := List.mem_range.mp hi
  have hmod : (0 + i) % 4294967296 = i := by omega
  rw [hmod]

/-- Helper: a round robin over an empty list plays nothing, over another list one block per
pickup. -/
theorem round_robin_length (commandBlocks : List Name) (n : Nat) :
    (round_robin commandBlocks n).length = if commandBlocks = [] then 0 else n := by
  unfold round_robin
  by_cases hnil : commandBlocks = []
  · rw [if_pos hnil, hnil]
    simp
  · rw [if_neg hnil]
    have hlen : 0 < commandBlocks.length := List.length_pos.mpr hnil
    have hmap : (List.range n).filterMap (fun i => commandBlocks[i % commandBlocks.length]?) =
        (List.range n).map (fun i => commandBlocks[i % commandBlocks.length]?.getD (Name.mk "")) := by
      rw [← List.filterMap_eq_map]
      refine List.filterMap_congr (fun i _ => ?_)
      have hlt : i % commandBlocks.length < commandBlocks.length := Nat.mod_lt _ hlen
      simp [List.getElem?_eq_getElem hlt]
    rw [hmap, List.length_map, List.length_range]

end PluginCollectionCounter
namespace PluginCollectionCounter

/-- C29 as stated fails at the width of the counter. The plug-in is constructed (counting every
item, no command blocks) and reset; every pickup qualifies. After 4294967295 pickups the counter
is 4294967295 and the field holds `4294967295`; after 4294967296 pickups the counter is 0 and
the field holds `0`, not the decimal string of 4294967296: the counter decreased without a
reset. With three command blocks pickup number 4294967296 (counted from 0) would play block
4294967296 mod 3 = 1, and the position the code takes is (4294967296 mod 2^32) mod 3 = 0. -/
theorem counter_wraps_counterexample :
    (do
      let p0 ← PluginCollectionCounter.new false
      p0.reset) =
      .ok { m_data := [(Name.mk "items", { data := "0", fAge := 0, bAlwaysUpToDate := true })],
            m_eventQueue := [],
            members := .CollectionCounter
              { m_commandBlocks := [], m_onlyInventory := false, m_currentItems := 0 },
            played_blocks := [] } ∧
    qualifies false Sample.game (Sample.event .kGamePlay_OnPickArtifact) = true ∧
    ExperimentPlugin.handle_events Sample.game
        { m_data := [(Name.mk "items", { data := "0", fAge := 0, bAlwaysUpToDate := true })],
          m_eventQueue := [],
          members := .CollectionCounter
            { m_commandBlocks := [], m_onlyInventory := false, m_currentItems := 0 },
          played_blocks := [] }
        (List.replicate 4294967295 (Sample.event .kGamePlay_OnPickArtifact)) =
      .ok { m_data := [(Name.mk "items",
              { data := "4294967295", fAge := 0, bAlwaysUpToDate := true })],
            m_eventQueue := [],
            members := .CollectionCounter
              { m_commandBlocks := [], m_onlyInventory := false, m_currentItems := 4294967295 },
            played_blocks := [] } ∧
    ExperimentPlugin.handle_events Sample.game
        { m_data := [(Name.mk "items", { data := "0", fAge := 0, bAlwaysUpToDate := true })],
          m_eventQueue := [],
          members := .CollectionCounter
            { m_commandBlocks := [], m_onlyInventory := false, m_currentItems := 0 },
          played_blocks := [] }
        (List.replicate 4294967296 (Sample.event .kGamePlay_OnPickArtifact)) =
      .ok { m_data := [(Name.mk "items", { data := "0", fAge := 0, bAlwaysUpToDate := true })],
            m_eventQueue := [],
            members := .CollectionCounter
              { m_commandBlocks := [], m_onlyInventory := false, m_currentItems := 0 },
            played_blocks := [] } ∧
    to_string_u32 4294967296 ≠ "0" ∧
    4294967296 % 3 = 1 ∧ (4294967296 % 4294967296) % 3 = 0 := by
  have hq : qualifies false Sample.game (Sample.event .kGamePlay_OnPickArtifact) = true := by
    decide
  have hnone : ∀ first n, blocks_played [] first n = [] := by
    intro first n
    unfold blocks_played
    simp
  have hcount : ∀ n, List.countP (qualifies false Sample.game)
      (List.replicate n (Sample.event .kGamePlay_OnPickArtifact)) = n := by
    intro n
    rw [List.countP_replicate, if_pos hq]
  have hrun := fun n => handle_events_effect Sample.game [] false []
    (List.replicate n (Sample.event .kGamePlay_OnPickArtifact))
    (fun h => absurd h (by decide)) 0 { data := "0", fAge := 0, bAlwaysUpToDate := true } []
    (by norm_num)
  refine ⟨by decide, hq, ?_, ?_, by decide, by norm_num, by norm_num⟩
  · rw [hrun 4294967295, hcount, hnone]
    have hmod : (0 + 4294967295) % 4294967296 = 4294967295 := by norm_num
    have hrepr : to_string_u32 4294967295 = "4294967295" := by decide
    rw [hmod, hrepr, if_neg (by norm_num)]
    rfl
  · rw [hrun 4294967296, hcount, hnone]
    have hmod : (0 + 4294967296) % 4294967296 = 0 := by norm_num
    have hrepr : to_string_u32 0 = "0" := by decide
    rw [hmod, hrepr, if_neg (by norm_num)]
    rfl

end PluginCollectionCounter
namespace PluginCollectionCounter

/-- C29, amended. The CollectionCounter plug-in after a reset (count 0, field `items` = `0`),
then any sequence of events in which the picked items are nodes of the world graph when only
inventory items count, and of which `n` qualify, `n` below 2^32: the handlers return, the field
holds the decimal string of `n` and the counter is `n`; the blocks played are those of the round
robin, pickup `i` playing `commandBlocks[i mod len]`, one block per qualifying pickup when the
list is not empty and none when it is empty. A pickup that does not qualify changes nothing,
and after every initial part of the sequence the counter is the number of qualifying pickups so
far, which is at most `n`. -/
theorem counter_counts_pickups (g : GamePlay.GlobalGameState) (commandBlocks : List Name)
    (onlyInventory : Bool) (queue : List Event) (played : List Name) (events : List Event)
    (hknown : onlyInventory = true → ∀ evt ∈ events,
      evt.eventType = .kGamePlay_OnPickArtifact → known_item g evt = true)
    (hn : events.countP (qualifies onlyInventory g) < 4294967296) :
    ExperimentPlugin.handle_events g
        { m_data := [(Name.mk "items", { data := "0", fAge := 0, bAlwaysUpToDate := true })],
          m_eventQueue := queue,
          members := .CollectionCounter
            { m_commandBlocks := commandBlocks, m_onlyInventory := onlyInventory,
              m_currentItems := 0 },
          played_blocks := played } events =
      .ok { m_data := [(Name.mk "items",
              { data := to_string_u32 (events.countP (qualifies onlyInventory g)), fAge := 0,
                bAlwaysUpToDate := true })],
            m_eventQueue := queue,
            members := .CollectionCounter
              { m_commandBlocks := commandBlocks, m_onlyInventory := onlyInventory,
                m_currentItems := events.countP (qualifies onlyInventory g) },
            played_blocks := played ++
              round_robin commandBlocks (events.countP (qualifies onlyInventory g)) } ∧
    (round_robin commandBlocks (events.countP (qualifies onlyInventory g))).length =
      (if commandBlocks = [] then 0 else events.countP (qualifies onlyInventory g)) ∧
    (∀ (p : ExperimentPlugin) (m : Members) (evt : Event),
      p.members = .CollectionCounter m → evt.eventType = .kGamePlay_OnPickArtifact →
      counts_item g m evt = .ok false → p.handle_event g evt = .ok p) ∧
    (∀ first rest, events = first ++ rest →
      ∃ q m1,
        ExperimentPlugin.handle_events g
            { m_data := [(Name.mk "items", { data := "0", fAge := 0, bAlwaysUpToDate := true })],
              m_eventQueue := queue,
              members := .CollectionCounter
                { m_commandBlocks := commandBlocks, m_onlyInventory := onlyInventory,
                  m_currentItems := 0 },
              played_blocks := played } first = .ok q ∧
          q.members = .CollectionCounter m1 ∧
          m1.m_currentItems = first.countP (qualifies onlyInventory g) ∧
          m1.m_currentItems ≤ events.countP (qualifies onlyInventory g)) := by
  have hzero : to_string_u32 0 = "0" := by decide
  have hstart : ∀ (part : List Event),
      (onlyInventory = true → ∀ evt ∈ part,
        evt.eventType = .kGamePlay_OnPickArtifact → known_item g evt = true) →
      part.countP (qualifies onlyInventory g) < 4294967296 →
      ExperimentPlugin.handle_events g
          { m_data := [(Name.mk "items", { data := "0", fAge := 0, bAlwaysUpToDate := true })],
            m_eventQueue := queue,
            members := .CollectionCounter
              { m_commandBlocks := commandBlocks, m_onlyInventory := onlyInventory,
                m_currentItems := 0 },
            played_blocks := played } part =
        .ok { m_data := [(Name.mk "items",
                { data := to_string_u32 (part.countP (qualifies onlyInventory g)), fAge := 0,
                  bAlwaysUpToDate := true })],
              m_eventQueue := queue,
              members := .CollectionCounter
                { m_commandBlocks := commandBlocks, m_onlyInventory := onlyInventory,
                  m_currentItems := part.countP (qualifies onlyInventory g) },
              played_blocks := played ++
                round_robin commandBlocks (part.countP (qualifies onlyInventory g)) } := by
    intro part hpart hlt
    rw [handle_events_effect g commandBlocks onlyInventory queue part hpart 0 _ played
      (by norm_num)]
    rw [blocks_played_eq_round_robin commandBlocks _ (Nat.le_of_lt hlt)]
    have hmod : (0 + List.countP (qualifies onlyInventory g) part) % 4294967296 =
        List.countP (qualifies onlyInventory g) part := by omega
    rw [hmod]
    by_cases hnone : List.countP (qualifies onlyInventory g) part = 0
    · rw [if_pos hnone, hnone, hzero]
    · rw [if_neg hnone]
  refine ⟨hstart events hknown hn, round_robin_length _ _, ?_, ?_⟩
  · intro p m evt hp hevt hcounts
    unfold ExperimentPlugin.handle_event
    rw [hp]
    simp only [handle_event, hevt, hcounts, bind, Except.bind]
    rfl
  · intro first rest hsplit
    have hle : first.countP (qualifies onlyInventory g) ≤
        events.countP (qualifies onlyInventory g) := by
      rw [hsplit, List.countP_append]
      exact Nat.le_add_right _ _
    refine ⟨_, _, hstart first (fun honly evt hmem => hknown honly evt
      (by rw [hsplit]; exact List.mem_append_left _ hmem)) (Nat.lt_of_le_of_lt hle hn),
      rfl, rfl, hle⟩

end PluginCollectionCounter

/-- Witness of the amended C29: the world graph holds the inventory item 1 and the item 2 that
is none; only inventory items count and the command blocks are `a` and `b`. After the pickups of
1, 2, 1 and 1 the field holds `3`, the counter is 3 and the blocks `a`, `b`, `a` were played. -/
theorem counter_counts_pickups_witness :
    ExperimentPlugin.handle_events
        { Sample.game with world_graph := [(1, true), (2, false)] }
        { m_data := [(Name.mk "items", { data := "0", fAge := 0, bAlwaysUpToDate := true })],
          m_eventQueue := [],
          members := .CollectionCounter
            { m_commandBlocks := [Name.mk "a", Name.mk "b"], m_onlyInventory := true,
              m_currentItems := 0 },
          played_blocks := [] }
        [{ Sample.event .kGamePlay_OnPickArtifact with uUserArg := .number 1 },
         { Sample.event .kGamePlay_OnPickArtifact with uUserArg := .number 2 },
         { Sample.event .kGamePlay_OnPickArtifact with uUserArg := .number 1 },
         { Sample.event .kGamePlay_OnPickArtifact with uUserArg := .number 1 }] =
      .ok { m_data := [(Name.mk "items", { data := "3", fAge := 0, bAlwaysUpToDate := true })],
            m_eventQueue := [],
            members := .CollectionCounter
              { m_commandBlocks := [Name.mk "a", Name.mk "b"], m_onlyInventory := true,
                m_currentItems := 3 },
            played_blocks := [Name.mk "a", Name.mk "b", Name.mk "a"] } :=
  (PluginCollectionCounter.counter_counts_pickups
    { Sample.game with world_graph := [(1, true), (2, false)] }
    [Name.mk "a", Name.mk "b"] true [] []
    [{ Sample.event .kGamePlay_OnPickArtifact with uUserArg := .number 1 },
     { Sample.event .kGamePlay_OnPickArtifact with uUserArg := .number 2 },
     { Sample.event .kGamePlay_OnPickArtifact with uUserArg := .number 1 },
     { Sample.event .kGamePlay_OnPickArtifact with uUserArg := .number 1 }]
    (by decide) (by decide)).1
/-! ## C27: the phase of the HMD and Hands recordings -/

/-- Helper: the value found at a key after a change of every value. -/
theorem UMap.find_map_values {V : Type} (m : List (Name × V)) (f : V → V) (k : Name) :
    UMap.find (m.map (fun kv => (kv.1, f kv.2))) k = (UMap.find m k).map f := by
  induction m with
  | nil => rfl
  | cons kv rest ih =>
    obtain ⟨k1, v1⟩ := kv
    simp only [List.map_cons, UMap.find]
    by_cases hk : k1 = k
    · rw [if_pos hk, if_pos hk]
      rfl
    · rw [if_neg hk, if_neg hk]
      exact ih

/-- Helper: what is found at a key is an entry of the map. -/
theorem UMap.mem_of_find {V : Type} (m : List (Name × V)) (k : Name) (v : V)
    (h : UMap.find m k = some v) : (k, v) ∈ m := by
  induction m with
  | nil => cases h
  | cons kv rest ih =>
    obtain ⟨k1, v1⟩ := kv
    simp only [UMap.find] at h
    by_cases hk : k1 = k
    · rw [if_pos hk] at h
      cases h
      rw [hk]
      exact List.mem_cons_self _ _
    · rw [if_neg hk] at h
      exact List.mem_cons_of_mem _ (ih h)

/-- Helper: a key of the map is found. -/
theorem UMap.find_of_mem_keys {V : Type} (m : List (Name × V)) (k : Name)
    (h : k ∈ m.map Prod.fst) : ∃ v, UMap.find m k = some v := by
  induction m with
  | nil => cases h
  | cons kv rest ih =>
    obtain ⟨k1, v1⟩ := kv
    simp only [UMap.find]
    by_cases hk : k1 = k
    · rw [if_pos hk]
      exact ⟨v1, rfl⟩
    · rw [if_neg hk]
      simp only [List.map_cons, List.mem_cons] at h
      rcases h with h | h
      · exact absurd h.symm hk
      · exact ih h

/-- Helper: an assignment of a string through `data(header)` to a field that exists returns,
keeps everything but the data, and leaves that field at age 0 and the others as they were. -/
theorem ExperimentPlugin.data_set_returns (p : ExperimentPlugin) (header value : String)
    (hkey : Name.mk header ∈ p.m_data.map Prod.fst) :
    ∃ q, p.data_set header value = .ok q ∧
      q.m_eventQueue = p.m_eventQueue ∧ q.members = p.members ∧
      q.played_blocks = p.played_blocks ∧
      q.m_data.map Prod.fst = p.m_data.map Prod.fst ∧
      (∀ dataPair ∈ q.m_data,
        (dataPair.1 = Name.mk header ∧ dataPair.2.fAge = 0) ∨
          (dataPair.1 ≠ Name.mk header ∧ dataPair ∈ p.m_data)) := by
  obtain ⟨field, hfield⟩ := UMap.find_of_mem_keys p.m_data (Name.mk header) hkey
  refine ⟨{ p with m_data := UMap.assign p.m_data (Name.mk header) (field.set value) },
    ?_, rfl, rfl, rfl, UMap.assign_keys _ _ _, ?_⟩
  · unfold ExperimentPlugin.data_set ExperimentPlugin.data_modify
    rw [hfield]
  · intro dataPair hmem
    rcases UMap.mem_assign _ _ _ _ hmem with ⟨h1, h2⟩ | ⟨h1, h2⟩
    · exact Or.inl ⟨h1, by rw [h2]; rfl⟩
    · exact Or.inr ⟨h1, h2⟩

namespace PluginHMD

/-- Helper: writing the matrix into fields that exist returns, keeps everything but the data,
and leaves every field of the headers written at age 0. -/
theorem write_matrix_effect (matrix : m4) (headers : List String) :
    ∀ (p : ExperimentPlugin) (i : Nat),
      (∀ header ∈ headers, Name.mk header ∈ p.m_data.map Prod.fst) →
      ∃ q, write_matrix matrix p i headers = .ok q ∧
        q.m_eventQueue = p.m_eventQueue ∧ q.members = p.members ∧
        q.played_blocks = p.played_blocks ∧
        q.m_data.map Prod.fst = p.m_data.map Prod.fst ∧
        (∀ dataPair ∈ q.m_data, dataPair ∈ p.m_data ∨ dataPair.2.fAge = 0) ∧
        (∀ dataPair ∈ q.m_data, dataPair.1 ∈ headers.map Name.mk → dataPair.2.fAge = 0) := by
  induction headers with
  | nil =>
    intro p i _
    exact ⟨p, rfl, rfl, rfl, rfl, rfl, fun _ h => Or.inl h, fun _ _ h => nomatch h⟩
  | cons header rest ih =>
    intro p i hkeys
    obtain ⟨p1, hset, hqueue1, hmembers1, hplayed1, hfields1, hstep⟩ :=
      ExperimentPlugin.data_set_returns p header (to_string_f32 (matrix.getElem (i / 4) (i % 4)))
        (hkeys header (List.mem_cons_self _ _))
    obtain ⟨q, hq, hqueue, hmembers, hplayed, hfields, hkept, hzero⟩ :=
      ih p1 (i + 1) (fun h hmem => by
        rw [hfields1]
        exact hkeys h (List.mem_cons_of_mem _ hmem))
    refine ⟨q, ?_, hqueue.trans hqueue1, hmembers.trans hmembers1, hplayed.trans hplayed1,
      hfields.trans hfields1, ?_, ?_⟩
    · simp only [write_matrix, hset, bind, Except.bind]
      exact hq
    · intro dataPair hmem
      rcases hkept dataPair hmem with h | h
      · rcases hstep dataPair h with ⟨_, h2⟩ | ⟨_, h2⟩
        · exact Or.inr h2
        · exact Or.inl h2
      · exact Or.inr h
    · intro dataPair hmem hkey
      rcases hkept dataPair hmem with h | h
      · rcases hstep dataPair h with ⟨_, h2⟩ | ⟨h1, _⟩
        · exact h2
        · simp only [List.map_cons, List.mem_cons] at hkey
          rcases hkey with hkey | hkey
          · exact absurd hkey h1
          · exact hzero dataPair hmem hkey
      · exact h

end PluginHMD
namespace PluginHMD

/-- Helper: `update_internal` of a recording plug-in whose fields are those of the header table:
it returns; when the first field is older than the interval less the last delay, the delay
becomes the age less that bound and every field is written (age 0); otherwise nothing
changes. -/
theorem recorder_update_effect (headers : List String) (matrix : m4) (p : ExperimentPlugin)
    (m : Members) (fDeltaTime : ℚ) (first : ExperimentPluginDataField)
    (hkeys : p.m_data.map Prod.fst = headers.map Name.mk)
    (hfirst : UMap.find p.m_data (Name.mk (headers.headD "")) = some first)
    (hon : m.m_recording = true) :
    ∃ q m1, update_internal headers matrix p m fDeltaTime = .ok (q, m1) ∧
      q.m_eventQueue = p.m_eventQueue ∧ q.members = p.members ∧
      q.played_blocks = p.played_blocks ∧
      q.m_data.map Prod.fst = p.m_data.map Prod.fst ∧
      m1.m_recording = true ∧ m1.m_interval = m.m_interval ∧
      (if first.fAge > m.m_interval - m.m_lastRecordingDelay then
        m1.m_lastRecordingDelay = first.fAge - (m.m_interval - m.m_lastRecordingDelay) ∧
          ∀ dataPair ∈ q.m_data, dataPair.2.fAge = 0
      else q = p ∧ m1 = m) := by
  have hdata : p.data (headers.headD "") = .ok first := by
    unfold ExperimentPlugin.data
    rw [hfirst]
  by_cases hdue : first.fAge > m.m_interval - m.m_lastRecordingDelay
  · obtain ⟨q, hq, hqueue, hmembers, hplayed, hfields, _, hzero⟩ :=
      write_matrix_effect matrix headers p 0 (fun header hmem => by
        rw [hkeys]
        exact List.mem_map_of_mem _ hmem)
    refine ⟨q, { m with m_lastRecordingDelay :=
      first.get_age - (m.m_interval - m.m_lastRecordingDelay) }, ?_, hqueue, hmembers, hplayed,
      hfields, hon, rfl, ?_⟩
    · have hold : first.older_than (m.m_interval - m.m_lastRecordingDelay) = true := by
        simp [ExperimentPluginDataField.older_than, ExperimentPluginDataField.get_age, hdue]
      simp only [update_internal, hon, hdata, hold, hq, bind, Except.bind, if_true]
    · rw [if_pos hdue]
      refine ⟨rfl, fun dataPair hmem => hzero dataPair hmem ?_⟩
      rw [← hkeys, ← hfields]
      exact List.mem_map_of_mem _ hmem
  · refine ⟨p, m, ?_, rfl, rfl, rfl, rfl, hon, rfl, ?_⟩
    · have hold : first.older_than (m.m_interval - m.m_lastRecordingDelay) = false := by
        simp [ExperimentPluginDataField.older_than, ExperimentPluginDataField.get_age]
        exact le_of_not_gt hdue
      simp only [update_internal, hon, hdata, hold, bind, Except.bind, if_true]
      rfl
    · rw [if_neg hdue]
      exact ⟨rfl, rfl⟩

end PluginHMD
namespace ExperimentPlugin

/-- Helper: `update` of a recording HMD or Hands plug-in returns; the plug-in keeps recording
with its interval; when the aged first field is older than the interval less the last delay,
every field is written (age 0) and the delay becomes that age less the bound; otherwise the
fields are the aged ones and the delay stays. -/
theorem recording_update (vm : Vectormath) (g : GamePlay.GlobalGameState) (p : ExperimentPlugin)
    (interval age delay fDeltaTime : ℚ) (h : recording interval age delay p) :
    ∃ r, p.update vm g fDeltaTime = .ok r ∧
      (if age + fDeltaTime > interval - delay then
        recording interval 0 (age + fDeltaTime - (interval - delay)) r.2 ∧
          ∀ dataPair ∈ r.2.m_data, dataPair.2.fAge = 0
      else
        recording interval (age + fDeltaTime) delay r.2 ∧
          r.2.m_data = p.m_data.map (fun dataPair =>
            (dataPair.1, dataPair.2.update_age fDeltaTime))) := by
  obtain ⟨headers, m, first, hrec, hqueue, hkeys, hfirst, hage, hon, hinterval, hdelay⟩ := h
  have hkeys1 : (p.m_data.map (fun dataPair =>
      (dataPair.1, dataPair.2.update_age fDeltaTime))).map Prod.fst = headers.map Name.mk := by
    rw [List.map_map, ← hkeys]
    rfl
  have hfirst1 : UMap.find (p.m_data.map (fun dataPair =>
      (dataPair.1, dataPair.2.update_age fDeltaTime))) (Name.mk (headers.headD "")) =
      some (first.update_age fDeltaTime) := by
    rw [UMap.find_map_values p.m_data (fun field => field.update_age fDeltaTime), hfirst]
    rfl
  have hage1 : (first.update_age fDeltaTime).fAge = age + fDeltaTime := by
    rw [← hage]
    rfl
  have hloop : handle_queued_events g
      { p with m_data := p.m_data.map (fun dataPair =>
        (dataPair.1, dataPair.2.update_age fDeltaTime)) } p.m_eventQueue =
      .ok { p with m_data := p.m_data.map (fun dataPair =>
        (dataPair.1, dataPair.2.update_age fDeltaTime)) } := by
    rw [hqueue]
    rfl
  have hmatrix : ∀ matrix : m4, ∃ q m1,
      PluginHMD.update_internal headers matrix
        { p with m_data := p.m_data.map (fun dataPair =>
          (dataPair.1, dataPair.2.update_age fDeltaTime)) } m fDeltaTime = .ok (q, m1) ∧
      q.m_eventQueue = [] ∧ q.members = p.members ∧
      q.m_data.map Prod.fst = headers.map Name.mk ∧
      m1.m_recording = true ∧ m1.m_interval = interval ∧
      (if age + fDeltaTime > interval - delay then
        m1.m_lastRecordingDelay = age + fDeltaTime - (interval - delay) ∧
          ∀ dataPair ∈ q.m_data, dataPair.2.fAge = 0
      else
        q.m_data = p.m_data.map (fun dataPair =>
            (dataPair.1, dataPair.2.update_age fDeltaTime)) ∧ m1 = m) := by
    intro matrix
    obtain ⟨q, m1, hq, hq1, hq2, _, hq4, hq5, hq6, hq7⟩ :=
      PluginHMD.recorder_update_effect headers matrix
        { p with m_data := p.m_data.map (fun dataPair =>
          (dataPair.1, dataPair.2.update_age fDeltaTime)) } m fDeltaTime
        (first.update_age fDeltaTime) hkeys1 hfirst1 hon
    rw [hage1, hinterval, hdelay] at hq7
    refine ⟨q, m1, hq, hq1.trans hqueue, hq2, hq4.trans hkeys1, hq5, hq6.trans hinterval, ?_⟩
    by_cases hdue : age + fDeltaTime > interval - delay
    · rw [if_pos hdue] at hq7 ⊢
      exact hq7
    · rw [if_neg hdue] at hq7 ⊢
      exact ⟨by rw [hq7.1], hq7.2⟩
  have hfinish : ∀ (variant : PluginHMD.Members → PluginMembers) (q : ExperimentPlugin)
      (m1 : PluginHMD.Members),
      ExperimentPlugin.recorder_of { q with members := variant m1 } = some (headers, m1) →
      q.m_eventQueue = [] → q.m_data.map Prod.fst = headers.map Name.mk →
      m1.m_recording = true → m1.m_interval = interval →
      (if age + fDeltaTime > interval - delay then
        m1.m_lastRecordingDelay = age + fDeltaTime - (interval - delay) ∧
          ∀ dataPair ∈ q.m_data, dataPair.2.fAge = 0
      else
        q.m_data = p.m_data.map (fun dataPair =>
            (dataPair.1, dataPair.2.update_age fDeltaTime)) ∧ m1 = m) →
      (if age + fDeltaTime > interval - delay then
        recording interval 0 (age + fDeltaTime - (interval - delay))
            { q with members := variant m1 } ∧
          ∀ dataPair ∈ q.m_data, dataPair.2.fAge = 0
      else
        recording interval (age + fDeltaTime) delay { q with members := variant m1 } ∧
          q.m_data = p.m_data.map (fun dataPair =>
            (dataPair.1, dataPair.2.update_age fDeltaTime))) := by
    intro variant q m1 hrec1 hq1 hq4 hq5 hq6 hq7
    have hkey : Name.mk (headers.headD "") ∈ q.m_data.map Prod.fst := by
      rw [hq4, ← hkeys]
      exact List.mem_map_of_mem Prod.fst (UMap.mem_of_find _ _ _ hfirst)
    obtain ⟨first1, hfirst2⟩ := UMap.find_of_mem_keys q.m_data _ hkey
    by_cases hdue : age + fDeltaTime > interval - delay
    · rw [if_pos hdue] at hq7 ⊢
      exact ⟨⟨headers, m1, first1, hrec1, hq1, hq4, hfirst2,
        hq7.2 _ (UMap.mem_of_find _ _ _ hfirst2), hq5, hq6, hq7.1⟩, hq7.2⟩
    · rw [if_neg hdue] at hq7 ⊢
      refine ⟨⟨headers, m1, first.update_age fDeltaTime, hrec1, hq1, hq4, ?_, hage1, hq5, hq6,
        ?_⟩, hq7.1⟩
      · show UMap.find q.m_data _ = _
        rw [hq7.1]
        exact hfirst1
      · rw [hq7.2]
        exact hdelay
  unfold recorder_of at hrec
  cases hmembers : p.members with
  | HMD m0 =>
    rw [hmembers] at hrec
    simp only [Option.some.injEq, Prod.mk.injEq] at hrec
    obtain ⟨hheaders, hm⟩ := hrec
    subst hm
    obtain ⟨q, m1, hq, hq1, hq2, hq4, hq5, hq6, hq7⟩ := hmatrix g.camera_track_matrix
    refine ⟨(write_required { q with members := .HMD m1 }, { q with members := .HMD m1 }), ?_,
      hfinish PluginMembers.HMD q m1 (by rw [← hheaders]; rfl) hq1 hq4 hq5 hq6 hq7⟩
    unfold update
    simp only [hloop, bind, Except.bind]
    unfold update_internal
    simp only [hmembers]
    rw [hmembers] at hq
    rw [hheaders, hq]
    rfl
  | Hands m0 =>
    rw [hmembers] at hrec
    simp only [Option.some.injEq, Prod.mk.injEq] at hrec
    obtain ⟨hheaders, hm⟩ := hrec
    subst hm
    obtain ⟨q, m1, hq, hq1, hq2, hq4, hq5, hq6, hq7⟩ := hmatrix g.controller_track_matrix
    refine ⟨(write_required { q with members := .Hands m1 }, { q with members := .Hands m1 }), ?_,
      hfinish PluginMembers.Hands q m1 (by rw [← hheaders]; rfl) hq1 hq4 hq5 hq6 hq7⟩
    unfold update
    simp only [hloop, bind, Except.bind]
    unfold update_internal
    simp only [hmembers]
    rw [hmembers] at hq
    rw [hheaders, hq]
    rfl
  | Controller => rw [hmembers] at hrec; cases hrec
  | Locomotion => rw [hmembers] at hrec; cases hrec
  | Activity m0 => rw [hmembers] at hrec; cases hrec
  | Voice b0 => rw [hmembers] at hrec; cases hrec
  | CollectionCounter m0 => rw [hmembers] at hrec; cases hrec

end ExperimentPlugin
namespace ExperimentPlugin

/-- Helper: one frame keeps the balance of the phase: the time elapsed less the age of the
first field is the number of samples times the interval plus the last delay, and the last delay
is positive once a sample was taken. -/
theorem Phase.frame_balance (interval : ℚ) (phase : Phase) (fDeltaTime : ℚ)
    (h : phase.elapsed - phase.age = phase.samples * interval + phase.lastDelay ∧
      (0 < phase.samples → 0 < phase.lastDelay)) :
    (phase.frame interval fDeltaTime).elapsed - (phase.frame interval fDeltaTime).age =
        (phase.frame interval fDeltaTime).samples * interval +
          (phase.frame interval fDeltaTime).lastDelay ∧
      (0 < (phase.frame interval fDeltaTime).samples →
        0 < (phase.frame interval fDeltaTime).lastDelay) := by
  obtain ⟨hbalance, hpositive⟩ := h
  unfold Phase.frame
  by_cases hdue : phase.age + fDeltaTime > interval - phase.lastDelay
  · rw [if_pos hdue]
    refine ⟨?_, fun _ => ?_⟩
    · show phase.elapsed + fDeltaTime - 0 =
        ((phase.samples + 1 : Nat) : ℚ) * interval +
          (phase.age + fDeltaTime - (interval - phase.lastDelay))
      push_cast
      linarith
    · show 0 < phase.age + fDeltaTime - (interval - phase.lastDelay)
      linarith
  · rw [if_neg hdue]
    refine ⟨?_, hpositive⟩
    show phase.elapsed + fDeltaTime - (phase.age + fDeltaTime) =
      (phase.samples : ℚ) * interval + phase.lastDelay
    linarith

/-- Helper: the balance of the phase holds after every sequence of frames. -/
theorem Phase.frames_balance (interval : ℚ) (frames : List ℚ) :
    ∀ phase : Phase,
      (phase.elapsed - phase.age = phase.samples * interval + phase.lastDelay ∧
        (0 < phase.samples → 0 < phase.lastDelay)) →
      (phase.frames interval frames).elapsed - (phase.frames interval frames).age =
          (phase.frames interval frames).samples * interval +
            (phase.frames interval frames).lastDelay ∧
        (0 < (phase.frames interval frames).samples →
          0 < (phase.frames interval frames).lastDelay) := by
  induction frames with
  | nil => exact fun phase h => h
  | cons fDeltaTime rest ih =>
    intro phase h
    exact ih (phase.frame interval fDeltaTime) (Phase.frame_balance interval phase fDeltaTime h)

/-- Helper: the time elapsed is the sum of the frame times. -/
theorem Phase.frames_elapsed (interval : ℚ) (frames : List ℚ) :
    ∀ phase : Phase, (phase.frames interval frames).elapsed = phase.elapsed + frames.sum := by
  induction frames with
  | nil => intro phase; simp [Phase.frames]
  | cons fDeltaTime rest ih =>
    intro phase
    have hstep : (phase.frame interval fDeltaTime).elapsed = phase.elapsed + fDeltaTime := by
      unfold Phase.frame
      split <;> rfl
    simp only [Phase.frames, List.sum_cons]
    rw [ih, hstep]
    ring

/-- Helper: one update of a recording plug-in follows the phase. -/
theorem recording_update_phase (vm : Vectormath) (g : GamePlay.GlobalGameState)
    (p : ExperimentPlugin) (interval : ℚ) (phase : Phase) (fDeltaTime : ℚ)
    (h : recording interval phase.age phase.lastDelay p) :
    ∃ r, p.update vm g fDeltaTime = .ok r ∧
      recording interval (phase.frame interval fDeltaTime).age
        (phase.frame interval fDeltaTime).lastDelay r.2 ∧
      (if phase.age + fDeltaTime > interval - phase.lastDelay then
        ∀ dataPair ∈ r.2.m_data, dataPair.2.fAge = 0
      else
        r.2.m_data = p.m_data.map (fun dataPair =>
          (dataPair.1, dataPair.2.update_age fDeltaTime))) := by
  obtain ⟨r, hr, hstep⟩ := recording_update vm g p interval phase.age phase.lastDelay
    fDeltaTime h
  refine ⟨r, hr, ?_⟩
  unfold Phase.frame
  by_cases hdue : phase.age + fDeltaTime > interval - phase.lastDelay
  · rw [if_pos hdue] at hstep ⊢
    rw [if_pos hdue]
    exact hstep
  · rw [if_neg hdue] at hstep ⊢
    rw [if_neg hdue]
    exact hstep

/-- Helper: the updates of a recording plug-in follow the phase. -/
theorem recording_updates_phase (vm : Vectormath) (g : GamePlay.GlobalGameState)
    (interval : ℚ) (frames : List ℚ) :
    ∀ (p : ExperimentPlugin) (phase : Phase),
      recording interval phase.age phase.lastDelay p →
      ∃ q, p.updates vm g frames = .ok q ∧
        recording interval (phase.frames interval frames).age
          (phase.frames interval frames).lastDelay q := by
  induction frames with
  | nil => exact fun p phase h => ⟨p, rfl, h⟩
  | cons fDeltaTime rest ih =>
    intro p phase h
    obtain ⟨r, hr, hrec, _⟩ := recording_update_phase vm g p interval phase fDeltaTime h
    obtain ⟨q, hq, hfinal⟩ := ih r.2 (phase.frame interval fDeltaTime) hrec
    refine ⟨q, ?_, hfinal⟩
    simp only [updates, hr, bind, Except.bind]
    exact hq

end ExperimentPlugin
namespace ExperimentPlugin

/-- C27. An HMD or Hands plug-in that is recording with the interval `I`, its fields freshly
reset (age 0) and the last delay 0, is updated with any sequence of frame times, no event
arriving. Every update returns. In each frame the sample is taken exactly when the aged first
matrix field is older than `I - lastDelay`: then every field is written (age 0) and the delay
stored is that age less `I - lastDelay`; otherwise the fields are only aged and the delay stays.
So the plug-in follows the phase of the specification, and for that phase the time elapsed, the
sum of the frame times, less the age of the first field is `n * I + lastDelay` for the number
`n` of samples taken; at a sample the time elapsed is `n * I + d_n` with the delay `d_n > 0`
stored at that sample. -/
theorem recording_phase_locked (vm : Vectormath) (g : GamePlay.GlobalGameState)
    (p : ExperimentPlugin) (interval : ℚ) (frames : List ℚ) (h : recording interval 0 0 p) :
    (∃ q, p.updates vm g frames = .ok q ∧
      recording interval (Phase.start.frames interval frames).age
        (Phase.start.frames interval frames).lastDelay q ∧
      ∀ fDeltaTime, ∃ r, q.update vm g fDeltaTime = .ok r ∧
        recording interval ((Phase.start.frames interval frames).frame interval fDeltaTime).age
          ((Phase.start.frames interval frames).frame interval fDeltaTime).lastDelay r.2 ∧
        (if (Phase.start.frames interval frames).age + fDeltaTime >
            interval - (Phase.start.frames interval frames).lastDelay then
          ∀ dataPair ∈ r.2.m_data, dataPair.2.fAge = 0
        else
          r.2.m_data = q.m_data.map (fun dataPair =>
            (dataPair.1, dataPair.2.update_age fDeltaTime)))) ∧
    (Phase.start.frames interval frames).elapsed = frames.sum ∧
    (Phase.start.frames interval frames).elapsed - (Phase.start.frames interval frames).age =
      (Phase.start.frames interval frames).samples * interval +
        (Phase.start.frames interval frames).lastDelay ∧
    (∀ fDeltaTime,
      (Phase.start.frames interval frames).age + fDeltaTime >
        interval - (Phase.start.frames interval frames).lastDelay →
      ((Phase.start.frames interval frames).frame interval fDeltaTime).samples =
          (Phase.start.frames interval frames).samples + 1 ∧
        ((Phase.start.frames interval frames).frame interval fDeltaTime).lastDelay =
          (Phase.start.frames interval frames).age + fDeltaTime -
            (interval - (Phase.start.frames interval frames).lastDelay) ∧
        0 < ((Phase.start.frames interval frames).frame interval fDeltaTime).lastDelay ∧
        frames.sum + fDeltaTime =
          ((Phase.start.frames interval frames).frame interval fDeltaTime).samples * interval +
            ((Phase.start.frames interval frames).frame interval fDeltaTime).lastDelay) := by
  have hstart : Phase.start.elapsed - Phase.start.age =
      Phase.start.samples * interval + Phase.start.lastDelay ∧
      (0 < Phase.start.samples → 0 < Phase.start.lastDelay) := by
    refine ⟨?_, fun hpos => absurd hpos (by decide)⟩
    show (0 : ℚ) - 0 = ((0 : Nat) : ℚ) * interval + 0
    simp
  have hbalance := Phase.frames_balance interval frames Phase.start hstart
  have helapsed : (Phase.start.frames interval frames).elapsed = frames.sum := by
    rw [Phase.frames_elapsed]
    show (0 : ℚ) + frames.sum = frames.sum
    ring
  obtain ⟨q, hq, hrec⟩ := recording_updates_phase vm g interval frames p Phase.start h
  refine ⟨⟨q, hq, hrec, fun fDeltaTime =>
    recording_update_phase vm g q interval _ fDeltaTime hrec⟩, helapsed, hbalance.1, ?_⟩
  intro fDeltaTime hdue
  have hnext := Phase.frame_balance interval (Phase.start.frames interval frames) fDeltaTime
    hbalance
  have hframe : (Phase.start.frames interval frames).frame interval fDeltaTime =
      { age := 0,
        lastDelay := (Phase.start.frames interval frames).age + fDeltaTime -
          (interval - (Phase.start.frames interval frames).lastDelay),
        samples := (Phase.start.frames interval frames).samples + 1,
        elapsed := (Phase.start.frames interval frames).elapsed + fDeltaTime } := by
    unfold Phase.frame
    rw [if_pos hdue]
  refine ⟨by rw [hframe], by rw [hframe], ?_, ?_⟩
  · rw [hframe]
    show 0 < (Phase.start.frames interval frames).age + fDeltaTime -
      (interval - (Phase.start.frames interval frames).lastDelay)
    linarith
  · have h1 := hnext.1
    rw [hframe] at h1 ⊢
    rw [← helapsed]
    have h2 : (Phase.start.frames interval frames).elapsed + fDeltaTime - 0 =
        (((Phase.start.frames interval frames).samples + 1 : Nat) : ℚ) * interval +
          ((Phase.start.frames interval frames).age + fDeltaTime -
            (interval - (Phase.start.frames interval frames).lastDelay)) := h1
    show (Phase.start.frames interval frames).elapsed + fDeltaTime =
        (((Phase.start.frames interval frames).samples + 1 : Nat) : ℚ) * interval +
          ((Phase.start.frames interval frames).age + fDeltaTime -
            (interval - (Phase.start.frames interval frames).lastDelay))
    linarith

end ExperimentPlugin

/-- Witness of C27: the HMD plug-in configured with the interval 1/25 s and automatic start,
after a reset, is updated three times with 3/100 s. The phase of the specification ends with two
samples, the delay 1/100 s and the age 0 after 9/100 s = 2 * 1/25 + 1/100, the updates return
and the plug-in is in that phase. -/
theorem recording_phase_locked_witness :
    ExperimentPlugin.recording (1 / 25) 0 0 Sample.hmd ∧
    ExperimentPlugin.Phase.frames (1 / 25) ExperimentPlugin.Phase.start
        [3 / 100, 3 / 100, 3 / 100] =
      { age := 0, lastDelay := 1 / 100, samples := 2, elapsed := 9 / 100 } ∧
    (∃ q, Sample.hmd.updates Sample.vm Sample.game [3 / 100, 3 / 100, 3 / 100] = .ok q ∧
      ExperimentPlugin.recording (1 / 25)
        (ExperimentPlugin.Phase.frames (1 / 25) ExperimentPlugin.Phase.start
          [3 / 100, 3 / 100, 3 / 100]).age
        (ExperimentPlugin.Phase.frames (1 / 25) ExperimentPlugin.Phase.start
          [3 / 100, 3 / 100, 3 / 100]).lastDelay q) :=
  have hstart : ExperimentPlugin.recording (1 / 25) 0 0 Sample.hmd :=
    ⟨PluginHMD.kHeaderHMDMatrix,
      { m_interval := 1 / 25, m_defaultInterval := 1 / 25, m_lastRecordingDelay := 0,
        m_recording := true, m_autoRecord := true },
      { data := "", fAge := 0, bAlwaysUpToDate := false },
      by decide!, by decide, by decide!, by decide!, rfl, rfl, rfl, rfl⟩
  have h := ExperimentPlugin.recording_phase_locked Sample.vm Sample.game Sample.hmd (1 / 25)
    [3 / 100, 3 / 100, 3 / 100] hstart
  ⟨hstart, by decide!,
    match h.1 with
    | ⟨q, hq, hrec, _⟩ => ⟨q, hq, hrec⟩⟩

end Experiment

end rv
